import Mathlib

/-!
# LTE sidelink physical-layer reception engine: a shallow embedding

Source files embedded here:

* `src/lte/model/lte-sl-interference.cc`  (the interference accumulator),
* `src/lte/model/lte-spectrum-phy.cc`     (the receiver/transmitter state machine, the
  transport-block registry and the decode pipeline).

Conventions of the embedding.

* Simulated time (`ns3::Time`, `Simulator::Now ()`) is an `Int` number of nanoseconds and is
  passed to every operation as the argument `now`.
* A `SpectrumValue` is the list of its per-resource-block values.  Values are rationals, so
  that the arithmetic of the accumulator is exact; the IEEE rounding of `double` is outside
  this development, and a division by zero yields `0` where IEEE arithmetic yields an
  infinity or a NaN.
* Fixed-width unsigned counters are `Nat` with an explicit reduction modulo `2 ^ w`.
* `NS_FATAL_ERROR`, `NS_ABORT_MSG`, a failed `NS_ASSERT` (debug build profile), a null
  dereference, an out-of-range access and any other undefined behaviour (such as reading
  through a past-the-end iterator) end the run: operations of the accumulator return
  `Except Abort _`, member functions of `LteSpectrumPhy` return an `Outcome`.  One read
  through a past-the-end iterator is executed as libstdc++ executes it: the test of the
  transmission counter in `RxDiscovery` (`endSecond`).
* A `std::map` is the list of its entries in key order.  The `std::set` of `RxDiscovery`,
  whose comparison is not a strict weak order, is the red-black tree of libstdc++ with its
  insertion and rebalancing (`RbTree`, `setInsert`), iterated in order.
* Calls that leave the object (chunk processors, callbacks, trace sources, the channel, the
  scheduler) are appended to a log carried by the state, in program order.
-/

namespace ns3

/-! ## Common vocabulary -/

/-- Simulated time in nanoseconds. -/
abbrev Time := Int

/-- The ways in which a run is cut short. -/
inductive Abort where
  /-- Raised by `NS_FATAL_ERROR`, `NS_ABORT_MSG` and `NS_ABORT_MSG_IF`. -/
  | fatalError (msg : String)
  /-- Raised by a failed `NS_ASSERT` or `NS_ASSERT_MSG`. -/
  | assertFailed (msg : String)
  /-- Dereference of a null `Ptr`. -/
  | nullDeref (what : String)
  /-- Access outside the bounds of a container. -/
  | outOfRange (what : String)
  /-- Any other operation whose behaviour the language leaves undefined. -/
  | undefinedBehaviour (what : String)
  /-- A path of the source that the model does not follow. -/
  | unmodelled (what : String)
  deriving DecidableEq, Repr

/-- Power spectral density: one value per resource block. -/
abbrev SpectrumValue := List ℚ

/-- Element-wise sum, `operator+` of `SpectrumValue`. -/
def svAdd (a b : SpectrumValue) : SpectrumValue := List.zipWith (fun x y => x + y) a b

/-- Element-wise difference, `operator-` of `SpectrumValue`. -/
def svSub (a b : SpectrumValue) : SpectrumValue := List.zipWith (fun x y => x - y) a b

/-- Element-wise quotient, `operator/` of `SpectrumValue`. -/
def svDiv (a b : SpectrumValue) : SpectrumValue := List.zipWith (fun x y => x / y) a b

/-- Product with a scalar, `operator*` of `SpectrumValue` and `double`. -/
def svScale (a : SpectrumValue) (g : ℚ) : SpectrumValue := a.map (fun x => x * g)

/-- The all-zero spectrum over the spectrum model of `a`,
`Create<SpectrumValue> (a->GetSpectrumModel ())`. -/
def svZeroLike (a : SpectrumValue) : SpectrumValue := List.replicate a.length 0

/-- Running sum of a list of spectra on top of `a`. -/
def svSum (a : SpectrumValue) (l : List SpectrumValue) : SpectrumValue := l.foldl svAdd a

/-- Reduction of a counter to 32 bits. -/
def wrap32 (n : Nat) : Nat := n % 2 ^ 32

/-- The value of `(int32_t) (a - b)` for two `uint32_t` values. -/
def int32Delta (a b : Nat) : Int :=
  let d := wrap32 (a + 2 ^ 32 - wrap32 b)
  if d < 2 ^ 31 then (d : Int) else (d : Int) - 2 ^ 32

/-! ## `LteSlInterference` -/

/-- The four observer lists of the accumulator. -/
inductive ChunkKind where
  | rsPower
  | interf
  | sinr
  | snr
  deriving DecidableEq, Repr

/-- Calls leaving the accumulator. -/
inductive SlInterferenceEvent where
  /-- The call `p->Start (init)` on processor `proc` of list `kind`. -/
  | start (kind : ChunkKind) (proc : Nat) (init : Bool)
  /-- The call `p->EvaluateChunk (index, value, duration)`. -/
  | evaluateChunk (kind : ChunkKind) (proc : Nat) (index : Nat) (value : SpectrumValue)
      (duration : Time)
  /-- The call `p->End ()`. -/
  | finish (kind : ChunkKind) (proc : Nat)
  /-- The call `Simulator::Schedule (delay, &DoSubtractSignal, this, spd, signalId)`. -/
  | scheduleSubtract (delay : Time) (spd : SpectrumValue) (signalId : Nat)
  deriving DecidableEq, Repr

/-- Fields of `LteSlInterference`; chunk processors are named by numbers. -/
structure LteSlInterference where
  m_receiving : Bool := false
  m_rxSignal : List SpectrumValue := []
  m_allSignals : Option SpectrumValue := none
  m_noise : Option SpectrumValue := none
  m_lastChangeTime : Time := 0
  m_lastSignalId : Nat := 0
  m_lastSignalIdBeforeReset : Nat := 0
  m_rsPowerChunkProcessorList : List Nat := []
  m_sinrChunkProcessorList : List Nat := []
  m_snrChunkProcessorList : List Nat := []
  m_interfChunkProcessorList : List Nat := []
  log : List SlInterferenceEvent := []
  deriving DecidableEq, Repr

namespace LteSlInterference

/-- The four `Start (init)` loops of `StartRx`. -/
def startEvents (self : LteSlInterference) (init : Bool) : List SlInterferenceEvent :=
  self.m_rsPowerChunkProcessorList.map (fun p => .start .rsPower p init)
    ++ self.m_interfChunkProcessorList.map (fun p => .start .interf p init)
    ++ self.m_sinrChunkProcessorList.map (fun p => .start .sinr p init)
    ++ self.m_snrChunkProcessorList.map (fun p => .start .snr p init)

/-- The four `End ()` loops of `EndRx`. -/
def finishEvents (self : LteSlInterference) : List SlInterferenceEvent :=
  self.m_rsPowerChunkProcessorList.map (fun p => .finish .rsPower p)
    ++ self.m_interfChunkProcessorList.map (fun p => .finish .interf p)
    ++ self.m_sinrChunkProcessorList.map (fun p => .finish .sinr p)
    ++ self.m_snrChunkProcessorList.map (fun p => .finish .snr p)

/-- One iteration of the loop of `ConditionallyEvaluateChunk`: the calls made for the signal
`sig` stored at `index`. -/
def chunkEvents (self : LteSlInterference) (all noise : SpectrumValue) (duration : Time)
    (index : Nat) (sig : SpectrumValue) : List SlInterferenceEvent :=
  let interf := svAdd (svSub all sig) noise
  let sinr := svDiv sig interf
  let snr := svDiv sig noise
  self.m_sinrChunkProcessorList.map (fun p => .evaluateChunk .sinr p index sinr duration)
    ++ self.m_snrChunkProcessorList.map (fun p => .evaluateChunk .snr p index snr duration)
    ++ self.m_interfChunkProcessorList.map
        (fun p => .evaluateChunk .interf p index interf duration)
    ++ self.m_rsPowerChunkProcessorList.map
        (fun p => .evaluateChunk .rsPower p index sig duration)

/-- The loop `for (index = 0; index < m_rxSignal.size (); ++index)` of
`ConditionallyEvaluateChunk`, from `index` on. -/
def evaluateFrom (self : LteSlInterference) (all noise : SpectrumValue) (duration : Time) :
    Nat → List SpectrumValue → List SlInterferenceEvent
  | _, [] => []
  | index, sig :: rest =>
      chunkEvents self all noise duration index sig
        ++ evaluateFrom self all noise duration (index + 1) rest

/-- `LteSlInterference::ConditionallyEvaluateChunk`. -/
def ConditionallyEvaluateChunk (now : Time) (self : LteSlInterference) :
    Except Abort LteSlInterference :=
  if self.m_receiving && decide (now > self.m_lastChangeTime) then
    match self.m_rxSignal with
    | [] => .ok { self with m_lastChangeTime := now }
    | sig :: rest =>
      match self.m_allSignals, self.m_noise with
      | some all, some noise =>
          .ok { self with
                log := self.log
                  ++ evaluateFrom self all noise (now - self.m_lastChangeTime) 0 (sig :: rest)
                m_lastChangeTime := now }
      | none, _ => .error (.nullDeref "m_allSignals")
      | some _, none => .error (.nullDeref "m_noise")
  else
    .ok self

/-- `LteSlInterference::StartRx`. -/
def StartRx (now : Time) (rxPsd : SpectrumValue) (self : LteSlInterference) :
    Except Abort LteSlInterference :=
  let init := !self.m_receiving
  if self.m_receiving = false then
    let s1 := { self with m_rxSignal := [], m_receiving := true }
    .ok { s1 with
          m_rxSignal := s1.m_rxSignal ++ [rxPsd]
          m_lastChangeTime := now
          log := s1.log ++ startEvents s1 init }
  else if self.m_lastChangeTime = now then
    .ok { self with
          m_rxSignal := self.m_rxSignal ++ [rxPsd]
          m_lastChangeTime := now
          log := self.log ++ startEvents self init }
  else
    .error (.assertFailed "m_lastChangeTime == Now ()")

/-- `LteSlInterference::EndRx`. -/
def EndRx (now : Time) (self : LteSlInterference) : Except Abort LteSlInterference :=
  if self.m_receiving ≠ true then
    .ok self
  else do
    let s1 ← ConditionallyEvaluateChunk now self
    pure { s1 with m_receiving := false, log := s1.log ++ finishEvents s1 }

/-- `LteSlInterference::DoAddSignal`. -/
def DoAddSignal (now : Time) (spd : SpectrumValue) (self : LteSlInterference) :
    Except Abort LteSlInterference := do
  let s1 ← ConditionallyEvaluateChunk now self
  match s1.m_allSignals with
  | some all => pure { s1 with m_allSignals := some (svAdd all spd) }
  | none => .error (.nullDeref "m_allSignals")

/-- `LteSlInterference::AddSignal`. -/
def AddSignal (now : Time) (spd : SpectrumValue) (duration : Time) (self : LteSlInterference) :
    Except Abort LteSlInterference := do
  let s1 ← DoAddSignal now spd self
  let signalId := wrap32 (s1.m_lastSignalId + 1)
  let s2 := { s1 with m_lastSignalId := signalId }
  let s3 :=
    if signalId = s2.m_lastSignalIdBeforeReset then
      { s2 with m_lastSignalIdBeforeReset := wrap32 (s2.m_lastSignalIdBeforeReset + 0x10000000) }
    else s2
  pure { s3 with log := s3.log ++ [.scheduleSubtract duration spd signalId] }

/-- `LteSlInterference::DoSubtractSignal`. -/
def DoSubtractSignal (now : Time) (spd : SpectrumValue) (signalId : Nat)
    (self : LteSlInterference) : Except Abort LteSlInterference := do
  let s1 ← ConditionallyEvaluateChunk now self
  let deltaSignalId := int32Delta signalId s1.m_lastSignalIdBeforeReset
  if deltaSignalId > 0 then
    match s1.m_allSignals with
    | some all => pure { s1 with m_allSignals := some (svSub all spd) }
    | none => .error (.nullDeref "m_allSignals")
  else
    pure s1

/-- `LteSlInterference::SetNoisePowerSpectralDensity`. -/
def SetNoisePowerSpectralDensity (now : Time) (noisePsd : SpectrumValue)
    (self : LteSlInterference) : Except Abort LteSlInterference := do
  let s1 ← ConditionallyEvaluateChunk now self
  let s2 := { s1 with m_noise := some noisePsd, m_allSignals := some (svZeroLike noisePsd) }
  let s3 := if s2.m_receiving = true then { s2 with m_receiving := false } else s2
  pure { s3 with m_lastSignalIdBeforeReset := s3.m_lastSignalId }

/-- `LteSlInterference::AddRsPowerChunkProcessor`. -/
def AddRsPowerChunkProcessor (p : Nat) (self : LteSlInterference) : LteSlInterference :=
  { self with m_rsPowerChunkProcessorList := self.m_rsPowerChunkProcessorList ++ [p] }

/-- `LteSlInterference::AddSinrChunkProcessor`. -/
def AddSinrChunkProcessor (p : Nat) (self : LteSlInterference) : LteSlInterference :=
  { self with m_sinrChunkProcessorList := self.m_sinrChunkProcessorList ++ [p] }

/-- `LteSlInterference::AddSnrChunkProcessor`. -/
def AddSnrChunkProcessor (p : Nat) (self : LteSlInterference) : LteSlInterference :=
  { self with m_snrChunkProcessorList := self.m_snrChunkProcessorList ++ [p] }

/-- `LteSlInterference::AddInterferenceChunkProcessor`. -/
def AddInterferenceChunkProcessor (p : Nat) (self : LteSlInterference) : LteSlInterference :=
  { self with m_interfChunkProcessorList := self.m_interfChunkProcessorList ++ [p] }

/-- Delivery of one synchronized signal at the start of a window, as `LteSpectrumPhy::StartRx`
does it: `AddSignal` first, `StartRx` of the accumulator next. -/
def deliver (now : Time) (sd : SpectrumValue × Time) (self : LteSlInterference) :
    Except Abort LteSlInterference := do
  let s1 ← AddSignal now sd.1 sd.2 self
  StartRx now sd.1 s1

/-- Delivery of the signals of `sigs`, in order, all at time `now`. -/
def deliverAll (now : Time) : List (SpectrumValue × Time) → LteSlInterference →
    Except Abort LteSlInterference
  | [], self => .ok self
  | sd :: rest, self => do
      let s1 ← deliver now sd self
      deliverAll now rest s1

/-- What the specification prescribes for index `i` of a window holding the signals `sigs`
on top of a running sum `others` of further signals: the interference is the sum of every
other active signal plus the noise, the SINR is the signal over that interference and the
SNR is the signal over the noise. -/
def windowDispatchSpec (self : LteSlInterference) (others noise : SpectrumValue)
    (duration : Time) (sigs : List SpectrumValue) (i : Nat) : List SlInterferenceEvent :=
  let s := sigs.getD i []
  let interference := svAdd (svSum others (sigs.eraseIdx i)) noise
  self.m_sinrChunkProcessorList.map
      (fun p => .evaluateChunk .sinr p i (svDiv s interference) duration)
    ++ self.m_snrChunkProcessorList.map
      (fun p => .evaluateChunk .snr p i (svDiv s noise) duration)
    ++ self.m_interfChunkProcessorList.map
      (fun p => .evaluateChunk .interf p i interference duration)
    ++ self.m_rsPowerChunkProcessorList.map
      (fun p => .evaluateChunk .rsPower p i s duration)

end LteSlInterference

/-- An accumulator with noise floor `[2]`, one further signal `[1]` in the running sum and one
observer in each list. -/
def exampleAccumulator : LteSlInterference :=
  { m_allSignals := some [1], m_noise := some [2],
    m_sinrChunkProcessorList := [7], m_snrChunkProcessorList := [9],
    m_interfChunkProcessorList := [8], m_rsPowerChunkProcessorList := [6] }

/-! ## Data carried by signals -/

/-- States of `LteSpectrumPhy`, in the order of the `enum State` of the header. -/
inductive State where
  | IDLE
  | TX_DL_CTRL
  | TX_DATA
  | TX_UL_SRS
  | RX_DL_CTRL
  | RX_DATA
  | RX_UL_SRS
  deriving DecidableEq, Repr

/-- What `PeekPacketTag` reads from a packet: the fields of `LteRadioBearerTag`. -/
structure LteRadioBearerTag where
  m_rnti : Nat := 0
  m_layer : Nat := 0
  m_destinationL2Id : Nat := 0
  deriving DecidableEq, Repr

/-- A packet: an identity and its radio-bearer tag. -/
structure Packet where
  uid : Nat := 0
  tag : LteRadioBearerTag := {}
  deriving DecidableEq, Repr

/-- The packets of a `PacketBurst`, in order. -/
abbrev PacketBurst := List Packet

/-- The message types the receiver distinguishes; every other type is `OTHER`. -/
inductive MessageType where
  | MIB_SL
  | SCI
  | SL_DISC_MSG
  | OTHER
  deriving DecidableEq, Repr

/-- The fields of `SlDiscMsg` read by the receiver. -/
structure SlDiscMsg where
  m_rnti : Nat := 0
  m_resPsdch : Nat := 0
  m_proSeAppCode : Nat := 0
  deriving DecidableEq, Repr

/-- A control message: its type and the payload fields read through the accessors of its
subclass (`GetMibSL ().slssid`, `GetSciF1 ().m_rnti`, `GetSlDiscMessage ()`). -/
structure LteControlMessage where
  uid : Nat := 0
  m_type : MessageType := .OTHER
  slssid : Nat := 0
  sciRnti : Nat := 0
  disc : SlDiscMsg := {}
  deriving DecidableEq, Repr

/-- `LteControlMessage::GetMessageType`. -/
def LteControlMessage.GetMessageType (m : LteControlMessage) : MessageType := m.m_type

/-- `LteSpectrumSignalParametersDataFrame` (without the transmitter and antenna pointers). -/
structure LteSpectrumSignalParametersDataFrame where
  psd : SpectrumValue := []
  duration : Time := 0
  packetBurst : Option PacketBurst := none
  ctrlMsgList : List LteControlMessage := []
  cellId : Nat := 0
  deriving DecidableEq, Repr

/-- `LteSpectrumSignalParametersDlCtrlFrame`. -/
structure LteSpectrumSignalParametersDlCtrlFrame where
  psd : SpectrumValue := []
  duration : Time := 0
  ctrlMsgList : List LteControlMessage := []
  cellId : Nat := 0
  pss : Bool := false
  deriving DecidableEq, Repr

/-- `LteSpectrumSignalParametersUlSrsFrame`. -/
structure LteSpectrumSignalParametersUlSrsFrame where
  psd : SpectrumValue := []
  duration : Time := 0
  cellId : Nat := 0
  deriving DecidableEq, Repr

/-- `LteSpectrumSignalParametersSlFrame`. -/
structure LteSpectrumSignalParametersSlFrame where
  psd : SpectrumValue := []
  duration : Time := 0
  packetBurst : Option PacketBurst := none
  ctrlMsgList : List LteControlMessage := []
  nodeId : Nat := 0
  groupId : Nat := 0
  slssId : Nat := 0
  deriving DecidableEq, Repr

/-- The signals `LteSpectrumPhy::StartRx` tells apart by `DynamicCast`. -/
inductive SpectrumSignalParameters where
  | dataFrame (p : LteSpectrumSignalParametersDataFrame)
  | dlCtrlFrame (p : LteSpectrumSignalParametersDlCtrlFrame)
  | ulSrsFrame (p : LteSpectrumSignalParametersUlSrsFrame)
  | slFrame (p : LteSpectrumSignalParametersSlFrame)
  | other (psd : SpectrumValue) (duration : Time)
  deriving DecidableEq, Repr

/-- Duration of the SRS portion of an uplink subframe, `UL_SRS_DURATION`. -/
def UL_SRS_DURATION : Time := 71429 - 1

/-- Duration of the control portion of a subframe, `DL_CTRL_DURATION`. -/
def DL_CTRL_DURATION : Time := 214286 - 1

/-- The table `EffectiveCodingRate[29]`. -/
def EffectiveCodingRate : List ℚ :=
  [0.08, 0.1, 0.11, 0.15, 0.19, 0.24, 0.3, 0.37, 0.44, 0.51, 0.3, 0.33, 0.37, 0.42, 0.48,
   0.54, 0.6, 0.43, 0.45, 0.5, 0.55, 0.6, 0.65, 0.7, 0.75, 0.8, 0.85, 0.89, 0.92]

/-! ## Transport-block descriptors and `std::map` -/

/-- `TbId_t`. -/
structure TbId_t where
  m_rnti : Nat := 0
  m_layer : Nat := 0
  deriving DecidableEq, Repr

/-- `operator<` of `TbId_t`. -/
def TbId_t.lt (a b : TbId_t) : Bool :=
  decide (a.m_rnti < b.m_rnti) || (decide (a.m_rnti = b.m_rnti) && decide (a.m_layer < b.m_layer))

/-- `tbInfo_t`. -/
structure tbInfo_t where
  ndi : Nat := 0
  size : Nat := 0
  mcs : Nat := 0
  rbBitmap : List Int := []
  harqProcessId : Nat := 0
  rv : Nat := 0
  mi : ℚ := 0
  downlink : Bool := false
  corrupt : Bool := false
  harqFeedbackSent : Bool := false
  sinr : ℚ := 0
  deriving DecidableEq, Repr

/-- `SlTbId_t`. -/
structure SlTbId_t where
  m_rnti : Nat := 0
  m_l1dst : Nat := 0
  deriving DecidableEq, Repr

/-- `operator<` of `SlTbId_t`. -/
def SlTbId_t.lt (a b : SlTbId_t) : Bool :=
  decide (a.m_rnti < b.m_rnti) || (decide (a.m_rnti = b.m_rnti) && decide (a.m_l1dst < b.m_l1dst))

/-- `SltbInfo_t`. -/
structure SltbInfo_t where
  ndi : Nat := 0
  size : Nat := 0
  mcs : Nat := 0
  rbBitmap : List Int := []
  rv : Nat := 0
  mi : ℚ := 0
  corrupt : Bool := false
  harqFeedbackSent : Bool := false
  sinr : ℚ := 0
  deriving DecidableEq, Repr

/-- `SlDiscTbId_t`. -/
structure SlDiscTbId_t where
  m_rnti : Nat := 0
  m_resPsdch : Nat := 0
  deriving DecidableEq, Repr

/-- `operator<` of `SlDiscTbId_t`. -/
def SlDiscTbId_t.lt (a b : SlDiscTbId_t) : Bool :=
  decide (a.m_rnti < b.m_rnti)
    || (decide (a.m_rnti = b.m_rnti) && decide (a.m_resPsdch < b.m_resPsdch))

/-- `SlDisctbInfo_t`. -/
structure SlDisctbInfo_t where
  ndi : Nat := 0
  resPsdch : Nat := 0
  rbBitmap : List Int := []
  rv : Nat := 0
  mi : ℚ := 0
  corrupt : Bool := false
  harqFeedbackSent : Bool := false
  sinr : ℚ := 0
  deriving DecidableEq, Repr

/-- Order of `uint16_t` keys. -/
def natLt (a b : Nat) : Bool := decide (a < b)

/-- A `std::map`: its entries in iteration order, which is ascending key order. -/
abbrev StdMap (K V : Type) := List (K × V)

namespace StdMap

variable {K V : Type}

/-- The map invariant: keys strictly ascending for the comparison `lt`. -/
def WF (lt : K → K → Bool) (m : StdMap K V) : Prop :=
  List.Pairwise (fun a b => lt a.1 b.1 = true) m

/-- The call `m.find (k)`: the entry whose key is equivalent to `k`, if any. -/
def find (lt : K → K → Bool) (k : K) : StdMap K V → Option (K × V)
  | [] => none
  | e :: rest =>
      if lt e.1 k then find lt k rest
      else if lt k e.1 then none
      else some e

/-- The call `m.erase (m.find (k))` for a key that is present; nothing for an absent key. -/
def erase (lt : K → K → Bool) (k : K) : StdMap K V → StdMap K V
  | [] => []
  | e :: rest =>
      if lt e.1 k then e :: erase lt k rest
      else if lt k e.1 then e :: rest
      else rest

/-- The call `m.insert (std::pair (k, v))`: no effect when an equivalent key is present. -/
def insert (lt : K → K → Bool) (k : K) (v : V) : StdMap K V → StdMap K V
  | [] => [(k, v)]
  | e :: rest =>
      if lt e.1 k then e :: insert lt k v rest
      else if lt k e.1 then (k, v) :: e :: rest
      else e :: rest

/-- Assignment through an iterator obtained from `m.find (k)`: `it->second = f (it->second)`. -/
def update (lt : K → K → Bool) (k : K) (f : V → V) : StdMap K V → StdMap K V
  | [] => []
  | e :: rest =>
      if lt e.1 k then e :: update lt k f rest
      else if lt k e.1 then e :: rest
      else (e.1, f e.2) :: rest

/-- The descriptors stored under the identity `k`. -/
def entriesOf [DecidableEq K] (k : K) (m : StdMap K V) : StdMap K V :=
  m.filter (fun e => decide (e.1 = k))

/-- The descriptors stored under the other identities, in iteration order. -/
def others [DecidableEq K] (k : K) (m : StdMap K V) : StdMap K V :=
  m.filter (fun e => decide (e.1 ≠ k))

/-- The comparison `lt` is a strict total order, as `std::map` requires of its key order. -/
structure KeyOrder (lt : K → K → Bool) : Prop where
  irrefl : ∀ a, lt a a = false
  trans : ∀ a b c, lt a b = true → lt b c = true → lt a c = true
  total : ∀ a b, lt a b = false → lt b a = false → a = b

end StdMap

/-! ## Collaborators of `LteSpectrumPhy` -/

/-- `HarqProcessInfoElement_t`, an element of the retransmission history kept by the HARQ
modules. -/
structure HarqProcessInfoElement_t where
  m_mi : ℚ := 0
  m_rv : Nat := 0
  m_infoBits : Nat := 0
  m_codeBits : Nat := 0
  m_sinr : ℚ := 0
  deriving DecidableEq, Repr

/-- `HarqProcessInfoList_t`. -/
abbrev HarqProcessInfoList_t := List HarqProcessInfoElement_t

/-- `TbStats_t`, the result of `LteMiErrorModel::GetTbDecodificationStats`. -/
structure TbStats_t where
  tbler : ℚ := 0
  mi : ℚ := 0
  deriving DecidableEq, Repr

/-- `TbErrorStats_t`, the result of the `LteNistErrorModel` functions. -/
structure TbErrorStats_t where
  tbler : ℚ := 0
  sinr : ℚ := 0
  deriving DecidableEq, Repr

/-- The state-changing calls made on the `LteHarqPhy` module, with their arguments. -/
inductive HarqCall where
  | UpdateUlHarqProcessStatus (rnti : Nat) (mi : ℚ) (infoBytes : Nat) (codeBytes : ℚ)
  | ResetUlHarqProcessStatus (rnti : Nat) (id : Nat)
  | UpdateDlHarqProcessStatus (id : Nat) (layer : Nat) (mi : ℚ) (infoBytes : Nat)
      (codeBytes : ℚ)
  | ResetDlHarqProcessStatus (id : Nat)
  deriving DecidableEq, Repr

/-- The state-changing calls made on the `LteSlHarqPhy` module, with their arguments. -/
inductive SlHarqCall where
  | ResetSlHarqProcessStatus (rnti : Nat) (l1dst : Nat)
  | ResetPrevDecoded (rnti : Nat) (l1dst : Nat)
  | ResetTbIdx (rnti : Nat) (l1dst : Nat)
  | IncreaseTbIdx (rnti : Nat) (l1dst : Nat)
  | IndicatePrevDecoded (rnti : Nat) (l1dst : Nat)
  | UpdateSlHarqProcessStatus (rnti : Nat) (l1dst : Nat) (sinr : ℚ)
  | ResetDiscHarqProcessStatus (rnti : Nat) (resPsdch : Nat)
  | ResetDiscTbPrevDecoded (rnti : Nat) (resPsdch : Nat)
  | IndicateDiscTbPrevDecoded (rnti : Nat) (resPsdch : Nat)
  | UpdateDiscHarqProcessStatus (rnti : Nat) (resPsdch : Nat) (sinr : ℚ)
  | SetDiscNumRetx (retx : Nat)
  deriving DecidableEq, Repr

/-- The calls made on an `LteInterference` object (data or control accumulator). -/
inductive InterferenceCall where
  | AddSignal (now : Time) (psd : SpectrumValue) (duration : Time)
  | StartRx (now : Time) (psd : SpectrumValue)
  | EndRx (now : Time)
  | SetNoisePowerSpectralDensity (now : Time) (psd : SpectrumValue)
  deriving DecidableEq, Repr

/-- One scheduled PSDCH transmission of a discovery resource,
`SidelinkDiscResourcePool::SidelinkTransmissionInfo`. -/
structure SidelinkTransmissionInfo where
  rbStart : Int := 0
  nbRb : Int := 0
  deriving DecidableEq, Repr

/-- The collaborators that `LteSpectrumPhy` consumes and whose code lies outside the embedded
files.  Each is a function of exactly the arguments the source passes; the HARQ modules and
the chunk processors are functions of the calls they have received so far. -/
structure Env where
  /-- The values of the stream behind `m_random->GetValue ()`, by draw number. -/
  random : Nat → ℚ
  /-- `LteMiErrorModel::GetTbDecodificationStats (sinr, map, size, mcs, harqHistory)`. -/
  GetTbDecodificationStats :
    SpectrumValue → List Int → Nat → Nat → HarqProcessInfoList_t → TbStats_t
  /-- `LteMiErrorModel::GetPcfichPdcchError (sinr)`. -/
  GetPcfichPdcchError : SpectrumValue → ℚ
  /-- `LteNistErrorModel::GetPsschBler (fading, SISO, mcs, meanSinr, harqHistory)`. -/
  GetPsschBler : Nat → ℚ → HarqProcessInfoList_t → TbErrorStats_t
  /-- `LteNistErrorModel::GetPscchBler (fading, SISO, meanSinr)`. -/
  GetPscchBler : ℚ → TbErrorStats_t
  /-- `LteNistErrorModel::GetPsbchBler (fading, SISO, meanSinr)`. -/
  GetPsbchBler : ℚ → TbErrorStats_t
  /-- `LteNistErrorModel::GetPsdchBler (fading, SISO, meanSinr, harqHistory)`. -/
  GetPsdchBler : ℚ → HarqProcessInfoList_t → TbErrorStats_t
  /-- `LteHarqPhy::GetHarqProcessInfoDl (harqProcId, layer)`. -/
  GetHarqProcessInfoDl : List HarqCall → Nat → Nat → HarqProcessInfoList_t
  /-- `LteHarqPhy::GetHarqProcessInfoUl (rnti, harqProcId)`. -/
  GetHarqProcessInfoUl : List HarqCall → Nat → Nat → HarqProcessInfoList_t
  /-- `LteSlHarqPhy::GetHarqProcessInfoSl (rnti, l1dst)`. -/
  GetHarqProcessInfoSl : List SlHarqCall → Nat → Nat → HarqProcessInfoList_t
  /-- `LteSlHarqPhy::IsPrevDecoded (rnti, l1dst)`. -/
  IsPrevDecoded : List SlHarqCall → Nat → Nat → Bool
  /-- `LteSlHarqPhy::GetHarqProcessInfoDisc (rnti, resPsdch)`. -/
  GetHarqProcessInfoDisc : List SlHarqCall → Nat → Nat → HarqProcessInfoList_t
  /-- `LteSlHarqPhy::IsDiscTbPrevDecoded (rnti, resPsdch)`. -/
  IsDiscTbPrevDecoded : List SlHarqCall → Nat → Nat → Bool
  /-- The spectrum handed to `UpdateSinrPerceived` by the chunk processors of
  `m_interferenceData` while `EndRx` runs, if one is wired. -/
  dataSinrFeedback : List InterferenceCall → Option SpectrumValue
  /-- The same for `m_interferenceCtrl`. -/
  ctrlSinrFeedback : List InterferenceCall → Option SpectrumValue
  /-- The vectors handed to `UpdateSlSinrPerceived`, `UpdateSlSigPerceived` and
  `UpdateSlIntPerceived` by the chunk processors of `m_interferenceSl` while `EndRx` runs. -/
  slSinrFeedback : List SlInterferenceEvent → Option (List SpectrumValue)
  slSigFeedback : List SlInterferenceEvent → Option (List SpectrumValue)
  slIntFeedback : List SlInterferenceEvent → Option (List SpectrumValue)
  /-- `SidelinkDiscResourcePool::GetPsdchTransmissions (resPsdch)` of the pool named `pool`. -/
  GetPsdchTransmissions : Nat → Nat → List SidelinkTransmissionInfo
  /-- Whether `sqrt (dx * dx + dy * dy) < 150.0` for the squared distance passed. -/
  nearerThan150 : ℚ → Bool
  /-- The value `10 * log10 (1000 * x)`. -/
  dBm : ℚ → ℚ

/-! ## Events leaving `LteSpectrumPhy` -/

/-- `UlInfoListElement_s::ReceptionStatus_e`. -/
inductive ReceptionStatus_e where
  | Ok
  | NotOk
  deriving DecidableEq, Repr

/-- `UlInfoListElement_s`, as filled by `EndRxData`. -/
structure UlInfoListElement_s where
  m_rnti : Nat := 0
  m_tpc : Nat := 0
  m_receptionStatus : ReceptionStatus_e := .Ok
  deriving DecidableEq, Repr

/-- `DlInfoListElement_s::HarqStatus_e`. -/
inductive HarqStatus_e where
  | ACK
  | NACK
  deriving DecidableEq, Repr

/-- `DlInfoListElement_s`, as filled by `EndRxData`. -/
structure DlInfoListElement_s where
  m_rnti : Nat := 0
  m_harqProcessId : Nat := 0
  m_harqStatus : List HarqStatus_e := []
  deriving DecidableEq, Repr

/-- `PhyReceptionStatParameters`. -/
structure PhyReceptionStatParameters where
  m_timestamp : Int := 0
  m_cellId : Nat := 0
  m_imsi : Nat := 0
  m_rnti : Nat := 0
  m_txMode : Nat := 0
  m_layer : Nat := 0
  m_mcs : Nat := 0
  m_size : Nat := 0
  m_rv : Nat := 0
  m_ndi : Nat := 0
  m_correctness : Nat := 0
  m_ccId : Nat := 0
  m_sinrPerRb : ℚ := 0
  deriving DecidableEq, Repr

/-- The fields of `SlPhyReceptionStatParameters` that depend on the decode outcome. -/
structure SlPhyReceptionStatParameters where
  m_timestamp : Int := 0
  m_cellId : Nat := 0
  m_rnti : Nat := 0
  m_correctness : Nat := 0
  m_conflict : Bool := false
  m_weakSignal : Bool := false
  m_neighbor : Nat := 0
  m_isTx : Nat := 0
  m_nextTxTime : Int := 0
  m_rxType : Nat := 0
  m_msgInterval : Int := 0
  deriving DecidableEq, Repr

/-- The member functions the scheduler is asked to run later. -/
inductive ScheduledCall where
  | EndTxData
  | EndTxDlCtrl
  | EndTxUlSrs
  | EndRxData
  | EndRxSlData
  | EndRxDlCtrl
  | EndRxUlSrs
  deriving DecidableEq, Repr

/-- Calls leaving `LteSpectrumPhy`, in program order. -/
inductive PhyEvent where
  /-- The trace source `m_phyTxStartTrace`. -/
  | phyTxStartTrace (pb : Option PacketBurst)
  /-- The trace source `m_phyTxEndTrace`. -/
  | phyTxEndTrace (pb : Option PacketBurst)
  /-- The trace source `m_phyRxStartTrace`. -/
  | phyRxStartTrace (pb : PacketBurst)
  /-- The trace source `m_phyRxEndOkTrace`, the success notification of a packet. -/
  | phyRxEndOkTrace (p : Packet)
  /-- The trace source `m_phyRxEndErrorTrace`, the error notification of a packet. -/
  | phyRxEndErrorTrace (p : Packet)
  /-- The call `m_channel->StartTx (txParams)`. -/
  | channelStartTx (txParams : SpectrumSignalParameters)
  /-- The call `Simulator::Schedule (delay, &LteSpectrumPhy::f, this)`. -/
  | schedule (delay : Time) (f : ScheduledCall)
  /-- The callback `m_ltePhyRxDataEndOkCallback`. -/
  | ltePhyRxDataEndOkCallback (p : Packet)
  /-- The callback `m_ltePhyRxCtrlEndOkCallback`. -/
  | ltePhyRxCtrlEndOkCallback (msgs : List LteControlMessage)
  /-- The callback `m_ltePhyRxCtrlEndErrorCallback`. -/
  | ltePhyRxCtrlEndErrorCallback
  /-- The callback `m_ltePhyUlHarqFeedbackCallback`. -/
  | ltePhyUlHarqFeedbackCallback (info : UlInfoListElement_s)
  /-- The callback `m_ltePhyDlHarqFeedbackCallback`. -/
  | ltePhyDlHarqFeedbackCallback (info : DlInfoListElement_s)
  /-- The callback `m_ltePhyRxPssCallback`. -/
  | ltePhyRxPssCallback (cellId : Nat) (psd : SpectrumValue)
  /-- The callback `m_ltePhyRxSlssCallback`. -/
  | ltePhyRxSlssCallback (slssid : Nat) (psd : SpectrumValue)
  /-- The trace source `m_dlPhyReception`. -/
  | dlPhyReception (params : PhyReceptionStatParameters)
  /-- The trace source `m_ulPhyReception`. -/
  | ulPhyReception (params : PhyReceptionStatParameters)
  /-- The trace source `m_slPhyReception`. -/
  | slPhyReception (params : PhyReceptionStatParameters)
  /-- The trace source `m_slPscchReception`. -/
  | slPscchReception (params : SlPhyReceptionStatParameters)
  /-- The trace source `m_slStartRx`. -/
  | slStartRx
  deriving DecidableEq, Repr

/-- `SlRxPacketInfo_t`. -/
structure SlRxPacketInfo_t where
  rbBitmap : List Int := []
  m_rxPacketBurst : Option PacketBurst := none
  m_rxControlMessage : Option LteControlMessage := none
  deriving DecidableEq, Repr

/-- `SlCtrlPacketInfo_t`. -/
structure SlCtrlPacketInfo_t where
  sinr : ℚ := 0
  index : Int := 0
  deriving DecidableEq, Repr

/-- `operator<` of `SlCtrlPacketInfo_t`. -/
def SlCtrlPacketInfo_t.lt (a b : SlCtrlPacketInfo_t) : Bool :=
  decide (a.sinr > b.sinr) || decide (a.index < b.index)

/-- An `LteInterference` object, as far as `LteSpectrumPhy` is concerned: the calls it has
received. -/
structure LteInterference where
  calls : List InterferenceCall := []
  deriving DecidableEq, Repr

/-- Fields of `LteSpectrumPhy`.  The collaborators the class never tests for null (the
interference objects, the random variable, the HARQ modules, the device and the mobility
model) are taken to be installed; the initial values are those of the constructor. -/
structure LteSpectrumPhy where
  m_state : State := .IDLE
  isTx : Bool := false
  m_firstRxStart : Time := 0
  m_firstRxDuration : Time := 0
  m_slRxRbStartIdx : Nat := 0
  m_RbPerSubChannel : Nat := 0
  /-- The channel pointer is non-null. -/
  m_channel : Bool := false
  m_txPsd : Option SpectrumValue := none
  m_txPacketBurst : Option PacketBurst := none
  m_rxPacketBurstList : List PacketBurst := []
  m_txControlMessageList : List LteControlMessage := []
  m_rxControlMessageList : List LteControlMessage := []
  /-- For each callback, whether it is non-null. -/
  m_ltePhyRxDataEndErrorCallback : Bool := false
  m_ltePhyRxDataEndOkCallback : Bool := false
  m_ltePhyRxCtrlEndOkCallback : Bool := false
  m_ltePhyRxCtrlEndErrorCallback : Bool := false
  m_ltePhyRxPssCallback : Bool := false
  m_ltePhyRxSlssCallback : Bool := false
  m_ltePhyDlHarqFeedbackCallback : Bool := false
  m_ltePhyUlHarqFeedbackCallback : Bool := false
  m_interferenceData : LteInterference := {}
  m_interferenceCtrl : LteInterference := {}
  m_interferenceSl : LteSlInterference := {}
  m_decodingMap : List (List Bool) := []
  m_rssiMap : List (List ℚ) := []
  m_rsrpMap : List (List ℚ) := []
  m_msgLastReception : List Int := List.replicate 300 0
  m_nextTxTime : Nat := 0
  m_isDecoded : Bool := false
  m_txID : Nat := 0
  m_cellId : Nat := 0
  m_componentCarrierId : Nat := 0
  m_expectedTbs : StdMap TbId_t tbInfo_t := []
  m_expectedSlTbs : StdMap SlTbId_t SltbInfo_t := []
  m_expectedDiscTbs : StdMap SlDiscTbId_t SlDisctbInfo_t := []
  m_sinrPerceived : SpectrumValue := []
  m_l1GroupIds : List Nat := []
  m_slSinrPerceived : List SpectrumValue := []
  m_slSignalPerceived : List SpectrumValue := []
  m_slInterferencePerceived : List SpectrumValue := []
  m_rxPacketInfo : List SlRxPacketInfo_t := []
  /-- Number of values already drawn from `m_random`. -/
  m_random : Nat := 0
  m_dataErrorModelEnabled : Bool := true
  m_ctrlErrorModelEnabled : Bool := true
  m_ctrlFullDuplexEnabled : Bool := false
  m_dropRbOnCollisionEnabled : Bool := false
  m_slDataErrorModelEnabled : Bool := true
  m_slCtrlErrorModelEnabled : Bool := true
  m_slDiscoveryErrorModelEnabled : Bool := true
  m_transmissionMode : Nat := 0
  m_layersNum : Nat := 1
  m_ulDataSlCheck : Bool := false
  m_txModeGain : List ℚ := List.replicate 7 1
  m_harqPhyModule : List HarqCall := []
  m_slHarqPhyModule : List SlHarqCall := []
  /-- State and `m_ulDataSlCheck` of the object `m_halfDuplexPhy` points to, if any. -/
  m_halfDuplexPhy : Option (State × Bool) := none
  m_discRxPools : List Nat := []
  m_discTxApps : List Nat := []
  m_discRxApps : List Nat := []
  m_slssId : Nat := 0
  m_slRxGain : ℚ := 1
  m_slDiscTxCount : StdMap Nat Nat := []
  /-- The value of `GetDevice ()->GetNode ()->GetId ()`. -/
  nodeId : Nat := 0
  /-- The value of `m_mobility->GetPosition ()`. -/
  position : ℚ × ℚ := (0, 0)
  /-- The positions of the nodes of `m_nodeList`. -/
  m_nodeList : List (ℚ × ℚ) := []
  log : List PhyEvent := []

/-- How a member function of `LteSpectrumPhy` ends: it returns `ret` in state `st`, or the
run is cut short in state `st`. -/
inductive Outcome (α : Type) where
  | ok (ret : α) (st : LteSpectrumPhy)
  | abort (why : Abort) (st : LteSpectrumPhy)

/-- The state in which the member function ended. -/
def Outcome.state {α : Type} : Outcome α → LteSpectrumPhy
  | .ok _ st => st
  | .abort _ st => st

/-- Whether the run was ended by `NS_FATAL_ERROR` or `NS_ABORT_MSG`. -/
def Outcome.isFatal {α : Type} : Outcome α → Bool
  | .abort (.fatalError _) _ => true
  | _ => false

/-- Whether the run was ended by a failed `NS_ASSERT`. -/
def Outcome.isAssertFailed {α : Type} : Outcome α → Bool
  | .abort (.assertFailed _) _ => true
  | _ => false

/-- Whether the member function returned. -/
def Outcome.returned {α : Type} : Outcome α → Bool
  | .ok _ _ => true
  | .abort _ _ => false

/-- A member function of `LteSpectrumPhy` with result type `α`. -/
def PhyM (α : Type) : Type := LteSpectrumPhy → Outcome α

namespace PhyM

/-- Return without touching the state. -/
def ret {α : Type} (a : α) : PhyM α := fun st => .ok a st

/-- Sequencing: the second part runs only if the first returned. -/
def andThen {α β : Type} (m : PhyM α) (f : α → PhyM β) : PhyM β := fun st =>
  match m st with
  | .ok a st1 => f a st1
  | .abort why st1 => .abort why st1

instance : Monad PhyM where
  pure := ret
  bind := andThen

/-- Read the object. -/
def get : PhyM LteSpectrumPhy := fun st => .ok st st

/-- Assign to members of the object. -/
def modify (f : LteSpectrumPhy → LteSpectrumPhy) : PhyM Unit := fun st => .ok () (f st)

/-- Make a call that leaves the object. -/
def emit (e : PhyEvent) : PhyM Unit := fun st => .ok () { st with log := st.log ++ [e] }

/-- End the run. -/
def abortWith {α : Type} (why : Abort) : PhyM α := fun st => .abort why st

end PhyM

/-- `NS_FATAL_ERROR (msg)`. -/
def NS_FATAL_ERROR {α : Type} (msg : String) : PhyM α := PhyM.abortWith (.fatalError msg)

/-- `NS_ASSERT (cond)`. -/
def NS_ASSERT (cond : Bool) (msg : String) : PhyM Unit :=
  if cond then PhyM.ret () else PhyM.abortWith (.assertFailed msg)

/-- `NS_ABORT_MSG_IF (cond, msg)`. -/
def NS_ABORT_MSG_IF (cond : Bool) (msg : String) : PhyM Unit :=
  if cond then PhyM.abortWith (.fatalError msg) else PhyM.ret ()

/-! ## `LteSpectrumPhy`: transmitter and receiver state machine -/

namespace LteSpectrumPhy

open PhyM

/-- A call on `m_interferenceSl`; an abort inside the accumulator ends the run. -/
def onInterferenceSl (f : LteSlInterference → Except Abort LteSlInterference) : PhyM Unit :=
  fun st =>
    match f st.m_interferenceSl with
    | .ok i => .ok () { st with m_interferenceSl := i }
    | .error why => .abort why st

/-- A call on `m_interferenceData`. -/
def onInterferenceData (c : InterferenceCall) : PhyM Unit :=
  modify (fun st =>
    { st with m_interferenceData := { calls := st.m_interferenceData.calls ++ [c] } })

/-- A call on `m_interferenceCtrl`. -/
def onInterferenceCtrl (c : InterferenceCall) : PhyM Unit :=
  modify (fun st =>
    { st with m_interferenceCtrl := { calls := st.m_interferenceCtrl.calls ++ [c] } })

/-- `LteSpectrumPhy::ChangeState`. -/
def ChangeState (newState : State) : PhyM Unit :=
  modify (fun st => { st with m_state := newState })

/-- `LteSpectrumPhy::SetState`. -/
def SetState (newState : State) : PhyM Unit := ChangeState newState

/-- `LteSpectrumPhy::StartTxDataFrame`. -/
def StartTxDataFrame (pb : Option PacketBurst) (ctrlMsgList : List LteControlMessage)
    (duration : Time) : PhyM Bool := do
  emit (.phyTxStartTrace pb)
  let st ← get
  match st.m_state with
  | .RX_DATA | .RX_DL_CTRL | .RX_UL_SRS =>
      NS_FATAL_ERROR "cannot TX while RX"
  | .TX_DATA | .TX_DL_CTRL | .TX_UL_SRS =>
      NS_FATAL_ERROR "cannot TX while already TX: the MAC should avoid this"
  | .IDLE => do
      NS_ASSERT st.m_txPsd.isSome "m_txPsd"
      modify (fun s => { s with m_txPacketBurst := pb })
      ChangeState .TX_DATA
      NS_ASSERT st.m_channel "m_channel"
      let txParams : LteSpectrumSignalParametersDataFrame :=
        { duration := duration, psd := st.m_txPsd.getD [], packetBurst := pb,
          ctrlMsgList := ctrlMsgList, cellId := st.m_cellId }
      if pb.isSome then
        modify (fun s => { s with m_ulDataSlCheck := true })
      emit (.channelStartTx (.dataFrame txParams))
      emit (.schedule duration .EndTxData)
      pure false

/-- `LteSpectrumPhy::StartTxSlDataFrame`. -/
def StartTxSlDataFrame (pb : Option PacketBurst) (ctrlMsgList : List LteControlMessage)
    (duration : Time) (groupId : Nat) : PhyM Bool := do
  emit (.phyTxStartTrace pb)
  modify (fun s => { s with isTx := true })
  let st ← get
  let transmit : PhyM Bool := do
    NS_ASSERT st.m_txPsd.isSome "m_txPsd"
    modify (fun s => { s with m_txPacketBurst := pb })
    ChangeState .TX_DATA
    NS_ASSERT st.m_channel "m_channel"
    let txParams : LteSpectrumSignalParametersSlFrame :=
      { duration := duration, psd := st.m_txPsd.getD [], nodeId := st.nodeId,
        groupId := groupId, slssId := st.m_slssId, packetBurst := pb,
        ctrlMsgList := ctrlMsgList }
    modify (fun s => { s with m_ulDataSlCheck := true })
    emit (.channelStartTx (.slFrame txParams))
    emit (.schedule duration .EndTxData)
    pure false
  match st.m_state with
  | .RX_DL_CTRL | .RX_UL_SRS =>
      NS_FATAL_ERROR "cannot TX while RX"
  | .TX_DATA | .TX_DL_CTRL | .TX_UL_SRS =>
      NS_FATAL_ERROR "cannot TX while already TX: the MAC should avoid this"
  | .RX_DATA =>
      if !st.m_ctrlFullDuplexEnabled then
        NS_FATAL_ERROR "cannot TX while RX"
      else
        transmit
  | .IDLE => transmit

/-- `LteSpectrumPhy::StartTxDlCtrlFrame`. -/
def StartTxDlCtrlFrame (ctrlMsgList : List LteControlMessage) (pss : Bool) : PhyM Bool := do
  let st ← get
  match st.m_state with
  | .RX_DATA | .RX_DL_CTRL | .RX_UL_SRS =>
      NS_FATAL_ERROR "cannot TX while RX"
  | .TX_DATA | .TX_DL_CTRL | .TX_UL_SRS =>
      NS_FATAL_ERROR "cannot TX while already TX: the MAC should avoid this"
  | .IDLE => do
      NS_ASSERT st.m_txPsd.isSome "m_txPsd"
      ChangeState .TX_DL_CTRL
      NS_ASSERT st.m_channel "m_channel"
      let txParams : LteSpectrumSignalParametersDlCtrlFrame :=
        { duration := DL_CTRL_DURATION, psd := st.m_txPsd.getD [], cellId := st.m_cellId,
          pss := pss, ctrlMsgList := ctrlMsgList }
      emit (.channelStartTx (.dlCtrlFrame txParams))
      emit (.schedule DL_CTRL_DURATION .EndTxDlCtrl)
      pure false

/-- `LteSpectrumPhy::StartTxUlSrsFrame`. -/
def StartTxUlSrsFrame : PhyM Bool := do
  let st ← get
  match st.m_state with
  | .RX_DATA | .RX_DL_CTRL | .RX_UL_SRS =>
      NS_FATAL_ERROR "cannot TX while RX"
  | .TX_DL_CTRL | .TX_DATA | .TX_UL_SRS =>
      NS_FATAL_ERROR "cannot TX while already TX: the MAC should avoid this"
  | .IDLE => do
      NS_ASSERT st.m_txPsd.isSome "m_txPsd"
      ChangeState .TX_UL_SRS
      NS_ASSERT st.m_channel "m_channel"
      let txParams : LteSpectrumSignalParametersUlSrsFrame :=
        { duration := UL_SRS_DURATION, psd := st.m_txPsd.getD [], cellId := st.m_cellId }
      emit (.channelStartTx (.ulSrsFrame txParams))
      emit (.schedule UL_SRS_DURATION .EndTxUlSrs)
      pure false

/-- `LteSpectrumPhy::EndTxData`. -/
def EndTxData : PhyM Unit := do
  let st ← get
  emit (.phyTxEndTrace st.m_txPacketBurst)
  modify (fun s => { s with m_txPacketBurst := none })
  ChangeState .IDLE
  modify (fun s => { s with isTx := false })

/-- `LteSpectrumPhy::EndTxDlCtrl`. -/
def EndTxDlCtrl : PhyM Unit := do
  let st ← get
  NS_ASSERT (decide (st.m_state = .TX_DL_CTRL)) "m_state == TX_DL_CTRL"
  NS_ASSERT st.m_txPacketBurst.isNone "m_txPacketBurst == 0"
  ChangeState .IDLE

/-- `LteSpectrumPhy::EndTxUlSrs`. -/
def EndTxUlSrs : PhyM Unit := do
  let st ← get
  NS_ASSERT (decide (st.m_state = .TX_UL_SRS)) "m_state == TX_UL_SRS"
  NS_ASSERT st.m_txPacketBurst.isNone "m_txPacketBurst == 0"
  ChangeState .IDLE

/-- `LteSpectrumPhy::StartRxData`. -/
def StartRxData (now : Time) (params : LteSpectrumSignalParametersDataFrame) : PhyM Unit := do
  let st ← get
  match st.m_state with
  | .TX_DATA | .TX_DL_CTRL | .TX_UL_SRS =>
      NS_FATAL_ERROR "cannot RX while TX"
  | .RX_DL_CTRL =>
      NS_FATAL_ERROR "cannot RX Data while receiving control"
  | .IDLE | .RX_DATA =>
      if params.cellId = st.m_cellId then do
        if st.m_rxPacketBurstList.isEmpty && st.m_rxControlMessageList.isEmpty then do
          NS_ASSERT (decide (st.m_state = .IDLE)) "m_state == IDLE"
          modify (fun s => { s with m_firstRxStart := now, m_firstRxDuration := params.duration })
          emit (.schedule params.duration .EndRxData)
        else do
          NS_ASSERT (decide (st.m_state = .RX_DATA)) "m_state == RX_DATA"
          NS_ASSERT (decide (st.m_firstRxStart = now)
              && decide (st.m_firstRxDuration = params.duration))
            "(m_firstRxStart == Simulator::Now ()) && (m_firstRxDuration == params->duration)"
        ChangeState .RX_DATA
        match params.packetBurst with
        | some pb => do
            modify (fun s => { s with m_rxPacketBurstList := s.m_rxPacketBurstList ++ [pb] })
            onInterferenceData (.StartRx now params.psd)
            emit (.phyRxStartTrace pb)
        | none => pure ()
        modify (fun s =>
          { s with m_rxControlMessageList := s.m_rxControlMessageList ++ params.ctrlMsgList })
      else
        pure ()
  | .RX_UL_SRS =>
      NS_FATAL_ERROR "unknown state"

/-- The resource blocks on which `psd` is non-zero, the loop building `rbMap`. -/
def usedRbs (psd : SpectrumValue) : List Int :=
  ((List.range psd.length).filter (fun i => decide (psd.getD i 0 ≠ 0))).map (fun i => (i : Int))

/-- The window bookkeeping shared by the two branches of `StartRxSlData`: open the window on its
first entry, check start time and duration otherwise.  `checkState` tells whether the two
assertions on `m_state` are compiled in (they are commented out in the second branch). -/
def slWindowOpenOrCheck (now : Time) (duration : Time) (checkState : Bool) : PhyM Unit := do
  let st ← get
  if st.m_rxPacketInfo.isEmpty then do
    if checkState then
      NS_ASSERT (decide (st.m_state = .IDLE)) "m_state == IDLE"
    modify (fun s => { s with m_firstRxStart := now, m_firstRxDuration := duration })
    emit (.schedule duration .EndRxSlData)
  else do
    if checkState then
      NS_ASSERT (decide (st.m_state = .RX_DATA)) "m_state == RX_DATA"
    NS_ASSERT (decide (st.m_firstRxStart = now) && decide (st.m_firstRxDuration = duration))
      "(m_firstRxStart == Simulator::Now ()) && (m_firstRxDuration == params->duration)"

/-- The loop over `params->ctrlMsgList` of `StartRxSlData` that looks for a MIB-SL; `seen`
are the messages already passed.  It returns the list as the `erase` leaves it. -/
def slReceiveMib (now : Time) (params : LteSpectrumSignalParametersSlFrame) :
    List LteControlMessage → List LteControlMessage → PhyM (List LteControlMessage)
  | seen, [] => pure seen
  | seen, msg :: rest =>
      if msg.GetMessageType = .MIB_SL then do
        let st ← get
        (if st.m_ltePhyRxSlssCallback then
          emit (.ltePhyRxSlssCallback msg.slssid params.psd)
        else pure ())
        slWindowOpenOrCheck now params.duration true
        ChangeState .RX_DATA
        onInterferenceSl (LteSlInterference.StartRx now params.psd)
        let packetInfo : SlRxPacketInfo_t :=
          { m_rxPacketBurst := params.packetBurst, m_rxControlMessage := some msg,
            rbBitmap := usedRbs params.psd }
        modify (fun s => { s with m_rxPacketInfo := s.m_rxPacketInfo ++ [packetInfo] })
        pure (seen ++ rest)
      else
        slReceiveMib now params (seen ++ [msg]) rest

/-- The branch of `StartRxSlData` that receives PSCCH, PSSCH and PSDCH from a transmitter the
device is synchronized to. -/
def slReceiveSynchronized (now : Time) (params : LteSpectrumSignalParametersSlFrame) :
    PhyM Unit := do
  slWindowOpenOrCheck now params.duration false
  ChangeState .RX_DATA
  onInterferenceSl (LteSlInterference.StartRx now params.psd)
  (if params.ctrlMsgList.length > 0 then
    NS_ASSERT (decide (params.ctrlMsgList.length = 1)) "params->ctrlMsgList.size () == 1"
  else pure ())
  let rbMap := usedRbs params.psd
  (match rbMap.head? with
    | some i => modify (fun s => { s with m_slRxRbStartIdx := i.toNat })
    | none => pure ())
  let packetInfo : SlRxPacketInfo_t :=
    { m_rxPacketBurst := params.packetBurst,
      m_rxControlMessage := params.ctrlMsgList.head?, rbBitmap := rbMap }
  modify (fun s => { s with m_rxPacketInfo := s.m_rxPacketInfo ++ [packetInfo] })
  (match params.packetBurst with
    | some pb => emit (.phyRxStartTrace pb)
    | none => pure ())

/-- The body of `StartRxSlData` for the states `IDLE` and `RX_DATA` (and `TX_DATA` in full
duplex). -/
def slReceive (now : Time) (params : LteSpectrumSignalParametersSlFrame) :
    PhyM LteSpectrumSignalParametersSlFrame := do
  let st ← get
  if st.m_cellId = 0 ∧ params.nodeId ≠ st.nodeId then do
    let ctrlMsgList ←
      (if params.ctrlMsgList.length > 0 then slReceiveMib now params [] params.ctrlMsgList
      else pure params.ctrlMsgList)
    let params1 := { params with ctrlMsgList := ctrlMsgList }
    if params1.slssId = st.m_slssId
        ∧ (params1.groupId = 0 ∨ params1.groupId ∈ st.m_l1GroupIds) then do
      slReceiveSynchronized now params1
      pure params1
    else
      pure params1
  else
    pure params

/-- `LteSpectrumPhy::StartRxSlData`; the result is the signal as the function leaves it. -/
def StartRxSlData (now : Time) (params : LteSpectrumSignalParametersSlFrame) :
    PhyM LteSpectrumSignalParametersSlFrame := do
  let st ← get
  match st.m_state with
  | .TX_DL_CTRL | .TX_UL_SRS =>
      NS_FATAL_ERROR "cannot RX while TX"
  | .RX_DL_CTRL =>
      NS_FATAL_ERROR "cannot RX Data while receiving control"
  | .TX_DATA =>
      if !st.m_ctrlFullDuplexEnabled then
        pure params
      else
        slReceive now params
  | .IDLE | .RX_DATA =>
      slReceive now params
  | .RX_UL_SRS =>
      NS_FATAL_ERROR "unknown state"

/-- `LteSpectrumPhy::StartRxDlCtrl`. -/
def StartRxDlCtrl (now : Time) (lteDlCtrlRxParams : LteSpectrumSignalParametersDlCtrlFrame) :
    PhyM Unit := do
  let st ← get
  let cellId := lteDlCtrlRxParams.cellId
  match st.m_state with
  | .TX_DATA | .TX_DL_CTRL | .TX_UL_SRS | .RX_DATA | .RX_UL_SRS =>
      NS_FATAL_ERROR "unexpected event in state"
  | .RX_DL_CTRL => do
      if lteDlCtrlRxParams.pss = true then
        if st.m_ltePhyRxPssCallback then
          emit (.ltePhyRxPssCallback cellId lteDlCtrlRxParams.psd)
      NS_ASSERT (decide (st.m_cellId ≠ cellId))
        "any other DlCtrl should be from a different cell"
  | .IDLE => do
      if lteDlCtrlRxParams.pss = true then
        if st.m_ltePhyRxPssCallback then
          emit (.ltePhyRxPssCallback cellId lteDlCtrlRxParams.psd)
      if cellId = st.m_cellId then do
        NS_ASSERT st.m_rxControlMessageList.isEmpty "m_rxControlMessageList.empty ()"
        modify (fun s =>
          { s with m_firstRxStart := now, m_firstRxDuration := lteDlCtrlRxParams.duration,
                   m_rxControlMessageList := lteDlCtrlRxParams.ctrlMsgList })
        emit (.schedule lteDlCtrlRxParams.duration .EndRxDlCtrl)
        ChangeState .RX_DL_CTRL
        onInterferenceCtrl (.StartRx now lteDlCtrlRxParams.psd)
      else
        pure ()

/-- `LteSpectrumPhy::StartRxUlSrs`. -/
def StartRxUlSrs (now : Time) (lteUlSrsRxParams : LteSpectrumSignalParametersUlSrsFrame) :
    PhyM Unit := do
  let st ← get
  match st.m_state with
  | .TX_DATA | .TX_DL_CTRL | .TX_UL_SRS =>
      NS_FATAL_ERROR "cannot RX while TX"
  | .RX_DATA | .RX_DL_CTRL =>
      NS_FATAL_ERROR "cannot RX SRS while receiving something else"
  | .IDLE | .RX_UL_SRS =>
      if lteUlSrsRxParams.cellId = st.m_cellId then do
        if st.m_state = .IDLE then do
          NS_ASSERT st.m_rxControlMessageList.isEmpty "m_rxControlMessageList.empty ()"
          modify (fun s =>
            { s with m_firstRxStart := now, m_firstRxDuration := lteUlSrsRxParams.duration })
          emit (.schedule lteUlSrsRxParams.duration .EndRxUlSrs)
        else if st.m_state = .RX_UL_SRS then
          NS_ASSERT (decide (st.m_firstRxStart = now)
              && decide (st.m_firstRxDuration = lteUlSrsRxParams.duration))
            "(m_firstRxStart == Simulator::Now ()) && (m_firstRxDuration == duration)"
        ChangeState .RX_UL_SRS
        onInterferenceCtrl (.StartRx now lteUlSrsRxParams.psd)
      else
        pure ()

/-- `LteSpectrumPhy::StartRx`. -/
def StartRx (now : Time) (spectrumRxParams : SpectrumSignalParameters) : PhyM Unit := do
  match spectrumRxParams with
  | .dataFrame p => do
      onInterferenceData (.AddSignal now p.psd p.duration)
      StartRxData now p
  | .dlCtrlFrame p => do
      onInterferenceCtrl (.AddSignal now p.psd p.duration)
      StartRxDlCtrl now p
  | .ulSrsFrame p => do
      onInterferenceCtrl (.AddSignal now p.psd p.duration)
      StartRxUlSrs now p
  | .slFrame p => do
      onInterferenceSl (LteSlInterference.AddSignal now p.psd p.duration)
      onInterferenceData (.AddSignal now p.psd p.duration)
      emit .slStartRx
      let st ← get
      if st.m_ctrlFullDuplexEnabled ∧ p.ctrlMsgList.length > 0 then do
        let _ ← StartRxSlData now p
      else
        match st.m_halfDuplexPhy with
        | some (hdState, hdUlDataSlCheck) =>
            if hdState = .IDLE ∨ hdUlDataSlCheck = false then do
              let _ ← StartRxSlData now p
            else
              pure ()
        | none => pure ()
  | .other psd duration => do
      onInterferenceData (.AddSignal now psd duration)
      onInterferenceCtrl (.AddSignal now psd duration)
      onInterferenceSl (LteSlInterference.AddSignal now psd duration)

/-- `LteSpectrumPhy::UpdateSinrPerceived`. -/
def UpdateSinrPerceived (sinr : SpectrumValue) : PhyM Unit :=
  modify (fun s => { s with m_sinrPerceived := sinr })

/-- `LteSpectrumPhy::UpdateSlSinrPerceived`. -/
def UpdateSlSinrPerceived (sinr : List SpectrumValue) : PhyM Unit :=
  modify (fun s => { s with m_slSinrPerceived := sinr })

/-- `LteSpectrumPhy::UpdateSlSigPerceived`. -/
def UpdateSlSigPerceived (signal : List SpectrumValue) : PhyM Unit :=
  modify (fun s => { s with m_slSignalPerceived := signal })

/-- `LteSpectrumPhy::UpdateSlIntPerceived`. -/
def UpdateSlIntPerceived (interference : List SpectrumValue) : PhyM Unit :=
  modify (fun s => { s with m_slInterferencePerceived := interference })

/-- `LteSpectrumPhy::AddL1GroupId`. -/
def AddL1GroupId (groupId : Nat) : PhyM Unit :=
  modify (fun s =>
    { s with m_l1GroupIds :=
        if groupId ∈ s.m_l1GroupIds then s.m_l1GroupIds else s.m_l1GroupIds ++ [groupId] })

/-- `LteSpectrumPhy::RemoveL1GroupId`. -/
def RemoveL1GroupId (groupId : Nat) : PhyM Unit :=
  modify (fun s => { s with m_l1GroupIds := s.m_l1GroupIds.filter (fun g => g ≠ groupId) })

/-- `LteSpectrumPhy::SetCellId`. -/
def SetCellId (cellId : Nat) : PhyM Unit :=
  modify (fun s => { s with m_cellId := cellId })

/-! ## `LteSpectrumPhy`: registry of expected transport blocks -/

/-- A call on `m_harqPhyModule`. -/
def onHarq (c : HarqCall) : PhyM Unit :=
  modify (fun s => { s with m_harqPhyModule := s.m_harqPhyModule ++ [c] })

/-- A call on `m_slHarqPhyModule`. -/
def onSlHarq (c : SlHarqCall) : PhyM Unit :=
  modify (fun s => { s with m_slHarqPhyModule := s.m_slHarqPhyModule ++ [c] })

/-- `LteSpectrumPhy::AddExpectedTb (rnti, ndi, size, mcs, map, layer, harqId, rv, downlink)`. -/
def AddExpectedTb (rnti ndi size mcs : Nat) (map : List Int) (layer harqId rv : Nat)
    (downlink : Bool) : PhyM Unit := do
  let tbId : TbId_t := { m_rnti := rnti, m_layer := layer }
  let st ← get
  match StdMap.find TbId_t.lt tbId st.m_expectedTbs with
  | some _ =>
      modify (fun s => { s with m_expectedTbs := StdMap.erase TbId_t.lt tbId s.m_expectedTbs })
  | none => pure ()
  let tbInfo : tbInfo_t :=
    { ndi := ndi, size := size, mcs := mcs, rbBitmap := map, harqProcessId := harqId, rv := rv,
      mi := 0, downlink := downlink, corrupt := false, harqFeedbackSent := false }
  modify (fun s =>
    { s with m_expectedTbs := StdMap.insert TbId_t.lt tbId tbInfo s.m_expectedTbs })

/-- `LteSpectrumPhy::AddExpectedTb (rnti, l1dst, ndi, size, mcs, map, rv)`, the sidelink
communication overload. -/
def AddExpectedTbSl (rnti l1dst ndi size mcs : Nat) (map : List Int) (rv : Nat) :
    PhyM Unit := do
  let tbId : SlTbId_t := { m_rnti := rnti, m_l1dst := l1dst }
  let st ← get
  match StdMap.find SlTbId_t.lt tbId st.m_expectedSlTbs with
  | some _ =>
      modify (fun s =>
        { s with m_expectedSlTbs := StdMap.erase SlTbId_t.lt tbId s.m_expectedSlTbs })
  | none => pure ()
  let tbInfo : SltbInfo_t :=
    { ndi := ndi, size := size, mcs := mcs, rbBitmap := map, rv := rv, mi := 0,
      corrupt := false, harqFeedbackSent := false }
  modify (fun s =>
    { s with m_expectedSlTbs := StdMap.insert SlTbId_t.lt tbId tbInfo s.m_expectedSlTbs })
  if ndi ≠ 0 then do
    onSlHarq (.ResetSlHarqProcessStatus rnti l1dst)
    onSlHarq (.ResetPrevDecoded rnti l1dst)
    onSlHarq (.ResetTbIdx rnti l1dst)

/-- `LteSpectrumPhy::AddExpectedTb (rnti, resPsdch, ndi, map, rv)`, the discovery overload. -/
def AddExpectedTbDisc (rnti resPsdch ndi : Nat) (map : List Int) (rv : Nat) : PhyM Unit := do
  let tbId : SlDiscTbId_t := { m_rnti := rnti, m_resPsdch := resPsdch }
  let st ← get
  match StdMap.find SlDiscTbId_t.lt tbId st.m_expectedDiscTbs with
  | some _ =>
      modify (fun s =>
        { s with m_expectedDiscTbs := StdMap.erase SlDiscTbId_t.lt tbId s.m_expectedDiscTbs })
  | none => pure ()
  let tbInfo : SlDisctbInfo_t :=
    { ndi := ndi, resPsdch := resPsdch, rbBitmap := map, rv := rv, mi := 0, corrupt := false,
      harqFeedbackSent := false }
  modify (fun s =>
    { s with m_expectedDiscTbs := StdMap.insert SlDiscTbId_t.lt tbId tbInfo s.m_expectedDiscTbs })
  if ndi ≠ 0 then do
    onSlHarq (.ResetDiscHarqProcessStatus rnti resPsdch)
    onSlHarq (.ResetDiscTbPrevDecoded rnti resPsdch)

/-! ## `LteSpectrumPhy::EndRxData` -/

/-- `sinr[i]` for an `int` index: `SpectrumValue::operator[]` is range checked. -/
def svAt (sinr : SpectrumValue) (i : Int) : Option ℚ :=
  if i < 0 then none else sinr[i.toNat]?

/-- The sum of `sinr[map.at (i)]` over the entries of `map`, `none` on an access out of
range. -/
def sumOver (sinr : SpectrumValue) : List Int → Option ℚ
  | [] => some 0
  | i :: rest =>
      match svAt sinr i, sumOver sinr rest with
      | some x, some y => some (x + y)
      | _, _ => none

/-- `Simulator::Now ().GetMilliSeconds ()`. -/
def milliSeconds (now : Time) : Int := now / 1000000

/-- One pass of the loop `while (itTb != m_expectedTbs.end ())` of `EndRxData`, for the entry
`e` standing between the entries `done` and `rest` of `m_expectedTbs`. -/
def EndRxData_tb (env : Env) (now : Time) (done : StdMap TbId_t tbInfo_t)
    (e : TbId_t × tbInfo_t) (rest : StdMap TbId_t tbInfo_t) : PhyM (TbId_t × tbInfo_t) := do
  let st ← get
  if st.m_dataErrorModelEnabled && decide (st.m_rxPacketBurstList.length > 0) then do
    let harqInfoList : HarqProcessInfoList_t :=
      if e.2.ndi = 0 then
        if e.2.downlink then
          env.GetHarqProcessInfoDl st.m_harqPhyModule e.2.harqProcessId e.1.m_layer
        else
          env.GetHarqProcessInfoUl st.m_harqPhyModule e.1.m_rnti 0
      else []
    let tbStats :=
      env.GetTbDecodificationStats st.m_sinrPerceived e.2.rbBitmap e.2.size e.2.mcs harqInfoList
    let rnd := env.random st.m_random
    let info : tbInfo_t :=
      { e.2 with mi := tbStats.mi, corrupt := if rnd > tbStats.tbler then false else true }
    modify (fun s =>
      { s with m_random := s.m_random + 1, m_expectedTbs := done ++ (e.1, info) :: rest })
    match sumOver st.m_sinrPerceived info.rbBitmap with
    | none => abortWith (.outOfRange "sinrCopy[map.at (i)]")
    | some sum =>
        let params : PhyReceptionStatParameters :=
          { m_timestamp := milliSeconds now, m_cellId := st.m_cellId, m_imsi := 0,
            m_rnti := e.1.m_rnti, m_txMode := st.m_transmissionMode, m_layer := e.1.m_layer,
            m_mcs := info.mcs, m_size := info.size, m_rv := info.rv, m_ndi := info.ndi,
            m_correctness := if info.corrupt then 0 else 1, m_ccId := st.m_componentCarrierId,
            m_sinrPerRb := sum / (info.rbBitmap.length : ℚ) }
        if info.downlink then
          emit (.dlPhyReception params)
        else
          emit (.ulPhyReception { params with m_rv := harqInfoList.length })
    pure (e.1, info)
  else
    pure e

/-- The loop `while (itTb != m_expectedTbs.end ())` of `EndRxData`: `done` are the entries
already visited, the second list those still to visit. -/
def EndRxData_tbs (env : Env) (now : Time) :
    StdMap TbId_t tbInfo_t → StdMap TbId_t tbInfo_t → PhyM Unit
  | _, [] => pure ()
  | done, e :: rest => do
      let e1 ← EndRxData_tb env now done e rest
      EndRxData_tbs env now (done ++ [e1]) rest

/-- First part of `EndRxData`: the evaluation of the accumulator, the transmission mode gain
and the error model loop. -/
def EndRxData_errorModel (env : Env) (now : Time) : PhyM Unit := do
  let st ← get
  NS_ASSERT (decide (st.m_state = .RX_DATA)) "m_state == RX_DATA"
  onInterferenceData (.EndRx now)
  let st1 ← get
  match env.dataSinrFeedback st1.m_interferenceData.calls with
  | some sinr => UpdateSinrPerceived sinr
  | none => pure ()
  let st2 ← get
  NS_ASSERT (decide (st2.m_transmissionMode < st2.m_txModeGain.length))
    "m_transmissionMode < m_txModeGain.size ()"
  match st2.m_txModeGain[st2.m_transmissionMode]? with
  | none => abortWith (.outOfRange "m_txModeGain.at (m_transmissionMode)")
  | some gain =>
      modify (fun s => { s with m_sinrPerceived := svScale s.m_sinrPerceived gain })
  let st3 ← get
  EndRxData_tbs env now [] st3.m_expectedTbs

/-- The HARQ feedback part of the packet loop of `EndRxData` for an uplink descriptor. -/
def EndRxData_ulFeedback (tbId : TbId_t) (info : tbInfo_t) : PhyM Unit := do
  let st ← get
  if info.corrupt then do
    match EffectiveCodingRate[info.mcs]? with
    | none => abortWith (.outOfRange "EffectiveCodingRate[mcs]")
    | some rate =>
        onHarq (.UpdateUlHarqProcessStatus tbId.m_rnti info.mi info.size
          ((info.size : ℚ) / rate))
    if st.m_ltePhyUlHarqFeedbackCallback then
      emit (.ltePhyUlHarqFeedbackCallback
        { m_rnti := tbId.m_rnti, m_tpc := 0, m_receptionStatus := .NotOk })
  else do
    onHarq (.ResetUlHarqProcessStatus tbId.m_rnti info.harqProcessId)
    if st.m_ltePhyUlHarqFeedbackCallback then
      emit (.ltePhyUlHarqFeedbackCallback
        { m_rnti := tbId.m_rnti, m_tpc := 0, m_receptionStatus := .Ok })

/-- The HARQ feedback part of the packet loop of `EndRxData` for a downlink descriptor; the
argument and the result are the local map `harqDlInfoMap`. -/
def EndRxData_dlFeedback (tbId : TbId_t) (info : tbInfo_t)
    (harqDlInfoMap : StdMap Nat DlInfoListElement_s) :
    PhyM (StdMap Nat DlInfoListElement_s) := do
  let st ← get
  let status : HarqStatus_e := if info.corrupt then .NACK else .ACK
  match StdMap.find natLt tbId.m_rnti harqDlInfoMap with
  | none => do
      let harqDlInfo : DlInfoListElement_s :=
        { m_harqStatus := List.replicate st.m_layersNum .ACK, m_rnti := tbId.m_rnti,
          m_harqProcessId := info.harqProcessId }
      if tbId.m_layer < harqDlInfo.m_harqStatus.length then do
        if info.corrupt then
          match EffectiveCodingRate[info.mcs]? with
          | none => abortWith (.outOfRange "EffectiveCodingRate[mcs]")
          | some rate =>
              onHarq (.UpdateDlHarqProcessStatus info.harqProcessId tbId.m_layer info.mi
                info.size ((info.size : ℚ) / rate))
        else
          onHarq (.ResetDlHarqProcessStatus info.harqProcessId)
        pure (StdMap.insert natLt tbId.m_rnti
          { harqDlInfo with m_harqStatus := harqDlInfo.m_harqStatus.set tbId.m_layer status }
          harqDlInfoMap)
      else
        abortWith (.outOfRange "harqDlInfo.m_harqStatus.at (tbId.m_layer)")
  | some (_, harqDlInfo) => do
      if info.corrupt then do
        if tbId.m_layer < harqDlInfo.m_harqStatus.length then
          match EffectiveCodingRate[info.mcs]? with
          | none => abortWith (.outOfRange "EffectiveCodingRate[mcs]")
          | some rate =>
              onHarq (.UpdateDlHarqProcessStatus info.harqProcessId tbId.m_layer info.mi
                info.size ((info.size : ℚ) / rate))
        else
          abortWith (.outOfRange "(*itHarq).second.m_harqStatus.at (tbId.m_layer)")
      else do
        NS_ASSERT (decide (tbId.m_layer < harqDlInfo.m_harqStatus.length))
          "tbId.m_layer < (*itHarq).second.m_harqStatus.size ()"
        onHarq (.ResetDlHarqProcessStatus info.harqProcessId)
      pure (StdMap.update natLt tbId.m_rnti
        (fun d => { d with m_harqStatus := d.m_harqStatus.set tbId.m_layer status })
        harqDlInfoMap)

/-- The outcome notification of the packet loop of `EndRxData` for the packet `p`, whose
descriptor is `info`. -/
def EndRxData_notify (p : Packet) (info : tbInfo_t) : PhyM Unit := do
  let st ← get
  if !info.corrupt then do
    emit (.phyRxEndOkTrace p)
    if st.m_ltePhyRxDataEndOkCallback then
      emit (.ltePhyRxDataEndOkCallback p)
  else
    emit (.phyRxEndErrorTrace p)

/-- The HARQ feedback of the packet loop of `EndRxData` for a packet whose descriptor `info` is
registered under `tbId`: sent unless already sent for this descriptor. -/
def EndRxData_feedback (tbId : TbId_t) (info : tbInfo_t)
    (harqDlInfoMap : StdMap Nat DlInfoListElement_s) :
    PhyM (StdMap Nat DlInfoListElement_s) := do
  if !info.harqFeedbackSent then do
    modify (fun s =>
      { s with m_expectedTbs :=
          (StdMap.update TbId_t.lt tbId (fun i => { i with harqFeedbackSent := true })
            s.m_expectedTbs) })
    if !info.downlink then do
      EndRxData_ulFeedback tbId info
      pure harqDlInfoMap
    else
      EndRxData_dlFeedback tbId info harqDlInfoMap
  else
    pure harqDlInfoMap

/-- The body of the packet loop of `EndRxData` for the packet `p`. -/
def EndRxData_packet (p : Packet) (harqDlInfoMap : StdMap Nat DlInfoListElement_s) :
    PhyM (StdMap Nat DlInfoListElement_s) := do
  let st ← get
  let tbId : TbId_t := { m_rnti := p.tag.m_rnti, m_layer := p.tag.m_layer }
  match StdMap.find TbId_t.lt tbId st.m_expectedTbs with
  | none => pure harqDlInfoMap
  | some (_, info) => do
      EndRxData_notify p info
      EndRxData_feedback tbId info harqDlInfoMap

/-- The packet loop of `EndRxData` over the packets `ps`, in order. -/
def EndRxData_packets :
    List Packet → StdMap Nat DlInfoListElement_s → PhyM (StdMap Nat DlInfoListElement_s)
  | [], harqDlInfoMap => pure harqDlInfoMap
  | p :: ps, harqDlInfoMap => do
      let m1 ← EndRxData_packet p harqDlInfoMap
      EndRxData_packets ps m1

/-- The loop sending the entries of `harqDlInfoMap` to `m_ltePhyDlHarqFeedbackCallback`. -/
def EndRxData_sendDlFeedback : List (Nat × DlInfoListElement_s) → PhyM Unit
  | [] => pure ()
  | e :: rest => do
      let st ← get
      if st.m_ltePhyDlHarqFeedbackCallback then
        emit (.ltePhyDlHarqFeedbackCallback e.2)
      EndRxData_sendDlFeedback rest

/-- Second part of `EndRxData`: the notification of every received packet, the HARQ feedback
and the forwarding of the control messages. -/
def EndRxData_deliver : PhyM Unit := do
  let st ← get
  let harqDlInfoMap ← EndRxData_packets st.m_rxPacketBurstList.flatten []
  EndRxData_sendDlFeedback harqDlInfoMap
  let st1 ← get
  if !st1.m_rxControlMessageList.isEmpty then
    if st1.m_ltePhyRxCtrlEndOkCallback then
      emit (.ltePhyRxCtrlEndOkCallback st1.m_rxControlMessageList)

/-- Last part of `EndRxData`: back to `IDLE`, the window and the registry are cleared. -/
def EndRxData_close : PhyM Unit := do
  ChangeState .IDLE
  modify (fun s => { s with m_rxPacketBurstList := [] })
  modify (fun s => { s with m_rxControlMessageList := [] })
  modify (fun s => { s with m_expectedTbs := [] })

/-- `LteSpectrumPhy::EndRxData`. -/
def EndRxData (env : Env) (now : Time) : PhyM Unit := do
  EndRxData_errorModel env now
  EndRxData_deliver
  EndRxData_close

/-! ## `LteSpectrumPhy::EndRxSlData` -/

/-- `LteSpectrumPhy::GetMeanSinr`. -/
def GetMeanSinr (sinr : SpectrumValue) (map : List Int) : PhyM ℚ :=
  match sumOver sinr map with
  | some s => pure (s / (map.length : ℚ))
  | none => abortWith (.outOfRange "sinrCopy[map.at (i)]")

/-- The element `v[i]` of a vector; the run ends on an index out of range. -/
def vectorAt {α : Type} (what : String) (v : List α) (i : Nat) : PhyM α :=
  match v[i]? with
  | some x => pure x
  | none => abortWith (.outOfRange what)

/-- The identity read from the tag of a sidelink packet: the RNTI and the low eight bits of the
destination layer-2 id. -/
def slTagId (p : Packet) : SlTbId_t :=
  { m_rnti := p.tag.m_rnti, m_l1dst := p.tag.m_destinationL2Id % 256 }

/-- The loop of `EndRxSlData` that maps the tag of the first packet of every data burst to the
index of the burst in `m_rxPacketInfo`, from index `i` on. -/
def EndRxSlData_sinrIndex :
    Nat → List SlRxPacketInfo_t → StdMap SlTbId_t Nat → PhyM (StdMap SlTbId_t Nat)
  | _, [], m => pure m
  | i, info :: rest, m =>
      match info.m_rxPacketBurst with
      | some (p :: _) =>
          EndRxSlData_sinrIndex (i + 1) rest (StdMap.insert SlTbId_t.lt (slTagId p) i m)
      | some [] => abortWith (.nullDeref "*m_rxPacketBurst->Begin ()")
      | none => EndRxSlData_sinrIndex (i + 1) rest m

/-- The pass over one resource-block map of the loops that identify collisions: a block seen
before goes to the collided set, a new block to the set of blocks seen.  The result is the
pair (seen, collided). -/
def collisionScan (seen collided : List Int) : List Int → List Int × List Int
  | [] => (seen, collided)
  | rb :: rest =>
      if rb ∈ seen then collisionScan seen (collided ++ [rb]) rest
      else collisionScan (seen ++ [rb]) collided rest

/-- The same pass with the `break` of the control-channel loop after the first collision. -/
def collisionScanBreak (seen collided : List Int) : List Int → List Int × List Int
  | [] => (seen, collided)
  | rb :: rest =>
      if rb ∈ seen then (seen, collided ++ [rb])
      else collisionScanBreak (seen ++ [rb]) collided rest

/-- The collided blocks of the data and discovery channels: the blocks used by two or more of
the given resource-block maps (or twice by one of them). -/
def collidedRbs (maps : List (List Int)) : List Int :=
  (maps.foldl (fun sc m => collisionScan sc.1 sc.2 m) ([], [])).2

/-- The collided blocks of the control channel. -/
def collidedRbsBreak (maps : List (List Int)) : List Int :=
  (maps.foldl (fun sc m => collisionScanBreak sc.1 sc.2 m) ([], [])).2

/-- One pass of the loop `while (itTb != m_expectedSlTbs.end ())` of `EndRxSlData`, for the
entry `e` standing between the entries `done` and `rest` of `m_expectedSlTbs`. -/
def EndRxSlData_tb (env : Env) (now : Time) (expectedTbToSinrIndex : StdMap SlTbId_t Nat)
    (collidedRbBitmap : List Int) (done : StdMap SlTbId_t SltbInfo_t)
    (e : SlTbId_t × SltbInfo_t) (rest : StdMap SlTbId_t SltbInfo_t) :
    PhyM (SlTbId_t × SltbInfo_t) := do
  let st ← get
  match StdMap.find SlTbId_t.lt e.1 expectedTbToSinrIndex with
  | none => pure e
  | some (_, idx) =>
    if st.m_rxPacketInfo.length > 0 then do
      let rbCollided : Bool :=
        st.m_dropRbOnCollisionEnabled && e.2.rbBitmap.any (fun rb => decide (rb ∈ collidedRbBitmap))
      let harqInfoList : HarqProcessInfoList_t :=
        if st.m_slDataErrorModelEnabled ∧ e.2.ndi = 0 then
          env.GetHarqProcessInfoSl st.m_slHarqPhyModule e.1.m_rnti e.1.m_l1dst
        else []
      let info0 : SltbInfo_t := if rbCollided then { e.2 with corrupt := true } else e.2
      modify (fun s => { s with m_expectedSlTbs := done ++ (e.1, info0) :: rest })
      let info ←
        if st.m_slDataErrorModelEnabled then do
          let sinr ← vectorAt "m_slSinrPerceived[(*itSinr).second]" st.m_slSinrPerceived idx
          let meanSinr ← GetMeanSinr (svScale sinr st.m_slRxGain) info0.rbBitmap
          let tbStats := env.GetPsschBler info0.mcs meanSinr harqInfoList
          let info1 : SltbInfo_t := { info0 with sinr := tbStats.sinr }
          if !rbCollided then
            if env.IsPrevDecoded st.m_slHarqPhyModule e.1.m_rnti e.1.m_l1dst then
              pure { info1 with corrupt := false }
            else do
              let rndVal := env.random st.m_random
              modify (fun s => { s with m_random := s.m_random + 1 })
              pure { info1 with corrupt := if rndVal > tbStats.tbler then false else true }
          else
            pure info1
        else
          if !rbCollided then pure { info0 with corrupt := false } else pure info0
      modify (fun s => { s with m_expectedSlTbs := done ++ (e.1, info) :: rest })
      let sinr ← vectorAt "m_slSinrPerceived[(*itSinr).second]" st.m_slSinrPerceived idx
      let sinrPerRb ← GetMeanSinr (svScale sinr st.m_slRxGain) info.rbBitmap
      emit (.slPhyReception
        { m_timestamp := milliSeconds now, m_cellId := st.m_cellId, m_imsi := 0,
          m_rnti := e.1.m_rnti, m_txMode := st.m_transmissionMode, m_layer := 0,
          m_mcs := info.mcs, m_size := info.size, m_rv := harqInfoList.length,
          m_ndi := info.ndi, m_correctness := if info.corrupt then 0 else 1,
          m_sinrPerRb := sinrPerRb })
      pure (e.1, info)
    else
      pure e

/-- The loop `while (itTb != m_expectedSlTbs.end ())` of `EndRxSlData`. -/
def EndRxSlData_tbs (env : Env) (now : Time) (expectedTbToSinrIndex : StdMap SlTbId_t Nat)
    (collidedRbBitmap : List Int) :
    StdMap SlTbId_t SltbInfo_t → StdMap SlTbId_t SltbInfo_t → PhyM Unit
  | _, [] => pure ()
  | done, e :: rest => do
      let e1 ← EndRxSlData_tb env now expectedTbToSinrIndex collidedRbBitmap done e rest
      EndRxSlData_tbs env now expectedTbToSinrIndex collidedRbBitmap (done ++ [e1]) rest

/-- The body of the data packet loop of `EndRxSlData` for the packet `p`. -/
def EndRxSlData_packet (env : Env) (p : Packet) : PhyM Unit := do
  let st ← get
  let tbId := slTagId p
  match StdMap.find SlTbId_t.lt tbId st.m_expectedSlTbs with
  | none => pure ()
  | some (key, info) => do
      onSlHarq (.IncreaseTbIdx key.m_rnti key.m_l1dst)
      let st1 ← get
      if !info.corrupt && !env.IsPrevDecoded st1.m_slHarqPhyModule key.m_rnti key.m_l1dst then do
        onSlHarq (.IndicatePrevDecoded key.m_rnti key.m_l1dst)
        emit (.phyRxEndOkTrace p)
        if st.m_ltePhyRxDataEndOkCallback then
          emit (.ltePhyRxDataEndOkCallback p)
      else
        emit (.phyRxEndErrorTrace p)
      onSlHarq (.UpdateSlHarqProcessStatus tbId.m_rnti tbId.m_l1dst info.sinr)

/-- The data packet loop of `EndRxSlData` over the packets `ps`, in order. -/
def EndRxSlData_packets (env : Env) : List Packet → PhyM Unit
  | [] => pure ()
  | p :: ps => do
      EndRxSlData_packet env p
      EndRxSlData_packets env ps

/-- The packets of the data bursts of the reception window, in order. -/
def slDataPackets (window : List SlRxPacketInfo_t) : List Packet :=
  window.flatMap (fun info => info.m_rxPacketBurst.getD [])

/-- Insertion into a `std::multiset` kept as its sorted sequence: before the first element
that the new one precedes. -/
def multisetInsert (v : SlCtrlPacketInfo_t) : List SlCtrlPacketInfo_t → List SlCtrlPacketInfo_t
  | [] => [v]
  | e :: rest => if SlCtrlPacketInfo_t.lt v e then v :: e :: rest else e :: multisetInsert v rest

/-- The colour of a node of the red-black tree that libstdc++ keeps behind a `std::set`. -/
inductive RbColor where
  | red
  | black
  deriving DecidableEq, Repr

/-- The red-black tree of a `std::set<SlCtrlPacketInfo_t>` (libstdc++ `_Rb_tree`). -/
inductive RbTree where
  | leaf : RbTree
  | node (color : RbColor) (left : RbTree) (value : SlCtrlPacketInfo_t) (right : RbTree) : RbTree
  deriving DecidableEq, Repr

/-- The elements from `begin ()` to `end ()`: the tree in order. -/
def RbTree.toList : RbTree → List SlCtrlPacketInfo_t
  | .leaf => []
  | .node _ l v r => l.toList ++ v :: r.toList

/-- Whether the root of the subtree is a red node. -/
def RbTree.isRed : RbTree → Bool
  | .node .red _ _ _ => true
  | _ => false

/-- The subtree with its root coloured black. -/
def RbTree.blacken : RbTree → RbTree
  | .node _ l v r => .node .black l v r
  | .leaf => .leaf

/-- The step of `_Rb_tree_insert_and_rebalance` at the node with colour `c`, value `gv` and
right subtree `u`, after the insertion into its left subtree, now `p`: when `p` is red and has
a red child, a red uncle `u` gives the recolouring (the red node moves up to this node), and a
black uncle gives the rotation to the left at `p` if the red child is the right one, then the
rotation to the right at this node. -/
def RbTree.fixLeft (c : RbColor) (p : RbTree) (gv : SlCtrlPacketInfo_t) (u : RbTree) : RbTree :=
  match p with
  | .node .red pl pv pr =>
      if pl.isRed then
        if u.isRed then .node .red (.node .black pl pv pr) gv u.blacken
        else .node .black pl pv (.node .red pr gv u)
      else
        match pr with
        | .node .red xl xv xr =>
            if u.isRed then .node .red (.node .black pl pv pr) gv u.blacken
            else .node .black (.node .red pl pv xl) xv (.node .red xr gv u)
        | _ => .node c p gv u
  | _ => .node c p gv u

/-- The step of `_Rb_tree_insert_and_rebalance` at the node with colour `c`, value `gv` and
left subtree `u`, after the insertion into its right subtree, now `p`: the mirror image of
`fixLeft`. -/
def RbTree.fixRight (c : RbColor) (u : RbTree) (gv : SlCtrlPacketInfo_t) (p : RbTree) : RbTree :=
  match p with
  | .node .red pl pv pr =>
      if pr.isRed then
        if u.isRed then .node .red u.blacken gv (.node .black pl pv pr)
        else .node .black (.node .red u gv pl) pv pr
      else
        match pl with
        | .node .red xl xv xr =>
            if u.isRed then .node .red u.blacken gv (.node .black pl pv pr)
            else .node .black (.node .red u gv xl) xv (.node .red xr pv pr)
        | _ => .node c u gv p
  | _ => .node c u gv p

/-- The descent of `_M_get_insert_unique_pos` followed by `_M_insert_` and the rebalancing on
the way back: at each node the new element goes to the left if it compares less than the
node and to the right otherwise; `prev` is the last node the descent left to the right, the
element before the place found.  At the place the element is inserted as a red node unless
`prev` does not compare less than it; the result is `none` when nothing is inserted. -/
def RbTree.ins (v : SlCtrlPacketInfo_t) : Option SlCtrlPacketInfo_t → RbTree → Option RbTree
  | none, .leaf => some (.node .red .leaf v .leaf)
  | some prev, .leaf =>
      if SlCtrlPacketInfo_t.lt prev v then some (.node .red .leaf v .leaf) else none
  | prev, .node c l x r =>
      if SlCtrlPacketInfo_t.lt v x then
        (RbTree.ins v prev l).map (fun l1 => RbTree.fixLeft c l1 x r)
      else
        (RbTree.ins v (some x) r).map (fun r1 => RbTree.fixRight c l x r1)

/-- The function `std::set::insert` of libstdc++ (`_M_insert_unique`): the element is placed
by `RbTree.ins` and the root is coloured black; the set is unchanged when the element before
the place found does not compare less than the new one. -/
def setInsert (v : SlCtrlPacketInfo_t) (t : RbTree) : RbTree :=
  match RbTree.ins v none t with
  | some t1 => t1.blacken
  | none => t

/-- The loop of `EndRxSlData` that sorts the control messages other than discovery messages by
mean SINR, from index `i` on. -/
def EndRxSlData_sortCtrl :
    Nat → List SlRxPacketInfo_t → List SlCtrlPacketInfo_t → PhyM (List SlCtrlPacketInfo_t)
  | _, [], sorted => pure sorted
  | i, info :: rest, sorted => do
      let st ← get
      match info.m_rxControlMessage with
      | some msg =>
          if msg.GetMessageType ≠ .SL_DISC_MSG then do
            let sinr ← vectorAt "m_slSinrPerceived[i]" st.m_slSinrPerceived i
            let meanSinr ← GetMeanSinr sinr info.rbBitmap
            EndRxSlData_sortCtrl (i + 1) rest
              (multisetInsert { sinr := meanSinr, index := (i : Int) } sorted)
          else
            EndRxSlData_sortCtrl (i + 1) rest sorted
      | none => EndRxSlData_sortCtrl (i + 1) rest sorted

/-- The assignment `map[row][col] = x` on a vector of vectors. -/
def setCell {α : Type} (what : String) (map : List (List α)) (row col : Nat) (x : α) :
    PhyM (List (List α)) := do
  let r ← vectorAt what map row
  if col < r.length then
    pure (map.set row (r.set col x))
  else
    abortWith (.outOfRange what)

/-- `LteSpectrumPhy::UpdateRssiRsrpMap`; the device is taken to be an `LteUeNetDevice`. -/
def UpdateRssiRsrpMap (env : Env) (now : Time) (sigIndex : Nat) : PhyM Unit := do
  let st ← get
  let interference ←
    vectorAt "m_slInterferencePerceived[sigIndex]" st.m_slInterferencePerceived sigIndex
  let signal ← vectorAt "m_slSignalPerceived[sigIndex]" st.m_slSignalPerceived sigIndex
  if interference.length < signal.length then
    abortWith (.outOfRange "*itIntN")
  else do
    let rbNum := signal.length % 65536
    let rsrpSum := (signal.map (fun p => p * 180000 / 12)).sum
    let rssiSum :=
      (List.zipWith (fun i p => 2 * (i * 180000 / 12 + p * 180000 / 12)) interference signal).sum
    if st.m_RbPerSubChannel = 0 then
      abortWith (.undefinedBehaviour "m_slRxRbStartIdx / m_RbPerSubChannel")
    else do
      let subChannel := st.m_slRxRbStartIdx / st.m_RbPerSubChannel
      let subFrame := (milliSeconds now % 1000).toNat
      let rssi := rssiSum / (rbNum : ℚ)
      let rssiMap ← setCell "m_rssiMap[subChannel][subFrame]" st.m_rssiMap subChannel subFrame rssi
      modify (fun s => { s with m_rssiMap := rssiMap })
      let rsrp_dBm := env.dBm (rsrpSum / (rbNum : ℚ))
      let rsrpMap ←
        setCell "m_rsrpMap[subChannel][subFrame]" st.m_rsrpMap subChannel subFrame rsrp_dBm
      modify (fun s => { s with m_rsrpMap := rsrpMap })
      let decodingMap ←
        setCell "m_decodingMap[subChannel][subFrame]" st.m_decodingMap subChannel subFrame
          st.m_isDecoded
      modify (fun s => { s with m_decodingMap := decodingMap })

/-- The local variables of `EndRxSlData` that live across the control message loop. -/
structure SlCtrlLocals where
  rxControlMessageOkList : List LteControlMessage := []
  error : Bool := true
  ctrlMessageFound : Bool := false
  rbDecodedBitmap : List Int := []
  deriving DecidableEq, Repr

/-- The local variables `corrupt`, `weakSignal`, `conflict` and `first` of one pass of the
control message loop. -/
structure SlCtrlVerdict where
  corrupt : Bool := false
  weakSignal : Bool := false
  conflict : Bool := false
  first : Bool := true
  deriving DecidableEq, Repr

/-- The loop over the resource blocks of a control message, with the error model enabled:
a collided block marks the message corrupted; a block already decoded marks it corrupted and
in conflict and clears `first`; either ends the loop. -/
def ctrlRbScan (collided decoded : List Int) : List Int → SlCtrlVerdict
  | [] => {}
  | rb :: rest =>
      if rb ∈ collided then { corrupt := true }
      else if rb ∈ decoded then { corrupt := true, first := false, conflict := true }
      else ctrlRbScan collided decoded rest

/-- The error model part of one pass of the control message loop of `EndRxSlData`, for the
message `msg` at index `i` of the reception window. -/
def EndRxSlData_ctrlVerdict (env : Env) (collided : List Int) (loc : SlCtrlLocals) (i : Nat)
    (info : SlRxPacketInfo_t) (msg : LteControlMessage) : PhyM SlCtrlVerdict := do
  let st ← get
  if st.m_slCtrlErrorModelEnabled then do
    let v := ctrlRbScan collided loc.rbDecodedBitmap info.rbBitmap
    if !v.corrupt then
      if msg.GetMessageType = .SCI then do
        let interference ←
          vectorAt "m_slInterferencePerceived[i]" st.m_slInterferencePerceived i
        let mean ← GetMeanSinr (svScale interference st.m_slRxGain) info.rbBitmap
        let weakSignalTest := (env.GetPscchBler mean).tbler
        let rnd := env.random st.m_random
        modify (fun s => { s with m_random := s.m_random + 1 })
        let weakSignal : Bool := if rnd > weakSignalTest then false else true
        if weakSignal then
          pure { v with weakSignal := true, conflict := false }
        else if !weakSignal && !v.conflict then do
          let sinr ← vectorAt "m_slSinrPerceived[i]" st.m_slSinrPerceived i
          let mean2 ← GetMeanSinr (svScale sinr st.m_slRxGain) info.rbBitmap
          let conflictTest := (env.GetPscchBler mean2).tbler
          let st1 ← get
          let rnd2 := env.random st1.m_random
          modify (fun s => { s with m_random := s.m_random + 1 })
          pure { v with weakSignal := false, conflict := if rnd2 > conflictTest then false else true }
        else
          pure { v with weakSignal := false }
      else if msg.GetMessageType = .MIB_SL then do
        let sinr ← vectorAt "m_slSinrPerceived[i]" st.m_slSinrPerceived i
        let mean ← GetMeanSinr (svScale sinr st.m_slRxGain) info.rbBitmap
        let errorRate := (env.GetPsbchBler mean).tbler
        let rnd := env.random st.m_random
        modify (fun s => { s with m_random := s.m_random + 1 })
        pure { v with corrupt := if rnd > errorRate then false else true }
      else
        pure v
    else
      pure v
  else
    if st.m_dropRbOnCollisionEnabled then
      pure { corrupt := info.rbBitmap.any (fun rb => decide (rb ∈ collided)) }
    else
      pure {}

/-- The PSCCH trace part of one pass of the control message loop of `EndRxSlData`, for an SCI
message; `error` is the local flag after this pass. -/
def EndRxSlData_sciTrace (env : Env) (now : Time) (msg : LteControlMessage)
    (v : SlCtrlVerdict) (error : Bool) : PhyM Unit := do
  let st ← get
  let rnti := msg.sciRnti
  if rnti = 0 then
    abortWith (.outOfRange "m_nodeList.Get (params.m_rnti - 1)")
  else do
    let txPos ← vectorAt "m_nodeList.Get (params.m_rnti - 1)" st.m_nodeList (rnti - 1)
    let rxPos := st.position
    let deltaX := rxPos.1 - txPos.1
    let deltaY := rxPos.2 - txPos.2
    let timestamp := milliSeconds now
    let nextTxTime : Int := (wrap32 (st.m_nextTxTime + 4) : Nat)
    modify (fun s => { s with m_txID := rnti })
    let halfDuplex : Bool := decide (nextTxTime = timestamp)
    if halfDuplex then
      modify (fun s => { s with m_isDecoded := false, isTx := true })
    else
      modify (fun s => { s with isTx := false })
    let correctness : Nat := if halfDuplex then 0 else if error then 0 else 1
    let isTx : Bool := halfDuplex
    let rxType : Nat :=
      if correctness ≠ 0 then 0
      else if v.weakSignal then 1
      else if v.conflict then 2
      else if isTx then 3
      else 4
    let params : SlPhyReceptionStatParameters :=
      { m_timestamp := timestamp, m_cellId := st.m_cellId, m_rnti := rnti,
        m_correctness := correctness, m_conflict := v.conflict, m_weakSignal := v.weakSignal,
        m_isTx := if isTx then 1 else 0, m_nextTxTime := nextTxTime, m_rxType := rxType }
    let last ← vectorAt "m_msgLastReception[params.m_rnti - 1]" st.m_msgLastReception (rnti - 1)
    if env.nearerThan150 (deltaX * deltaX + deltaY * deltaY) then do
      let params1 : SlPhyReceptionStatParameters ←
        if last = 0 then do
          modify (fun s =>
            { s with m_msgLastReception := s.m_msgLastReception.set (rnti - 1) (timestamp % 2 ^ 32) })
          pure { params with m_neighbor := 1, m_msgInterval := 0 }
        else do
          if correctness ≠ 0 then
            modify (fun s =>
              { s with m_msgLastReception :=
                  s.m_msgLastReception.set (rnti - 1) (timestamp % 2 ^ 32) })
          pure { params with m_neighbor := 1, m_msgInterval := timestamp - last }
      if rxPos.1 < 100000 ∧ rxPos.2 < 100000 ∧ txPos.1 < 100000 ∧ txPos.2 < 100000 then
        emit (.slPscchReception params1)
    else
      modify (fun s => { s with m_msgLastReception := s.m_msgLastReception.set (rnti - 1) 0 })

/-- One pass of the control message loop of `EndRxSlData`, for the entry `it` of the sorted
messages. -/
def EndRxSlData_ctrl (env : Env) (now : Time) (collided : List Int) (it : SlCtrlPacketInfo_t)
    (loc : SlCtrlLocals) : PhyM SlCtrlLocals := do
  let st ← get
  let i := it.index.toNat
  let info ← vectorAt "m_rxPacketInfo[i]" st.m_rxPacketInfo i
  match info.m_rxControlMessage with
  | none => abortWith (.nullDeref "m_rxPacketInfo[i].m_rxControlMessage")
  | some msg => do
      let v ← EndRxSlData_ctrlVerdict env collided loc i info msg
      modify (fun s => { s with m_isDecoded := false })
      let loc1 : SlCtrlLocals ←
        (if !v.weakSignal && !v.conflict then do
          modify (fun s => { s with m_isDecoded := true })
          pure { loc with
            ctrlMessageFound := true, error := false,
            rxControlMessageOkList := loc.rxControlMessageOkList ++ [msg],
            rbDecodedBitmap := loc.rbDecodedBitmap ++ info.rbBitmap }
        else
          pure { loc with ctrlMessageFound := true })
      (if msg.GetMessageType = .SCI then
        EndRxSlData_sciTrace env now msg v loc1.error
      else pure ())
      let st1 ← get
      (if v.first && !st1.isTx then
        UpdateRssiRsrpMap env now i
      else pure ())
      pure loc1

/-- The control message loop of `EndRxSlData` over the sorted messages. -/
def EndRxSlData_ctrls (env : Env) (now : Time) (collided : List Int) :
    List SlCtrlPacketInfo_t → SlCtrlLocals → PhyM SlCtrlLocals
  | [], loc => pure loc
  | it :: rest, loc => do
      let loc1 ← EndRxSlData_ctrl env now collided it loc
      EndRxSlData_ctrls env now collided rest loc1

/-- The control part of `EndRxSlData`: the messages are sorted, the collisions identified,
the messages decoded in order, and the result reported through the control callbacks. -/
def EndRxSlData_control (env : Env) (now : Time) : PhyM Unit := do
  let st ← get
  let sortedControlMessages ← EndRxSlData_sortCtrl 0 st.m_rxPacketInfo []
  let collidedRbBitmap : List Int :=
    if st.m_dropRbOnCollisionEnabled then
      collidedRbsBreak
        (sortedControlMessages.map (fun it => (st.m_rxPacketInfo.getD it.index.toNat {}).rbBitmap))
    else []
  let loc ← EndRxSlData_ctrls env now collidedRbBitmap sortedControlMessages {}
  if loc.ctrlMessageFound then
    if !loc.error then
      if st.m_ltePhyRxCtrlEndOkCallback then
        emit (.ltePhyRxCtrlEndOkCallback loc.rxControlMessageOkList)
    else
      if st.m_ltePhyRxCtrlEndErrorCallback then
        emit .ltePhyRxCtrlEndErrorCallback

/-! ## `LteSpectrumPhy::RxDiscovery` -/

/-- `LteSpectrumPhy::FilterRxApps`. -/
def FilterRxApps (disc : SlDiscMsg) : PhyM Bool := do
  let st ← get
  pure (st.m_discRxApps.any (fun app => decide (app = disc.m_proSeAppCode)))

/-- The resource blocks `rbStart, ..., rbStart + nbRb - 1` of one PSDCH transmission. -/
def psdchRbs (tx : SidelinkTransmissionInfo) : List Int :=
  (List.range tx.nbRb.toNat).map (fun k => tx.rbStart + (k : Int))

/-- The loop `while (txIt != m_psdchTx.end ())` of `RxDiscovery`: the resource-block map of
the first transmission whose blocks are those of the received message, if there is one. -/
def psdchMatch (rbBitmap : List Int) : List SidelinkTransmissionInfo → Option (List Int)
  | [] => none
  | tx :: rest =>
      if rbBitmap = psdchRbs tx then some (psdchRbs tx) else psdchMatch rbBitmap rest

/-- The value of `it->second` with `it` at `end ()` of the map `m_slDiscTxCount`.  The
iterator then points at the header of the tree of libstdc++, where the place of the pair of a
node is taken by the node count: on a little-endian machine `first` is its bits 0..15 and
`second` its bits 16..31. -/
def endSecond (m_slDiscTxCount : StdMap Nat Nat) : Nat :=
  (m_slDiscTxCount.length / 65536) % 65536

/-- The body of the loop of `RxDiscovery` over the discovery reception pools, for the message
`disc` received on the blocks `rbBitmap` and the pool `pool`.  When the source has no counter
yet, the counter is inserted with 1 and the test `it->second == m_psdchTx.size ()` is made
with `it` still at `end ()`; the value read there is `endSecond`, and the run ends where the
code would go on to store 0 through that iterator (never with fewer than 131072 counters,
`m_psdchTx.size ()` being 2 at least; a map with keys of 16 bits holds 65536 at most). -/
def RxDiscovery_pool (env : Env) (rbBitmap : List Int) (disc : SlDiscMsg) (pool : Nat) :
    PhyM Unit := do
  let m_psdchTx := env.GetPsdchTransmissions pool disc.m_resPsdch
  if !m_psdchTx.isEmpty then do
    let matched := psdchMatch rbBitmap m_psdchTx
    let rbMap : List Int := matched.getD []
    let txCount0 : Nat := if matched.isSome then 1 else 0
    let txCount : Nat ←
      if m_psdchTx.length > 1 then do
        let st ← get
        match StdMap.find natLt disc.m_rnti st.m_slDiscTxCount with
        | none => do
            modify (fun s =>
              { s with m_slDiscTxCount := StdMap.insert natLt disc.m_rnti 1 s.m_slDiscTxCount })
            let st1 ← get
            if endSecond st1.m_slDiscTxCount = m_psdchTx.length then
              abortWith (.undefinedBehaviour "it->second = 0 with it == m_slDiscTxCount.end ()")
            else
              pure txCount0
        | some (_, count) => do
            let count1 := (count + 1) % 65536
            modify (fun s =>
              { s with m_slDiscTxCount :=
                  (StdMap.update natLt disc.m_rnti
                    (fun _ => if count1 = m_psdchTx.length then 0 else count1)
                    s.m_slDiscTxCount) })
            pure count1
      else
        pure txCount0
    NS_ABORT_MSG_IF (decide (txCount = 0)) "PSDCH txCount should be greater than zero"
    let rv : Nat := (txCount - 1) % 256
    NS_ABORT_MSG_IF (decide (rv > m_psdchTx.length))
      " RV number can not be greater than total number of transmissions"
    let ndi : Nat := if txCount = 1 then 1 else 0
    AddExpectedTbDisc disc.m_rnti disc.m_resPsdch ndi rbMap rv

/-- The loop of `RxDiscovery` over the discovery reception pools `pools`. -/
def RxDiscovery_pools (env : Env) (rbBitmap : List Int) (disc : SlDiscMsg) :
    List Nat → PhyM Unit
  | [] => pure ()
  | pool :: pools => do
      RxDiscovery_pool env rbBitmap disc pool
      RxDiscovery_pools env rbBitmap disc pools

/-- The first loop of `RxDiscovery`, from index `i` of the reception window on: every
discovery message that passes the application filter is noted in the index map (the index
goes through a `uint8_t`) and registered for each pool that schedules its resource.  The
result is the pair (foundDiscoveryMsg, expectedTbToSinrDiscIndex). -/
def RxDiscovery_register (env : Env) :
    Nat → List SlRxPacketInfo_t → Bool × StdMap SlDiscTbId_t Nat →
      PhyM (Bool × StdMap SlDiscTbId_t Nat)
  | _, [], acc => pure acc
  | i, info :: rest, acc =>
      match info.m_rxControlMessage with
      | some msg =>
          if msg.GetMessageType = .SL_DISC_MSG then do
            NS_ABORT_MSG_IF info.m_rxPacketBurst.isSome
              "Discovery message should not carry the data packets"
            let disc := msg.disc
            let exist ← FilterRxApps disc
            if exist then do
              let tbId : SlDiscTbId_t := { m_rnti := disc.m_rnti, m_resPsdch := disc.m_resPsdch }
              let st ← get
              RxDiscovery_pools env info.rbBitmap disc st.m_discRxPools
              RxDiscovery_register env (i + 1) rest
                (true, StdMap.insert SlDiscTbId_t.lt tbId (i % 256) acc.2)
            else
              RxDiscovery_register env (i + 1) rest (true, acc.2)
          else
            RxDiscovery_register env (i + 1) rest acc
      | none => RxDiscovery_register env (i + 1) rest acc

/-- The loop of `RxDiscovery` that sorts the expected discovery descriptors by mean SINR:
each descriptor is inserted into the set `sortedDiscMessages`; the result is the sequence in
which the set is iterated afterwards. -/
def RxDiscovery_sort (expectedTbToSinrDiscIndex : StdMap SlDiscTbId_t Nat) :
    StdMap SlDiscTbId_t SlDisctbInfo_t → RbTree → PhyM (List SlCtrlPacketInfo_t)
  | [], sorted => pure sorted.toList
  | e :: rest, sorted =>
      match StdMap.find SlDiscTbId_t.lt e.1 expectedTbToSinrDiscIndex with
      | none =>
          abortWith (.undefinedBehaviour
            "(*itSinrDisc).second with itSinrDisc == expectedTbToSinrDiscIndex.end ()")
      | some (_, idx) => do
          let st ← get
          let sinr ← vectorAt "m_slSinrPerceived[(*itSinrDisc).second]" st.m_slSinrPerceived idx
          let meanSinr ← GetMeanSinr sinr e.2.rbBitmap
          RxDiscovery_sort expectedTbToSinrDiscIndex rest
            (setInsert { sinr := meanSinr, index := (idx : Int) } sorted)

/-- The local variables of `RxDiscovery` that live across the decoding loop. -/
structure DiscLocals where
  rxDiscMessageOkList : List LteControlMessage := []
  rbDecodedBitmap : List Int := []
  harqInfoList : HarqProcessInfoList_t := []
  deriving DecidableEq, Repr

/-- The loop over the blocks of a descriptor when the discovery error model is disabled and
blocks are dropped on collision: a collided block marks the descriptor corrupted and ends the
loop, any other block marks it not corrupted. -/
def dropScan (collided : List Int) : Bool → List Int → Bool
  | corrupt, [] => corrupt
  | _, rb :: rest => if rb ∈ collided then true else dropScan collided false rest

/-- The error model branch of the decoding loop of `RxDiscovery`, for the descriptor `tb`
registered under `key` whose SINR has index `idx`. -/
def RxDiscovery_errorModel (env : Env) (collided : List Int) (key : SlDiscTbId_t)
    (tb : SlDisctbInfo_t) (idx : Nat) (loc : DiscLocals) :
    PhyM (SlDisctbInfo_t × DiscLocals) := do
  let st ← get
  let harqInfoList : HarqProcessInfoList_t :=
    if tb.ndi = 0 then
      env.GetHarqProcessInfoDisc st.m_slHarqPhyModule key.m_rnti key.m_resPsdch
    else loc.harqInfoList
  let tb1 : SlDisctbInfo_t :=
    if tb.rbBitmap.any (fun rb => decide (rb ∈ collided) || decide (rb ∈ loc.rbDecodedBitmap))
    then { tb with corrupt := true } else tb
  modify (fun s =>
    { s with m_expectedDiscTbs :=
        (StdMap.update SlDiscTbId_t.lt key (fun _ => tb1) s.m_expectedDiscTbs) })
  let sinr ← vectorAt "m_slSinrPerceived[(*itSinrDisc).second]" st.m_slSinrPerceived idx
  let meanSinr ← GetMeanSinr (svScale sinr st.m_slRxGain) tb1.rbBitmap
  let tbStats := env.GetPsdchBler meanSinr harqInfoList
  let tb2 : SlDisctbInfo_t := { tb1 with sinr := tbStats.sinr }
  let prevDecoded := env.IsDiscTbPrevDecoded st.m_slHarqPhyModule key.m_rnti key.m_resPsdch
  let tb3 : SlDisctbInfo_t ←
    (if !tb2.corrupt then
      (if prevDecoded then
        pure { tb2 with corrupt := false }
      else do
        let rndVal := env.random st.m_random
        modify (fun s => { s with m_random := s.m_random + 1 })
        pure { tb2 with corrupt := if rndVal > tbStats.tbler then false else true })
    else
      pure tb2)
  modify (fun s =>
    { s with m_expectedDiscTbs :=
        (StdMap.update SlDiscTbId_t.lt key (fun _ => tb3) s.m_expectedDiscTbs) })
  let loc1 : DiscLocals :=
    if !tb3.corrupt && prevDecoded then
      { loc with harqInfoList := harqInfoList,
                 rbDecodedBitmap := loc.rbDecodedBitmap ++ tb3.rbBitmap }
    else { loc with harqInfoList := harqInfoList }
  let loc2 : DiscLocals ←
    (if !tb3.corrupt && !prevDecoded then do
      onSlHarq (.IndicateDiscTbPrevDecoded key.m_rnti key.m_resPsdch)
      let info ← vectorAt "m_rxPacketInfo[(*itSinrDisc).second]" st.m_rxPacketInfo idx
      match info.m_rxControlMessage with
      | none => abortWith (.unmodelled "rxDiscMessageOkList.push_back (0)")
      | some rxCtrlMsg =>
          pure { loc1 with
            rxDiscMessageOkList := loc1.rxDiscMessageOkList ++ [rxCtrlMsg],
            rbDecodedBitmap := loc1.rbDecodedBitmap ++ tb3.rbBitmap }
    else
      pure loc1)
  onSlHarq (.UpdateDiscHarqProcessStatus key.m_rnti key.m_resPsdch tb3.sinr)
  pure (tb3, loc2)

/-- The branch of the decoding loop of `RxDiscovery` taken when the discovery error model is
disabled. -/
def RxDiscovery_noErrorModel (env : Env) (collided : List Int) (key : SlDiscTbId_t)
    (tb : SlDisctbInfo_t) (idx : Nat) (loc : DiscLocals) :
    PhyM (SlDisctbInfo_t × DiscLocals) := do
  let st ← get
  let tb1 : SlDisctbInfo_t :=
    if st.m_dropRbOnCollisionEnabled then
      { tb with corrupt := dropScan collided tb.corrupt tb.rbBitmap }
    else { tb with corrupt := false }
  modify (fun s =>
    { s with m_expectedDiscTbs :=
        (StdMap.update SlDiscTbId_t.lt key (fun _ => tb1) s.m_expectedDiscTbs) })
  if !tb1.corrupt && !env.IsDiscTbPrevDecoded st.m_slHarqPhyModule key.m_rnti key.m_resPsdch
  then do
    onSlHarq (.IndicateDiscTbPrevDecoded key.m_rnti key.m_resPsdch)
    let info ← vectorAt "m_rxPacketInfo[(*itSinrDisc).second]" st.m_rxPacketInfo idx
    match info.m_rxControlMessage with
    | none => abortWith (.unmodelled "rxDiscMessageOkList.push_back (0)")
    | some rxCtrlMsg =>
        pure (tb1, { loc with rxDiscMessageOkList := loc.rxDiscMessageOkList ++ [rxCtrlMsg] })
  else
    pure (tb1, loc)

/-- One pass of the decoding loop of `RxDiscovery`, for the entry `it` of the sorted
messages. -/
def RxDiscovery_decode (env : Env) (now : Time)
    (expectedTbToSinrDiscIndex : StdMap SlDiscTbId_t Nat) (collided : List Int)
    (it : SlCtrlPacketInfo_t) (loc : DiscLocals) : PhyM DiscLocals := do
  let st ← get
  let info ← vectorAt "m_rxPacketInfo[i]" st.m_rxPacketInfo it.index.toNat
  match info.m_rxControlMessage with
  | none => abortWith (.nullDeref "msg->GetSlDiscMessage ()")
  | some rxCtrlMsg =>
    if rxCtrlMsg.GetMessageType ≠ .SL_DISC_MSG then
      abortWith (.nullDeref "msg->GetSlDiscMessage ()")
    else
      let disc := rxCtrlMsg.disc
      let tbId : SlDiscTbId_t := { m_rnti := disc.m_rnti, m_resPsdch := disc.m_resPsdch }
      match StdMap.find SlDiscTbId_t.lt tbId st.m_expectedDiscTbs with
      | none =>
          abortWith (.undefinedBehaviour "(*itTbDisc).first with itTbDisc == m_expectedDiscTbs.end ()")
      | some (key, tb) =>
        match StdMap.find SlDiscTbId_t.lt key expectedTbToSinrDiscIndex with
        | none => NS_FATAL_ERROR " Unable to retrieve SINR of the expected TB"
        | some (_, idx) => do
            let (tb1, loc1) ←
              if st.m_slDiscoveryErrorModelEnabled then
                RxDiscovery_errorModel env collided key tb idx loc
              else
                RxDiscovery_noErrorModel env collided key tb idx loc
            let sinr ←
              vectorAt "m_slSinrPerceived[(*itSinrDisc).second]" st.m_slSinrPerceived idx
            let sinrPerRb ← GetMeanSinr (svScale sinr st.m_slRxGain) tb1.rbBitmap
            emit (.slPhyReception
              { m_timestamp := milliSeconds now, m_cellId := st.m_cellId, m_imsi := 0,
                m_rnti := key.m_rnti, m_txMode := st.m_transmissionMode, m_layer := 0,
                m_mcs := 0, m_size := 232, m_rv := loc1.harqInfoList.length,
                m_ndi := tb1.ndi, m_correctness := if tb1.corrupt then 0 else 1,
                m_sinrPerRb := sinrPerRb })
            pure loc1

/-- The decoding loop of `RxDiscovery` over the sorted messages. -/
def RxDiscovery_decodes (env : Env) (now : Time)
    (expectedTbToSinrDiscIndex : StdMap SlDiscTbId_t Nat) (collided : List Int) :
    List SlCtrlPacketInfo_t → DiscLocals → PhyM DiscLocals
  | [], loc => pure loc
  | it :: rest, loc => do
      let loc1 ← RxDiscovery_decode env now expectedTbToSinrDiscIndex collided it loc
      RxDiscovery_decodes env now expectedTbToSinrDiscIndex collided rest loc1

/-- `LteSpectrumPhy::RxDiscovery`. -/
def RxDiscovery (env : Env) (now : Time) : PhyM Unit := do
  let st ← get
  let (foundDiscoveryMsg, expectedTbToSinrDiscIndex) ←
    RxDiscovery_register env 0 st.m_rxPacketInfo (false, [])
  let st1 ← get
  let sortedDiscMessages ← RxDiscovery_sort expectedTbToSinrDiscIndex st1.m_expectedDiscTbs .leaf
  let collidedRbBitmap : List Int :=
    if st1.m_dropRbOnCollisionEnabled then
      collidedRbs (st1.m_expectedDiscTbs.map (fun e => e.2.rbBitmap))
    else []
  let loc ←
    RxDiscovery_decodes env now expectedTbToSinrDiscIndex collidedRbBitmap sortedDiscMessages {}
  if foundDiscoveryMsg then
    if loc.rxDiscMessageOkList.length > 0 then
      if st1.m_ltePhyRxCtrlEndOkCallback then
        emit (.ltePhyRxCtrlEndOkCallback loc.rxDiscMessageOkList)
      else
        NS_FATAL_ERROR
          "There are correctly received Disc messages but LtePhyRxCtrlEndOkCallback is NULL"
    else
      if st1.m_ltePhyRxCtrlEndErrorCallback then
        emit .ltePhyRxCtrlEndErrorCallback

/-! ## The ends of the reception windows -/

/-- First part of `EndRxSlData`: the evaluation of the sidelink accumulator, whose chunk
processors hand over the perceived vectors, and the error model on the shared channel. -/
def EndRxSlData_data (env : Env) (now : Time) : PhyM Unit := do
  onInterferenceSl (LteSlInterference.EndRx now)
  let st1 ← get
  (match env.slSinrFeedback st1.m_interferenceSl.log with
    | some sinr => UpdateSlSinrPerceived sinr
    | none => pure ())
  (match env.slSigFeedback st1.m_interferenceSl.log with
    | some signal => UpdateSlSigPerceived signal
    | none => pure ())
  (match env.slIntFeedback st1.m_interferenceSl.log with
    | some interference => UpdateSlIntPerceived interference
    | none => pure ())
  let st2 ← get
  NS_ASSERT (decide (st2.m_transmissionMode < st2.m_txModeGain.length))
    "m_transmissionMode < m_txModeGain.size ()"
  let expectedTbToSinrIndex ← EndRxSlData_sinrIndex 0 st2.m_rxPacketInfo []
  let collidedRbBitmap : List Int :=
    if st2.m_dropRbOnCollisionEnabled then
      collidedRbs (st2.m_expectedSlTbs.map (fun e => e.2.rbBitmap))
    else []
  EndRxSlData_tbs env now expectedTbToSinrIndex collidedRbBitmap [] st2.m_expectedSlTbs
  let st3 ← get
  EndRxSlData_packets env (slDataPackets st3.m_rxPacketInfo)

/-- Last part of `EndRxSlData`: back to `IDLE`, the windows and the registries are cleared. -/
def EndRxSlData_close : PhyM Unit := do
  ChangeState .IDLE
  modify (fun s => { s with m_rxPacketBurstList := [] })
  modify (fun s => { s with m_rxControlMessageList := [] })
  modify (fun s => { s with m_rxPacketInfo := [] })
  modify (fun s => { s with m_expectedSlTbs := [] })
  modify (fun s => { s with m_expectedDiscTbs := [] })

/-- `LteSpectrumPhy::EndRxSlData`. -/
def EndRxSlData (env : Env) (now : Time) : PhyM Unit := do
  EndRxSlData_data env now
  EndRxSlData_control env now
  RxDiscovery env now
  EndRxSlData_close

/-- `LteSpectrumPhy::EndRxDlCtrl`. -/
def EndRxDlCtrl (env : Env) (now : Time) : PhyM Unit := do
  let st ← get
  NS_ASSERT (decide (st.m_state = .RX_DL_CTRL)) "m_state == RX_DL_CTRL"
  onInterferenceCtrl (.EndRx now)
  let st1 ← get
  (match env.ctrlSinrFeedback st1.m_interferenceCtrl.calls with
    | some sinr => UpdateSinrPerceived sinr
    | none => pure ())
  let st2 ← get
  NS_ASSERT (decide (st2.m_transmissionMode < st2.m_txModeGain.length))
    "m_transmissionMode < m_txModeGain.size ()"
  (if st2.m_transmissionMode > 0 then
    match st2.m_txModeGain[1]? with
    | none => abortWith (.outOfRange "m_txModeGain.at (1)")
    | some gain => modify (fun s => { s with m_sinrPerceived := svScale s.m_sinrPerceived gain })
  else pure ())
  let st3 ← get
  let error : Bool ←
    (if st3.m_ctrlErrorModelEnabled then do
      let errorRate := env.GetPcfichPdcchError st3.m_sinrPerceived
      let rnd := env.random st3.m_random
      modify (fun s => { s with m_random := s.m_random + 1 })
      pure (if rnd > errorRate then false else true)
    else
      pure false)
  (if !error then
    (if st3.m_ltePhyRxCtrlEndOkCallback then
      emit (.ltePhyRxCtrlEndOkCallback st3.m_rxControlMessageList)
    else pure ())
  else
    (if st3.m_ltePhyRxCtrlEndErrorCallback then
      emit .ltePhyRxCtrlEndErrorCallback
    else pure ()))
  ChangeState .IDLE
  modify (fun s => { s with m_rxControlMessageList := [] })

/-- `LteSpectrumPhy::EndRxUlSrs`. -/
def EndRxUlSrs (env : Env) (now : Time) : PhyM Unit := do
  let st ← get
  NS_ASSERT (decide (st.m_state = .RX_UL_SRS)) "m_state == RX_UL_SRS"
  ChangeState .IDLE
  onInterferenceCtrl (.EndRx now)
  let st1 ← get
  (match env.ctrlSinrFeedback st1.m_interferenceCtrl.calls with
    | some sinr => UpdateSinrPerceived sinr
    | none => pure ())

/-! ## What the error model loop computes -/

/-- The retransmission history `EndRxData` retrieves for the descriptor `e`: empty for new
data, the downlink history of its HARQ process and layer or the uplink history of its RNTI
otherwise. -/
def harqHistoryOf (env : Env) (harq : List HarqCall) (e : TbId_t × tbInfo_t) :
    HarqProcessInfoList_t :=
  if e.2.ndi = 0 then
    if e.2.downlink then env.GetHarqProcessInfoDl harq e.2.harqProcessId e.1.m_layer
    else env.GetHarqProcessInfoUl harq e.1.m_rnti 0
  else []

/-- The block-error rate the error model returns for the descriptor `e` under the perceived
SINR `sinr`. -/
def tblerOf (env : Env) (sinr : SpectrumValue) (harq : List HarqCall) (e : TbId_t × tbInfo_t) :
    ℚ :=
  (env.GetTbDecodificationStats sinr e.2.rbBitmap e.2.size e.2.mcs
    (harqHistoryOf env harq e)).tbler

/-- The descriptor `e` after its pass of the error model loop, when `draw` is the uniform value
drawn for it. -/
def decoded (env : Env) (sinr : SpectrumValue) (harq : List HarqCall) (draw : ℚ)
    (e : TbId_t × tbInfo_t) : TbId_t × tbInfo_t :=
  (e.1, { e.2 with
    mi := (env.GetTbDecodificationStats sinr e.2.rbBitmap e.2.size e.2.mcs
      (harqHistoryOf env harq e)).mi
    corrupt := decide (draw ≤ tblerOf env sinr harq e) })

/-- The descriptors after the error model loop, when the first of them receives draw number
`pos` of the stream. -/
def decodedFrom (env : Env) (sinr : SpectrumValue) (harq : List HarqCall) :
    Nat → StdMap TbId_t tbInfo_t → StdMap TbId_t tbInfo_t
  | _, [] => []
  | pos, e :: rest =>
      decoded env sinr harq (env.random pos) e :: decodedFrom env sinr harq (pos + 1) rest

/-! ## What the packet loop reports -/

/-- The identity under which the descriptor of packet `p` is looked up. -/
def tbIdOf (p : Packet) : TbId_t := { m_rnti := p.tag.m_rnti, m_layer := p.tag.m_layer }

/-- The corrupted flag of the descriptor registered under `k`, if there is one. -/
def verdict (reg : StdMap TbId_t tbInfo_t) (k : TbId_t) : Option Bool :=
  (StdMap.find TbId_t.lt k reg).map (fun e => e.2.corrupt)

/-- The outcome notifications the specification prescribes for a received packet: none when no
descriptor matches its tag, the error notification when the descriptor is corrupted, the
success notification (and the data-OK callback when it is set) otherwise. -/
def notificationSpec (reg : StdMap TbId_t tbInfo_t) (okCallbackSet : Bool) (p : Packet) :
    List PhyEvent :=
  match verdict reg (tbIdOf p) with
  | none => []
  | some true => [.phyRxEndErrorTrace p]
  | some false =>
      if okCallbackSet then [.phyRxEndOkTrace p, .ltePhyRxDataEndOkCallback p]
      else [.phyRxEndOkTrace p]

/-- Whether an event is an outcome notification of a packet. -/
def PhyEvent.isPacketNotification : PhyEvent → Bool
  | .phyRxEndOkTrace _ => true
  | .phyRxEndErrorTrace _ => true
  | .ltePhyRxDataEndOkCallback _ => true
  | _ => false

/-- The outcome notifications of packets found in a log, in order. -/
def packetNotifications (log : List PhyEvent) : List PhyEvent :=
  log.filter PhyEvent.isPacketNotification

/-- The records passed to `m_ltePhyUlHarqFeedbackCallback`, in order. -/
def ulFeedbacks (log : List PhyEvent) : List UlInfoListElement_s :=
  log.filterMap (fun e => match e with
    | .ltePhyUlHarqFeedbackCallback info => some info
    | _ => none)

/-- The records passed to `m_ltePhyDlHarqFeedbackCallback`, in order. -/
def dlFeedbacks (log : List PhyEvent) : List DlInfoListElement_s :=
  log.filterMap (fun e => match e with
    | .ltePhyDlHarqFeedbackCallback info => some info
    | _ => none)

/-- Whether an event is a reception statistics trace of the error model loop. -/
def PhyEvent.isReceptionTrace : PhyEvent → Bool
  | .dlPhyReception _ => true
  | .ulPhyReception _ => true
  | _ => false

/-- The descriptor `e1` is the descriptor `e` up to its mutual information and its corrupted
flag, the two members the error model loop assigns. -/
def sameButVerdict (e1 e : TbId_t × tbInfo_t) : Prop :=
  e1.1 = e.1 ∧ e1.2 = { e.2 with mi := e1.2.mi, corrupt := e1.2.corrupt }

/-! ## Reading the log -/

/-- The signals handed to the channel, in order. -/
def handedToChannel (log : List PhyEvent) : List SpectrumSignalParameters :=
  log.filterMap (fun e => match e with
    | .channelStartTx txParams => some txParams
    | _ => none)

/-- The events handed to the scheduler, in order. -/
def scheduled (log : List PhyEvent) : List (Time × ScheduledCall) :=
  log.filterMap (fun e => match e with
    | .schedule delay f => some (delay, f)
    | _ => none)

/-- A transmission was started: the function returned `false`, the state is `target`, exactly
one signal was handed to the channel and the end-of-transmit event `f` was scheduled after
`delay`. -/
def startedTx (st : LteSpectrumPhy) (out : Outcome Bool) (target : State) (delay : Time)
    (f : ScheduledCall) : Prop :=
  ∃ st1 sig, out = .ok false st1 ∧ st1.m_state = target
    ∧ handedToChannel st1.log = handedToChannel st.log ++ [sig]
    ∧ scheduled st1.log = scheduled st.log ++ [(delay, f)]

/-- The run was ended by a fatal error and no signal was handed to the channel. -/
def fatalWithoutTx (st : LteSpectrumPhy) {α : Type} (out : Outcome α) : Prop :=
  out.isFatal = true ∧ handedToChannel out.state.log = handedToChannel st.log

end LteSpectrumPhy

/-! ## Concrete objects used to exercise the theorems -/

/-- Collaborators with constant answers: every draw of the stream is `1/2`, every block-error
rate is `1/4`, no retransmission history, no chunk processor wired. -/
def exampleEnv : Env where
  random := fun _ => 1 / 2
  GetTbDecodificationStats := fun _ _ _ _ _ => { tbler := 1 / 4, mi := 3 }
  GetPcfichPdcchError := fun _ => 1 / 4
  GetPsschBler := fun _ _ _ => { tbler := 1 / 4, sinr := 0 }
  GetPscchBler := fun _ => { tbler := 1 / 4, sinr := 0 }
  GetPsbchBler := fun _ => { tbler := 1 / 4, sinr := 0 }
  GetPsdchBler := fun _ _ => { tbler := 1 / 4, sinr := 0 }
  GetHarqProcessInfoDl := fun _ _ _ => []
  GetHarqProcessInfoUl := fun _ _ _ => []
  GetHarqProcessInfoSl := fun _ _ _ => []
  IsPrevDecoded := fun _ _ _ => false
  GetHarqProcessInfoDisc := fun _ _ _ => []
  IsDiscTbPrevDecoded := fun _ _ _ => false
  dataSinrFeedback := fun _ => none
  ctrlSinrFeedback := fun _ => none
  slSinrFeedback := fun _ => none
  slSigFeedback := fun _ => none
  slIntFeedback := fun _ => none
  GetPsdchTransmissions := fun _ _ => []
  nearerThan150 := fun d => decide (d < 22500)
  dBm := fun x => x

/-- The same collaborators with an error model that always returns block-error rate `1`. -/
def exampleEnvLossy : Env :=
  { exampleEnv with GetTbDecodificationStats := fun _ _ _ _ _ => { tbler := 1, mi := 3 } }

/-- A device ready to transmit: transmit PSD and channel set, state `IDLE`. -/
def exampleTxPhy : LteSpectrumPhy := { m_txPsd := some [1], m_channel := true }

/-- A device receiving sidelink data with full duplex enabled on the control channel. -/
def exampleFullDuplexPhy : LteSpectrumPhy :=
  { m_txPsd := some [1], m_channel := true, m_state := .RX_DATA, m_ctrlFullDuplexEnabled := true }

/-- A device whose unicast registry holds a stale, corrupted descriptor for RNTI 1, layer 0 and
a descriptor for RNTI 2, layer 0. -/
def exampleRegistryPhy : LteSpectrumPhy :=
  { m_expectedTbs :=
      [({ m_rnti := 1, m_layer := 0 }, { size := 5, corrupt := true }),
       ({ m_rnti := 2, m_layer := 0 }, { size := 7 })] }

/-- A packet of RNTI 1, layer 0. -/
def examplePacket : Packet := { uid := 11, tag := { m_rnti := 1, m_layer := 0 } }

/-- A device at the end of a data window: one burst with one packet of RNTI 1 received, one
downlink descriptor expected for it, both callbacks of the data path wired. -/
def exampleRxPhy : LteSpectrumPhy :=
  { m_state := .RX_DATA,
    m_rxPacketBurstList := [[examplePacket]],
    m_expectedTbs := [({ m_rnti := 1, m_layer := 0 }, { downlink := true })],
    m_ltePhyRxDataEndOkCallback := true,
    m_ltePhyDlHarqFeedbackCallback := true }

/-- A sidelink UE out of coverage (cell id 0) whose half-duplex peer is idle, with a two-bin
sidelink accumulator whose noise floor is set. -/
def exampleSidelinkUe : LteSpectrumPhy :=
  { m_halfDuplexPhy := some (.IDLE, false),
    m_interferenceSl := { m_allSignals := some [0, 0], m_noise := some [1, 1] } }

/-- A data frame of cell 0 on the first resource block, lasting 10. -/
def exampleDataSignal : LteSpectrumSignalParametersDataFrame :=
  { psd := [1, 0], duration := 10, packetBurst := some [examplePacket], cellId := 0 }

/-- A sidelink frame of node 1 on the second resource block, lasting 7. -/
def exampleSlSignal : LteSpectrumSignalParametersSlFrame :=
  { psd := [0, 1], duration := 7, nodeId := 1 }

/-- A data frame of cell 0 on the second resource block, lasting 7. -/
def exampleLateDataSignal : LteSpectrumSignalParametersDataFrame :=
  { psd := [0, 1], duration := 7, packetBurst := some [{ uid := 12 }], cellId := 0 }

/-- The conditions under which `StartRxSlData` accumulates the signal `p` into the sidelink
window: the state admits the reception, the device is out of coverage and is not the sender,
and the signal carries a MIB-SL or comes from a transmitter the device is synchronized to, for
a group it listens to. -/
def slAccepted (st : LteSpectrumPhy) (p : LteSpectrumSignalParametersSlFrame) : Prop :=
  (st.m_state = .IDLE ∨ st.m_state = .RX_DATA
      ∨ (st.m_state = .TX_DATA ∧ st.m_ctrlFullDuplexEnabled = true))
  ∧ st.m_cellId = 0 ∧ p.nodeId ≠ st.nodeId
  ∧ ((∃ m ∈ p.ctrlMsgList, m.GetMessageType = .MIB_SL)
      ∨ (p.slssId = st.m_slssId ∧ (p.groupId = 0 ∨ p.groupId ∈ st.m_l1GroupIds)))

instance (st : LteSpectrumPhy) (p : LteSpectrumSignalParametersSlFrame) :
    Decidable (slAccepted st p) := by
  unfold slAccepted
  infer_instance

/-! ## What the HARQ feedback of `EndRxData` reports -/

/-- The elements of a list, each once, in the order of their first occurrence. -/
def distinctInOrder {α : Type} [DecidableEq α] : List α → List α
  | [] => []
  | a :: l => a :: (distinctInOrder l).filter (fun b => decide (b ≠ a))

/-- Whether the descriptor registered under `k` is a downlink descriptor. -/
def isDownlink (reg : StdMap TbId_t tbInfo_t) (k : TbId_t) : Bool :=
  match StdMap.find TbId_t.lt k reg with
  | some e => e.2.downlink
  | none => false

/-- Whether a descriptor is registered under `k` and its HARQ feedback has not been sent. -/
def feedbackPending (reg : StdMap TbId_t tbInfo_t) (k : TbId_t) : Bool :=
  match StdMap.find TbId_t.lt k reg with
  | some e => !e.2.harqFeedbackSent
  | none => false

/-- The identities of the descriptors matched by at least one of the packets `ps`, each once,
in the order of the first packet matching it. -/
def matchedKeys (reg : StdMap TbId_t tbInfo_t) (ps : List Packet) : List TbId_t :=
  distinctInOrder ((ps.map LteSpectrumPhy.tbIdOf).filter
    (fun k => (StdMap.find TbId_t.lt k reg).isSome))

/-- The same for the descriptors whose HARQ feedback has not been sent. -/
def pendingKeys (reg : StdMap TbId_t tbInfo_t) (ps : List Packet) : List TbId_t :=
  distinctInOrder ((ps.map LteSpectrumPhy.tbIdOf).filter (feedbackPending reg))

/-- The uplink feedback the specification prescribes for the descriptor identities `keys`: one
record for each uplink descriptor among them, `NotOk` if it is corrupted and `Ok` otherwise. -/
def ulFeedbackSpec (reg : StdMap TbId_t tbInfo_t) (keys : List TbId_t) :
    List UlInfoListElement_s :=
  (keys.filter (fun k => !isDownlink reg k)).map (fun k =>
    { m_rnti := k.m_rnti, m_tpc := 0,
      m_receptionStatus :=
        if LteSpectrumPhy.verdict reg k = some true then .NotOk else .Ok })

/-- Entry `l` of the downlink feedback record of `rnti` that the specification prescribes when
the descriptors `keys` were matched: `NACK` if the downlink descriptor (`rnti`, `l`) is among
them and corrupted, `ACK` otherwise. -/
def dlStatusAt (reg : StdMap TbId_t tbInfo_t) (keys : List TbId_t) (rnti l : Nat) :
    HarqStatus_e :=
  if decide (({ m_rnti := rnti, m_layer := l } : TbId_t) ∈ keys)
      && isDownlink reg { m_rnti := rnti, m_layer := l }
      && decide (LteSpectrumPhy.verdict reg { m_rnti := rnti, m_layer := l } = some true)
  then .NACK else .ACK

/-- The status vector of the downlink feedback record of `rnti`, with `layersNum` entries. -/
def dlStatusSpec (reg : StdMap TbId_t tbInfo_t) (layersNum : Nat) (keys : List TbId_t)
    (rnti : Nat) : List HarqStatus_e :=
  (List.range layersNum).map (dlStatusAt reg keys rnti)

/-- The change `EndRxData` makes to `harqDlInfoMap` for the downlink descriptor `info`
registered under `tbId`: a new record for an RNTI without one, the entry of the layer set in
either case. -/
def dlStep (layersNum : Nat) (tbId : TbId_t) (info : tbInfo_t)
    (harqDlInfoMap : StdMap Nat DlInfoListElement_s) : StdMap Nat DlInfoListElement_s :=
  let status : HarqStatus_e := if info.corrupt then .NACK else .ACK
  match StdMap.find natLt tbId.m_rnti harqDlInfoMap with
  | none =>
      StdMap.insert natLt tbId.m_rnti
        { m_harqStatus := (List.replicate layersNum HarqStatus_e.ACK).set tbId.m_layer status,
          m_rnti := tbId.m_rnti, m_harqProcessId := info.harqProcessId }
        harqDlInfoMap
  | some _ =>
      StdMap.update natLt tbId.m_rnti
        (fun d => { d with m_harqStatus := d.m_harqStatus.set tbId.m_layer status })
        harqDlInfoMap

/-- The map `harqDlInfoMap` after the downlink descriptors among `keys` have been fed back,
in order. -/
def dlAggregate (layersNum : Nat) (reg : StdMap TbId_t tbInfo_t) :
    List TbId_t → StdMap Nat DlInfoListElement_s → StdMap Nat DlInfoListElement_s
  | [], m => m
  | k :: keys, m =>
      match StdMap.find TbId_t.lt k reg with
      | some e =>
          if e.2.downlink then dlAggregate layersNum reg keys (dlStep layersNum k e.2 m)
          else dlAggregate layersNum reg keys m
      | none => dlAggregate layersNum reg keys m

/-- The state of `harqDlInfoMap` that the specification prescribes once the descriptors `keys`
have been fed back: one record for each RNTI that has a downlink descriptor among them and
for no other, each carrying its RNTI and the status vector of `dlStatusSpec`. -/
def DlAggregated (reg : StdMap TbId_t tbInfo_t) (layersNum : Nat) (keys : List TbId_t)
    (m : StdMap Nat DlInfoListElement_s) : Prop :=
  StdMap.WF natLt m
  ∧ (∀ e ∈ m, e.2.m_rnti = e.1
      ∧ e.2.m_harqStatus = dlStatusSpec reg layersNum keys e.1
      ∧ ∃ k ∈ keys, isDownlink reg k = true ∧ k.m_rnti = e.1)
  ∧ (∀ k ∈ keys, isDownlink reg k = true → ∃ e ∈ m, e.1 = k.m_rnti)

/-- What a registration leaves in a registry `after` that held `before`: exactly the descriptor
`info` under the identity `k`, the descriptors of the other identities as they were, and lookups
that agree with this. -/
def registered {K V : Type} [DecidableEq K] (lt : K → K → Bool) (k : K) (info : V)
    (before after : StdMap K V) : Prop :=
  StdMap.entriesOf k after = [(k, info)]
    ∧ StdMap.others k after = StdMap.others k before
    ∧ StdMap.find lt k after = some (k, info)
    ∧ (∀ k1, k1 ≠ k → StdMap.find lt k1 after = StdMap.find lt k1 before)
    ∧ StdMap.WF lt after

/-- The device `exampleRxPhy` after the first part of `EndRxData` at time 0 under
`exampleEnv`: the draw `1/2` exceeds the block-error rate `1/4`, the descriptor is decoded. -/
def exampleRxPhyDecoded : LteSpectrumPhy :=
  { exampleRxPhy with
    m_interferenceData := { calls := [.EndRx 0] }
    m_random := 1
    m_expectedTbs := [({ m_rnti := 1, m_layer := 0 }, { downlink := true, mi := 3 })]
    log := [.dlPhyReception { m_rnti := 1, m_correctness := 1 }] }

/-- The device `exampleRxPhy` after `EndRxData` at time 0 under `exampleEnv`. -/
def exampleRxPhyClosed : LteSpectrumPhy :=
  { exampleRxPhy with
    m_state := .IDLE
    m_rxPacketBurstList := []
    m_expectedTbs := []
    m_interferenceData := { calls := [.EndRx 0] }
    m_random := 1
    m_harqPhyModule := [.ResetDlHarqProcessStatus 0]
    log := [.dlPhyReception { m_rnti := 1, m_correctness := 1 },
            .phyRxEndOkTrace examplePacket,
            .ltePhyRxDataEndOkCallback examplePacket,
            .ltePhyDlHarqFeedbackCallback
              { m_rnti := 1, m_harqProcessId := 0, m_harqStatus := [.ACK] }] }
/-! ## Runs of calls on the accumulator -/

/-- The calls a device and the simulator make on its `LteSlInterference`. -/
inductive SlInterferenceCall where
  | startRx (rxPsd : SpectrumValue)
  | endRx
  | addSignal (spd : SpectrumValue) (duration : Time)
  | doSubtractSignal (spd : SpectrumValue) (signalId : Nat)
  | setNoisePowerSpectralDensity (noisePsd : SpectrumValue)
  deriving DecidableEq, Repr

namespace LteSlInterference

/-- One call made at time `now`. -/
def call (now : Time) : SlInterferenceCall → LteSlInterference → Except Abort LteSlInterference
  | .startRx rxPsd => StartRx now rxPsd
  | .endRx => EndRx now
  | .addSignal spd duration => AddSignal now spd duration
  | .doSubtractSignal spd signalId => DoSubtractSignal now spd signalId
  | .setNoisePowerSpectralDensity noisePsd => SetNoisePowerSpectralDensity now noisePsd

/-- A run: the calls of the list, each at its time, in order. -/
def calls : List (Time × SlInterferenceCall) → LteSlInterference →
    Except Abort LteSlInterference
  | [], self => .ok self
  | c :: rest, self => do
      let s1 ← call c.1 c.2 self
      calls rest s1

/-- Number of `AddSignal` calls of a run. -/
def additions : List (Time × SlInterferenceCall) → Nat
  | [] => 0
  | (_, .addSignal _ _) :: rest => additions rest + 1
  | _ :: rest => additions rest

/-- Whether a run holds a call of `SetNoisePowerSpectralDensity`. -/
def resets : List (Time × SlInterferenceCall) → Bool
  | [] => false
  | (_, .setNoisePowerSpectralDensity _) :: _ => true
  | _ :: rest => resets rest

end LteSlInterference

/-- An accumulator that has handed out `2 ^ 31 - 1` signal ids since its noise floor was set:
running sum `[1]`, noise floor `[2]`, epoch boundary 0. -/
def exampleLongRunAccumulator : LteSlInterference :=
  { m_allSignals := some [1], m_noise := some [2], m_lastSignalId := 2 ^ 31 - 1,
    m_lastSignalIdBeforeReset := 0 }
/-- The two tests of `StartRxSlData` a sidelink signal without MIB-SL has to pass to be
received: the device is out of coverage and is not the sender, and the signal has the SLSS id
of the device and a group the device listens to (or group 0). -/
def slSynchronized (st : LteSpectrumPhy) (p : LteSpectrumSignalParametersSlFrame) : Prop :=
  (st.m_cellId = 0 ∧ p.nodeId ≠ st.nodeId)
  ∧ (p.slssId = st.m_slssId ∧ (p.groupId = 0 ∨ p.groupId ∈ st.m_l1GroupIds))

instance (st : LteSpectrumPhy) (p : LteSpectrumSignalParametersSlFrame) :
    Decidable (slSynchronized st p) := by
  unfold slSynchronized
  infer_instance

/-- The entry `StartRxSlData` appends to the reception window for the signal `p`. -/
def slWindowEntry (p : LteSpectrumSignalParametersSlFrame) : SlRxPacketInfo_t :=
  { m_rxPacketBurst := p.packetBurst, m_rxControlMessage := p.ctrlMsgList.head?,
    rbBitmap := LteSpectrumPhy.usedRbs p.psd }
/-- A discovery message of RNTI 2 on PSDCH resource 0 announcing application code 7. -/
def exampleDiscMessage : LteControlMessage :=
  { uid := 21, m_type := .SL_DISC_MSG,
    disc := { m_rnti := 2, m_resPsdch := 0, m_proSeAppCode := 7 } }

/-- A sidelink UE at the end of a window that holds one discovery message, received on
resource block 1, for which a descriptor is expected. -/
def exampleDiscoveryUe : LteSpectrumPhy :=
  { m_state := .RX_DATA,
    m_rxPacketInfo := [{ m_rxControlMessage := some exampleDiscMessage, rbBitmap := [1] }],
    m_expectedDiscTbs := [({ m_rnti := 2, m_resPsdch := 0 }, { ndi := 1, rbBitmap := [1] })],
    m_slSinrPerceived := [[3, 3]],
    m_ltePhyRxCtrlEndOkCallback := true }
/-! ## Reading the sidelink data path -/

namespace LteSpectrumPhy

/-- The packet an event reports as received: the success trace and the success callback. -/
def PhyEvent.deliveredPacket : PhyEvent → Option Packet
  | .phyRxEndOkTrace p => some p
  | .ltePhyRxDataEndOkCallback p => some p
  | _ => none

/-- The packets a log reports as received. -/
def deliveredPackets (log : List PhyEvent) : List Packet :=
  log.filterMap PhyEvent.deliveredPacket

/-- The reception window holds a data burst whose first packet carries the identity `k`. -/
def hasMatchingBurst (window : List SlRxPacketInfo_t) (k : SlTbId_t) : Prop :=
  ∃ info ∈ window, ∃ p ps, info.m_rxPacketBurst = some (p :: ps) ∧ slTagId p = k

/-- What the decode loop of `EndRxSlData` leaves of the descriptor `e` when descriptors
satisfying `dropped` are dropped: the identity is kept and a dropped descriptor is
corrupted. -/
def slDecodedFrom (dropped : SlTbId_t × SltbInfo_t → Prop) (e1 e : SlTbId_t × SltbInfo_t) :
    Prop :=
  e1.1 = e.1 ∧ (dropped e → e1.2.corrupt = true)

end LteSpectrumPhy
/-- A sidelink UE at the end of a window in which the packets of RNTI 1 and of RNTI 2 arrived on
the same resource block 0, both expected, with blocks dropped on collision. -/
def exampleCollisionUe : LteSpectrumPhy :=
  { m_state := .RX_DATA, m_dropRbOnCollisionEnabled := true,
    m_rxPacketInfo :=
      [{ rbBitmap := [0], m_rxPacketBurst := some [{ uid := 31, tag := { m_rnti := 1 } }] },
       { rbBitmap := [0], m_rxPacketBurst := some [{ uid := 32, tag := { m_rnti := 2 } }] }],
    m_expectedSlTbs :=
      [({ m_rnti := 1, m_l1dst := 0 }, { rbBitmap := [0] }),
       ({ m_rnti := 2, m_l1dst := 0 }, { rbBitmap := [0] })],
    m_slSinrPerceived := [[5], [5]],
    m_ltePhyRxDataEndOkCallback := true }
/-- The device `exampleCollisionUe` after the data path of `EndRxSlData` at time 0 under
`exampleEnv`: both descriptors corrupted, both packets reported in error. -/
def exampleCollisionUeDecoded : LteSpectrumPhy :=
  { exampleCollisionUe with
    m_expectedSlTbs :=
      [({ m_rnti := 1, m_l1dst := 0 }, { rbBitmap := [0], corrupt := true }),
       ({ m_rnti := 2, m_l1dst := 0 }, { rbBitmap := [0], corrupt := true })]
    m_slHarqPhyModule :=
      [.IncreaseTbIdx 1 0, .UpdateSlHarqProcessStatus 1 0 0,
       .IncreaseTbIdx 2 0, .UpdateSlHarqProcessStatus 2 0 0]
    log :=
      [.slPhyReception { m_rnti := 1, m_correctness := 0, m_sinrPerRb := 5 },
       .slPhyReception { m_rnti := 2, m_correctness := 0, m_sinrPerRb := 5 },
       .phyRxEndErrorTrace { uid := 31, tag := { m_rnti := 1 } },
       .phyRxEndErrorTrace { uid := 32, tag := { m_rnti := 2 } }] }
/-! ## The order of the sidelink control messages -/

namespace LteSpectrumPhy

/-- The order in which the specification has the control messages of a window processed:
descending mean SINR, and ascending arrival index among messages of equal mean SINR. -/
def SlCtrlPacketInfo_t.precedes (a b : SlCtrlPacketInfo_t) : Prop :=
  a.sinr > b.sinr ∨ (a.sinr = b.sinr ∧ a.index < b.index)

/-- The value `GetMeanSinr (sinr, map)` returns when every block of `map` is in range. -/
def meanSinrOf (sinr : SpectrumValue) (map : List Int) : ℚ :=
  (sumOver sinr map).getD 0 / (map.length : ℚ)

/-- The control messages other than discovery messages of the window entries `window`, which
start at index `i`: each with its mean SINR over its resource blocks and its arrival index, in
arrival order. -/
def ctrlMessagesOf (sinrs : List SpectrumValue) :
    Nat → List SlRxPacketInfo_t → List SlCtrlPacketInfo_t
  | _, [] => []
  | i, info :: rest =>
      match info.m_rxControlMessage with
      | some msg =>
          if msg.GetMessageType ≠ .SL_DISC_MSG then
            { sinr := meanSinrOf (sinrs.getD i []) info.rbBitmap, index := (i : Int) }
              :: ctrlMessagesOf sinrs (i + 1) rest
          else ctrlMessagesOf sinrs (i + 1) rest
      | none => ctrlMessagesOf sinrs (i + 1) rest

/-- A window of three SCI messages with the perceived SINR `[2]`, `[5]`, `[2]`. -/
def exampleCtrlWindow : LteSpectrumPhy :=
  { m_state := .RX_DATA,
    m_rxPacketInfo :=
      [{ rbBitmap := [0], m_rxControlMessage := some { uid := 41, m_type := .SCI, sciRnti := 1 } },
       { rbBitmap := [0], m_rxControlMessage := some { uid := 42, m_type := .SCI, sciRnti := 2 } },
       { rbBitmap := [0], m_rxControlMessage := some { uid := 43, m_type := .SCI, sciRnti := 3 } }],
    m_slSinrPerceived := [[2], [5], [2]] }

end LteSpectrumPhy
/-! ## What the sidelink window keeps fixed while it is decoded -/

namespace LteSpectrumPhy

/-- Whether an event is one of the two notifications that end the reception of control
messages. -/
def PhyEvent.isCtrlEnd : PhyEvent → Bool
  | .ltePhyRxCtrlEndOkCallback _ => true
  | .ltePhyRxCtrlEndErrorCallback => true
  | _ => false

/-- The control-OK and control-error notifications of a log, in order. -/
def ctrlNotifications (log : List PhyEvent) : List PhyEvent :=
  log.filter PhyEvent.isCtrlEnd

/-- The state `st1` has the reception window, the switches, the control callbacks and the
control notifications of `st`. -/
def steady (st st1 : LteSpectrumPhy) : Prop :=
  st1.m_rxPacketInfo = st.m_rxPacketInfo
  ∧ st1.m_slCtrlErrorModelEnabled = st.m_slCtrlErrorModelEnabled
  ∧ st1.m_slDiscoveryErrorModelEnabled = st.m_slDiscoveryErrorModelEnabled
  ∧ st1.m_dropRbOnCollisionEnabled = st.m_dropRbOnCollisionEnabled
  ∧ st1.m_ltePhyRxCtrlEndOkCallback = st.m_ltePhyRxCtrlEndOkCallback
  ∧ st1.m_ltePhyRxCtrlEndErrorCallback = st.m_ltePhyRxCtrlEndErrorCallback
  ∧ ctrlNotifications st1.log = ctrlNotifications st.log

/-- Every returning run of `m` ends in a state that is `steady` with respect to its start. -/
def Steady {α : Type} (m : PhyM α) : Prop :=
  ∀ st r st1, m st = .ok r st1 → steady st st1

end LteSpectrumPhy
namespace LteSpectrumPhy

/-- The messages `okList` are the control messages of entries of the window whose
resource-block sets are pairwise disjoint. -/
def decodedDisjointly (window : List SlRxPacketInfo_t) (okList : List LteControlMessage) :
    Prop :=
  ∃ D : List SlRxPacketInfo_t, (∀ d ∈ D, d ∈ window)
    ∧ D.map (fun d => d.m_rxControlMessage) = okList.map some
    ∧ List.Pairwise (fun a b => ∀ rb ∈ a.rbBitmap, rb ∉ b.rbBitmap) D

end LteSpectrumPhy

/-- A sidelink UE at the end of a window that holds two SCI messages received on the same
resource block 0, with the control error model disabled and no block dropped on collision. -/
def exampleOverlapWindow : LteSpectrumPhy :=
  { m_state := .RX_DATA,
    m_slCtrlErrorModelEnabled := false,
    m_rxPacketInfo :=
      [{ rbBitmap := [0], m_rxControlMessage := some { uid := 41, m_type := .SCI, sciRnti := 1 } },
       { rbBitmap := [0], m_rxControlMessage := some { uid := 42, m_type := .SCI, sciRnti := 2 } }],
    m_slSinrPerceived := [[2], [5]],
    m_slSignalPerceived := [[1], [1]],
    m_slInterferencePerceived := [[1], [1]],
    m_RbPerSubChannel := 1,
    m_rssiMap := [[0]], m_rsrpMap := [[0]], m_decodingMap := [[false]],
    m_nodeList := [(0, 0), (0, 0)],
    m_ltePhyRxCtrlEndOkCallback := true,
    m_ltePhyRxCtrlEndErrorCallback := true }
/-- The collaborators of `exampleEnv` with a discovery pool that schedules every PSDCH resource
on resource block 1. -/
def exampleEnvDiscovery : Env :=
  { exampleEnv with GetPsdchTransmissions := fun _ _ => [{ rbStart := 1, nbRb := 1 }] }

/-- A sidelink UE at the end of a window that holds an SCI message on resource block 0 and a
discovery message on resource block 1, monitoring the application code of the discovery
message on pool 0, with all callbacks set. -/
def exampleMixedWindow : LteSpectrumPhy :=
  { m_state := .RX_DATA,
    m_rxPacketInfo :=
      [{ rbBitmap := [0], m_rxControlMessage := some { uid := 41, m_type := .SCI, sciRnti := 1 } },
       { rbBitmap := [1], m_rxControlMessage := some exampleDiscMessage }],
    m_slSinrPerceived := [[2, 2], [5, 5]],
    m_slSignalPerceived := [[1, 1], [1, 1]],
    m_slInterferencePerceived := [[1, 1], [1, 1]],
    m_RbPerSubChannel := 1,
    m_rssiMap := [[0]], m_rsrpMap := [[0]], m_decodingMap := [[false]],
    m_nodeList := [(0, 0), (0, 0)],
    m_discRxApps := [7], m_discRxPools := [0],
    m_ltePhyRxDataEndOkCallback := true,
    m_ltePhyRxCtrlEndOkCallback := true,
    m_ltePhyRxCtrlEndErrorCallback := true }
/-! ## The reports of a sidelink window -/

namespace LteSpectrumPhy

/-- The window holds a control message other than a discovery message. -/
def hasCtrlMessage (window : List SlRxPacketInfo_t) : Prop :=
  ∃ info ∈ window, ∃ msg, info.m_rxControlMessage = some msg
    ∧ msg.GetMessageType ≠ .SL_DISC_MSG

/-- The window holds a discovery message. -/
def hasDiscMessage (window : List SlRxPacketInfo_t) : Prop :=
  ∃ info ∈ window, ∃ msg, info.m_rxControlMessage = some msg
    ∧ msg.GetMessageType = .SL_DISC_MSG

/-- The notifications `A` are the report of one part of `EndRxSlData`: at most one
notification, which is the failure notification or the decoded-list notification with a
non-empty list; none when the window holds no message of the part; one when it holds such a
message and both callbacks are set. -/
def atMostOneReport (hasMessage : Prop) (okCallback errorCallback : Bool)
    (A : List PhyEvent) : Prop :=
  (A = [] ∨ A = [.ltePhyRxCtrlEndErrorCallback]
      ∨ ∃ l, l ≠ [] ∧ A = [.ltePhyRxCtrlEndOkCallback l])
  ∧ (¬ hasMessage → A = [])
  ∧ (hasMessage → okCallback = true → errorCallback = true → A ≠ [])

end LteSpectrumPhy

/-- An idle accumulator with noise floor `[2]`, nothing in the running sum and one observer in
each list. -/
def exampleNoiseOnlyAccumulator : LteSlInterference :=
  { m_allSignals := some [0], m_noise := some [2],
    m_sinrChunkProcessorList := [7], m_snrChunkProcessorList := [9],
    m_interfChunkProcessorList := [8], m_rsPowerChunkProcessorList := [6] }

/-- A device in the middle of a data transmission, full duplex disabled. -/
def exampleTxDataPhy : LteSpectrumPhy :=
  { m_txPsd := some [1], m_channel := true, m_state := .TX_DATA }

/-- The collaborators of `exampleEnv` with an error model that returns block-error rate `0`
for every transport block. -/
def exampleEnvClean : Env :=
  { exampleEnv with GetTbDecodificationStats := fun _ _ _ _ _ => { tbler := 0, mi := 3 } }

/-- The collaborators of `exampleEnvClean` with a random stream whose every draw is `0`, the
lowest value of the interval `[0, 1)`. -/
def exampleEnvZeroDraw : Env :=
  { exampleEnvClean with random := fun _ => 0 }

/-! ## What `EndRxData` does to the HARQ table -/

/-- The accumulate operations of the HARQ table. -/
def HarqCall.isAccumulate : HarqCall → Bool
  | .UpdateUlHarqProcessStatus _ _ _ _ => true
  | .UpdateDlHarqProcessStatus _ _ _ _ _ => true
  | _ => false

/-- The reset operations of the HARQ table. -/
def HarqCall.isReset : HarqCall → Bool
  | .ResetUlHarqProcessStatus _ _ => true
  | .ResetDlHarqProcessStatus _ => true
  | _ => false

namespace LteSpectrumPhy

/-- The operation on the HARQ table that the specification prescribes when the descriptor
`info` registered under `tbId` is fed back: for a corrupted descriptor the accumulate
operation with its mutual information, its size and its size over the effective coding rate of
its MCS; for a descriptor that is not corrupted the reset of its process. -/
def harqTouch (tbId : TbId_t) (info : tbInfo_t) : HarqCall :=
  if info.corrupt then
    if info.downlink then
      .UpdateDlHarqProcessStatus info.harqProcessId tbId.m_layer info.mi info.size
        ((info.size : ℚ) / EffectiveCodingRate.getD info.mcs 0)
    else
      .UpdateUlHarqProcessStatus tbId.m_rnti info.mi info.size
        ((info.size : ℚ) / EffectiveCodingRate.getD info.mcs 0)
  else
    if info.downlink then .ResetDlHarqProcessStatus info.harqProcessId
    else .ResetUlHarqProcessStatus tbId.m_rnti info.harqProcessId

/-- The operations prescribed for the descriptors registered under `keys`, one for each, in
order. -/
def harqTouches (reg : StdMap TbId_t tbInfo_t) (keys : List TbId_t) : List HarqCall :=
  keys.flatMap (fun k => ((StdMap.find TbId_t.lt k reg).map (fun e => harqTouch k e.2)).toList)

end LteSpectrumPhy

/-- The value a member function returned, if it returned. -/
def Outcome.result? {α : Type} : Outcome α → Option α
  | .ok a _ => some a
  | .abort _ _ => none

/-- The device `exampleRxPhy` with no data-OK callback registered. -/
def exampleUnwiredRxPhy : LteSpectrumPhy :=
  { exampleRxPhy with m_ltePhyRxDataEndOkCallback := false }

/-- The window `exampleMixedWindow` on a device with no success callback registered. -/
def exampleUnwiredWindow : LteSpectrumPhy :=
  { exampleMixedWindow with
    m_ltePhyRxDataEndOkCallback := false, m_ltePhyRxCtrlEndOkCallback := false }

/-- A sidelink UE with no success callback registered that expects one transport block of
RNTI 1 for group 2. -/
def exampleUnwiredSlUe : LteSpectrumPhy :=
  { m_state := .RX_DATA,
    m_expectedSlTbs := [({ m_rnti := 1, m_l1dst := 2 }, { size := 5 })] }

/-- A sidelink packet of RNTI 1 for the destination 2. -/
def exampleSlPacket : Packet :=
  { uid := 21, tag := { m_rnti := 1, m_destinationL2Id := 2 } }

/-- The window `exampleOverlapWindow` (two SCI messages on resource block 0, control error
model disabled) with resource blocks dropped on collision. -/
def exampleDropWindow : LteSpectrumPhy :=
  { exampleOverlapWindow with m_dropRbOnCollisionEnabled := true }

/-- The window `exampleDropWindow` with the control error model enabled. -/
def exampleDropWindowErrorModel : LteSpectrumPhy :=
  { exampleDropWindow with m_slCtrlErrorModelEnabled := true }

/-- A sidelink UE at the end of a window that holds two SCI messages received on the same
resource block 0, the first with the higher SINR, with the control error model enabled and no
block dropped on collision. -/
def exampleCaptureWindow : LteSpectrumPhy :=
  { exampleOverlapWindow with
    m_slCtrlErrorModelEnabled := true, m_slSinrPerceived := [[5], [2]] }

/-- The collaborators of `exampleEnv` with a random stream whose first draw, `1/8`, lies below
the block-error rate `1/4` and whose later draws, `1/2`, lie above it. -/
def exampleEnvFirstDrawLow : Env :=
  { exampleEnv with random := fun k => if k = 0 then 1 / 8 else 1 / 2 }

/-! ## Resets of the sidelink HARQ records -/

/-- The operations of the sidelink HARQ module that reset a record: the retransmission
history, the previously-decoded flag or the transport-block index of a sidelink
communication identity, the history or the previously-decoded flag of a discovery
identity. -/
def SlHarqCall.isReset : SlHarqCall → Bool
  | .ResetSlHarqProcessStatus _ _ => true
  | .ResetPrevDecoded _ _ => true
  | .ResetTbIdx _ _ => true
  | .ResetDiscHarqProcessStatus _ _ => true
  | .ResetDiscTbPrevDecoded _ _ => true
  | _ => false

namespace LteSpectrumPhy

/-- The reset operations the sidelink HARQ module has received, in order. -/
def slHarqResets (st : LteSpectrumPhy) : List SlHarqCall :=
  st.m_slHarqPhyModule.filter SlHarqCall.isReset

/-- Every run of `m`, returning or not, makes no other reset on the sidelink HARQ module than
resets that satisfy `P`. -/
structure ResetsOnly (P : SlHarqCall → Prop) {α : Type} (m : PhyM α) : Prop where
  resets : ∀ st, ∃ added, slHarqResets (m st).state = slHarqResets st ++ added ∧ ∀ c ∈ added, P c

/-- The call `c` resets the discovery record of the identity of a discovery message held by
the window. -/
def isDiscResetOf (window : List SlRxPacketInfo_t) (c : SlHarqCall) : Prop :=
  ∃ info ∈ window, ∃ msg, info.m_rxControlMessage = some msg
    ∧ msg.GetMessageType = .SL_DISC_MSG
    ∧ (c = .ResetDiscHarqProcessStatus msg.disc.m_rnti msg.disc.m_resPsdch
        ∨ c = .ResetDiscTbPrevDecoded msg.disc.m_rnti msg.disc.m_resPsdch)

end LteSpectrumPhy
/-! ## `OutdoorToOutdoorPropagationLossModel` -/

/-- The library functions and the collaborators that `GetLoss` consumes. -/
structure LossEnv where
  /-- `std::log10`. -/
  log10 : ℚ → ℚ
  /-- `std::exp`. -/
  exp : ℚ → ℚ
  /-- `a->GetDistanceFrom (b)` for the mobility models named `a` and `b`. -/
  GetDistanceFrom : Nat → Nat → ℚ
  /-- The values of the stream behind `m_rand->GetValue (0, 1)`, by draw number. -/
  GetValue : Nat → ℚ
  /-- The sample that `std::lognormal_distribution (0.0, sigma)` draws from a generator seeded
  by `std::random_device`, by sample number. -/
  lognormal : ℚ → Nat → ℚ

/-- The `NS_LOG_INFO` lines of `GetLoss`. -/
inductive LossEvent where
  /-- "Outdoor , the free space loss = ". -/
  | freeSpace (loss : ℚ)
  /-- "Outdoor LOS (Distance = ...), shadow = ..., WINNER B1 loss = ...". -/
  | los (dist shadow pl_b1 : ℚ)
  /-- "Outdoor NLOS (Distance = ...), shadow = ..., WINNER B1 loss = ...". -/
  | nlos (dist shadow pl_b1 : ℚ)
  deriving DecidableEq, Repr

/-- Fields of `OutdoorToOutdoorPropagationLossModel`.  The map `m_randomMap` is kept as the
list of its entries, looked up by key; mobility models are named by numbers. -/
structure OutdoorToOutdoorPropagationLossModel where
  m_frequency : ℚ := 2106000000
  m_randomMap : List ((Nat × Nat) × ℚ) := []
  /-- Number of values already drawn from `m_rand`. -/
  m_rand : Nat := 0
  /-- Number of samples already drawn by `GetShadowing`. -/
  samples : Nat := 0
  log : List LossEvent := []
  deriving DecidableEq, Repr

namespace OutdoorToOutdoorPropagationLossModel

/-- `m_randomMap.find (couple)`. -/
def findRandom (couple : Nat × Nat) (m : List ((Nat × Nat) × ℚ)) : Option ℚ :=
  (m.find? (fun e => decide (e.1 = couple))).map (fun e => e.2)

/-- `OutdoorToOutdoorPropagationLossModel::GetShadowing`: the sample and the object after the
draw. -/
def GetShadowing (env : LossEnv) (_stddev : ℚ) (type : Int)
    (self : OutdoorToOutdoorPropagationLossModel) :
    ℚ × OutdoorToOutdoorPropagationLossModel :=
  let number := if type = 0 then env.lognormal 3 self.samples else env.lognormal 4 self.samples
  (number, { self with samples := self.samples + 1 })

/-- The random number of the pair `(a, b)` as `GetLoss` retrieves it: the value stored for
`(a, b)`, else the value stored for `(b, a)`, else a fresh draw that is stored for `(b, a)`. -/
def randomOf (env : LossEnv) (a b : Nat) (self : OutdoorToOutdoorPropagationLossModel) :
    ℚ × OutdoorToOutdoorPropagationLossModel :=
  match findRandom (a, b) self.m_randomMap with
  | some r => (r, self)
  | none =>
      match findRandom (b, a) self.m_randomMap with
      | some r => (r, self)
      | none =>
          let v := env.GetValue self.m_rand
          (v, { self with m_randomMap := self.m_randomMap ++ [((b, a), v)],
                          m_rand := self.m_rand + 1 })

/-- `OutdoorToOutdoorPropagationLossModel::GetLoss`: the loss returned and the object after the
call. -/
def GetLoss (env : LossEnv) (a b : Nat) (self : OutdoorToOutdoorPropagationLossModel) :
    ℚ × OutdoorToOutdoorPropagationLossModel :=
  let fc : ℚ := 59 / 10
  let dist := env.GetDistanceFrom a b
  let loss : ℚ := 20 * env.log10 dist + 466 / 10 + 20 * env.log10 (fc / 5)
  let s0 := { self with log := self.log ++ [.freeSpace loss] }
  let hms : ℚ := 3 / 2
  let hbs : ℚ := 3 / 2
  let hbs1 : ℚ := hbs - 1
  let hms1 : ℚ := hms - 7 / 10
  let c : ℚ := 3 * 10 ^ 8
  let los : ℚ := 0
  let (los_shadow, s1) := GetShadowing env 3 0 s0
  let nlos : ℚ := -5
  let (nlos_shadow, s2) := GetShadowing env 4 0 s1
  let d1 : ℚ := 4 * hbs1 * hms1 * self.m_frequency * (1 / c)
  let plos : ℚ := min (18 / dist) 1 * (1 - env.exp (-dist / 36)) + env.exp (-dist / 36)
  let (r, s3) := randomOf env a b s2
  let plos : ℚ := r + 1
  let (pl_b1, s4) : ℚ × OutdoorToOutdoorPropagationLossModel :=
    if dist ≥ 3 then
      if r ≤ plos then
        if dist ≤ d1 then
          let pl := 227 / 10 * env.log10 dist + 41 + 20 * env.log10 fc + los + los_shadow
          (pl, { s3 with log := s3.log ++ [.los dist los_shadow pl] })
        else
          let pl := 40 * env.log10 dist + 945 / 100 - 173 / 10 * env.log10 hbs1
            - 173 / 10 * env.log10 hms1 + 27 / 10 * env.log10 fc + los + los_shadow
          (pl, { s3 with log := s3.log ++ [.los dist los_shadow pl] })
      else
        let (pl1, s3a) : ℚ × OutdoorToOutdoorPropagationLossModel :=
          if fc ≥ 758 / 1000 ∧ fc ≤ 798 / 1000 then
            let pl := (449 / 10 - 655 / 100 * env.log10 hbs) * env.log10 dist
              + 583 / 100 * env.log10 hbs + 1633 / 100 + 2616 / 100 * env.log10 fc
              + nlos + nlos_shadow
            (pl, { s3 with log := s3.log ++ [.nlos dist nlos_shadow pl] })
          else (0, s3)
        if fc ≥ 192 / 100 ∧ fc ≤ 217 / 100 then
          let pl := (449 / 10 - 655 / 100 * env.log10 hbs) * env.log10 dist
            + 583 / 100 * env.log10 hbs + 1478 / 100 + 3497 / 100 * env.log10 fc
            + nlos + nlos_shadow
          (pl, { s3a with log := s3a.log ++ [.nlos dist nlos_shadow pl] })
        else (pl1, s3a)
    else (0, s3)
  let loss := max loss pl_b1
  (max 0 loss, s4)

/-- The free-space loss computed first by `GetLoss` at distance `dist`. -/
def freeSpaceLoss (env : LossEnv) (dist : ℚ) : ℚ :=
  20 * env.log10 dist + 466 / 10 + 20 * env.log10 (59 / 10 / 5)

/-- The WINNER B1 line-of-sight loss of `GetLoss` at distance `dist` with the shadowing sample
`shadow`: one formula up to the breakpoint distance `4 * 0.5 * 0.8 * m_frequency / c`, another
beyond it. -/
def losLoss (env : LossEnv) (frequency dist shadow : ℚ) : ℚ :=
  if dist ≤ 4 * (3 / 2 - 1) * (3 / 2 - 7 / 10) * frequency * (1 / (3 * 10 ^ 8)) then
    227 / 10 * env.log10 dist + 41 + 20 * env.log10 (59 / 10) + 0 + shadow
  else
    40 * env.log10 dist + 945 / 100 - 173 / 10 * env.log10 (3 / 2 - 1)
      - 173 / 10 * env.log10 (3 / 2 - 7 / 10) + 27 / 10 * env.log10 (59 / 10) + 0 + shadow

end OutdoorToOutdoorPropagationLossModel

/-- Library functions and collaborators with simple answers: `log10` and `exp` are the
identity, every pair of nodes is 10 m apart, every draw is `1/2` and every shadowing sample
is `1`. -/
def exampleLossEnv : LossEnv where
  log10 := fun x => x
  exp := fun x => x
  GetDistanceFrom := fun _ _ => 10
  GetValue := fun _ => 1 / 2
  lognormal := fun _ _ => 1
/-! ## The sensing maps -/

namespace LteSpectrumPhy

open PhyM

/-- `LteSpectrumPhy::InitRssiRsrpMap`: the three maps get `50 / m_RbPerSubChannel` rows (the
division is between integers, `std::ceil` is applied to its result) of 1000 columns. -/
def InitRssiRsrpMap : PhyM Unit := do
  let st ← get
  if st.m_RbPerSubChannel = 0 then
    abortWith (.undefinedBehaviour "50 / m_RbPerSubChannel")
  else do
    let nSubChannel := 50 / st.m_RbPerSubChannel
    NS_ASSERT (decide (st.m_rssiMap.length = 0)) "m_rssiMap.size()==0"
    modify (fun s => { s with m_rssiMap := List.replicate nSubChannel (List.replicate 1000 0) })
    NS_ASSERT (decide (st.m_rsrpMap.length = 0)) "m_rsrpMap.size()==0"
    modify (fun s => { s with m_rsrpMap := List.replicate nSubChannel (List.replicate 1000 0) })
    NS_ASSERT (decide (st.m_decodingMap.length = 0)) "m_decodingMap.size()==0"
    modify (fun s =>
      { s with m_decodingMap := List.replicate nSubChannel (List.replicate 1000 false) })

/-- `LteSpectrumPhy::SetRbPerSubChannel`. -/
def SetRbPerSubChannel (rbPerSubChannel : Nat) : PhyM Unit := do
  modify (fun s => { s with m_RbPerSubChannel := wrap32 rbPerSubChannel })
  InitRssiRsrpMap

/-- The body of the inner loop of `MoveSensingWindow` for the sub-channel `idx_sc` and the
counter `idx_sf`. -/
def MoveSensingWindow_cell (idx_sc idx_sf : Nat) : PhyM Unit := do
  let st ← get
  let rssiMap ← setCell "m_rssiMap[idx_sc][idx_sf%1000]" st.m_rssiMap idx_sc (idx_sf % 1000) 0
  modify (fun s => { s with m_rssiMap := rssiMap })
  let rsrpMap ← setCell "m_rsrpMap[idx_sc][idx_sf%1000]" st.m_rsrpMap idx_sc (idx_sf % 1000) 0
  modify (fun s => { s with m_rsrpMap := rsrpMap })
  let decodingMap ←
    setCell "m_decodingMap[idx_sc][idx_sf&1000]" st.m_decodingMap idx_sc (idx_sf &&& 1000) false
  modify (fun s => { s with m_decodingMap := decodingMap })

/-- The inner loop of `MoveSensingWindow` over the counters `idx_sf`. -/
def MoveSensingWindow_row (idx_sc : Nat) : List Nat → PhyM Unit
  | [] => pure ()
  | idx_sf :: rest => do
      MoveSensingWindow_cell idx_sc idx_sf
      MoveSensingWindow_row idx_sc rest

/-- The outer loop of `MoveSensingWindow` over the sub-channels. -/
def MoveSensingWindow_rows (subFrames : List Nat) : List Nat → PhyM Unit
  | [] => pure ()
  | idx_sc :: rest => do
      MoveSensingWindow_row idx_sc subFrames
      MoveSensingWindow_rows subFrames rest

/-- `LteSpectrumPhy::MoveSensingWindow`; the counter `idx_sf` runs from `sIdx` up to, and not
including, the 32-bit sum `sIdx + scPeriod`. -/
def MoveSensingWindow (sIdx scPeriod : Nat) : PhyM Unit := do
  let st ← get
  if st.m_RbPerSubChannel = 0 then
    abortWith (.undefinedBehaviour "50 / m_RbPerSubChannel")
  else
    let nSubChannel := 50 / st.m_RbPerSubChannel
    MoveSensingWindow_rows (List.range' sIdx (wrap32 (sIdx + scPeriod) - sIdx))
      (List.range nSubChannel)

end LteSpectrumPhy

/-- A sidelink UE with sub-channels of 6 resource blocks, its sensing maps as
`SetRbPerSubChannel (6)` leaves them, that has received a signal whose first used resource
block is block 48. -/
def exampleSensingUe : LteSpectrumPhy :=
  { m_RbPerSubChannel := 6,
    m_rssiMap := List.replicate 8 (List.replicate 1000 0),
    m_rsrpMap := List.replicate 8 (List.replicate 1000 0),
    m_decodingMap := List.replicate 8 (List.replicate 1000 false),
    m_slRxRbStartIdx := 48,
    m_rxPacketInfo := [{ rbBitmap := [48, 49] }],
    m_slSignalPerceived := [List.replicate 50 1],
    m_slInterferencePerceived := [List.replicate 50 1] }

/-- A sidelink UE with one sub-channel of 50 resource blocks whose sensing maps hold a
measurement in every subframe: RSSI 1, RSRP 1, decoded. -/
def exampleSensedUe : LteSpectrumPhy :=
  { m_RbPerSubChannel := 50,
    m_rssiMap := [List.replicate 1000 1],
    m_rsrpMap := [List.replicate 1000 1],
    m_decodingMap := [List.replicate 1000 true] }

/-- The reason a member function was cut short, if it was. -/
def Outcome.why? {α : Type} : Outcome α → Option Abort
  | .ok _ _ => none
  | .abort why _ => some why
/-- A MIB-SL message announcing SLSS id 3. -/
def exampleMibMessage : LteControlMessage :=
  { uid := 51, m_type := .MIB_SL, slssid := 3 }

/-- A sidelink UE at the end of a window that holds one MIB-SL message received on resource
block 0, with the control error model enabled and no block dropped on collision. -/
def exampleMibWindow : LteSpectrumPhy :=
  { exampleOverlapWindow with
    m_slCtrlErrorModelEnabled := true,
    m_rxPacketInfo := [{ rbBitmap := [0], m_rxControlMessage := some exampleMibMessage }],
    m_slSinrPerceived := [[2]],
    m_slSignalPerceived := [[1]],
    m_slInterferencePerceived := [[1]] }
/-- The collaborators of `exampleEnv` with discovery pools that schedule the PSDCH resource
`r` on resource block `r`, once per period. -/
def exampleEnvResources : Env :=
  { exampleEnv with
    GetPsdchTransmissions := fun _ resPsdch => [{ rbStart := (resPsdch : Int), nbRb := 1 }] }

/-- A discovery message of RNTI 1 on PSDCH resource 1 announcing application code 7. -/
def exampleStrongDiscMessage : LteControlMessage :=
  { uid := 22, m_type := .SL_DISC_MSG,
    disc := { m_rnti := 1, m_resPsdch := 1, m_proSeAppCode := 7 } }

/-- A sidelink UE at the end of a window that holds two discovery messages: at index 0 the
message of RNTI 2, received on resource block 0 with SINR 1, at index 1 the message of RNTI
1, received on resource block 1 with SINR 2. -/
def exampleTwoDiscWindow : LteSpectrumPhy :=
  { m_state := .RX_DATA,
    m_rxPacketInfo :=
      [{ rbBitmap := [0], m_rxControlMessage := some exampleDiscMessage },
       { rbBitmap := [1], m_rxControlMessage := some exampleStrongDiscMessage }],
    m_slSinrPerceived := [[1, 1], [2, 2]],
    m_discRxApps := [7], m_discRxPools := [0],
    m_ltePhyRxCtrlEndOkCallback := true,
    m_ltePhyRxCtrlEndErrorCallback := true }

namespace LteSpectrumPhy

/-- The RNTI and the mean SINR of a sidelink reception trace. -/
def PhyEvent.slReception : PhyEvent → Option (Nat × ℚ)
  | .slPhyReception params => some (params.m_rnti, params.m_sinrPerRb)
  | _ => none

/-- The sidelink reception traces of a log, in order: the RNTI and the mean SINR of each
transport block processed. -/
def slReceptions (log : List PhyEvent) : List (Nat × ℚ) :=
  log.filterMap PhyEvent.slReception

end LteSpectrumPhy
/-- The collaborators of `exampleEnv` with a discovery pool that schedules every PSDCH
resource twice per period, both times on resource block 1. -/
def exampleEnvRetx : Env :=
  { exampleEnv with
    GetPsdchTransmissions := fun _ _ => [{ rbStart := 1, nbRb := 1 }, { rbStart := 1, nbRb := 1 }] }
/-! ## What a member function leaves untouched -/

namespace LteSpectrumPhy

/-- Every run of `m`, returning or not, ends with the value of `f` it started with. -/
structure Keeps {β : Type} (f : LteSpectrumPhy → β) {α : Type} (m : PhyM α) : Prop where
  keeps : ∀ st, f (m st).state = f st

/-- The number of expected descriptors of the data window that are matched by at least one
received packet. -/
def matchedDescriptors (st : LteSpectrumPhy) : Nat :=
  (st.m_expectedTbs.filter
    (fun e => st.m_rxPacketBurstList.flatten.any (fun p => decide (tbIdOf p = e.1)))).length

end LteSpectrumPhy

/-- The device `exampleRxPhy` (one burst with one packet of RNTI 1) with a second descriptor
expected, for RNTI 2, for which nothing was received. -/
def exampleUnmatchedRxPhy : LteSpectrumPhy :=
  { exampleRxPhy with
    m_expectedTbs :=
      [({ m_rnti := 1, m_layer := 0 }, { downlink := true }),
       ({ m_rnti := 2, m_layer := 0 }, { downlink := true })] }
/-- The operation of the sidelink HARQ module that stores the reception of a discovery
transport block in its retransmission history. -/
def SlHarqCall.isDiscUpdate : SlHarqCall → Bool
  | .UpdateDiscHarqProcessStatus _ _ _ => true
  | _ => false

/-- The discovery bookkeeping updates among the calls `calls`, in order. -/
def discHarqUpdates (calls : List SlHarqCall) : List SlHarqCall :=
  calls.filter SlHarqCall.isDiscUpdate

/-- The window `exampleMixedWindow` on a device with the discovery error model disabled. -/
def exampleNoDiscErrorModelWindow : LteSpectrumPhy :=
  { exampleMixedWindow with m_slDiscoveryErrorModelEnabled := false }
/-! ## The sidelink window and the window of the accumulator -/

namespace LteSpectrumPhy

/-- The signals registered in the window of the sidelink accumulator: those of `m_rxSignal`
while the accumulator is receiving, none otherwise (the next `StartRx` clears the vector). -/
def slWindowSignals (st : LteSpectrumPhy) : List SpectrumValue :=
  if st.m_interferenceSl.m_receiving then st.m_interferenceSl.m_rxSignal else []

/-- Entry `i` of the reception window was received on the resource blocks of signal `i` of
the accumulator window, for every `i`, and the two windows have the same number of entries. -/
def slAligned (st : LteSpectrumPhy) : Prop :=
  st.m_rxPacketInfo.map (fun info => info.rbBitmap) = (slWindowSignals st).map usedRbs

/-- The signals of `ps`, each with its arrival time, delivered to the device in order through
`LteSpectrumPhy::StartRx`. -/
def StartRxAll : List (Time × LteSpectrumSignalParametersSlFrame) → PhyM Unit
  | [] => pure ()
  | tp :: rest => do
      StartRx tp.1 (.slFrame tp.2)
      StartRxAll rest

end LteSpectrumPhy

/-- A sidelink frame of node 1 on the second resource block, lasting 7, that carries a MIB-SL
and comes from a transmitter with the SLSS id of the device. -/
def exampleMibSignal : LteSpectrumSignalParametersSlFrame :=
  { psd := [0, 1], duration := 7, nodeId := 1, ctrlMsgList := [exampleMibMessage] }
/-! ## The sidelink data packets handed to the upper layer -/

/-- Modelled from the spec: the sticky previously-decoded flag of the HARQ process record
kept by `LteSlHarqPhy`, whose code is not among the sources.  The flag of the identity
`(rnti, l1dst)` after the calls `calls` on the module: set by `IndicatePrevDecoded`, cleared
by `ResetPrevDecoded` (the reset made for a new-data indicator), untouched by any other
call. -/
def slMarkedDecoded (calls : List SlHarqCall) (rnti l1dst : Nat) : Bool :=
  calls.foldl
    (fun flag c =>
      if c = .IndicatePrevDecoded rnti l1dst then true
      else if c = .ResetPrevDecoded rnti l1dst then false
      else flag)
    false

namespace LteSpectrumPhy

/-- The packet a success trace reports. -/
def PhyEvent.okTraced : PhyEvent → Option Packet
  | .phyRxEndOkTrace p => some p
  | _ => none

/-- The packet handed to the upper layer through the data-OK callback. -/
def PhyEvent.handedUp : PhyEvent → Option Packet
  | .ltePhyRxDataEndOkCallback p => some p
  | _ => none

/-- The packet an outcome notification (success trace or error trace) is about. -/
def PhyEvent.notified : PhyEvent → Option Packet
  | .phyRxEndOkTrace p => some p
  | .phyRxEndErrorTrace p => some p
  | _ => none

/-- The packets of identity `k` among `ps`. -/
def ofIdentity (k : SlTbId_t) (ps : List Packet) : List Packet :=
  ps.filter (fun q => decide (slTagId q = k))

end LteSpectrumPhy

/-- The collaborators of `exampleEnv` with a sidelink HARQ module whose previously-decoded
flag is set by `IndicatePrevDecoded` and cleared by `ResetPrevDecoded`. -/
def exampleEnvStickyHarq : Env :=
  { exampleEnv with IsPrevDecoded := slMarkedDecoded }

/-- A sidelink UE, with the data-OK callback set, that expects one transport block of RNTI 1
for group 2 and has decoded it. -/
def exampleSlDataUe : LteSpectrumPhy :=
  { exampleUnwiredSlUe with m_ltePhyRxDataEndOkCallback := true }

/-- A second sidelink packet of RNTI 1 for the destination 2. -/
def exampleSlPacketAgain : Packet :=
  { uid := 22, tag := { m_rnti := 1, m_destinationL2Id := 2 } }
/-! ## The order of the control messages, the reports and the discovery counter -/

namespace LteSpectrumPhy

open PhyM

/-- The control message of the window entry that the element `it` of the sorted messages
points to through its index. -/
def ctrlMessageAt (window : List SlRxPacketInfo_t) (it : SlCtrlPacketInfo_t) :
    Option LteControlMessage :=
  (window[it.index.toNat]?).bind (fun info => info.m_rxControlMessage)

/-- The control part of `EndRxSlData` up to its report: the messages are sorted, the
collisions identified and the messages decoded in order; the result is the list
`rxControlMessageOkList` the loop ends with, the messages it decoded. -/
def EndRxSlData_controlDecoded (env : Env) (now : Time) : PhyM (List LteControlMessage) := do
  let st ← get
  let sortedControlMessages ← EndRxSlData_sortCtrl 0 st.m_rxPacketInfo []
  let collidedRbBitmap : List Int :=
    if st.m_dropRbOnCollisionEnabled then
      collidedRbsBreak
        (sortedControlMessages.map (fun it => (st.m_rxPacketInfo.getD it.index.toNat {}).rbBitmap))
    else []
  let loc ← EndRxSlData_ctrls env now collidedRbBitmap sortedControlMessages {}
  pure loc.rxControlMessageOkList

/-- The function `RxDiscovery` up to its report: the discovery messages are registered and
sorted, the collisions identified and the descriptors decoded in order; the result is the
list `rxDiscMessageOkList` the loop ends with, the messages it decoded. -/
def RxDiscovery_decoded (env : Env) (now : Time) : PhyM (List LteControlMessage) := do
  let st ← get
  let (_, expectedTbToSinrDiscIndex) ←
    RxDiscovery_register env 0 st.m_rxPacketInfo (false, [])
  let st1 ← get
  let sortedDiscMessages ← RxDiscovery_sort expectedTbToSinrDiscIndex st1.m_expectedDiscTbs .leaf
  let collidedRbBitmap : List Int :=
    if st1.m_dropRbOnCollisionEnabled then
      collidedRbs (st1.m_expectedDiscTbs.map (fun e => e.2.rbBitmap))
    else []
  let loc ←
    RxDiscovery_decodes env now expectedTbToSinrDiscIndex collidedRbBitmap sortedDiscMessages {}
  pure loc.rxDiscMessageOkList

/-- The notifications `A` are the report of a part of `EndRxSlData` that decoded the messages
`decoded`: without a message of the part in the window nothing is reported; with such a
message, the report is the decoded-list notification with exactly the decoded messages when
there are any, if the control-OK callback is set, and the failure notification when none was
decoded, if the control-error callback is set. -/
def reportsDecoded (hasMessage : Prop) (okCallback errorCallback : Bool)
    (decoded : List LteControlMessage) (A : List PhyEvent) : Prop :=
  (¬ hasMessage → A = [])
  ∧ (hasMessage → decoded ≠ [] →
      A = if okCallback then [.ltePhyRxCtrlEndOkCallback decoded] else [])
  ∧ (hasMessage → decoded = [] →
      A = if errorCallback then [.ltePhyRxCtrlEndErrorCallback] else [])

/-- The transmission counter that `m_slDiscTxCount` holds for the source `rnti`; a source
without an entry counts as 0. -/
def discTxCount (st : LteSpectrumPhy) (rnti : Nat) : Nat :=
  match StdMap.find natLt rnti st.m_slDiscTxCount with
  | some (_, count) => count
  | none => 0

/-- The registration passes of `k` receptions in a row of the discovery message `disc` on the
blocks `rbBitmap`, for the pool `pool`: the body of the pool loop of `RxDiscovery`, `k`
times. -/
def RxDiscovery_poolRepeat (env : Env) (rbBitmap : List Int) (disc : SlDiscMsg) (pool : Nat) :
    Nat → PhyM Unit
  | 0 => pure ()
  | k + 1 => do
      RxDiscovery_poolRepeat env rbBitmap disc pool k
      RxDiscovery_pool env rbBitmap disc pool

end LteSpectrumPhy

/-- A sidelink UE at the end of a window that holds three SCI messages received on resource
block 0 with the perceived SINR `[2]`, `[5]`, `[2]`, with the control error model disabled and
no block dropped on collision. -/
def exampleCtrlOrderWindow : LteSpectrumPhy :=
  { exampleOverlapWindow with
    m_rxPacketInfo :=
      [{ rbBitmap := [0], m_rxControlMessage := some { uid := 41, m_type := .SCI, sciRnti := 1 } },
       { rbBitmap := [0], m_rxControlMessage := some { uid := 42, m_type := .SCI, sciRnti := 2 } },
       { rbBitmap := [0], m_rxControlMessage := some { uid := 43, m_type := .SCI, sciRnti := 3 } }],
    m_slSinrPerceived := [[2], [5], [2]],
    m_slSignalPerceived := [[1], [1], [1]],
    m_slInterferencePerceived := [[1], [1], [1]],
    m_nodeList := [(0, 0), (0, 0), (0, 0)] }

end ns3

/-! # Theorems -/

namespace ns3

/-! ## Arithmetic of spectra -/

theorem svAdd_comm (a b : SpectrumValue) : svAdd a b = svAdd b a := by
  unfold svAdd
  rw [List.zipWith_comm]
  congr 1
  funext x y
  exact add_comm y x

theorem svAdd_right_comm (a b c : SpectrumValue) :
    svAdd (svAdd a b) c = svAdd (svAdd a c) b := by
  unfold svAdd
  induction a generalizing b c with
  | nil => simp
  | cons x xs ih =>
    cases b with
    | nil => cases c <;> simp
    | cons y ys =>
      cases c with
      | nil => simp
      | cons z zs =>
        simp only [List.zipWith_cons_cons, List.cons.injEq]
        exact ⟨add_right_comm x y z, ih ys zs⟩

theorem svSum_svAdd (a s : SpectrumValue) (l : List SpectrumValue) :
    svSum (svAdd a s) l = svAdd (svSum a l) s := by
  unfold svSum
  induction l generalizing a with
  | nil => rfl
  | cons x xs ih =>
    simp only [List.foldl_cons]
    rw [svAdd_right_comm a s x, ih]

theorem svSum_insert (a s : SpectrumValue) (pre post : List SpectrumValue) :
    svSum a (pre ++ s :: post) = svAdd (svSum a (pre ++ post)) s := by
  have h := svSum_svAdd (svSum a pre) s post
  unfold svSum at h ⊢
  rw [List.foldl_append, List.foldl_append, List.foldl_cons]
  exact h

theorem svSub_svAdd_cancel (x s : SpectrumValue) (h : x.length ≤ s.length) :
    svSub (svAdd x s) s = x := by
  unfold svSub svAdd
  induction x generalizing s with
  | nil => simp
  | cons a as ih =>
    cases s with
    | nil => simp at h
    | cons b bs =>
      simp only [List.zipWith_cons_cons, List.cons.injEq]
      refine ⟨by ring, ih bs ?_⟩
      simpa using h

theorem length_svAdd (a b : SpectrumValue) : (svAdd a b).length = min a.length b.length := by
  unfold svAdd
  simp

theorem length_svSum (a : SpectrumValue) (l : List SpectrumValue)
    (h : ∀ s ∈ l, s.length = a.length) : (svSum a l).length = a.length := by
  unfold svSum
  induction l generalizing a with
  | nil => rfl
  | cons x xs ih =>
    simp only [List.foldl_cons]
    have hx : x.length = a.length := h x (List.mem_cons_self _ _)
    have hl : (svAdd a x).length = a.length := by rw [length_svAdd, hx]; simp
    rw [ih (svAdd a x) ?_, hl]
    intro s hs
    rw [hl]
    exact h s (List.mem_cons_of_mem _ hs)

/-- Removing the contribution of the signal at position `i` from the running sum leaves the
sum of the other signals. -/
theorem svSub_svSum_eraseIdx (a : SpectrumValue) (l : List SpectrumValue) (i : Nat)
    (hi : i < l.length) (h : ∀ s ∈ l, s.length = a.length) :
    svSub (svSum a l) (l.getD i []) = svSum a (l.eraseIdx i) := by
  have hsplit : l = l.take i ++ l.getD i [] :: l.drop (i + 1) := by
    rw [List.getD_eq_getElem _ _ hi]
    simp
  have herase : l.eraseIdx i = l.take i ++ l.drop (i + 1) := by
    rw [List.eraseIdx_eq_take_drop_succ]
  have hmem : l.getD i [] ∈ l := by
    rw [List.getD_eq_getElem _ _ hi]
    exact List.getElem_mem _
  have hsum : svSum a l = svAdd (svSum a (l.take i ++ l.drop (i + 1))) (l.getD i []) := by
    conv_lhs => rw [hsplit]
    exact svSum_insert _ _ _ _
  rw [herase, hsum]
  apply svSub_svAdd_cancel
  rw [length_svSum, h _ hmem]
  intro s hs
  apply h
  rcases List.mem_append.1 hs with h1 | h1
  · exact List.mem_of_mem_take h1
  · exact List.mem_of_mem_drop h1

end ns3

namespace ns3

namespace LteSlInterference

theorem deliver_ok (t0 : Time) (sd : SpectrumValue × Time) (s : LteSlInterference)
    (A : SpectrumValue) (hA : s.m_allSignals = some A)
    (hrecv : s.m_receiving = true → s.m_lastChangeTime = t0) :
    ∃ s1, deliver t0 sd s = .ok s1 ∧ s1.m_receiving = true ∧ s1.m_lastChangeTime = t0
      ∧ s1.m_allSignals = some (svAdd A sd.1)
      ∧ s1.m_rxSignal = (if s.m_receiving then s.m_rxSignal else []) ++ [sd.1]
      ∧ s1.m_noise = s.m_noise
      ∧ s1.m_sinrChunkProcessorList = s.m_sinrChunkProcessorList
      ∧ s1.m_snrChunkProcessorList = s.m_snrChunkProcessorList
      ∧ s1.m_interfChunkProcessorList = s.m_interfChunkProcessorList
      ∧ s1.m_rsPowerChunkProcessorList = s.m_rsPowerChunkProcessorList := by
  cases hr : s.m_receiving with
  | false =>
    simp [deliver, AddSignal, DoAddSignal, ConditionallyEvaluateChunk, StartRx, hr, hA, bind,
      Except.bind, pure, Except.pure]
    split <;> simp
  | true =>
    have ht := hrecv hr
    simp [deliver, AddSignal, DoAddSignal, ConditionallyEvaluateChunk, StartRx, hr, hA, ht, bind,
      Except.bind, pure, Except.pure]
    split <;> simp

end LteSlInterference

end ns3

namespace ns3

namespace LteSlInterference

theorem deliverAll_ok (t0 : Time) (sigs : List (SpectrumValue × Time)) :
    ∀ (s : LteSlInterference) (A : SpectrumValue), s.m_allSignals = some A →
      (s.m_receiving = true → s.m_lastChangeTime = t0) →
      ∃ s1, deliverAll t0 sigs s = .ok s1
        ∧ s1.m_allSignals = some (svSum A (sigs.map Prod.fst))
        ∧ s1.m_noise = s.m_noise
        ∧ s1.m_sinrChunkProcessorList = s.m_sinrChunkProcessorList
        ∧ s1.m_snrChunkProcessorList = s.m_snrChunkProcessorList
        ∧ s1.m_interfChunkProcessorList = s.m_interfChunkProcessorList
        ∧ s1.m_rsPowerChunkProcessorList = s.m_rsPowerChunkProcessorList
        ∧ (sigs = [] → s1 = s)
        ∧ (sigs ≠ [] → s1.m_receiving = true ∧ s1.m_lastChangeTime = t0
            ∧ s1.m_rxSignal
                = (if s.m_receiving then s.m_rxSignal else []) ++ sigs.map Prod.fst) := by
  induction sigs with
  | nil =>
    intro s A hA _
    exact ⟨s, rfl, by simpa [svSum] using hA, rfl, rfl, rfl, rfl, rfl, fun _ => rfl,
      fun h => absurd rfl h⟩
  | cons sd rest ih =>
    intro s A hA hrecv
    obtain ⟨s1, h1, hr1, ht1, hA1, hrx1, hn1, hp1, hp2, hp3, hp4⟩ := deliver_ok t0 sd s A hA hrecv
    obtain ⟨s2, h2, hA2, hn2, hq1, hq2, hq3, hq4, hnil, hcons⟩ :=
      ih s1 (svAdd A sd.1) hA1 (fun _ => ht1)
    refine ⟨s2, ?_, ?_, hn2.trans hn1, hq1.trans hp1, hq2.trans hp2, hq3.trans hp3,
      hq4.trans hp4, fun h => absurd h (List.cons_ne_nil _ _), fun _ => ?_⟩
    · simp [deliverAll, h1, h2, bind, Except.bind]
    · simpa [svSum] using hA2
    · cases rest with
      | nil =>
        have := hnil rfl
        subst this
        exact ⟨hr1, ht1, by simpa using hrx1⟩
      | cons sd2 rest2 =>
        obtain ⟨hr2, ht2, hrx2⟩ := hcons (List.cons_ne_nil _ _)
        refine ⟨hr2, ht2, ?_⟩
        rw [hrx2, hr1, hrx1]
        simp [List.append_assoc]

theorem evaluateFrom_spec (self self0 : LteSlInterference)
    (h1 : self.m_sinrChunkProcessorList = self0.m_sinrChunkProcessorList)
    (h2 : self.m_snrChunkProcessorList = self0.m_snrChunkProcessorList)
    (h3 : self.m_interfChunkProcessorList = self0.m_interfChunkProcessorList)
    (h4 : self.m_rsPowerChunkProcessorList = self0.m_rsPowerChunkProcessorList)
    (A N : SpectrumValue) (d : Time) (rest : List SpectrumValue) :
    ∀ pre : List SpectrumValue, (∀ s ∈ pre ++ rest, s.length = A.length) →
      evaluateFrom self (svSum A (pre ++ rest)) N d pre.length rest
        = (List.range' pre.length rest.length).flatMap
            (windowDispatchSpec self0 A N d (pre ++ rest)) := by
  induction rest with
  | nil => intro pre _; simp [evaluateFrom]
  | cons s r ih =>
    intro pre hlen
    have hassoc : pre ++ s :: r = (pre ++ [s]) ++ r := by simp
    have hih := ih (pre ++ [s]) (by rw [← hassoc]; exact hlen)
    rw [← hassoc] at hih
    have hlen1 : (pre ++ [s]).length = pre.length + 1 := by simp
    rw [hlen1] at hih
    have hget : (pre ++ s :: r).getD pre.length [] = s := by
      rw [List.getD_eq_getElem?_getD, List.getElem?_append_right (le_refl _)]
      simp
    have herase := svSub_svSum_eraseIdx A (pre ++ s :: r) pre.length (by simp) hlen
    rw [hget] at herase
    simp only [evaluateFrom, List.length_cons, List.range'_succ, List.flatMap_cons, hih]
    congr 1
    simp only [chunkEvents, windowDispatchSpec, hget, herase, h1, h2, h3, h4]

end LteSlInterference

/-- C1. In every reception window of `LteSlInterference` whose signals `s_0 .. s_(n-1)` were each
passed to `AddSignal` and to `StartRx` at the window start `t0` (noise floor `N` set beforehand,
any further signals `A` in the running sum, all over one spectrum model), the evaluation of the
window at a later time `t1` dispatches, for every index `i` and in index order, the
interference `A + (sum of the s_k with k ≠ i) + N` to the interference observers, `s_i` over that
interference to the SINR observers and `s_i / N` to the SNR observers; that interference is
the value `(running sum) - s_i + N` which the code computes. -/
theorem C1_interference_excludes_own_signal (st0 : LteSlInterference) (A N : SpectrumValue)
    (sigs : List (SpectrumValue × Time)) (t0 t1 : Time)
    (hidle : st0.m_receiving = false) (hA : st0.m_allSignals = some A)
    (hN : st0.m_noise = some N) (hlen : ∀ sd ∈ sigs, sd.1.length = A.length)
    (ht : t0 < t1) :
    ∃ st1 st2, LteSlInterference.deliverAll t0 sigs st0 = .ok st1
      ∧ LteSlInterference.ConditionallyEvaluateChunk t1 st1 = .ok st2
      ∧ st1.m_allSignals = some (svSum A (sigs.map Prod.fst))
      ∧ st2.log = st1.log ++ (List.range sigs.length).flatMap
          (LteSlInterference.windowDispatchSpec st0 A N (t1 - t0) (sigs.map Prod.fst))
      ∧ ∀ i, i < sigs.length →
          svAdd (svSub (svSum A (sigs.map Prod.fst)) ((sigs.map Prod.fst).getD i [])) N
            = svAdd (svSum A ((sigs.map Prod.fst).eraseIdx i)) N := by
  obtain ⟨st1, h1, hA1, hN1, hp1, hp2, hp3, hp4, hnil, hcons⟩ :=
    LteSlInterference.deliverAll_ok t0 sigs st0 A hA (by simp [hidle])
  have hlen2 : ∀ s ∈ sigs.map Prod.fst, s.length = A.length := by
    intro s hs
    obtain ⟨sd, hsd, rfl⟩ := List.mem_map.1 hs
    exact hlen sd hsd
  have hlast : ∀ i, i < sigs.length →
      svAdd (svSub (svSum A (sigs.map Prod.fst)) ((sigs.map Prod.fst).getD i [])) N
        = svAdd (svSum A ((sigs.map Prod.fst).eraseIdx i)) N := by
    intro i hi
    rw [svSub_svSum_eraseIdx A (sigs.map Prod.fst) i (by simpa using hi) hlen2]
  cases hs : sigs with
  | nil =>
    subst hs
    have := hnil rfl
    subst this
    refine ⟨st1, st1, h1, ?_, hA1, by simp, hlast⟩
    simp [LteSlInterference.ConditionallyEvaluateChunk, hidle]
  | cons sd rest =>
    rw [← hs]
    obtain ⟨hr, htime, hrx⟩ := hcons (by simp [hs])
    rw [hidle] at hrx
    simp only [Bool.false_eq_true, if_false, List.nil_append] at hrx
    have hspec := LteSlInterference.evaluateFrom_spec st1 st0 hp1 hp2 hp3 hp4 A N (t1 - t0)
      (sigs.map Prod.fst) [] (by simpa using hlen2)
    simp only [List.nil_append, List.length_nil, List.length_map] at hspec
    rw [← List.range_eq_range'] at hspec
    have hmap : sigs.map Prod.fst = sd.1 :: rest.map Prod.fst := by simp [hs]
    refine ⟨st1, { st1 with
        log := st1.log ++ LteSlInterference.evaluateFrom st1 (svSum A (sigs.map Prod.fst)) N
          (t1 - t0) 0 (sigs.map Prod.fst)
        m_lastChangeTime := t1 }, h1, ?_, hA1, ?_, hlast⟩
    · have hN2 : st1.m_noise = some N := hN1.trans hN
      have hgt : st1.m_lastChangeTime < t1 := by rw [htime]; exact ht
      simp [LteSlInterference.ConditionallyEvaluateChunk, hr, hrx, hmap, hA1, hN2, htime, ht]
    · simp only [hspec]

end ns3

namespace ns3

/-! ## The monad of member functions -/

theorem PhyM.bind_eq {α β : Type} (m : PhyM α) (f : α → PhyM β) :
    (m >>= f) = PhyM.andThen m f := rfl

theorem PhyM.pure_eq {α : Type} (a : α) : (pure a : PhyM α) = PhyM.ret a := rfl

theorem PhyM.andThen_ok {α β : Type} (m : PhyM α) (f : α → PhyM β) (st st2 : LteSpectrumPhy)
    (b : β) :
    PhyM.andThen m f st = .ok b st2 ↔ ∃ a st1, m st = .ok a st1 ∧ f a st1 = .ok b st2 := by
  unfold PhyM.andThen
  cases h : m st with
  | ok a st1 =>
    constructor
    · intro hf
      exact ⟨a, st1, rfl, hf⟩
    · rintro ⟨a1, st3, h1, hf⟩
      simp only [Outcome.ok.injEq] at h1
      rw [h1.1, h1.2]
      exact hf
  | abort why st1 => simp

theorem PhyM.get_ok (st st1 st2 : LteSpectrumPhy) :
    PhyM.get st = .ok st1 st2 ↔ st1 = st ∧ st2 = st := by
  unfold PhyM.get
  constructor
  · intro h
    simp only [Outcome.ok.injEq] at h
    exact ⟨h.1.symm, h.2.symm⟩
  · rintro ⟨rfl, rfl⟩
    rfl

theorem PhyM.ret_ok {α : Type} (a b : α) (st st2 : LteSpectrumPhy) :
    PhyM.ret a st = .ok b st2 ↔ b = a ∧ st2 = st := by
  unfold PhyM.ret
  constructor
  · intro h
    simp only [Outcome.ok.injEq] at h
    exact ⟨h.1.symm, h.2.symm⟩
  · rintro ⟨rfl, rfl⟩
    rfl

end ns3

namespace ns3

open LteSpectrumPhy in
/-- C2. On a device whose transmit PSD and channel are set (the two `NS_ASSERT`s of the `IDLE`
branch), each of `StartTxDataFrame`, `StartTxDlCtrlFrame` and `StartTxUlSrsFrame` starts the
transmission (returns `false`, hands exactly one signal to the channel, schedules the
end-of-transmit event after the frame duration and moves to `TX_DATA`, `TX_DL_CTRL` or
`TX_UL_SRS`) if and only if the state is `IDLE`; in each of the six other states the call is a
fatal error and no signal is handed to the channel. -/
theorem C2_start_tx_iff_idle (st : LteSpectrumPhy) (pb : Option PacketBurst)
    (ctrlMsgList : List LteControlMessage) (duration : Time) (pss : Bool)
    (hpsd : st.m_txPsd.isSome = true) (hch : st.m_channel = true) :
    ((startedTx st (StartTxDataFrame pb ctrlMsgList duration st) .TX_DATA duration .EndTxData
        ↔ st.m_state = .IDLE)
      ∧ (st.m_state ≠ .IDLE → fatalWithoutTx st (StartTxDataFrame pb ctrlMsgList duration st)))
    ∧ ((startedTx st (StartTxDlCtrlFrame ctrlMsgList pss st) .TX_DL_CTRL DL_CTRL_DURATION
          .EndTxDlCtrl ↔ st.m_state = .IDLE)
      ∧ (st.m_state ≠ .IDLE → fatalWithoutTx st (StartTxDlCtrlFrame ctrlMsgList pss st)))
    ∧ ((startedTx st (StartTxUlSrsFrame st) .TX_UL_SRS UL_SRS_DURATION .EndTxUlSrs
          ↔ st.m_state = .IDLE)
      ∧ (st.m_state ≠ .IDLE → fatalWithoutTx st (StartTxUlSrsFrame st))) := by
  refine ⟨?_, ?_, ?_⟩
  · cases hs : st.m_state <;> cases pb <;>
      simp [startedTx, fatalWithoutTx, StartTxDataFrame, PhyM.bind_eq, PhyM.pure_eq,
        PhyM.andThen, PhyM.ret, PhyM.get, PhyM.modify, PhyM.emit, PhyM.abortWith,
        NS_FATAL_ERROR, NS_ASSERT, ChangeState, hs, hpsd, hch, Outcome.isFatal, Outcome.state,
        handedToChannel, scheduled, List.filterMap_append]
  · cases hs : st.m_state <;>
      simp [startedTx, fatalWithoutTx, StartTxDlCtrlFrame, PhyM.bind_eq, PhyM.pure_eq,
        PhyM.andThen, PhyM.ret, PhyM.get, PhyM.modify, PhyM.emit, PhyM.abortWith,
        NS_FATAL_ERROR, NS_ASSERT, ChangeState, hs, hpsd, hch, Outcome.isFatal, Outcome.state,
        handedToChannel, scheduled, List.filterMap_append]
  · cases hs : st.m_state <;>
      simp [startedTx, fatalWithoutTx, StartTxUlSrsFrame, PhyM.bind_eq, PhyM.pure_eq,
        PhyM.andThen, PhyM.ret, PhyM.get, PhyM.modify, PhyM.emit, PhyM.abortWith,
        NS_FATAL_ERROR, NS_ASSERT, ChangeState, hs, hpsd, hch, Outcome.isFatal, Outcome.state,
        handedToChannel, scheduled, List.filterMap_append]

end ns3

namespace ns3

open LteSpectrumPhy in
/-- C3. Half-duplex law of the sidelink transmitter, on a device whose transmit PSD and
channel are set: `StartTxSlDataFrame` called in `RX_DATA` is a fatal error when
`CtrlFullDuplexEnabled` is false and starts the transmission (state `TX_DATA`, result `false`)
when it is true; called in `RX_DL_CTRL`, `RX_UL_SRS` or any transmitting state it is a fatal
error whatever the flag; called in `IDLE` it starts the transmission whatever the flag. -/
theorem C3_sidelink_tx_half_duplex (st : LteSpectrumPhy) (pb : Option PacketBurst)
    (ctrlMsgList : List LteControlMessage) (duration : Time) (groupId : Nat)
    (hpsd : st.m_txPsd.isSome = true) (hch : st.m_channel = true) :
    (st.m_state = .RX_DATA ∧ st.m_ctrlFullDuplexEnabled = false →
        fatalWithoutTx st (StartTxSlDataFrame pb ctrlMsgList duration groupId st))
    ∧ (st.m_state = .RX_DATA ∧ st.m_ctrlFullDuplexEnabled = true →
        startedTx st (StartTxSlDataFrame pb ctrlMsgList duration groupId st) .TX_DATA duration
          .EndTxData)
    ∧ (st.m_state = .RX_DL_CTRL ∨ st.m_state = .RX_UL_SRS ∨ st.m_state = .TX_DATA
          ∨ st.m_state = .TX_DL_CTRL ∨ st.m_state = .TX_UL_SRS →
        fatalWithoutTx st (StartTxSlDataFrame pb ctrlMsgList duration groupId st))
    ∧ (st.m_state = .IDLE →
        startedTx st (StartTxSlDataFrame pb ctrlMsgList duration groupId st) .TX_DATA duration
          .EndTxData) := by
  cases hs : st.m_state <;> cases hf : st.m_ctrlFullDuplexEnabled <;>
    simp [startedTx, fatalWithoutTx, StartTxSlDataFrame, PhyM.bind_eq, PhyM.pure_eq,
      PhyM.andThen, PhyM.ret, PhyM.get, PhyM.modify, PhyM.emit, PhyM.abortWith,
      NS_FATAL_ERROR, NS_ASSERT, ChangeState, hs, hf, hpsd, hch, Outcome.isFatal, Outcome.state,
      handedToChannel, scheduled, List.filterMap_append]

open LteSpectrumPhy in
/-- C4. Kind-exclusivity and half-duplex on reception: whatever the rest of the object, the time
and the signal (hence whether or not its cell identity matches), `StartRxData` is a fatal error
in the three transmitting states and in `RX_DL_CTRL` and `RX_UL_SRS`; `StartRxDlCtrl` is a
fatal error in the three transmitting states and in `RX_DATA` and `RX_UL_SRS`; `StartRxUlSrs`
is a fatal error in the three transmitting states and in `RX_DATA` and `RX_DL_CTRL`. -/
theorem C4_rx_kind_exclusive (st : LteSpectrumPhy) (now : Time)
    (pData : LteSpectrumSignalParametersDataFrame)
    (pCtrl : LteSpectrumSignalParametersDlCtrlFrame)
    (pSrs : LteSpectrumSignalParametersUlSrsFrame) :
    ((StartRxData now pData { st with m_state := .TX_DATA }).isFatal = true
      ∧ (StartRxData now pData { st with m_state := .TX_DL_CTRL }).isFatal = true
      ∧ (StartRxData now pData { st with m_state := .TX_UL_SRS }).isFatal = true
      ∧ (StartRxData now pData { st with m_state := .RX_DL_CTRL }).isFatal = true
      ∧ (StartRxData now pData { st with m_state := .RX_UL_SRS }).isFatal = true)
    ∧ ((StartRxDlCtrl now pCtrl { st with m_state := .TX_DATA }).isFatal = true
      ∧ (StartRxDlCtrl now pCtrl { st with m_state := .TX_DL_CTRL }).isFatal = true
      ∧ (StartRxDlCtrl now pCtrl { st with m_state := .TX_UL_SRS }).isFatal = true
      ∧ (StartRxDlCtrl now pCtrl { st with m_state := .RX_DATA }).isFatal = true
      ∧ (StartRxDlCtrl now pCtrl { st with m_state := .RX_UL_SRS }).isFatal = true)
    ∧ ((StartRxUlSrs now pSrs { st with m_state := .TX_DATA }).isFatal = true
      ∧ (StartRxUlSrs now pSrs { st with m_state := .TX_DL_CTRL }).isFatal = true
      ∧ (StartRxUlSrs now pSrs { st with m_state := .TX_UL_SRS }).isFatal = true
      ∧ (StartRxUlSrs now pSrs { st with m_state := .RX_DATA }).isFatal = true
      ∧ (StartRxUlSrs now pSrs { st with m_state := .RX_DL_CTRL }).isFatal = true) := by
  simp [StartRxData, StartRxDlCtrl, StartRxUlSrs, PhyM.bind_eq, PhyM.andThen, PhyM.get,
    PhyM.abortWith, NS_FATAL_ERROR, Outcome.isFatal]

end ns3

namespace ns3

/-! ## `std::map` -/

namespace StdMap

variable {K V : Type} {lt : K → K → Bool}

theorem keyOrder_ne (ho : KeyOrder lt) {a b : K} (h : lt a b = true) : a ≠ b := by
  intro hab
  subst hab
  rw [ho.irrefl] at h
  exact Bool.false_ne_true h

theorem entriesOf_eq_nil_of_lt [DecidableEq K] (ho : KeyOrder lt) (k : K) (e : K × V)
    (rest : StdMap K V) (hwf : WF lt (e :: rest)) (hlt : lt k e.1 = true) :
    entriesOf k (e :: rest) = [] := by
  unfold entriesOf
  rw [List.filter_eq_nil_iff]
  intro x hx
  have hkx : lt k x.1 = true := by
    rcases List.mem_cons.1 hx with h | h
    · rw [h]; exact hlt
    · exact ho.trans _ _ _ hlt ((List.pairwise_cons.1 hwf).1 x h)
  have := keyOrder_ne ho hkx
  simpa using fun h => this h.symm

theorem entriesOf_tail_eq_nil [DecidableEq K] (ho : KeyOrder lt) (e : K × V)
    (rest : StdMap K V) (hwf : WF lt (e :: rest)) : entriesOf e.1 rest = [] := by
  unfold entriesOf
  rw [List.filter_eq_nil_iff]
  intro x hx
  have hx1 : lt e.1 x.1 = true := (List.pairwise_cons.1 hwf).1 x hx
  have := keyOrder_ne ho hx1
  simpa using fun h => this h.symm

theorem entriesOf_cons_ne [DecidableEq K] (k : K) (e : K × V) (l : StdMap K V)
    (hne : e.1 ≠ k) : entriesOf k (e :: l) = entriesOf k l := by
  simp [entriesOf, hne]

theorem others_cons_ne [DecidableEq K] (k : K) (e : K × V) (l : StdMap K V)
    (hne : e.1 ≠ k) : others k (e :: l) = e :: others k l := by
  simp [others, hne]

theorem find_eq_head_entriesOf [DecidableEq K] (ho : KeyOrder lt) (k : K) (m : StdMap K V)
    (hwf : WF lt m) : find lt k m = (entriesOf k m).head? := by
  induction m with
  | nil => rfl
  | cons e rest ih =>
    have hrest : WF lt rest := (List.pairwise_cons.1 hwf).2
    by_cases h1 : lt e.1 k = true
    · have hne : e.1 ≠ k := keyOrder_ne ho h1
      have hfind : find lt k (e :: rest) = find lt k rest := by simp [find, h1]
      have hent : entriesOf k (e :: rest) = entriesOf k rest := by simp [entriesOf, hne]
      rw [hfind, hent, ih hrest]
    · by_cases h2 : lt k e.1 = true
      · have hfind : find lt k (e :: rest) = none := by simp [find, h1, h2]
        rw [hfind, entriesOf_eq_nil_of_lt ho k e rest hwf h2]
        rfl
      · have heq : e.1 = k := (ho.total _ _ (by simpa using h2) (by simpa using h1)).symm
        have hfind : find lt k (e :: rest) = some e := by simp [find, h1, h2]
        have hent : entriesOf k (e :: rest) = e :: entriesOf k rest := by simp [entriesOf, heq]
        rw [hfind, hent]
        rfl

theorem erase_sublist (k : K) (m : StdMap K V) : List.Sublist (erase lt k m) m := by
  induction m with
  | nil => exact List.Sublist.refl _
  | cons e rest ih =>
    by_cases h1 : lt e.1 k = true
    · have : erase lt k (e :: rest) = e :: erase lt k rest := by simp [erase, h1]
      rw [this]
      exact List.Sublist.cons₂ _ ih
    · by_cases h2 : lt k e.1 = true
      · have : erase lt k (e :: rest) = e :: rest := by simp [erase, h1, h2]
        rw [this]
      · have : erase lt k (e :: rest) = rest := by simp [erase, h1, h2]
        rw [this]
        exact List.sublist_cons_self _ _

theorem WF_erase (k : K) (m : StdMap K V) (hwf : WF lt m) : WF lt (erase lt k m) :=
  List.Pairwise.sublist (erase_sublist k m) hwf

theorem erase_spec [DecidableEq K] (ho : KeyOrder lt) (k : K) (m : StdMap K V)
    (hwf : WF lt m) :
    entriesOf k (erase lt k m) = [] ∧ others k (erase lt k m) = others k m := by
  induction m with
  | nil => exact ⟨rfl, rfl⟩
  | cons e rest ih =>
    have hrest : WF lt rest := (List.pairwise_cons.1 hwf).2
    obtain ⟨ih1, ih2⟩ := ih hrest
    by_cases h1 : lt e.1 k = true
    · have hne : e.1 ≠ k := keyOrder_ne ho h1
      have he : erase lt k (e :: rest) = e :: erase lt k rest := by simp [erase, h1]
      rw [he, entriesOf_cons_ne k e _ hne, others_cons_ne k e _ hne,
        others_cons_ne k e _ hne, ih1, ih2]
      exact ⟨rfl, rfl⟩
    · by_cases h2 : lt k e.1 = true
      · have he : erase lt k (e :: rest) = e :: rest := by simp [erase, h1, h2]
        rw [he]
        exact ⟨entriesOf_eq_nil_of_lt ho k e rest hwf h2, rfl⟩
      · have heq : e.1 = k := (ho.total _ _ (by simpa using h2) (by simpa using h1)).symm
        have he : erase lt k (e :: rest) = rest := by simp [erase, h1, h2]
        rw [he]
        have hnil := entriesOf_tail_eq_nil ho e rest hwf
        rw [heq] at hnil
        refine ⟨hnil, ?_⟩
        simp [others, heq]

theorem insert_spec [DecidableEq K] (ho : KeyOrder lt) (k : K) (v : V) (m : StdMap K V)
    (habs : entriesOf k m = []) :
    entriesOf k (insert lt k v m) = [(k, v)] ∧ others k (insert lt k v m) = others k m := by
  induction m with
  | nil => simp [insert, entriesOf, others]
  | cons e rest ih =>
    have hne : e.1 ≠ k := by
      intro h
      have : e ∈ entriesOf k (e :: rest) := by simp [entriesOf, h]
      rw [habs] at this
      exact List.not_mem_nil _ this
    have hrest : entriesOf k rest = [] := by
      simp only [entriesOf] at habs ⊢
      simpa [hne] using habs
    obtain ⟨ih1, ih2⟩ := ih hrest
    by_cases h1 : lt e.1 k = true
    · have he : insert lt k v (e :: rest) = e :: insert lt k v rest := by simp [insert, h1]
      rw [he, entriesOf_cons_ne k e _ hne, others_cons_ne k e _ hne,
        others_cons_ne k e _ hne, ih1, ih2]
      exact ⟨rfl, rfl⟩
    · by_cases h2 : lt k e.1 = true
      · have he : insert lt k v (e :: rest) = (k, v) :: e :: rest := by simp [insert, h1, h2]
        rw [he]
        refine ⟨?_, ?_⟩
        · have : entriesOf k ((k, v) :: e :: rest) = (k, v) :: entriesOf k (e :: rest) := by
            simp [entriesOf]
          rw [this, habs]
        · simp [others]
      · exact absurd (ho.total _ _ (by simpa using h1) (by simpa using h2)) hne

theorem mem_insert (k : K) (v : V) (m : StdMap K V) (x : K × V)
    (hx : x ∈ insert lt k v m) : x = (k, v) ∨ x ∈ m := by
  induction m with
  | nil => left; simpa [insert] using hx
  | cons e rest ih =>
    by_cases h1 : lt e.1 k = true
    · have he : insert lt k v (e :: rest) = e :: insert lt k v rest := by simp [insert, h1]
      rw [he] at hx
      cases List.mem_cons.1 hx with
      | inl h => right; rw [h]; exact List.mem_cons_self _ _
      | inr h =>
        cases ih h with
        | inl h3 => left; exact h3
        | inr h3 => right; exact List.mem_cons_of_mem _ h3
    · by_cases h2 : lt k e.1 = true
      · have he : insert lt k v (e :: rest) = (k, v) :: e :: rest := by simp [insert, h1, h2]
        rw [he] at hx
        cases List.mem_cons.1 hx with
        | inl h => left; exact h
        | inr h => right; exact h
      · have he : insert lt k v (e :: rest) = e :: rest := by simp [insert, h1, h2]
        rw [he] at hx
        right; exact hx

theorem WF_insert (ho : KeyOrder lt) (k : K) (v : V) (m : StdMap K V) (hwf : WF lt m) :
    WF lt (insert lt k v m) := by
  induction m with
  | nil => simp [insert, WF]
  | cons e rest ih =>
    have hrest : WF lt rest := (List.pairwise_cons.1 hwf).2
    have hhead := (List.pairwise_cons.1 hwf).1
    by_cases h1 : lt e.1 k = true
    · have he : insert lt k v (e :: rest) = e :: insert lt k v rest := by simp [insert, h1]
      rw [he]
      refine List.pairwise_cons.2 ⟨?_, ih hrest⟩
      intro x hx
      cases mem_insert k v rest x hx with
      | inl h => rw [h]; exact h1
      | inr h => exact hhead x h
    · by_cases h2 : lt k e.1 = true
      · have he : insert lt k v (e :: rest) = (k, v) :: e :: rest := by simp [insert, h1, h2]
        rw [he]
        refine List.pairwise_cons.2 ⟨?_, hwf⟩
        intro x hx
        cases List.mem_cons.1 hx with
        | inl h => rw [h]; exact h2
        | inr h => exact ho.trans _ _ _ h2 (hhead x h)
      · have he : insert lt k v (e :: rest) = e :: rest := by simp [insert, h1, h2]
        rw [he]
        exact hwf

/-- The effect of `find`, `erase` when found, `insert` on a well-formed map: the key `k` is
bound to `v` alone and the entries of the other keys are untouched. -/
theorem replace_spec [DecidableEq K] (ho : KeyOrder lt) (k : K) (v : V) (m : StdMap K V)
    (hwf : WF lt m) :
    let m1 := if (find lt k m).isSome then erase lt k m else m
    entriesOf k (insert lt k v m1) = [(k, v)]
      ∧ others k (insert lt k v m1) = others k m
      ∧ WF lt (insert lt k v m1) := by
  intro m1
  have hm1 : entriesOf k m1 = [] ∧ others k m1 = others k m ∧ WF lt m1 := by
    cases hf : find lt k m with
    | none =>
      have h := find_eq_head_entriesOf ho k m hwf
      rw [hf] at h
      have hnil : entriesOf k m = [] := by
        cases hl : entriesOf k m with
        | nil => rfl
        | cons a l => rw [hl] at h; simp at h
      have hm : m1 = m := by simp [m1, hf]
      rw [hm]
      exact ⟨hnil, rfl, hwf⟩
    | some e =>
      have hm : m1 = erase lt k m := by simp [m1, hf]
      rw [hm]
      exact ⟨(erase_spec ho k m hwf).1, (erase_spec ho k m hwf).2, WF_erase k m hwf⟩
  obtain ⟨h1, h2, h3⟩ := hm1
  obtain ⟨h4, h5⟩ := insert_spec ho k v m1 h1
  exact ⟨h4, h5.trans h2, WF_insert ho k v m1 h3⟩

theorem find_of_entriesOf [DecidableEq K] (ho : KeyOrder lt) (k : K) (m : StdMap K V)
    (hwf : WF lt m) (e : K × V) (h : entriesOf k m = [e]) : find lt k m = some e := by
  rw [find_eq_head_entriesOf ho k m hwf, h]
  rfl

theorem find_of_others [DecidableEq K] (ho : KeyOrder lt) (k k1 : K) (m m1 : StdMap K V)
    (hwf : WF lt m) (hwf1 : WF lt m1) (h : others k m1 = others k m) (hne : k1 ≠ k) :
    find lt k1 m1 = find lt k1 m := by
  rw [find_eq_head_entriesOf ho k1 m hwf, find_eq_head_entriesOf ho k1 m1 hwf1]
  have key : ∀ l : StdMap K V, entriesOf k1 l = entriesOf k1 (others k l) := by
    intro l
    simp only [entriesOf, others, List.filter_filter]
    congr 1
    funext x
    by_cases hx : x.1 = k1
    · simp [hx, hne]
    · simp [hx]
  rw [key m, key m1, h]

end StdMap

theorem tbId_keyOrder : StdMap.KeyOrder TbId_t.lt where
  irrefl a := by simp [TbId_t.lt]
  trans a b c h1 h2 := by
    simp only [TbId_t.lt, Bool.or_eq_true, Bool.and_eq_true, decide_eq_true_eq] at *
    omega
  total a b h1 h2 := by
    have h3 : ¬ (TbId_t.lt a b = true) := by simp [h1]
    have h4 : ¬ (TbId_t.lt b a = true) := by simp [h2]
    simp only [TbId_t.lt, Bool.or_eq_true, Bool.and_eq_true, decide_eq_true_eq] at h3 h4
    cases a; cases b
    simp only [TbId_t.mk.injEq] at *
    omega

theorem slTbId_keyOrder : StdMap.KeyOrder SlTbId_t.lt where
  irrefl a := by simp [SlTbId_t.lt]
  trans a b c h1 h2 := by
    simp only [SlTbId_t.lt, Bool.or_eq_true, Bool.and_eq_true, decide_eq_true_eq] at *
    omega
  total a b h1 h2 := by
    have h3 : ¬ (SlTbId_t.lt a b = true) := by simp [h1]
    have h4 : ¬ (SlTbId_t.lt b a = true) := by simp [h2]
    simp only [SlTbId_t.lt, Bool.or_eq_true, Bool.and_eq_true, decide_eq_true_eq] at h3 h4
    cases a; cases b
    simp only [SlTbId_t.mk.injEq] at *
    omega

theorem slDiscTbId_keyOrder : StdMap.KeyOrder SlDiscTbId_t.lt where
  irrefl a := by simp [SlDiscTbId_t.lt]
  trans a b c h1 h2 := by
    simp only [SlDiscTbId_t.lt, Bool.or_eq_true, Bool.and_eq_true, decide_eq_true_eq] at *
    omega
  total a b h1 h2 := by
    have h3 : ¬ (SlDiscTbId_t.lt a b = true) := by simp [h1]
    have h4 : ¬ (SlDiscTbId_t.lt b a = true) := by simp [h2]
    simp only [SlDiscTbId_t.lt, Bool.or_eq_true, Bool.and_eq_true, decide_eq_true_eq] at h3 h4
    cases a; cases b
    simp only [SlDiscTbId_t.mk.injEq] at *
    omega

theorem natLt_keyOrder : StdMap.KeyOrder natLt where
  irrefl a := by simp [natLt]
  trans a b c h1 h2 := by
    simp only [natLt, decide_eq_true_eq] at *
    omega
  total a b h1 h2 := by
    simp only [natLt, decide_eq_false_iff_not] at *
    omega

end ns3

namespace ns3

namespace LteSpectrumPhy

theorem AddExpectedTb_eq (st : LteSpectrumPhy) (rnti ndi size mcs : Nat) (map : List Int)
    (layer harqId rv : Nat) (downlink : Bool) :
    AddExpectedTb rnti ndi size mcs map layer harqId rv downlink st
      = .ok () { st with m_expectedTbs :=
          (StdMap.insert TbId_t.lt { m_rnti := rnti, m_layer := layer }
            { ndi := ndi, size := size, mcs := mcs, rbBitmap := map, harqProcessId := harqId,
              rv := rv, mi := 0, downlink := downlink, corrupt := false,
              harqFeedbackSent := false, sinr := 0 }
            (if (StdMap.find TbId_t.lt { m_rnti := rnti, m_layer := layer } st.m_expectedTbs).isSome then
                StdMap.erase TbId_t.lt { m_rnti := rnti, m_layer := layer } st.m_expectedTbs
              else st.m_expectedTbs)) } := by
  unfold AddExpectedTb
  cases h : StdMap.find TbId_t.lt { m_rnti := rnti, m_layer := layer } st.m_expectedTbs <;>
    simp [PhyM.bind_eq, PhyM.pure_eq, PhyM.andThen, PhyM.ret, PhyM.get, PhyM.modify, h]

theorem AddExpectedTbSl_eq (st : LteSpectrumPhy) (rnti l1dst ndi size mcs : Nat)
    (map : List Int) (rv : Nat) :
    ∃ st1, AddExpectedTbSl rnti l1dst ndi size mcs map rv st = .ok () st1
      ∧ st1.m_expectedSlTbs =
          StdMap.insert SlTbId_t.lt { m_rnti := rnti, m_l1dst := l1dst }
            { ndi := ndi, size := size, mcs := mcs, rbBitmap := map, rv := rv, mi := 0,
              corrupt := false, harqFeedbackSent := false, sinr := 0 }
            (if (StdMap.find SlTbId_t.lt { m_rnti := rnti, m_l1dst := l1dst } st.m_expectedSlTbs).isSome then
                StdMap.erase SlTbId_t.lt { m_rnti := rnti, m_l1dst := l1dst } st.m_expectedSlTbs
              else st.m_expectedSlTbs) := by
  unfold AddExpectedTbSl
  cases h : StdMap.find SlTbId_t.lt { m_rnti := rnti, m_l1dst := l1dst } st.m_expectedSlTbs <;>
    by_cases hn : ndi = 0 <;>
    simp [PhyM.bind_eq, PhyM.pure_eq, PhyM.andThen, PhyM.ret, PhyM.get, PhyM.modify, onSlHarq,
      h, hn]

theorem AddExpectedTbDisc_eq (st : LteSpectrumPhy) (rnti resPsdch ndi : Nat)
    (map : List Int) (rv : Nat) :
    ∃ st1, AddExpectedTbDisc rnti resPsdch ndi map rv st = .ok () st1
      ∧ st1.m_expectedDiscTbs =
          StdMap.insert SlDiscTbId_t.lt { m_rnti := rnti, m_resPsdch := resPsdch }
            { ndi := ndi, resPsdch := resPsdch, rbBitmap := map, rv := rv, mi := 0,
              corrupt := false, harqFeedbackSent := false, sinr := 0 }
            (if (StdMap.find SlDiscTbId_t.lt { m_rnti := rnti, m_resPsdch := resPsdch } st.m_expectedDiscTbs).isSome then
                StdMap.erase SlDiscTbId_t.lt { m_rnti := rnti, m_resPsdch := resPsdch } st.m_expectedDiscTbs
              else st.m_expectedDiscTbs) := by
  unfold AddExpectedTbDisc
  cases h : StdMap.find SlDiscTbId_t.lt { m_rnti := rnti, m_resPsdch := resPsdch }
      st.m_expectedDiscTbs <;>
    by_cases hn : ndi = 0 <;>
    simp [PhyM.bind_eq, PhyM.pure_eq, PhyM.andThen, PhyM.ret, PhyM.get, PhyM.modify, onSlHarq,
      h, hn]

end LteSpectrumPhy

theorem registered_of_replace {K V : Type} [DecidableEq K] {lt : K → K → Bool}
    (ho : StdMap.KeyOrder lt) (k : K) (info : V) (m : StdMap K V) (hwf : StdMap.WF lt m) :
    registered lt k info m
      (StdMap.insert lt k info
        (if (StdMap.find lt k m).isSome then StdMap.erase lt k m else m)) := by
  obtain ⟨h1, h2, h3⟩ := StdMap.replace_spec ho k info m hwf
  exact ⟨h1, h2, StdMap.find_of_entriesOf ho k _ h3 _ h1,
    fun k1 hne => StdMap.find_of_others ho k k1 m _ hwf h3 h2 hne, h3⟩

open LteSpectrumPhy in
/-- C6. For each of the three `AddExpectedTb` overloads and every (well-formed) content of its
registry, the call returns without error and afterwards the registry holds exactly one
descriptor for the given identity; it carries the arguments of this call with corrupted =
false, harq-feedback-sent = false and mutual information 0; a descriptor stored before under
that identity is gone; the descriptors of all other identities are unchanged. -/
theorem C6_add_expected_tb_replaces (st : LteSpectrumPhy)
    (rnti ndi size mcs layer harqId rv l1dst resPsdch : Nat) (map : List Int) (downlink : Bool)
    (hwf : StdMap.WF TbId_t.lt st.m_expectedTbs)
    (hwfSl : StdMap.WF SlTbId_t.lt st.m_expectedSlTbs)
    (hwfDisc : StdMap.WF SlDiscTbId_t.lt st.m_expectedDiscTbs) :
    (∃ st1, AddExpectedTb rnti ndi size mcs map layer harqId rv downlink st = .ok () st1
        ∧ registered TbId_t.lt { m_rnti := rnti, m_layer := layer }
            { ndi := ndi, size := size, mcs := mcs, rbBitmap := map, harqProcessId := harqId,
              rv := rv, mi := 0, downlink := downlink, corrupt := false,
              harqFeedbackSent := false, sinr := 0 }
            st.m_expectedTbs st1.m_expectedTbs)
    ∧ (∃ st1, AddExpectedTbSl rnti l1dst ndi size mcs map rv st = .ok () st1
        ∧ registered SlTbId_t.lt { m_rnti := rnti, m_l1dst := l1dst }
            { ndi := ndi, size := size, mcs := mcs, rbBitmap := map, rv := rv, mi := 0,
              corrupt := false, harqFeedbackSent := false, sinr := 0 }
            st.m_expectedSlTbs st1.m_expectedSlTbs)
    ∧ (∃ st1, AddExpectedTbDisc rnti resPsdch ndi map rv st = .ok () st1
        ∧ registered SlDiscTbId_t.lt { m_rnti := rnti, m_resPsdch := resPsdch }
            { ndi := ndi, resPsdch := resPsdch, rbBitmap := map, rv := rv, mi := 0,
              corrupt := false, harqFeedbackSent := false, sinr := 0 }
            st.m_expectedDiscTbs st1.m_expectedDiscTbs) := by
  refine ⟨?_, ?_, ?_⟩
  · refine ⟨_, AddExpectedTb_eq st rnti ndi size mcs map layer harqId rv downlink, ?_⟩
    exact registered_of_replace tbId_keyOrder _ _ _ hwf
  · obtain ⟨st1, h1, h2⟩ := AddExpectedTbSl_eq st rnti l1dst ndi size mcs map rv
    refine ⟨st1, h1, ?_⟩
    rw [h2]
    exact registered_of_replace slTbId_keyOrder _ _ _ hwfSl
  · obtain ⟨st1, h1, h2⟩ := AddExpectedTbDisc_eq st rnti resPsdch ndi map rv
    refine ⟨st1, h1, ?_⟩
    rw [h2]
    exact registered_of_replace slDiscTbId_keyOrder _ _ _ hwfDisc

end ns3

namespace ns3

namespace LteSpectrumPhy

theorem length_decodedFrom (env : Env) (sinr : SpectrumValue) (harq : List HarqCall)
    (l : StdMap TbId_t tbInfo_t) :
    ∀ pos, (decodedFrom env sinr harq pos l).length = l.length := by
  induction l with
  | nil => intro pos; rfl
  | cons e rest ih => intro pos; simp [decodedFrom, ih]

theorem getElem_decodedFrom (env : Env) (sinr : SpectrumValue) (harq : List HarqCall)
    (l : StdMap TbId_t tbInfo_t) :
    ∀ pos k (hk : k < l.length) (hk1 : k < (decodedFrom env sinr harq pos l).length),
      (decodedFrom env sinr harq pos l)[k]
        = decoded env sinr harq (env.random (pos + k)) l[k] := by
  induction l with
  | nil => intro pos k hk; simp at hk
  | cons e rest ih =>
    intro pos k hk hk1
    cases k with
    | zero => simp [decodedFrom]
    | succ j =>
      simp only [decodedFrom, List.getElem_cons_succ]
      rw [ih (pos + 1) j (by simpa using hk)
        (by rw [length_decodedFrom]; simpa using hk)]
      congr 2
      omega

/-- One pass of the error model loop with the error model enabled and a burst received. -/
theorem EndRxData_tb_on (env : Env) (now : Time) (done rest : StdMap TbId_t tbInfo_t)
    (e : TbId_t × tbInfo_t) (st st1 : LteSpectrumPhy) (r : TbId_t × tbInfo_t)
    (hgate : st.m_dataErrorModelEnabled = true ∧ st.m_rxPacketBurstList.length > 0)
    (h : EndRxData_tb env now done e rest st = .ok r st1) :
    r = decoded env st.m_sinrPerceived st.m_harqPhyModule (env.random st.m_random) e
      ∧ st1.m_expectedTbs = done ++ r :: rest
      ∧ st1.m_random = st.m_random + 1
      ∧ st1.m_sinrPerceived = st.m_sinrPerceived
      ∧ st1.m_harqPhyModule = st.m_harqPhyModule
      ∧ st1.m_dataErrorModelEnabled = st.m_dataErrorModelEnabled
      ∧ st1.m_rxPacketBurstList = st.m_rxPacketBurstList := by
  obtain ⟨hg1, hg2⟩ := hgate
  have hc : ∀ a b : ℚ, (if a > b then false else true) = decide (a ≤ b) := by
    intro a b
    by_cases hab : a ≤ b
    · simp [hab, not_lt.2 hab]
    · simp [hab, not_le.1 hab]
  cases hsum : sumOver st.m_sinrPerceived e.2.rbBitmap <;> cases hd : e.2.downlink <;>
    simp [EndRxData_tb, PhyM.bind_eq, PhyM.pure_eq, PhyM.andThen, PhyM.ret, PhyM.get,
      PhyM.modify, PhyM.emit, PhyM.abortWith, hg1, hg2, hsum, hd] at h
  all_goals
    obtain ⟨hr, hst⟩ := h
    subst hst
    subst hr
    simp [decoded, tblerOf, harqHistoryOf, hc, hd]
    exact ⟨by simp only [lt_iff_not_le, decide_not], hg1⟩

end LteSpectrumPhy

end ns3

namespace ns3

namespace LteSpectrumPhy

theorem EndRxData_tbs_on (env : Env) (now : Time) (todo : StdMap TbId_t tbInfo_t) :
    ∀ (done : StdMap TbId_t tbInfo_t) (st st1 : LteSpectrumPhy),
      st.m_dataErrorModelEnabled = true ∧ st.m_rxPacketBurstList.length > 0 →
      st.m_expectedTbs = done ++ todo →
      EndRxData_tbs env now done todo st = .ok () st1 →
      st1.m_expectedTbs
          = done ++ decodedFrom env st.m_sinrPerceived st.m_harqPhyModule st.m_random todo
        ∧ st1.m_random = st.m_random + todo.length
        ∧ st1.m_sinrPerceived = st.m_sinrPerceived
        ∧ st1.m_harqPhyModule = st.m_harqPhyModule := by
  induction todo with
  | nil =>
    intro done st st1 _ hm h
    simp only [EndRxData_tbs, PhyM.pure_eq, PhyM.ret, Outcome.ok.injEq, true_and] at h
    subst h
    simp [decodedFrom, hm]
  | cons e rest ih =>
    intro done st st1 hgate hm h
    simp only [EndRxData_tbs, PhyM.bind_eq, PhyM.andThen] at h
    cases hstep : EndRxData_tb env now done e rest st with
    | abort why st2 => rw [hstep] at h; exact absurd h (by simp)
    | ok r st2 =>
      rw [hstep] at h
      obtain ⟨hr, h1, h2, h3, h4, h5, h6⟩ := EndRxData_tb_on env now done rest e st st2 r hgate hstep
      have hgate2 : st2.m_dataErrorModelEnabled = true ∧ st2.m_rxPacketBurstList.length > 0 := by
        rw [h5, h6]; exact hgate
      obtain ⟨k1, k2, k3, k4⟩ := ih (done ++ [r]) st2 st1 hgate2 (by simp [h1]) h
      refine ⟨?_, ?_, k3.trans h3, k4.trans h4⟩
      · rw [k1, h3, h4, h2, hr]
        simp [decodedFrom]
      · rw [k2, h2]
        simp only [List.length_cons]
        omega

theorem EndRxData_tbs_off (env : Env) (now : Time) (todo : StdMap TbId_t tbInfo_t) :
    ∀ (done : StdMap TbId_t tbInfo_t) (st : LteSpectrumPhy),
      ¬ (st.m_dataErrorModelEnabled = true ∧ st.m_rxPacketBurstList.length > 0) →
      EndRxData_tbs env now done todo st = .ok () st := by
  induction todo with
  | nil => intro done st _; rfl
  | cons e rest ih =>
    intro done st hgate
    have hstep : EndRxData_tb env now done e rest st = .ok e st := by
      unfold EndRxData_tb
      by_cases h1 : st.m_dataErrorModelEnabled = true
      · have h2 : ¬ st.m_rxPacketBurstList.length > 0 := fun h2 => hgate ⟨h1, h2⟩
        simp [PhyM.bind_eq, PhyM.pure_eq, PhyM.andThen, PhyM.ret, PhyM.get, h1, h2]
      · simp [PhyM.bind_eq, PhyM.pure_eq, PhyM.andThen, PhyM.ret, PhyM.get, h1]
    simp only [EndRxData_tbs, PhyM.bind_eq, PhyM.andThen, hstep]
    exact ih (done ++ [e]) st hgate

/-- What precedes the error model loop in `EndRxData`, when the function gets that far. -/
theorem EndRxData_errorModel_ok (env : Env) (now : Time) (st st1 : LteSpectrumPhy)
    (h : EndRxData_errorModel env now st = .ok () st1) :
    ∃ st3, EndRxData_tbs env now [] st.m_expectedTbs st3 = .ok () st1
      ∧ st3.m_expectedTbs = st.m_expectedTbs
      ∧ st3.m_random = st.m_random
      ∧ st3.m_harqPhyModule = st.m_harqPhyModule
      ∧ st3.m_dataErrorModelEnabled = st.m_dataErrorModelEnabled
      ∧ st3.m_rxPacketBurstList = st.m_rxPacketBurstList
      ∧ st.m_state = .RX_DATA := by
  unfold EndRxData_errorModel at h
  by_cases hs : st.m_state = .RX_DATA
  · by_cases hm : st.m_transmissionMode < st.m_txModeGain.length
    · have hget : st.m_txModeGain[st.m_transmissionMode]?
          = some (st.m_txModeGain[st.m_transmissionMode]) := by
        simp [List.getElem?_eq_getElem hm]
      cases hfb : env.dataSinrFeedback (st.m_interferenceData.calls ++ [.EndRx now]) <;>
        simp [PhyM.bind_eq, PhyM.pure_eq, PhyM.andThen, PhyM.ret, PhyM.get, PhyM.modify,
          PhyM.abortWith, NS_ASSERT, onInterferenceData, UpdateSinrPerceived, hs, hm, hfb,
          List.getElem?_eq_getElem hm] at h <;>
        exact ⟨_, h, rfl, rfl, rfl, rfl, rfl, hs⟩
    · cases hfb : env.dataSinrFeedback (st.m_interferenceData.calls ++ [.EndRx now]) <;>
        simp [PhyM.bind_eq, PhyM.pure_eq, PhyM.andThen, PhyM.ret, PhyM.get, PhyM.modify,
          PhyM.abortWith, NS_ASSERT, onInterferenceData, UpdateSinrPerceived, hs, hm, hfb] at h
  · simp [PhyM.bind_eq, PhyM.pure_eq, PhyM.andThen, PhyM.ret, PhyM.get, PhyM.modify,
      PhyM.abortWith, NS_ASSERT, hs] at h

end LteSpectrumPhy

open LteSpectrumPhy in
/-- C7. Whenever the first part of `EndRxData` (accumulator evaluation, transmission mode gain,
error model loop) completes: with the data error model enabled and at least one received
burst, every expected descriptor keeps its identity and position, the descriptor at position
`k` receives draw number `k` of the stream, and its corrupted flag is true if and only if
that draw is less than or equal to the block-error rate the error model returns for it;
with the error model disabled or no received burst the registry is left as it was, so every
descriptor keeps corrupted = false. -/
theorem C7_corrupted_iff_draw_le_tbler (env : Env) (now : Time) (st st1 : LteSpectrumPhy)
    (h : EndRxData_errorModel env now st = .ok () st1) :
    (st.m_dataErrorModelEnabled = true ∧ st.m_rxPacketBurstList.length > 0 →
      st1.m_expectedTbs.length = st.m_expectedTbs.length
      ∧ ∀ k (hk : k < st.m_expectedTbs.length) (hk1 : k < st1.m_expectedTbs.length),
          (st1.m_expectedTbs[k]).1 = (st.m_expectedTbs[k]).1
          ∧ ((st1.m_expectedTbs[k]).2.corrupt = true ↔
              env.random (st.m_random + k)
                ≤ tblerOf env st1.m_sinrPerceived st.m_harqPhyModule (st.m_expectedTbs[k])))
    ∧ (¬ (st.m_dataErrorModelEnabled = true ∧ st.m_rxPacketBurstList.length > 0) →
      st1.m_expectedTbs = st.m_expectedTbs) := by
  obtain ⟨st3, hloop, h1, h2, h3, h4, h5, _⟩ := EndRxData_errorModel_ok env now st st1 h
  constructor
  · intro hgate
    have hgate3 : st3.m_dataErrorModelEnabled = true ∧ st3.m_rxPacketBurstList.length > 0 := by
      rw [h4, h5]; exact hgate
    obtain ⟨k1, k2, k3, k4⟩ :=
      EndRxData_tbs_on env now st.m_expectedTbs [] st3 st1 hgate3 (by simp [h1]) hloop
    simp only [List.nil_append] at k1
    refine ⟨by rw [k1, length_decodedFrom], ?_⟩
    intro k hk hk1
    have hget := getElem_decodedFrom env st3.m_sinrPerceived st3.m_harqPhyModule
      st.m_expectedTbs st3.m_random k hk (by rw [length_decodedFrom]; exact hk)
    have heq : st1.m_expectedTbs[k]
        = decoded env st3.m_sinrPerceived st3.m_harqPhyModule (env.random (st3.m_random + k))
            st.m_expectedTbs[k] := by
      rw [← hget]
      simp only [k1]
    rw [heq, k3, h3, h2]
    simp [decoded]
  · intro hgate
    have hgate3 : ¬ (st3.m_dataErrorModelEnabled = true ∧ st3.m_rxPacketBurstList.length > 0) := by
      rw [h4, h5]; exact hgate
    rw [EndRxData_tbs_off env now st.m_expectedTbs [] st3 hgate3] at hloop
    simp only [Outcome.ok.injEq, true_and] at hloop
    rw [← hloop, h1]

end ns3

namespace ns3

namespace StdMap

variable {K V : Type} {lt : K → K → Bool}

/-- Assignment through an iterator does not change which keys are found, and changes the
value found only through `f`. -/
theorem find_update (k k1 : K) (f : V → V) (m : StdMap K V) {β : Type} (g : V → β)
    (hg : ∀ v, g (f v) = g v) :
    (find lt k1 (update lt k f m)).map (fun e => g e.2)
      = (find lt k1 m).map (fun e => g e.2) := by
  induction m with
  | nil => rfl
  | cons e rest ih =>
    by_cases h1 : lt e.1 k = true
    · have hu : update lt k f (e :: rest) = e :: update lt k f rest := by simp [update, h1]
      rw [hu]
      by_cases h3 : lt e.1 k1 = true
      · simp [find, h3, ih]
      · by_cases h4 : lt k1 e.1 = true <;> simp [find, h3, h4]
    · by_cases h2 : lt k e.1 = true
      · have hu : update lt k f (e :: rest) = e :: rest := by simp [update, h1, h2]
        rw [hu]
      · have hu : update lt k f (e :: rest) = (e.1, f e.2) :: rest := by
          simp [update, h1, h2]
        rw [hu]
        by_cases h3 : lt e.1 k1 = true
        · simp [find, h3]
        · by_cases h4 : lt k1 e.1 = true <;> simp [find, h3, h4, hg]

end StdMap

namespace LteSpectrumPhy

theorem verdict_update (reg : StdMap TbId_t tbInfo_t) (k k1 : TbId_t) :
    verdict (StdMap.update TbId_t.lt k (fun i => { i with harqFeedbackSent := true }) reg) k1
      = verdict reg k1 := by
  unfold verdict
  exact StdMap.find_update k k1 _ reg (fun i => i.corrupt) (fun _ => rfl)

theorem EndRxData_ulFeedback_frame (tbId : TbId_t) (info : tbInfo_t) (st st1 : LteSpectrumPhy)
    (h : EndRxData_ulFeedback tbId info st = .ok () st1) :
    packetNotifications st1.log = packetNotifications st.log
      ∧ st1.m_expectedTbs = st.m_expectedTbs
      ∧ st1.m_ltePhyRxDataEndOkCallback = st.m_ltePhyRxDataEndOkCallback := by
  unfold EndRxData_ulFeedback at h
  cases hc : info.corrupt <;> cases hcb : st.m_ltePhyUlHarqFeedbackCallback <;>
    cases hr : EffectiveCodingRate[info.mcs]? <;>
    simp [PhyM.bind_eq, PhyM.pure_eq, PhyM.andThen, PhyM.ret, PhyM.get, PhyM.modify, PhyM.emit,
      PhyM.abortWith, onHarq, hc, hcb, hr] at h <;>
    subst h <;>
    simp [packetNotifications, List.filter_append, PhyEvent.isPacketNotification]

theorem EndRxData_dlFeedback_frame (tbId : TbId_t) (info : tbInfo_t)
    (m m1 : StdMap Nat DlInfoListElement_s) (st st1 : LteSpectrumPhy)
    (h : EndRxData_dlFeedback tbId info m st = .ok m1 st1) :
    st1.log = st.log
      ∧ st1.m_expectedTbs = st.m_expectedTbs
      ∧ st1.m_ltePhyRxDataEndOkCallback = st.m_ltePhyRxDataEndOkCallback := by
  unfold EndRxData_dlFeedback at h
  cases hf : StdMap.find natLt tbId.m_rnti m with
  | none =>
    cases hc : info.corrupt <;> cases hr : EffectiveCodingRate[info.mcs]? <;>
      by_cases hl : tbId.m_layer < st.m_layersNum <;>
      simp [PhyM.bind_eq, PhyM.pure_eq, PhyM.andThen, PhyM.ret, PhyM.get, PhyM.modify,
        PhyM.abortWith, onHarq, hf, hc, hr, hl] at h <;>
      obtain ⟨_, h⟩ := h <;> subst h <;> simp
  | some d =>
    cases hc : info.corrupt <;> cases hr : EffectiveCodingRate[info.mcs]? <;>
      by_cases hl : tbId.m_layer < d.2.m_harqStatus.length <;>
      simp [PhyM.bind_eq, PhyM.pure_eq, PhyM.andThen, PhyM.ret, PhyM.get, PhyM.modify,
        PhyM.abortWith, NS_ASSERT, onHarq, hf, hc, hr, hl] at h <;>
      obtain ⟨_, h⟩ := h <;> subst h <;> simp

theorem EndRxData_notify_eq (p : Packet) (info : tbInfo_t) (st : LteSpectrumPhy) :
    EndRxData_notify p info st
      = .ok () { st with log := st.log ++
          (match info.corrupt with
            | true => [.phyRxEndErrorTrace p]
            | false =>
                if st.m_ltePhyRxDataEndOkCallback then
                  [.phyRxEndOkTrace p, .ltePhyRxDataEndOkCallback p]
                else [.phyRxEndOkTrace p]) } := by
  unfold EndRxData_notify
  cases hc : info.corrupt <;> cases hcb : st.m_ltePhyRxDataEndOkCallback <;>
    simp [PhyM.bind_eq, PhyM.pure_eq, PhyM.andThen, PhyM.ret, PhyM.get, PhyM.emit, hc, hcb]

theorem EndRxData_feedback_frame (tbId : TbId_t) (info : tbInfo_t)
    (m m1 : StdMap Nat DlInfoListElement_s) (st st1 : LteSpectrumPhy)
    (h : EndRxData_feedback tbId info m st = .ok m1 st1) :
    packetNotifications st1.log = packetNotifications st.log
      ∧ (∀ k, verdict st1.m_expectedTbs k = verdict st.m_expectedTbs k)
      ∧ st1.m_ltePhyRxDataEndOkCallback = st.m_ltePhyRxDataEndOkCallback := by
  unfold EndRxData_feedback at h
  cases hs : info.harqFeedbackSent with
  | true =>
    simp [PhyM.pure_eq, PhyM.ret, hs] at h
    obtain ⟨_, h⟩ := h
    subst h
    exact ⟨rfl, fun _ => rfl, rfl⟩
  | false =>
    simp only [hs, Bool.not_false, if_true, PhyM.bind_eq, PhyM.andThen_ok] at h
    obtain ⟨_, st2, hmod, h⟩ := h
    have hst2 : st2 = { st with m_expectedTbs :=
        (StdMap.update TbId_t.lt tbId (fun i => { i with harqFeedbackSent := true })
          st.m_expectedTbs) } := by
      simp only [PhyM.modify, Outcome.ok.injEq, true_and] at hmod
      exact hmod.symm
    cases hd : info.downlink with
    | false =>
      simp only [hd, Bool.not_false, if_true, PhyM.bind_eq, PhyM.andThen_ok, PhyM.pure_eq,
        PhyM.ret_ok] at h
      obtain ⟨_, st3, hul, _, hst3⟩ := h
      obtain ⟨f1, f2, f3⟩ := EndRxData_ulFeedback_frame tbId info st2 st3 hul
      subst hst3
      refine ⟨by rw [f1, hst2], ?_, by rw [f3, hst2]⟩
      intro k
      rw [f2, hst2]
      exact verdict_update _ _ _
    | true =>
      simp only [hd, Bool.not_true, if_false, Bool.false_eq_true] at h
      obtain ⟨f1, f2, f3⟩ := EndRxData_dlFeedback_frame tbId info m m1 st2 st1 h
      refine ⟨by rw [f1, hst2], ?_, by rw [f3, hst2]⟩
      intro k
      rw [f2, hst2]
      exact verdict_update _ _ _

theorem EndRxData_packet_notifications (p : Packet) (m m1 : StdMap Nat DlInfoListElement_s)
    (st st1 : LteSpectrumPhy) (h : EndRxData_packet p m st = .ok m1 st1) :
    packetNotifications st1.log
        = packetNotifications st.log
          ++ notificationSpec st.m_expectedTbs st.m_ltePhyRxDataEndOkCallback p
      ∧ (∀ k, verdict st1.m_expectedTbs k = verdict st.m_expectedTbs k)
      ∧ st1.m_ltePhyRxDataEndOkCallback = st.m_ltePhyRxDataEndOkCallback := by
  unfold EndRxData_packet at h
  simp only [PhyM.bind_eq, PhyM.andThen_ok, PhyM.get_ok] at h
  obtain ⟨a, s1, ⟨ha, hs1⟩, h⟩ := h
  rw [ha, hs1] at h
  clear ha hs1 a s1
  cases hf : StdMap.find TbId_t.lt { m_rnti := p.tag.m_rnti, m_layer := p.tag.m_layer }
      st.m_expectedTbs with
  | none =>
    simp only [hf, PhyM.pure_eq, PhyM.ret_ok] at h
    obtain ⟨_, h⟩ := h
    subst h
    simp [notificationSpec, verdict, tbIdOf, hf]
  | some e =>
    have hv : verdict st.m_expectedTbs (tbIdOf p) = some e.2.corrupt := by
      simp [verdict, tbIdOf, hf]
    simp only [hf, PhyM.bind_eq, PhyM.andThen_ok] at h
    obtain ⟨_, st2, hn, h⟩ := h
    rw [EndRxData_notify_eq] at hn
    simp only [Outcome.ok.injEq, true_and] at hn
    obtain ⟨f1, f2, f3⟩ := EndRxData_feedback_frame _ _ _ _ _ _ h
    subst hn
    refine ⟨?_, f2, f3⟩
    rw [f1]
    cases hc : e.2.corrupt <;> cases hcb : st.m_ltePhyRxDataEndOkCallback <;>
      simp [notificationSpec, hv, hc, hcb, packetNotifications, List.filter_append,
        PhyEvent.isPacketNotification]

end LteSpectrumPhy

end ns3

namespace ns3

namespace LteSpectrumPhy

theorem sameButVerdict_refl (e : TbId_t × tbInfo_t) : sameButVerdict e e := ⟨rfl, rfl⟩

/-- The shape of the state after one pass of the error model loop. -/
theorem EndRxData_tb_shape (env : Env) (now : Time) (done rest : StdMap TbId_t tbInfo_t)
    (e : TbId_t × tbInfo_t) (st st1 : LteSpectrumPhy) (r : TbId_t × tbInfo_t)
    (hm : st.m_expectedTbs = done ++ e :: rest)
    (h : EndRxData_tb env now done e rest st = .ok r st1) :
    ∃ pos added, st1 = { st with m_random := pos, m_expectedTbs := done ++ r :: rest,
                                 log := st.log ++ added }
      ∧ sameButVerdict r e
      ∧ ∀ ev ∈ added, PhyEvent.isReceptionTrace ev = true := by
  by_cases hgate : st.m_dataErrorModelEnabled = true ∧ st.m_rxPacketBurstList.length > 0
  · obtain ⟨hg1, hg2⟩ := hgate
    cases hsum : sumOver st.m_sinrPerceived e.2.rbBitmap <;> cases hd : e.2.downlink <;>
      simp [EndRxData_tb, PhyM.bind_eq, PhyM.pure_eq, PhyM.andThen, PhyM.ret, PhyM.get,
        PhyM.modify, PhyM.emit, PhyM.abortWith, hg1, hg2, hsum, hd] at h
    all_goals
      obtain ⟨hr, hst⟩ := h
      subst hst
      subst hr
      refine ⟨st.m_random + 1, [_], by simp [hg1]; rfl, ⟨rfl, ?_⟩, ?_⟩
      · simp [hd]
      · intro ev hev
        simp only [List.mem_singleton] at hev
        subst hev
        rfl
  · have hstep : EndRxData_tb env now done e rest st = .ok e st := by
      unfold EndRxData_tb
      by_cases h1 : st.m_dataErrorModelEnabled = true
      · have h2 : ¬ st.m_rxPacketBurstList.length > 0 := fun h2 => hgate ⟨h1, h2⟩
        simp [PhyM.bind_eq, PhyM.pure_eq, PhyM.andThen, PhyM.ret, PhyM.get, h1, h2]
      · simp [PhyM.bind_eq, PhyM.pure_eq, PhyM.andThen, PhyM.ret, PhyM.get, h1]
    rw [hstep] at h
    simp only [Outcome.ok.injEq] at h
    obtain ⟨hr, hst⟩ := h
    subst hst
    subst hr
    refine ⟨st.m_random, [], ?_, sameButVerdict_refl _, ?_⟩
    · rw [← hm]
      simp
    · intro ev hev
      simp at hev

/-- The shape of the state after the error model loop. -/
theorem EndRxData_tbs_shape (env : Env) (now : Time) (todo : StdMap TbId_t tbInfo_t) :
    ∀ (done : StdMap TbId_t tbInfo_t) (st st1 : LteSpectrumPhy),
      st.m_expectedTbs = done ++ todo →
      EndRxData_tbs env now done todo st = .ok () st1 →
      ∃ pos reg added, st1 = { st with m_random := pos, m_expectedTbs := done ++ reg,
                                       log := st.log ++ added }
        ∧ List.Forall₂ sameButVerdict reg todo
        ∧ ∀ ev ∈ added, PhyEvent.isReceptionTrace ev = true := by
  induction todo with
  | nil =>
    intro done st st1 hm h
    simp only [EndRxData_tbs, PhyM.pure_eq, PhyM.ret, Outcome.ok.injEq, true_and] at h
    subst h
    refine ⟨st.m_random, [], [], ?_, List.Forall₂.nil, ?_⟩
    · rw [← hm]
      simp
    · intro ev hev
      simp at hev
  | cons e rest ih =>
    intro done st st1 hm h
    simp only [EndRxData_tbs, PhyM.bind_eq, PhyM.andThen_ok] at h
    obtain ⟨r, st2, hstep, h⟩ := h
    obtain ⟨pos, added, hst2, hr, hadd⟩ := EndRxData_tb_shape env now done rest e st st2 r hm hstep
    have hm2 : st2.m_expectedTbs = (done ++ [r]) ++ rest := by
      rw [hst2]
      simp
    obtain ⟨pos2, reg2, added2, hst1, hreg, hadd2⟩ := ih (done ++ [r]) st2 st1 hm2 h
    refine ⟨pos2, r :: reg2, added ++ added2, ?_, List.Forall₂.cons hr hreg, ?_⟩
    · rw [hst1, hst2]
      simp
    · intro ev hev
      rcases List.mem_append.1 hev with h1 | h1
      · exact hadd ev h1
      · exact hadd2 ev h1

/-- The shape of the state after the first part of `EndRxData`. -/
theorem EndRxData_errorModel_shape (env : Env) (now : Time) (st st1 : LteSpectrumPhy)
    (h : EndRxData_errorModel env now st = .ok () st1) :
    ∃ calls sinr pos reg added,
      st1 = { st with m_interferenceData := calls, m_sinrPerceived := sinr, m_random := pos,
                      m_expectedTbs := reg, log := st.log ++ added }
        ∧ List.Forall₂ sameButVerdict reg st.m_expectedTbs
        ∧ (∀ ev ∈ added, PhyEvent.isReceptionTrace ev = true)
        ∧ st.m_state = .RX_DATA := by
  unfold EndRxData_errorModel at h
  by_cases hs : st.m_state = .RX_DATA
  · by_cases hm : st.m_transmissionMode < st.m_txModeGain.length
    · cases hfb : env.dataSinrFeedback (st.m_interferenceData.calls ++ [.EndRx now]) <;>
        simp [PhyM.bind_eq, PhyM.pure_eq, PhyM.andThen, PhyM.ret, PhyM.get, PhyM.modify,
          PhyM.abortWith, NS_ASSERT, onInterferenceData, UpdateSinrPerceived, hs, hm, hfb,
          List.getElem?_eq_getElem hm] at h
      all_goals
        obtain ⟨pos, reg, added, hst1, hreg, hadd⟩ := EndRxData_tbs_shape env now _ [] _ st1
          (by simp) h
        refine ⟨st1.m_interferenceData, st1.m_sinrPerceived, pos, reg, added, ?_, hreg, hadd, hs⟩
        subst hst1
        simp [hs]
    · cases hfb : env.dataSinrFeedback (st.m_interferenceData.calls ++ [.EndRx now]) <;>
        simp [PhyM.bind_eq, PhyM.pure_eq, PhyM.andThen, PhyM.ret, PhyM.get, PhyM.modify,
          PhyM.abortWith, NS_ASSERT, onInterferenceData, UpdateSinrPerceived, hs, hm, hfb] at h
  · simp [PhyM.bind_eq, PhyM.pure_eq, PhyM.andThen, PhyM.ret, PhyM.get, PhyM.modify,
      PhyM.abortWith, NS_ASSERT, hs] at h

theorem notificationSpec_congr (reg reg1 : StdMap TbId_t tbInfo_t) (cb : Bool) (p : Packet)
    (h : ∀ k, verdict reg1 k = verdict reg k) :
    notificationSpec reg1 cb p = notificationSpec reg cb p := by
  unfold notificationSpec
  rw [h]

theorem EndRxData_packets_notifications (ps : List Packet) :
    ∀ (m m1 : StdMap Nat DlInfoListElement_s) (st st1 : LteSpectrumPhy),
      EndRxData_packets ps m st = .ok m1 st1 →
      packetNotifications st1.log
          = packetNotifications st.log
            ++ ps.flatMap (notificationSpec st.m_expectedTbs st.m_ltePhyRxDataEndOkCallback)
        ∧ (∀ k, verdict st1.m_expectedTbs k = verdict st.m_expectedTbs k)
        ∧ st1.m_ltePhyRxDataEndOkCallback = st.m_ltePhyRxDataEndOkCallback := by
  induction ps with
  | nil =>
    intro m m1 st st1 h
    simp only [EndRxData_packets, PhyM.pure_eq, PhyM.ret_ok] at h
    obtain ⟨_, h⟩ := h
    subst h
    simp
  | cons p rest ih =>
    intro m m1 st st1 h
    simp only [EndRxData_packets, PhyM.bind_eq, PhyM.andThen_ok] at h
    obtain ⟨m2, st2, hp, h⟩ := h
    obtain ⟨f1, f2, f3⟩ := EndRxData_packet_notifications p m m2 st st2 hp
    obtain ⟨g1, g2, g3⟩ := ih m2 m1 st2 st1 h
    refine ⟨?_, fun k => (g2 k).trans (f2 k), g3.trans f3⟩
    rw [g1, f1, f3]
    have hc : notificationSpec st2.m_expectedTbs st.m_ltePhyRxDataEndOkCallback
        = notificationSpec st.m_expectedTbs st.m_ltePhyRxDataEndOkCallback :=
      funext (fun q => notificationSpec_congr _ _ _ q f2)
    rw [hc]
    simp [List.flatMap_cons]

theorem EndRxData_sendDlFeedback_eq (l : List (Nat × DlInfoListElement_s)) :
    ∀ st : LteSpectrumPhy,
      EndRxData_sendDlFeedback l st
        = .ok () { st with log := st.log ++
            (if st.m_ltePhyDlHarqFeedbackCallback then
              l.map (fun e => PhyEvent.ltePhyDlHarqFeedbackCallback e.2)
            else []) } := by
  induction l with
  | nil =>
    intro st
    simp [EndRxData_sendDlFeedback, PhyM.pure_eq, PhyM.ret]
  | cons e rest ih =>
    intro st
    cases hcb : st.m_ltePhyDlHarqFeedbackCallback <;>
      simp [EndRxData_sendDlFeedback, PhyM.bind_eq, PhyM.pure_eq, PhyM.andThen, PhyM.ret,
        PhyM.get, PhyM.emit, hcb, ih]

end LteSpectrumPhy

end ns3

namespace ns3

namespace LteSpectrumPhy

theorem EndRxData_deliver_notifications (st st1 : LteSpectrumPhy)
    (h : EndRxData_deliver st = .ok () st1) :
    packetNotifications st1.log
      = packetNotifications st.log
        ++ st.m_rxPacketBurstList.flatten.flatMap
            (notificationSpec st.m_expectedTbs st.m_ltePhyRxDataEndOkCallback) := by
  unfold EndRxData_deliver at h
  simp only [PhyM.bind_eq, PhyM.andThen_ok, PhyM.get_ok] at h
  obtain ⟨a, s1, ⟨ha, hs1⟩, m, st2, hloop, _, st3, hsend, b, s4, ⟨hb, hs4⟩, h⟩ := h
  rw [ha, hs1] at hloop
  obtain ⟨f1, _, _⟩ := EndRxData_packets_notifications _ _ _ _ _ hloop
  rw [EndRxData_sendDlFeedback_eq] at hsend
  simp only [Outcome.ok.injEq, true_and] at hsend
  rw [hb, hs4] at h
  have h3 : packetNotifications st3.log = packetNotifications st2.log := by
    rw [← hsend]
    cases st2.m_ltePhyDlHarqFeedbackCallback <;>
      simp [packetNotifications, List.filter_append, List.filter_map, Function.comp_def,
        PhyEvent.isPacketNotification]
  have h4 : packetNotifications st1.log = packetNotifications st3.log := by
    cases hc : st3.m_rxControlMessageList.isEmpty <;>
      cases hcb : st3.m_ltePhyRxCtrlEndOkCallback <;>
      simp [PhyM.pure_eq, PhyM.ret, PhyM.emit, hc, hcb] at h <;>
      subst h <;>
      simp [packetNotifications, List.filter_append, PhyEvent.isPacketNotification]
  rw [h4, h3, f1]

theorem EndRxData_close_eq (st : LteSpectrumPhy) :
    EndRxData_close st
      = .ok () { st with m_state := .IDLE, m_rxPacketBurstList := [],
                         m_rxControlMessageList := [], m_expectedTbs := [] } := by
  simp [EndRxData_close, ChangeState, PhyM.bind_eq, PhyM.andThen, PhyM.modify]

theorem EndRxData_ok (env : Env) (now : Time) (st st2 : LteSpectrumPhy)
    (h : EndRxData env now st = .ok () st2) :
    ∃ st1 st1b, EndRxData_errorModel env now st = .ok () st1
      ∧ EndRxData_deliver st1 = .ok () st1b
      ∧ st2 = { st1b with m_state := .IDLE, m_rxPacketBurstList := [],
                          m_rxControlMessageList := [], m_expectedTbs := [] } := by
  unfold EndRxData at h
  simp only [PhyM.bind_eq, PhyM.andThen_ok] at h
  obtain ⟨_, st1, h1, _, st1b, h2, h3⟩ := h
  rw [EndRxData_close_eq] at h3
  simp only [Outcome.ok.injEq, true_and] at h3
  exact ⟨st1, st1b, h1, h2, h3.symm⟩

end LteSpectrumPhy

open LteSpectrumPhy in
/-- C8. Whenever `EndRxData` returns, the outcome notifications it made are, packet by packet in
reception order, those of `notificationSpec` for the registry as the error model loop left
it: a packet whose (RNTI, layer) tag matches a descriptor produces exactly one outcome
notification, the success notification (followed by the data-OK callback when that is set)
if the descriptor is not corrupted and the error notification otherwise; a packet matching no
descriptor produces none. -/
theorem C8_one_notification_per_matching_packet (env : Env) (now : Time)
    (st st2 : LteSpectrumPhy) (h : EndRxData env now st = .ok () st2) :
    ∃ st1, EndRxData_errorModel env now st = .ok () st1
      ∧ packetNotifications st2.log
          = packetNotifications st.log
            ++ st.m_rxPacketBurstList.flatten.flatMap
                (notificationSpec st1.m_expectedTbs st.m_ltePhyRxDataEndOkCallback) := by
  obtain ⟨st1, st1b, h1, h2, h3⟩ := EndRxData_ok env now st st2 h
  obtain ⟨calls, sinr, pos, reg, added, hst1, _, hadd, _⟩ :=
    EndRxData_errorModel_shape env now st st1 h1
  refine ⟨st1, h1, ?_⟩
  have hd := EndRxData_deliver_notifications st1 st1b h2
  have hlog : packetNotifications st1.log = packetNotifications st.log := by
    rw [hst1]
    simp only [packetNotifications, List.filter_append]
    have : added.filter PhyEvent.isPacketNotification = [] := by
      rw [List.filter_eq_nil_iff]
      intro ev hev
      have := hadd ev hev
      cases ev <;> simp_all [PhyEvent.isReceptionTrace, PhyEvent.isPacketNotification]
    rw [this]
    simp
  have hb : st1.m_rxPacketBurstList = st.m_rxPacketBurstList := by rw [hst1]
  have hcb : st1.m_ltePhyRxDataEndOkCallback = st.m_ltePhyRxDataEndOkCallback := by rw [hst1]
  rw [h3]
  show packetNotifications st1b.log = _
  rw [hd, hlog, hb, hcb]

end ns3

namespace ns3

namespace LteSpectrumPhy

theorem EndRxSlData_close_eq (st : LteSpectrumPhy) :
    EndRxSlData_close st
      = .ok () { st with m_state := .IDLE, m_rxPacketBurstList := [],
                         m_rxControlMessageList := [], m_rxPacketInfo := [],
                         m_expectedSlTbs := [], m_expectedDiscTbs := [] } := by
  simp [EndRxSlData_close, ChangeState, PhyM.bind_eq, PhyM.andThen, PhyM.modify]

theorem EndRxSlData_ok (env : Env) (now : Time) (st st2 : LteSpectrumPhy)
    (h : EndRxSlData env now st = .ok () st2) :
    ∃ st1 : LteSpectrumPhy,
      st2 = { st1 with m_state := .IDLE, m_rxPacketBurstList := [],
                       m_rxControlMessageList := [], m_rxPacketInfo := [],
                       m_expectedSlTbs := [], m_expectedDiscTbs := [] } := by
  unfold EndRxSlData at h
  simp only [PhyM.bind_eq, PhyM.andThen_ok] at h
  obtain ⟨_, _, _, _, _, _, _, st1, _, h3⟩ := h
  rw [EndRxSlData_close_eq] at h3
  simp only [Outcome.ok.injEq, true_and] at h3
  exact ⟨st1, h3.symm⟩

theorem EndRxDlCtrl_ok (env : Env) (now : Time) (st st2 : LteSpectrumPhy)
    (h : EndRxDlCtrl env now st = .ok () st2) :
    ∃ st1 : LteSpectrumPhy, st2 = { st1 with m_state := .IDLE, m_rxControlMessageList := [] } := by
  unfold EndRxDlCtrl at h
  simp only [PhyM.bind_eq, PhyM.andThen_ok] at h
  obtain ⟨_, _, _, _, _, _, _, _, _, _, _, _, _, _, _, _, _, _, _, _, _, _, _, _, _, _, _, _, _, _, _, st1, _, _, st1b, hc, hm⟩ := h
  simp only [ChangeState, PhyM.modify, Outcome.ok.injEq, true_and] at hc hm
  rw [← hc] at hm
  exact ⟨st1, hm.symm⟩

theorem EndRxUlSrs_eq (env : Env) (now : Time) (st : LteSpectrumPhy) :
    EndRxUlSrs env now st
      = if st.m_state = .RX_UL_SRS then
          .ok ()
            { st with
              m_state := .IDLE,
              m_interferenceCtrl := { calls := st.m_interferenceCtrl.calls ++ [.EndRx now] },
              m_sinrPerceived :=
                (env.ctrlSinrFeedback (st.m_interferenceCtrl.calls ++ [.EndRx now])).getD
                  st.m_sinrPerceived }
        else .abort (.assertFailed "m_state == RX_UL_SRS") st := by
  by_cases hs : st.m_state = .RX_UL_SRS
  · cases hf : env.ctrlSinrFeedback (st.m_interferenceCtrl.calls ++ [.EndRx now]) <;>
      simp [EndRxUlSrs, PhyM.bind_eq, PhyM.pure_eq, PhyM.andThen, PhyM.get, PhyM.ret, PhyM.modify,
        NS_ASSERT, ChangeState, onInterferenceCtrl, UpdateSinrPerceived, hs, hf]
  · simp [EndRxUlSrs, PhyM.bind_eq, PhyM.andThen, PhyM.get, PhyM.abortWith, NS_ASSERT, hs]

theorem EndRxDlCtrl_returns (env : Env) (now : Time) (st : LteSpectrumPhy)
    (hs : st.m_state = .RX_DL_CTRL) (hm : st.m_transmissionMode < st.m_txModeGain.length) :
    ∃ st2, EndRxDlCtrl env now st = .ok () st2 := by
  by_cases h0 : 0 < st.m_transmissionMode
  · have h1 : 1 < st.m_txModeGain.length := by omega
    have hg : st.m_txModeGain[1]? = some st.m_txModeGain[1] := List.getElem?_eq_getElem h1
    cases hf : env.ctrlSinrFeedback (st.m_interferenceCtrl.calls ++ [.EndRx now]) <;>
      cases he : st.m_ctrlErrorModelEnabled <;>
      cases hok : st.m_ltePhyRxCtrlEndOkCallback <;>
      cases herr : st.m_ltePhyRxCtrlEndErrorCallback <;>
      simp [EndRxDlCtrl, PhyM.bind_eq, PhyM.pure_eq, PhyM.andThen, PhyM.get, PhyM.ret,
        PhyM.modify, PhyM.emit, NS_ASSERT, ChangeState, onInterferenceCtrl, UpdateSinrPerceived,
        hs, hm, hf, h0, he, hok, herr, hg]
    all_goals (split_ifs <;> simp [PhyM.ret, PhyM.emit])
  · cases hf : env.ctrlSinrFeedback (st.m_interferenceCtrl.calls ++ [.EndRx now]) <;>
      cases he : st.m_ctrlErrorModelEnabled <;>
      cases hok : st.m_ltePhyRxCtrlEndOkCallback <;>
      cases herr : st.m_ltePhyRxCtrlEndErrorCallback <;>
      simp [EndRxDlCtrl, PhyM.bind_eq, PhyM.pure_eq, PhyM.andThen, PhyM.get, PhyM.ret,
        PhyM.modify, PhyM.emit, NS_ASSERT, ChangeState, onInterferenceCtrl, UpdateSinrPerceived,
        hs, hm, hf, h0, he, hok, herr]
    all_goals (split_ifs <;> simp [PhyM.ret, PhyM.emit])

end LteSpectrumPhy

open LteSpectrumPhy in
/-- C10. Every end-of-receive handler closes the window.  Whenever `EndRxData` returns, the
state is `IDLE` and the received-burst list, the received-control list and the unicast
descriptor registry are empty; whenever `EndRxSlData` returns, the state is `IDLE` and the
sidelink packet window, the sidelink descriptor registry and the discovery descriptor registry
(and the two received lists) are empty; whenever `EndRxDlCtrl` returns, the state is `IDLE`
and the received-control list is empty; whenever `EndRxUlSrs` returns, the state is `IDLE`.
The two short handlers do return when their assertions hold: `EndRxDlCtrl` from `RX_DL_CTRL`
with a transmission mode inside the gain table, `EndRxUlSrs` from `RX_UL_SRS`. -/
theorem C10_end_rx_closes_window (env : Env) (now : Time) (st : LteSpectrumPhy) :
    (∀ st2, EndRxData env now st = .ok () st2 →
        st2.m_state = .IDLE ∧ st2.m_rxPacketBurstList = [] ∧ st2.m_rxControlMessageList = []
          ∧ st2.m_expectedTbs = [])
    ∧ (∀ st2, EndRxSlData env now st = .ok () st2 →
        st2.m_state = .IDLE ∧ st2.m_rxPacketInfo = [] ∧ st2.m_expectedSlTbs = []
          ∧ st2.m_expectedDiscTbs = [] ∧ st2.m_rxPacketBurstList = []
          ∧ st2.m_rxControlMessageList = [])
    ∧ (∀ st2, EndRxDlCtrl env now st = .ok () st2 →
        st2.m_state = .IDLE ∧ st2.m_rxControlMessageList = [])
    ∧ (∀ st2, EndRxUlSrs env now st = .ok () st2 → st2.m_state = .IDLE)
    ∧ (st.m_state = .RX_DL_CTRL → st.m_transmissionMode < st.m_txModeGain.length →
        ∃ st2, EndRxDlCtrl env now st = .ok () st2)
    ∧ (st.m_state = .RX_UL_SRS → ∃ st2, EndRxUlSrs env now st = .ok () st2) := by
  refine ⟨?_, ?_, ?_, ?_, ?_, ?_⟩
  · intro st2 h
    obtain ⟨st1, st1b, _, _, h3⟩ := EndRxData_ok env now st st2 h
    subst h3
    exact ⟨rfl, rfl, rfl, rfl⟩
  · intro st2 h
    obtain ⟨st1, h3⟩ := EndRxSlData_ok env now st st2 h
    subst h3
    exact ⟨rfl, rfl, rfl, rfl, rfl, rfl⟩
  · intro st2 h
    obtain ⟨st1, h3⟩ := EndRxDlCtrl_ok env now st st2 h
    subst h3
    exact ⟨rfl, rfl⟩
  · intro st2 h
    rw [EndRxUlSrs_eq] at h
    split at h
    · simp only [Outcome.ok.injEq, true_and] at h
      subst h
      rfl
    · simp at h
  · intro hs hm
    exact EndRxDlCtrl_returns env now st hs hm
  · intro hs
    rw [EndRxUlSrs_eq, if_pos hs]
    exact ⟨_, rfl⟩

end ns3

namespace ns3

namespace LteSpectrumPhy

theorem StartRxData_timing (now : Time) (st : LteSpectrumPhy)
    (p : LteSpectrumSignalParametersDataFrame) (hsync : p.cellId = st.m_cellId) :
    (∀ st1, StartRxData now p st = .ok () st1 →
        st1.m_firstRxStart = now ∧ st1.m_firstRxDuration = p.duration)
    ∧ ((st.m_state = .IDLE ∨ st.m_state = .RX_DATA) →
        (st.m_rxPacketBurstList ≠ [] ∨ st.m_rxControlMessageList ≠ []) →
        (st.m_firstRxStart ≠ now ∨ st.m_firstRxDuration ≠ p.duration) →
        (StartRxData now p st).isAssertFailed = true ∧ (StartRxData now p st).state = st) := by
  constructor
  · intro st1 h
    cases hs : st.m_state <;> cases hb : p.packetBurst <;>
      by_cases he : st.m_rxPacketBurstList = [] ∧ st.m_rxControlMessageList = [] <;>
      by_cases ht : st.m_firstRxStart = now ∧ st.m_firstRxDuration = p.duration <;>
      simp [StartRxData, PhyM.bind_eq, PhyM.pure_eq, PhyM.andThen, PhyM.get, PhyM.ret,
        PhyM.modify, PhyM.emit, PhyM.abortWith, NS_ASSERT, NS_FATAL_ERROR, ChangeState,
        onInterferenceData, hs, hb, hsync, he, ht] at h
    all_goals (subst h; simp_all)
  · intro hst hne hmis
    have he : ¬ (st.m_rxPacketBurstList = [] ∧ st.m_rxControlMessageList = []) := by
      rintro ⟨h1, h2⟩
      rcases hne with h | h
      · exact h h1
      · exact h h2
    have ht : ¬ (st.m_firstRxStart = now ∧ st.m_firstRxDuration = p.duration) := by
      rintro ⟨h1, h2⟩
      rcases hmis with h | h
      · exact h h1
      · exact h h2
    rcases hst with hs | hs <;>
      simp [StartRxData, PhyM.bind_eq, PhyM.pure_eq, PhyM.andThen, PhyM.get, PhyM.ret,
        PhyM.modify, PhyM.emit, PhyM.abortWith, NS_ASSERT, NS_FATAL_ERROR, ChangeState,
        onInterferenceData, hs, hsync, he, ht, Outcome.isAssertFailed, Outcome.state]

end LteSpectrumPhy

end ns3

namespace ns3

namespace LteSpectrumPhy

theorem StartRxUlSrs_timing (now : Time) (st : LteSpectrumPhy)
    (p : LteSpectrumSignalParametersUlSrsFrame) (hsync : p.cellId = st.m_cellId) :
    (∀ st1, StartRxUlSrs now p st = .ok () st1 →
        st1.m_firstRxStart = now ∧ st1.m_firstRxDuration = p.duration)
    ∧ (st.m_state = .RX_UL_SRS →
        (st.m_firstRxStart ≠ now ∨ st.m_firstRxDuration ≠ p.duration) →
        (StartRxUlSrs now p st).isAssertFailed = true ∧ (StartRxUlSrs now p st).state = st) := by
  constructor
  · intro st1 h
    cases hs : st.m_state <;>
      by_cases he : st.m_rxControlMessageList = [] <;>
      by_cases ht : st.m_firstRxStart = now ∧ st.m_firstRxDuration = p.duration <;>
      simp [StartRxUlSrs, PhyM.bind_eq, PhyM.pure_eq, PhyM.andThen, PhyM.get, PhyM.ret,
        PhyM.modify, PhyM.emit, PhyM.abortWith, NS_ASSERT, NS_FATAL_ERROR, ChangeState,
        onInterferenceCtrl, hs, hsync, he, ht] at h
    all_goals (subst h; simp_all)
  · intro hs hmis
    have ht : ¬ (st.m_firstRxStart = now ∧ st.m_firstRxDuration = p.duration) := by
      rintro ⟨h1, h2⟩
      rcases hmis with h | h
      · exact h h1
      · exact h h2
    simp [StartRxUlSrs, PhyM.bind_eq, PhyM.pure_eq, PhyM.andThen, PhyM.get, PhyM.ret,
      PhyM.modify, PhyM.emit, PhyM.abortWith, NS_ASSERT, NS_FATAL_ERROR, ChangeState,
      onInterferenceCtrl, hs, hsync, ht, Outcome.isAssertFailed, Outcome.state]

theorem slWindowOpenOrCheck_ok (now d : Time) (c : Bool) (st st1 : LteSpectrumPhy)
    (h : slWindowOpenOrCheck now d c st = .ok () st1) :
    st1.m_firstRxStart = now ∧ st1.m_firstRxDuration = d
      ∧ (st.m_rxPacketInfo ≠ [] → st.m_firstRxStart = now ∧ st.m_firstRxDuration = d)
      ∧ st1.m_rxPacketInfo = st.m_rxPacketInfo ∧ st1.m_cellId = st.m_cellId
      ∧ st1.nodeId = st.nodeId ∧ st1.m_slssId = st.m_slssId
      ∧ st1.m_l1GroupIds = st.m_l1GroupIds := by
  cases c <;>
    by_cases he : st.m_rxPacketInfo = [] <;>
    by_cases ht : st.m_firstRxStart = now ∧ st.m_firstRxDuration = d <;>
    by_cases hi : st.m_state = .IDLE <;>
    by_cases hr : st.m_state = .RX_DATA <;>
    simp [slWindowOpenOrCheck, PhyM.bind_eq, PhyM.pure_eq, PhyM.andThen, PhyM.get, PhyM.ret,
      PhyM.modify, PhyM.emit, PhyM.abortWith, NS_ASSERT, he, ht, hi, hr] at h
  all_goals (subst h; simp_all)

theorem slWindowOpenOrCheck_mismatch (now d : Time) (st : LteSpectrumPhy)
    (hne : st.m_rxPacketInfo ≠ [])
    (hmis : ¬ (st.m_firstRxStart = now ∧ st.m_firstRxDuration = d)) (c : Bool) :
    ∃ msg, slWindowOpenOrCheck now d c st = .abort (.assertFailed msg) st := by
  cases c <;>
    by_cases hr : st.m_state = .RX_DATA <;>
    simp [slWindowOpenOrCheck, PhyM.bind_eq, PhyM.pure_eq, PhyM.andThen, PhyM.get, PhyM.ret,
      PhyM.modify, PhyM.emit, PhyM.abortWith, NS_ASSERT, hne, hmis, hr]

end LteSpectrumPhy

end ns3

namespace ns3

namespace LteSpectrumPhy

theorem onInterferenceSl_ok (f : LteSlInterference → Except Abort LteSlInterference)
    (st st1 : LteSpectrumPhy) (h : onInterferenceSl f st = .ok () st1) :
    ∃ i, st1 = { st with m_interferenceSl := i } := by
  unfold onInterferenceSl at h
  cases hf : f st.m_interferenceSl with
  | ok i =>
    rw [hf] at h
    simp only [Outcome.ok.injEq, true_and] at h
    exact ⟨i, h.symm⟩
  | error e =>
    rw [hf] at h
    simp at h

theorem slReceiveSynchronized_ok (now : Time) (p : LteSpectrumSignalParametersSlFrame)
    (st st1 : LteSpectrumPhy) (h : slReceiveSynchronized now p st = .ok () st1) :
    st1.m_firstRxStart = now ∧ st1.m_firstRxDuration = p.duration
      ∧ (st.m_rxPacketInfo ≠ [] → st.m_firstRxStart = now ∧ st.m_firstRxDuration = p.duration)
      ∧ ∃ x, st1.m_rxPacketInfo = st.m_rxPacketInfo ++ [x] := by
  unfold slReceiveSynchronized at h
  simp only [PhyM.bind_eq, PhyM.andThen_ok] at h
  obtain ⟨_, s1, h1, _, s2, h2, _, s3, h3, _, s4, h4, _, s5, h5, _, s6, h6, h7⟩ := h
  obtain ⟨ha, hb, hc, hd, -⟩ := slWindowOpenOrCheck_ok now p.duration false st s1 h1
  simp only [ChangeState, PhyM.modify, Outcome.ok.injEq, true_and] at h2 h6
  obtain ⟨i, h3⟩ := onInterferenceSl_ok _ _ _ h3
  have h4 : s4 = s3 := by
    by_cases hl : p.ctrlMsgList.length > 0 <;> by_cases hl1 : p.ctrlMsgList.length = 1 <;>
      simp [hl, hl1, NS_ASSERT, PhyM.pure_eq, PhyM.ret, PhyM.abortWith] at h4 <;> exact h4.symm
  have h5 : s5.m_firstRxStart = s4.m_firstRxStart ∧ s5.m_firstRxDuration = s4.m_firstRxDuration
      ∧ s5.m_rxPacketInfo = s4.m_rxPacketInfo := by
    cases hh : (usedRbs p.psd).head? <;>
      simp [hh, PhyM.pure_eq, PhyM.ret, PhyM.modify] at h5 <;> subst h5 <;> simp
  have h7 : st1.m_firstRxStart = s6.m_firstRxStart ∧ st1.m_firstRxDuration = s6.m_firstRxDuration
      ∧ st1.m_rxPacketInfo = s6.m_rxPacketInfo := by
    cases hh : p.packetBurst <;>
      simp [hh, PhyM.pure_eq, PhyM.ret, PhyM.emit] at h7 <;> subst h7 <;> simp
  subst h2 h3 h4 h6
  obtain ⟨h5a, h5b, h5c⟩ := h5
  obtain ⟨h7a, h7b, h7c⟩ := h7
  simp only at h5a h5b h5c h7a h7b h7c
  refine ⟨by rw [h7a, h5a, ha], by rw [h7b, h5b, hb], hc, ⟨_, by rw [h7c, h5c, hd]⟩⟩

theorem slReceiveSynchronized_mismatch (now : Time) (p : LteSpectrumSignalParametersSlFrame)
    (st : LteSpectrumPhy) (hne : st.m_rxPacketInfo ≠ [])
    (hmis : ¬ (st.m_firstRxStart = now ∧ st.m_firstRxDuration = p.duration)) :
    ∃ msg, slReceiveSynchronized now p st = .abort (.assertFailed msg) st := by
  obtain ⟨msg, h⟩ := slWindowOpenOrCheck_mismatch now p.duration st hne hmis false
  refine ⟨msg, ?_⟩
  unfold slReceiveSynchronized
  simp only [PhyM.bind_eq]
  unfold PhyM.andThen
  rw [h]

end LteSpectrumPhy

end ns3

namespace ns3

namespace LteSpectrumPhy

theorem slReceiveMib_noMib (now : Time) (p : LteSpectrumSignalParametersSlFrame) :
    ∀ (rest seen : List LteControlMessage) (st : LteSpectrumPhy),
      (∀ m ∈ rest, m.GetMessageType ≠ .MIB_SL) →
      slReceiveMib now p seen rest st = .ok (seen ++ rest) st := by
  intro rest
  induction rest with
  | nil =>
    intro seen st _
    simp [slReceiveMib, PhyM.pure_eq, PhyM.ret]
  | cons m rest ih =>
    intro seen st h
    have hm : m.GetMessageType ≠ .MIB_SL := h m (List.mem_cons_self _ _)
    have hr : ∀ m ∈ rest, m.GetMessageType ≠ .MIB_SL :=
      fun x hx => h x (List.mem_cons_of_mem _ hx)
    rw [slReceiveMib, if_neg hm, ih (seen ++ [m]) st hr]
    simp

theorem slReceiveMib_ok (now : Time) (p : LteSpectrumSignalParametersSlFrame) :
    ∀ (rest seen : List LteControlMessage) (st st1 : LteSpectrumPhy)
      (l : List LteControlMessage),
      slReceiveMib now p seen rest st = .ok l st1 →
      st1 = st
      ∨ (st1.m_firstRxStart = now ∧ st1.m_firstRxDuration = p.duration
          ∧ (st.m_rxPacketInfo ≠ [] →
              st.m_firstRxStart = now ∧ st.m_firstRxDuration = p.duration)
          ∧ ∃ x, st1.m_rxPacketInfo = st.m_rxPacketInfo ++ [x]) := by
  intro rest
  induction rest with
  | nil =>
    intro seen st st1 l h
    simp [slReceiveMib, PhyM.pure_eq, PhyM.ret] at h
    exact Or.inl h.2.symm
  | cons m rest ih =>
    intro seen st st1 l h
    by_cases hm : m.GetMessageType = .MIB_SL
    · right
      rw [slReceiveMib, if_pos hm] at h
      simp only [PhyM.bind_eq, PhyM.andThen_ok] at h
      obtain ⟨s0, s0b, h0, _, s1, h1, _, s2, h2, _, s3, h3, _, s4, h4, _, s5, h5, h6⟩ := h
      rw [PhyM.get_ok] at h0
      obtain ⟨h0a, h0b⟩ := h0
      subst h0a h0b
      have h1 : s1.m_firstRxStart = s0b.m_firstRxStart
          ∧ s1.m_firstRxDuration = s0b.m_firstRxDuration
          ∧ s1.m_rxPacketInfo = s0b.m_rxPacketInfo := by
        cases hc : s0b.m_ltePhyRxSlssCallback <;>
          simp [hc, PhyM.pure_eq, PhyM.ret, PhyM.emit] at h1 <;> subst h1 <;> simp
      obtain ⟨ha, hb, hc, hd, -⟩ := slWindowOpenOrCheck_ok now p.duration true s1 s2 h2
      simp only [ChangeState, PhyM.modify, Outcome.ok.injEq, true_and] at h3 h5
      obtain ⟨i, h4i⟩ := onInterferenceSl_ok _ _ _ h4
      simp only [PhyM.pure_eq, PhyM.ret, Outcome.ok.injEq] at h6
      obtain ⟨h1a, h1b, h1c⟩ := h1
      obtain ⟨-, h6⟩ := h6
      subst h6 h5 h4i h3
      refine ⟨ha, hb, ?_,
        ⟨{ m_rxPacketBurst := p.packetBurst, m_rxControlMessage := some m,
           rbBitmap := usedRbs p.psd }, ?_⟩⟩
      · intro hne
        rw [← h1a, ← h1b]
        exact hc (by rw [h1c]; exact hne)
      · show s2.m_rxPacketInfo ++ [_] = s0b.m_rxPacketInfo ++ [_]
        rw [hd, h1c]
    · rw [slReceiveMib, if_neg hm] at h
      exact ih _ _ _ _ h

theorem slReceiveMib_mismatch (now : Time) (p : LteSpectrumSignalParametersSlFrame)
    (st : LteSpectrumPhy) (hne : st.m_rxPacketInfo ≠ [])
    (hmis : ¬ (st.m_firstRxStart = now ∧ st.m_firstRxDuration = p.duration)) :
    ∀ (rest seen : List LteControlMessage),
      (∃ m ∈ rest, m.GetMessageType = .MIB_SL) →
      ∃ msg s, slReceiveMib now p seen rest st = .abort (.assertFailed msg) s
        ∧ s.m_rxPacketInfo = st.m_rxPacketInfo := by
  intro rest
  induction rest with
  | nil =>
    intro seen h
    obtain ⟨m, hm, _⟩ := h
    simp at hm
  | cons m rest ih =>
    intro seen h
    by_cases hm : m.GetMessageType = .MIB_SL
    · rw [slReceiveMib, if_pos hm]
      cases hc : st.m_ltePhyRxSlssCallback
      · obtain ⟨msg, hw⟩ := slWindowOpenOrCheck_mismatch now p.duration st hne hmis true
        refine ⟨msg, st, ?_, rfl⟩
        simp [PhyM.bind_eq, PhyM.andThen, PhyM.get, PhyM.pure_eq, PhyM.ret, hc, hw]
      · obtain ⟨msg, hw⟩ := slWindowOpenOrCheck_mismatch now p.duration
          { st with log := st.log ++ [.ltePhyRxSlssCallback m.slssid p.psd] } hne hmis true
        refine ⟨msg, { st with log := st.log ++ [.ltePhyRxSlssCallback m.slssid p.psd] }, ?_, rfl⟩
        simp only [PhyM.bind_eq]
        unfold PhyM.andThen
        simp only [PhyM.get]
        rw [if_pos hc]
        simp only [PhyM.emit]
        rw [hw]
    · rw [slReceiveMib, if_neg hm]
      apply ih
      obtain ⟨x, hx, hxt⟩ := h
      rcases List.mem_cons.1 hx with rfl | hx
      · exact absurd hxt hm
      · exact ⟨x, hx, hxt⟩

end LteSpectrumPhy

end ns3

namespace ns3

namespace LteSpectrumPhy

theorem slReceive_ok (now : Time) (p r : LteSpectrumSignalParametersSlFrame)
    (st st1 : LteSpectrumPhy) (h : slReceive now p st = .ok r st1)
    (hgrow : st1.m_rxPacketInfo ≠ st.m_rxPacketInfo) :
    st1.m_firstRxStart = now ∧ st1.m_firstRxDuration = p.duration
      ∧ (st.m_rxPacketInfo ≠ [] →
          st.m_firstRxStart = now ∧ st.m_firstRxDuration = p.duration) := by
  unfold slReceive at h
  simp only [PhyM.bind_eq] at h
  rw [PhyM.andThen_ok] at h
  obtain ⟨s0, s0b, h0, h⟩ := h
  rw [PhyM.get_ok] at h0
  obtain ⟨h0a, h0b⟩ := h0
  rw [h0a, h0b] at h
  clear h0a h0b s0 s0b
  by_cases c1 : st.m_cellId = 0 ∧ p.nodeId ≠ st.nodeId
  · rw [if_pos c1, PhyM.andThen_ok] at h
    obtain ⟨l, s1, hmib, h⟩ := h
    have hs1 : s1 = st
        ∨ (s1.m_firstRxStart = now ∧ s1.m_firstRxDuration = p.duration
            ∧ (st.m_rxPacketInfo ≠ [] →
                st.m_firstRxStart = now ∧ st.m_firstRxDuration = p.duration)
            ∧ ∃ x, s1.m_rxPacketInfo = st.m_rxPacketInfo ++ [x]) := by
      by_cases hl : p.ctrlMsgList.length > 0
      · rw [if_pos hl] at hmib
        exact slReceiveMib_ok now p _ _ _ _ _ hmib
      · rw [if_neg hl] at hmib
        simp only [PhyM.pure_eq, PhyM.ret, Outcome.ok.injEq] at hmib
        exact Or.inl hmib.2.symm
    by_cases c2 : p.slssId = st.m_slssId ∧ (p.groupId = 0 ∨ p.groupId ∈ st.m_l1GroupIds)
    · rw [if_pos c2, PhyM.andThen_ok] at h
      obtain ⟨_, s2, hsync, h⟩ := h
      simp only [PhyM.pure_eq, PhyM.ret, Outcome.ok.injEq] at h
      obtain ⟨-, h⟩ := h
      subst h
      obtain ⟨ha, hb, hc, -⟩ := slReceiveSynchronized_ok now _ _ _ hsync
      refine ⟨ha, hb, ?_⟩
      rcases hs1 with rfl | ⟨-, -, hold, -⟩
      · exact hc
      · exact hold
    · rw [if_neg c2] at h
      simp only [PhyM.pure_eq, PhyM.ret, Outcome.ok.injEq] at h
      obtain ⟨-, h⟩ := h
      subst h
      rcases hs1 with rfl | ⟨ha, hb, hold, -⟩
      · exact absurd rfl hgrow
      · exact ⟨ha, hb, hold⟩
  · rw [if_neg c1] at h
    simp only [PhyM.pure_eq, PhyM.ret, Outcome.ok.injEq] at h
    exact absurd (by rw [h.2]) hgrow

theorem slReceive_mismatch (now : Time) (p : LteSpectrumSignalParametersSlFrame)
    (st : LteSpectrumPhy) (hne : st.m_rxPacketInfo ≠ [])
    (hmis : ¬ (st.m_firstRxStart = now ∧ st.m_firstRxDuration = p.duration)) :
    (slReceive now p st).state.m_rxPacketInfo = st.m_rxPacketInfo
      ∧ (st.m_cellId = 0 ∧ p.nodeId ≠ st.nodeId →
          ((∃ m ∈ p.ctrlMsgList, m.GetMessageType = .MIB_SL)
            ∨ (p.slssId = st.m_slssId ∧ (p.groupId = 0 ∨ p.groupId ∈ st.m_l1GroupIds))) →
          (slReceive now p st).isAssertFailed = true) := by
  unfold slReceive
  simp only [PhyM.bind_eq]
  by_cases c1 : st.m_cellId = 0 ∧ p.nodeId ≠ st.nodeId
  · by_cases hmib : ∃ m ∈ p.ctrlMsgList, m.GetMessageType = .MIB_SL
    · have hl : p.ctrlMsgList.length > 0 := by
        obtain ⟨m, hm, _⟩ := hmib
        exact List.length_pos_of_mem hm
      obtain ⟨msg, s, hab, hs⟩ := slReceiveMib_mismatch now p st hne hmis p.ctrlMsgList [] hmib
      unfold PhyM.andThen
      simp only [PhyM.get]
      rw [if_pos c1]
      rw [if_pos hl, hab]
      exact ⟨hs, fun _ _ => rfl⟩
    · have hno : ∀ m ∈ p.ctrlMsgList, m.GetMessageType ≠ .MIB_SL :=
        fun m hm ht => hmib ⟨m, hm, ht⟩
      have hstep : (if p.ctrlMsgList.length > 0 then slReceiveMib now p [] p.ctrlMsgList
          else pure p.ctrlMsgList) st = .ok p.ctrlMsgList st := by
        by_cases hl : p.ctrlMsgList.length > 0
        · rw [if_pos hl, slReceiveMib_noMib now p _ _ _ hno]
          simp
        · rw [if_neg hl]
          rfl
      unfold PhyM.andThen
      simp only [PhyM.get]
      rw [if_pos c1]
      rw [hstep]
      by_cases c2 : p.slssId = st.m_slssId ∧ (p.groupId = 0 ∨ p.groupId ∈ st.m_l1GroupIds)
      · obtain ⟨msg, hab⟩ := slReceiveSynchronized_mismatch now
          { p with ctrlMsgList := p.ctrlMsgList } st hne hmis
        dsimp only
        rw [if_pos c2]
        rw [hab]
        exact ⟨rfl, fun _ _ => rfl⟩
      · dsimp only
        rw [if_neg c2]
        refine ⟨rfl, fun _ hor => ?_⟩
        rcases hor with h | h
        · exact absurd h hmib
        · exact absurd h c2
  · unfold PhyM.andThen
    simp only [PhyM.get]
    rw [if_neg c1]
    exact ⟨rfl, fun h _ => absurd h c1⟩

end LteSpectrumPhy

end ns3

namespace ns3

namespace LteSpectrumPhy

theorem StartRxSlData_timing (now : Time) (st : LteSpectrumPhy)
    (p : LteSpectrumSignalParametersSlFrame) :
    (∀ r st1, StartRxSlData now p st = .ok r st1 →
        st1.m_rxPacketInfo ≠ st.m_rxPacketInfo →
        st1.m_firstRxStart = now ∧ st1.m_firstRxDuration = p.duration
          ∧ (st.m_rxPacketInfo ≠ [] →
              st.m_firstRxStart = now ∧ st.m_firstRxDuration = p.duration))
    ∧ (st.m_rxPacketInfo ≠ [] →
        (st.m_firstRxStart ≠ now ∨ st.m_firstRxDuration ≠ p.duration) →
        (StartRxSlData now p st).state.m_rxPacketInfo = st.m_rxPacketInfo
          ∧ (slAccepted st p → (StartRxSlData now p st).isAssertFailed = true)) := by
  constructor
  · intro r st1 h hgrow
    unfold StartRxSlData at h
    simp only [PhyM.bind_eq] at h
    rw [PhyM.andThen_ok] at h
    obtain ⟨s0, s0b, h0, h⟩ := h
    rw [PhyM.get_ok] at h0
    obtain ⟨h0a, h0b⟩ := h0
    rw [h0a, h0b] at h
    clear h0a h0b s0 s0b
    cases hs : st.m_state <;> rw [hs] at h <;>
      simp only [NS_FATAL_ERROR, PhyM.abortWith, reduceCtorEq] at h
    · exact slReceive_ok now p r st st1 h hgrow
    · cases hf : st.m_ctrlFullDuplexEnabled <;> rw [hf] at h
      · simp only [Bool.not_false, if_true, PhyM.pure_eq, PhyM.ret, Outcome.ok.injEq] at h
        exact absurd (by rw [h.2]) hgrow
      · simp only [Bool.not_true, Bool.false_eq_true, if_false] at h
        exact slReceive_ok now p r st st1 h hgrow
    · exact slReceive_ok now p r st st1 h hgrow
  · intro hne hmis
    have hmis1 : ¬ (st.m_firstRxStart = now ∧ st.m_firstRxDuration = p.duration) := by
      rintro ⟨h1, h2⟩
      rcases hmis with h | h
      · exact h h1
      · exact h h2
    obtain ⟨hkeep, hfail⟩ := slReceive_mismatch now p st hne hmis1
    unfold StartRxSlData
    simp only [PhyM.bind_eq]
    unfold PhyM.andThen
    simp only [PhyM.get]
    have hsl : (slAccepted st p → (slReceive now p st).isAssertFailed = true) :=
      fun ha => hfail ⟨ha.2.1, ha.2.2.1⟩ ha.2.2.2
    cases hs : st.m_state <;> dsimp only
    case IDLE => exact ⟨hkeep, hsl⟩
    case RX_DATA => exact ⟨hkeep, hsl⟩
    case TX_DATA =>
      cases hf : st.m_ctrlFullDuplexEnabled
      · refine ⟨rfl, fun ha => ?_⟩
        unfold slAccepted at ha
        rw [hs, hf] at ha
        simp at ha
      · exact ⟨hkeep, hsl⟩
    all_goals
      refine ⟨rfl, fun ha => ?_⟩
      unfold slAccepted at ha
      rw [hs] at ha
      simp at ha

end LteSpectrumPhy

end ns3

namespace ns3

open LteSpectrumPhy in
/-- C5, counterexample to the invariant as worded.  On an out-of-coverage UE (cell id 0) a data
frame is delivered at time 0 with duration 10, a sidelink frame at time 5 with duration 7,
and a second data frame at time 5 with duration 7, all through `StartRx`.  All three calls
return, no assertion fails, and the data window then holds the burst delivered at time 0 with
duration 10 next to the burst delivered at time 5 with duration 7, while the record says
start 5 and duration 7: the sidelink branch of `StartRxSlData` opens its window without
checking `m_state` and overwrites the record of the open data window. -/
theorem C5_counterexample :
    (StartRx 0 (.dataFrame exampleDataSignal) exampleSidelinkUe).returned = true
    ∧ (StartRx 5 (.slFrame exampleSlSignal)
        (StartRx 0 (.dataFrame exampleDataSignal) exampleSidelinkUe).state).returned = true
    ∧ (StartRx 5 (.dataFrame exampleLateDataSignal)
        (StartRx 5 (.slFrame exampleSlSignal)
          (StartRx 0 (.dataFrame exampleDataSignal) exampleSidelinkUe).state).state).returned
        = true
    ∧ (StartRx 5 (.dataFrame exampleLateDataSignal)
        (StartRx 5 (.slFrame exampleSlSignal)
          (StartRx 0 (.dataFrame exampleDataSignal)
            exampleSidelinkUe).state).state).state.m_rxPacketBurstList
        = [[examplePacket], [{ uid := 12 }]]
    ∧ (StartRx 5 (.dataFrame exampleLateDataSignal)
        (StartRx 5 (.slFrame exampleSlSignal)
          (StartRx 0 (.dataFrame exampleDataSignal)
            exampleSidelinkUe).state).state).state.m_firstRxStart = 5
    ∧ (StartRx 5 (.dataFrame exampleLateDataSignal)
        (StartRx 5 (.slFrame exampleSlSignal)
          (StartRx 0 (.dataFrame exampleDataSignal)
            exampleSidelinkUe).state).state).state.m_firstRxDuration = 7
    ∧ exampleDataSignal.duration = 10 := by
  decide

open LteSpectrumPhy in
/-- C5, amended.  The timing record is checked per delivery and per kind of window.
Data: a synchronized data frame that `StartRxData` accepts leaves the record equal to the
time and duration of that delivery, and when the data window already holds a burst or a
control message and the record differs from the delivery in start or duration, the call fails
an assertion and leaves the state untouched.  Sounding reference: the same for `StartRxUlSrs`
in state `RX_UL_SRS`.  Sidelink: whenever `StartRxSlData` returns having added the signal to
the sidelink window, the record equals the time and duration of that delivery, and it
already did so beforehand if the sidelink window was not empty; when the sidelink window is
not empty and the record differs from the delivery, nothing is added to the window, and the
call fails an assertion whenever the signal is one the device accepts. -/
theorem C5_rx_window_timing_per_delivery (now : Time) (st : LteSpectrumPhy) :
    (∀ p : LteSpectrumSignalParametersDataFrame, p.cellId = st.m_cellId →
        (∀ st1, StartRxData now p st = .ok () st1 →
            st1.m_firstRxStart = now ∧ st1.m_firstRxDuration = p.duration)
        ∧ ((st.m_state = .IDLE ∨ st.m_state = .RX_DATA) →
            (st.m_rxPacketBurstList ≠ [] ∨ st.m_rxControlMessageList ≠ []) →
            (st.m_firstRxStart ≠ now ∨ st.m_firstRxDuration ≠ p.duration) →
            (StartRxData now p st).isAssertFailed = true
              ∧ (StartRxData now p st).state = st))
    ∧ (∀ p : LteSpectrumSignalParametersUlSrsFrame, p.cellId = st.m_cellId →
        (∀ st1, StartRxUlSrs now p st = .ok () st1 →
            st1.m_firstRxStart = now ∧ st1.m_firstRxDuration = p.duration)
        ∧ (st.m_state = .RX_UL_SRS →
            (st.m_firstRxStart ≠ now ∨ st.m_firstRxDuration ≠ p.duration) →
            (StartRxUlSrs now p st).isAssertFailed = true
              ∧ (StartRxUlSrs now p st).state = st))
    ∧ (∀ p : LteSpectrumSignalParametersSlFrame,
        (∀ r st1, StartRxSlData now p st = .ok r st1 →
            st1.m_rxPacketInfo ≠ st.m_rxPacketInfo →
            st1.m_firstRxStart = now ∧ st1.m_firstRxDuration = p.duration
              ∧ (st.m_rxPacketInfo ≠ [] →
                  st.m_firstRxStart = now ∧ st.m_firstRxDuration = p.duration))
        ∧ (st.m_rxPacketInfo ≠ [] →
            (st.m_firstRxStart ≠ now ∨ st.m_firstRxDuration ≠ p.duration) →
            (StartRxSlData now p st).state.m_rxPacketInfo = st.m_rxPacketInfo
              ∧ (slAccepted st p → (StartRxSlData now p st).isAssertFailed = true))) :=
  ⟨fun p hp => StartRxData_timing now st p hp,
   fun p hp => StartRxUlSrs_timing now st p hp,
   fun p => StartRxSlData_timing now st p⟩

open LteSpectrumPhy in
theorem C5_rx_window_timing_per_delivery_witness :
    (StartRxData 5 exampleLateDataSignal exampleRxPhy).isAssertFailed = true
      ∧ (StartRxData 5 exampleLateDataSignal exampleRxPhy).state = exampleRxPhy :=
  ((C5_rx_window_timing_per_delivery 5 exampleRxPhy).1 exampleLateDataSignal rfl).2
    (Or.inr rfl) (Or.inl (by decide)) (Or.inl (by decide))

end ns3

namespace ns3

theorem mem_distinctInOrder {α : Type} [DecidableEq α] (a : α) :
    ∀ l : List α, a ∈ distinctInOrder l ↔ a ∈ l := by
  intro l
  induction l with
  | nil => simp [distinctInOrder]
  | cons b l ih =>
    by_cases hab : a = b
    · simp [distinctInOrder, hab]
    · simp [distinctInOrder, hab, ih]

theorem distinctInOrder_filter {α : Type} [DecidableEq α] (q : α → Bool) :
    ∀ l : List α, distinctInOrder (l.filter q) = (distinctInOrder l).filter q := by
  intro l
  induction l with
  | nil => rfl
  | cons a l ih =>
    by_cases hq : q a = true
    · rw [List.filter_cons_of_pos hq]
      simp only [distinctInOrder]
      rw [List.filter_cons_of_pos hq, ih, List.filter_filter, List.filter_filter]
      congr 2
      funext b
      exact Bool.and_comm _ _
    · rw [List.filter_cons_of_neg hq]
      simp only [distinctInOrder]
      rw [List.filter_cons_of_neg hq, ih, List.filter_filter]
      apply List.filter_congr
      intro b hb
      by_cases hba : b = a
      · subst hba
        simp [hq]
      · simp [hba]

namespace StdMap

variable {K V : Type} {lt : K → K → Bool}

theorem find_key (ho : KeyOrder lt) (k : K) (m : StdMap K V) (e : K × V)
    (h : find lt k m = some e) : e.1 = k := by
  induction m with
  | nil => simp [find] at h
  | cons a rest ih =>
    by_cases h1 : lt a.1 k = true
    · simp only [find, h1, if_true] at h
      exact ih h
    · by_cases h2 : lt k a.1 = true
      · simp [find, h1, h2] at h
      · simp [find, h1, h2] at h
        subst h
        exact ho.total _ _ (by simpa using h1) (by simpa using h2)

theorem find_mem (k : K) (m : StdMap K V) (e : K × V) (h : find lt k m = some e) : e ∈ m := by
  induction m with
  | nil => simp [find] at h
  | cons a rest ih =>
    by_cases h1 : lt a.1 k = true
    · simp only [find, h1, if_true] at h
      exact List.mem_cons_of_mem _ (ih h)
    · by_cases h2 : lt k a.1 = true
      · simp [find, h1, h2] at h
      · simp [find, h1, h2] at h
        subst h
        exact List.mem_cons_self _ _

theorem find_of_mem (ho : KeyOrder lt) (m : StdMap K V) (hwf : WF lt m) (e : K × V)
    (he : e ∈ m) : find lt e.1 m = some e := by
  induction m with
  | nil => simp at he
  | cons a rest ih =>
    have hwf1 : WF lt rest := (List.pairwise_cons.1 hwf).2
    rcases List.mem_cons.1 he with rfl | he1
    · simp [find, ho.irrefl]
    · have hlt : lt a.1 e.1 = true := (List.pairwise_cons.1 hwf).1 e he1
      simp only [find, hlt, if_true]
      exact ih hwf1 he1

theorem update_keys (k : K) (f : V → V) (m : StdMap K V) :
    (update lt k f m).map Prod.fst = m.map Prod.fst := by
  induction m with
  | nil => rfl
  | cons a rest ih =>
    by_cases h1 : lt a.1 k = true
    · simp [update, h1, ih]
    · by_cases h2 : lt k a.1 = true <;> simp [update, h1, h2]

theorem WF_iff_keys (m : StdMap K V) :
    WF lt m ↔ List.Pairwise (fun a b => lt a b = true) (m.map Prod.fst) := by
  unfold WF
  rw [List.pairwise_map]

theorem WF_update (k : K) (f : V → V) (m : StdMap K V) (hwf : WF lt m) :
    WF lt (update lt k f m) := by
  rw [WF_iff_keys, update_keys, ← WF_iff_keys]
  exact hwf

theorem mem_update (ho : KeyOrder lt) (k : K) (f : V → V) (m : StdMap K V)
    (hwf : WF lt m) (x : K × V) (hx : x ∈ update lt k f m) :
    (x ∈ m ∧ x.1 ≠ k) ∨ (∃ e ∈ m, e.1 = k ∧ x = (e.1, f e.2)) := by
  induction m with
  | nil => simp [update] at hx
  | cons a rest ih =>
    have hwf1 : WF lt rest := (List.pairwise_cons.1 hwf).2
    have hhead : ∀ y ∈ rest, lt a.1 y.1 = true := (List.pairwise_cons.1 hwf).1
    by_cases h1 : lt a.1 k = true
    · simp only [update, h1, if_true] at hx
      rcases List.mem_cons.1 hx with rfl | hx1
      · exact Or.inl ⟨List.mem_cons_self _ _, keyOrder_ne ho h1⟩
      · rcases ih hwf1 hx1 with ⟨hm, hne⟩ | ⟨e, he, hk, hxe⟩
        · exact Or.inl ⟨List.mem_cons_of_mem _ hm, hne⟩
        · exact Or.inr ⟨e, List.mem_cons_of_mem _ he, hk, hxe⟩
    · by_cases h2 : lt k a.1 = true
      · simp [update, h1, h2] at hx
        left
        rcases hx with rfl | hx1
        · exact ⟨List.mem_cons_self _ _, (keyOrder_ne ho h2).symm⟩
        · exact ⟨List.mem_cons_of_mem _ hx1,
            (keyOrder_ne ho (ho.trans _ _ _ h2 (hhead x hx1))).symm⟩
      · have hak : a.1 = k := ho.total _ _ (by simpa using h1) (by simpa using h2)
        simp [update, h1, h2] at hx
        rcases hx with rfl | hx1
        · exact Or.inr ⟨a, List.mem_cons_self _ _, hak, rfl⟩
        · left
          refine ⟨List.mem_cons_of_mem _ hx1, ?_⟩
          rw [← hak]
          exact (keyOrder_ne ho (hhead x hx1)).symm

theorem mem_insert_of_mem (k : K) (v : V) (m : StdMap K V) (x : K × V) (hx : x ∈ m) :
    x ∈ insert lt k v m := by
  induction m with
  | nil => simp at hx
  | cons a rest ih =>
    by_cases h1 : lt a.1 k = true
    · simp only [insert, h1, if_true]
      rcases List.mem_cons.1 hx with rfl | hx1
      · exact List.mem_cons_self _ _
      · exact List.mem_cons_of_mem _ (ih hx1)
    · by_cases h2 : lt k a.1 = true
      · simp only [insert, h1, h2, if_true, if_false]
        exact List.mem_cons_of_mem _ hx
      · simp only [insert, h1, h2, if_false]
        exact hx

theorem mem_insert_self (k : K) (v : V) (m : StdMap K V) (h : find lt k m = none) :
    (k, v) ∈ insert lt k v m := by
  induction m with
  | nil => simp [insert]
  | cons a rest ih =>
    by_cases h1 : lt a.1 k = true
    · simp only [find, h1, if_true] at h
      simp only [insert, h1, if_true]
      exact List.mem_cons_of_mem _ (ih h)
    · by_cases h2 : lt k a.1 = true
      · simp only [insert, h1, h2, if_true, if_false]
        exact List.mem_cons_self _ _
      · simp [find, h1, h2] at h

theorem not_mem_of_find_none (ho : KeyOrder lt) (k : K) (m : StdMap K V) (hwf : WF lt m)
    (h : find lt k m = none) : ∀ e ∈ m, e.1 ≠ k := by
  intro e he hek
  have := find_of_mem ho m hwf e he
  rw [hek, h] at this
  simp at this

theorem find_update_eq [DecidableEq K] (ho : KeyOrder lt) (k k1 : K) (f : V → V)
    (m : StdMap K V) :
    find lt k1 (update lt k f m)
      = (find lt k1 m).map (fun e => if e.1 = k then (e.1, f e.2) else e) := by
  induction m with
  | nil => rfl
  | cons a rest ih =>
    by_cases h1 : lt a.1 k = true
    · have hne : a.1 ≠ k := keyOrder_ne ho h1
      have hu : update lt k f (a :: rest) = a :: update lt k f rest := by simp [update, h1]
      rw [hu]
      by_cases h3 : lt a.1 k1 = true
      · simp [find, h3, ih]
      · by_cases h4 : lt k1 a.1 = true <;> simp [find, h3, h4, hne]
    · by_cases h2 : lt k a.1 = true
      · have hu : update lt k f (a :: rest) = a :: rest := by simp [update, h1, h2]
        rw [hu]
        cases hf : find lt k1 (a :: rest) with
        | none => rfl
        | some e =>
          have hek : e.1 = k1 := find_key ho _ _ _ hf
          have hne : e.1 ≠ k := by
            intro hk
            have hkk : k1 = k := by rw [← hek, hk]
            subst hkk
            simp [find, h1, h2] at hf
          simp [hne]
      · have hak : a.1 = k := ho.total _ _ (by simpa using h1) (by simpa using h2)
        have hu : update lt k f (a :: rest) = (a.1, f a.2) :: rest := by
          simp [update, h1, h2]
        rw [hu]
        by_cases h3 : lt a.1 k1 = true
        · simp only [find, h3, if_true]
          cases hf : find lt k1 rest with
          | none => rfl
          | some e =>
            have hek : e.1 = k1 := find_key ho _ _ _ hf
            have hne : e.1 ≠ k := by
              rw [hek, ← hak]
              exact (keyOrder_ne ho h3).symm
            simp [hne]
        · by_cases h4 : lt k1 a.1 = true
          · have h3k : ¬ lt k k1 = true := by rw [← hak]; exact h3
            have h4k : lt k1 k = true := by rw [← hak]; exact h4
            simp [find, hak, h3k, h4k]
          · have h3k : ¬ lt k k1 = true := by rw [← hak]; exact h3
            have h4k : ¬ lt k1 k = true := by rw [← hak]; exact h4
            simp [find, hak, h3k, h4k]

end StdMap

end ns3

namespace ns3

open LteSpectrumPhy

theorem dlStatusAt_congr (reg : StdMap TbId_t tbInfo_t) (P P1 : List TbId_t)
    (h : ∀ k, k ∈ P ↔ k ∈ P1) (rnti l : Nat) :
    dlStatusAt reg P rnti l = dlStatusAt reg P1 rnti l := by
  unfold dlStatusAt
  rw [decide_eq_decide.2 (h _)]

theorem DlAggregated_congr (reg : StdMap TbId_t tbInfo_t) (L : Nat) (P P1 : List TbId_t)
    (m : StdMap Nat DlInfoListElement_s) (h : ∀ k, k ∈ P ↔ k ∈ P1)
    (hagg : DlAggregated reg L P m) : DlAggregated reg L P1 m := by
  obtain ⟨hwf, hent, hdom⟩ := hagg
  refine ⟨hwf, ?_, ?_⟩
  · intro e he
    obtain ⟨h1, h2, k, hk, hd, hr⟩ := hent e he
    refine ⟨h1, ?_, k, (h k).1 hk, hd, hr⟩
    rw [h2]
    unfold dlStatusSpec
    apply List.map_congr_left
    intro l _
    exact dlStatusAt_congr reg P P1 h _ _
  · intro k hk hd
    exact hdom k ((h k).2 hk) hd

theorem dlStatusSpec_set (reg : StdMap TbId_t tbInfo_t) (L : Nat) (P : List TbId_t)
    (k : TbId_t) (s : HarqStatus_e) (hs : dlStatusAt reg (k :: P) k.m_rnti k.m_layer = s) :
    (dlStatusSpec reg L P k.m_rnti).set k.m_layer s = dlStatusSpec reg L (k :: P) k.m_rnti := by
  apply List.ext_getElem
  · simp [dlStatusSpec]
  · intro n h1 h2
    have hn : n < L := by simpa [dlStatusSpec] using h2
    rw [List.getElem_set]
    by_cases hl : k.m_layer = n
    · subst hl
      simp [dlStatusSpec, hs]
    · have hne : ({ m_rnti := k.m_rnti, m_layer := n } : TbId_t) ≠ k := by
        intro hk
        apply hl
        rw [← hk]
      simp [dlStatusSpec, dlStatusAt, hl, hne]

theorem dlStatusSpec_cons_other (reg : StdMap TbId_t tbInfo_t) (L : Nat) (P : List TbId_t)
    (k : TbId_t) (rnti : Nat) (h : rnti ≠ k.m_rnti ∨ isDownlink reg k = false) :
    dlStatusSpec reg L (k :: P) rnti = dlStatusSpec reg L P rnti := by
  unfold dlStatusSpec
  apply List.map_congr_left
  intro l _
  unfold dlStatusAt
  by_cases hk : ({ m_rnti := rnti, m_layer := l } : TbId_t) = k
  · rcases h with h | h
    · exact absurd (by rw [← hk]) h
    · rw [hk, h]
      simp
  · simp [hk]

end ns3

namespace ns3

open LteSpectrumPhy

theorem StdMap.key_mem_update {K V : Type} {lt : K → K → Bool} (k : K) (f : V → V)
    (m : StdMap K V) (e : K × V) (he : e ∈ m) : ∃ x ∈ StdMap.update lt k f m, x.1 = e.1 := by
  have h1 : e.1 ∈ m.map Prod.fst := List.mem_map_of_mem _ he
  rw [← @StdMap.update_keys K V lt k f m] at h1
  obtain ⟨x, hx, hxe⟩ := List.mem_map.1 h1
  exact ⟨x, hx, hxe⟩

theorem dlStatusAt_self (reg : StdMap TbId_t tbInfo_t) (P : List TbId_t) (k : TbId_t)
    (e : TbId_t × tbInfo_t) (hf : StdMap.find TbId_t.lt k reg = some e)
    (hd : e.2.downlink = true) :
    dlStatusAt reg (k :: P) k.m_rnti k.m_layer
      = if e.2.corrupt then HarqStatus_e.NACK else HarqStatus_e.ACK := by
  have hk : ({ m_rnti := k.m_rnti, m_layer := k.m_layer } : TbId_t) = k := rfl
  unfold dlStatusAt
  rw [hk]
  cases hc : e.2.corrupt <;> simp [isDownlink, verdict, hf, hd, hc]

theorem dlStep_inv (reg : StdMap TbId_t tbInfo_t) (L : Nat) (P : List TbId_t)
    (m : StdMap Nat DlInfoListElement_s) (k : TbId_t) (e : TbId_t × tbInfo_t)
    (hagg : DlAggregated reg L P m) (hf : StdMap.find TbId_t.lt k reg = some e)
    (hd : e.2.downlink = true) :
    DlAggregated reg L (k :: P) (dlStep L k e.2 m) := by
  obtain ⟨hwf, hent, hdom⟩ := hagg
  have hdl : isDownlink reg k = true := by simp [isDownlink, hf, hd]
  have hself := dlStatusAt_self reg P k e hf hd
  unfold dlStep
  cases hfm : StdMap.find natLt k.m_rnti m with
  | none =>
    have hnone := StdMap.not_mem_of_find_none natLt_keyOrder k.m_rnti m hwf hfm
    have hfresh : dlStatusSpec reg L P k.m_rnti = List.replicate L HarqStatus_e.ACK := by
      apply List.ext_getElem
      · simp [dlStatusSpec]
      · intro n h1 h2
        simp only [dlStatusSpec, List.getElem_map, List.getElem_range, List.getElem_replicate]
        unfold dlStatusAt
        by_cases hmem : ({ m_rnti := k.m_rnti, m_layer := n } : TbId_t) ∈ P
        · by_cases hdn : isDownlink reg { m_rnti := k.m_rnti, m_layer := n } = true
          · obtain ⟨x, hx, hxk⟩ := hdom _ hmem hdn
            exact absurd hxk (hnone x hx)
          · simp [hdn]
        · simp [hmem]
    refine ⟨StdMap.WF_insert natLt_keyOrder _ _ _ hwf, ?_, ?_⟩
    · intro x hx
      rcases StdMap.mem_insert _ _ _ _ hx with rfl | hxm
      · refine ⟨rfl, ?_, k, List.mem_cons_self _ _, hdl, rfl⟩
        show (List.replicate L HarqStatus_e.ACK).set k.m_layer _ = _
        rw [← hfresh]
        exact dlStatusSpec_set reg L P k _ hself
      · obtain ⟨h1, h2, k1, hk1, hd1, hr1⟩ := hent x hxm
        refine ⟨h1, ?_, k1, List.mem_cons_of_mem _ hk1, hd1, hr1⟩
        rw [dlStatusSpec_cons_other reg L P k x.1 (Or.inl (hnone x hxm)), h2]
    · intro k1 hk1 hd1
      rcases List.mem_cons.1 hk1 with rfl | hk1
      · exact ⟨_, StdMap.mem_insert_self _ _ _ hfm, rfl⟩
      · obtain ⟨x, hx, hxk⟩ := hdom k1 hk1 hd1
        exact ⟨x, StdMap.mem_insert_of_mem _ _ _ _ hx, hxk⟩
  | some e0 =>
    refine ⟨StdMap.WF_update _ _ _ hwf, ?_, ?_⟩
    · intro x hx
      rcases StdMap.mem_update natLt_keyOrder _ _ _ hwf x hx with ⟨hxm, hne⟩ | ⟨e1, he1, hk1, rfl⟩
      · obtain ⟨h1, h2, k1, hk1, hd1, hr1⟩ := hent x hxm
        refine ⟨h1, ?_, k1, List.mem_cons_of_mem _ hk1, hd1, hr1⟩
        rw [dlStatusSpec_cons_other reg L P k x.1 (Or.inl hne), h2]
      · obtain ⟨h1, h2, -⟩ := hent e1 he1
        refine ⟨h1, ?_, k, List.mem_cons_self _ _, hdl, hk1.symm⟩
        show e1.2.m_harqStatus.set k.m_layer _ = dlStatusSpec reg L (k :: P) e1.1
        rw [h2, hk1]
        exact dlStatusSpec_set reg L P k _ hself
    · intro k1 hk1 hd1
      rcases List.mem_cons.1 hk1 with rfl | hk1
      · have he0 : e0 ∈ m := StdMap.find_mem _ _ _ hfm
        have hk0 : e0.1 = k1.m_rnti := StdMap.find_key natLt_keyOrder _ _ _ hfm
        obtain ⟨x, hx, hxe⟩ := @StdMap.key_mem_update Nat DlInfoListElement_s natLt k1.m_rnti _ m e0 he0
        exact ⟨x, hx, by rw [hxe, hk0]⟩
      · obtain ⟨x0, hx0, hxk⟩ := hdom k1 hk1 hd1
        obtain ⟨x, hx, hxe⟩ := @StdMap.key_mem_update Nat DlInfoListElement_s natLt k.m_rnti _ m x0 hx0
        exact ⟨x, hx, by rw [hxe, hxk]⟩

theorem dlSkip_inv (reg : StdMap TbId_t tbInfo_t) (L : Nat) (P : List TbId_t)
    (m : StdMap Nat DlInfoListElement_s) (k : TbId_t)
    (hagg : DlAggregated reg L P m) (hd : isDownlink reg k = false) :
    DlAggregated reg L (k :: P) m := by
  obtain ⟨hwf, hent, hdom⟩ := hagg
  refine ⟨hwf, ?_, ?_⟩
  · intro x hx
    obtain ⟨h1, h2, k1, hk1, hd1, hr1⟩ := hent x hx
    refine ⟨h1, ?_, k1, List.mem_cons_of_mem _ hk1, hd1, hr1⟩
    rw [dlStatusSpec_cons_other reg L P k x.1 (Or.inr hd), h2]
  · intro k1 hk1 hd1
    rcases List.mem_cons.1 hk1 with rfl | hk1
    · rw [hd] at hd1
      simp at hd1
    · exact hdom k1 hk1 hd1

theorem dlAggregate_inv (reg : StdMap TbId_t tbInfo_t) (L : Nat) :
    ∀ (keys P : List TbId_t) (m : StdMap Nat DlInfoListElement_s),
      DlAggregated reg L P m →
      DlAggregated reg L (keys.reverse ++ P) (dlAggregate L reg keys m) := by
  intro keys
  induction keys with
  | nil =>
    intro P m h
    exact h
  | cons k keys ih =>
    intro P m h
    rw [List.reverse_cons, List.append_assoc]
    show DlAggregated reg L (keys.reverse ++ k :: P) (dlAggregate L reg (k :: keys) m)
    unfold dlAggregate
    cases hf : StdMap.find TbId_t.lt k reg with
    | none =>
      exact ih _ _ (dlSkip_inv reg L P m k h (by simp [isDownlink, hf]))
    | some e =>
      cases hd : e.2.downlink
      · simp only [hd, Bool.false_eq_true, if_false]
        exact ih _ _ (dlSkip_inv reg L P m k h (by simp [isDownlink, hf, hd]))
      · simp only [hd, if_true]
        exact ih _ _ (dlStep_inv reg L P m k e h hf hd)

theorem dlAggregate_spec (reg : StdMap TbId_t tbInfo_t) (L : Nat) (keys : List TbId_t) :
    DlAggregated reg L keys (dlAggregate L reg keys []) := by
  have h0 : DlAggregated reg L [] ([] : StdMap Nat DlInfoListElement_s) :=
    ⟨List.Pairwise.nil, by simp, by simp⟩
  refine DlAggregated_congr reg L _ _ _ ?_ (dlAggregate_inv reg L keys [] [] h0)
  intro k
  simp

end ns3

namespace ns3

namespace LteSpectrumPhy

theorem feedbackPending_update (reg : StdMap TbId_t tbInfo_t) (k k1 : TbId_t) :
    feedbackPending
        (StdMap.update TbId_t.lt k (fun i => { i with harqFeedbackSent := true }) reg) k1
      = (feedbackPending reg k1 && decide (k1 ≠ k)) := by
  unfold feedbackPending
  rw [StdMap.find_update_eq tbId_keyOrder]
  cases hf : StdMap.find TbId_t.lt k1 reg with
  | none => rfl
  | some e =>
    have hk : e.1 = k1 := StdMap.find_key tbId_keyOrder _ _ _ hf
    by_cases hkk : k1 = k
    · subst hkk
      simp [hk]
    · have hne : e.1 ≠ k := by rw [hk]; exact hkk
      simp [hne, hkk]

theorem isDownlink_update (reg : StdMap TbId_t tbInfo_t) (k k1 : TbId_t) :
    isDownlink (StdMap.update TbId_t.lt k (fun i => { i with harqFeedbackSent := true }) reg) k1
      = isDownlink reg k1 := by
  have h := @StdMap.find_update TbId_t tbInfo_t TbId_t.lt k k1
    (fun i => { i with harqFeedbackSent := true }) reg Bool (fun i => i.downlink) (fun _ => rfl)
  unfold isDownlink
  cases h1 : StdMap.find TbId_t.lt k1
      (StdMap.update TbId_t.lt k (fun i => { i with harqFeedbackSent := true }) reg) <;>
    cases h2 : StdMap.find TbId_t.lt k1 reg <;> simp [h1, h2] at h ⊢
  exact h

theorem ulFeedbackSpec_update (reg : StdMap TbId_t tbInfo_t) (k : TbId_t)
    (keys : List TbId_t) :
    ulFeedbackSpec
        (StdMap.update TbId_t.lt k (fun i => { i with harqFeedbackSent := true }) reg) keys
      = ulFeedbackSpec reg keys := by
  unfold ulFeedbackSpec
  simp only [isDownlink_update, verdict_update]

theorem dlAggregate_update (L : Nat) (reg : StdMap TbId_t tbInfo_t) (k : TbId_t) :
    ∀ (keys : List TbId_t) (m : StdMap Nat DlInfoListElement_s),
      dlAggregate L
          (StdMap.update TbId_t.lt k (fun i => { i with harqFeedbackSent := true }) reg) keys m
        = dlAggregate L reg keys m := by
  intro keys
  induction keys with
  | nil => intro m; rfl
  | cons k1 keys ih =>
    intro m
    unfold dlAggregate
    rw [StdMap.find_update_eq tbId_keyOrder]
    cases hf : StdMap.find TbId_t.lt k1 reg with
    | none => exact ih m
    | some e =>
      by_cases hek : e.1 = k
      · simp only [Option.map_some', hek, if_true]
        cases hd : e.2.downlink
        · simp only [Bool.false_eq_true, if_false]
          exact ih m
        · simp only [if_true]
          exact ih _
      · simp only [Option.map_some', hek, if_false]
        cases hd : e.2.downlink
        · simp only [Bool.false_eq_true, if_false]
          exact ih m
        · simp only [if_true]
          exact ih _

theorem pendingKeys_cons (reg : StdMap TbId_t tbInfo_t) (p : Packet) (ps : List Packet) :
    pendingKeys reg (p :: ps)
      = if feedbackPending reg (tbIdOf p) then
          tbIdOf p :: pendingKeys
            (StdMap.update TbId_t.lt (tbIdOf p) (fun i => { i with harqFeedbackSent := true })
              reg) ps
        else pendingKeys reg ps := by
  unfold pendingKeys
  by_cases hp : feedbackPending reg (tbIdOf p) = true
  · rw [if_pos hp, List.map_cons, List.filter_cons_of_pos hp]
    simp only [distinctInOrder]
    congr 1
    rw [← distinctInOrder_filter]
    congr 1
    rw [List.filter_filter]
    apply List.filter_congr
    intro k _
    rw [feedbackPending_update, Bool.and_comm]
  · rw [if_neg hp, List.map_cons, List.filter_cons_of_neg hp]

end LteSpectrumPhy

end ns3

namespace ns3

namespace LteSpectrumPhy

theorem ulFeedbacks_append (l1 l2 : List PhyEvent) :
    ulFeedbacks (l1 ++ l2) = ulFeedbacks l1 ++ ulFeedbacks l2 := by
  simp [ulFeedbacks, List.filterMap_append]

theorem dlFeedbacks_append (l1 l2 : List PhyEvent) :
    dlFeedbacks (l1 ++ l2) = dlFeedbacks l1 ++ dlFeedbacks l2 := by
  simp [dlFeedbacks, List.filterMap_append]

theorem EndRxData_ulFeedback_harq (tbId : TbId_t) (info : tbInfo_t) (st st1 : LteSpectrumPhy)
    (h : EndRxData_ulFeedback tbId info st = .ok () st1) :
    st1.m_expectedTbs = st.m_expectedTbs
      ∧ ulFeedbacks st1.log = ulFeedbacks st.log ++
          (if st.m_ltePhyUlHarqFeedbackCallback then
            [{ m_rnti := tbId.m_rnti, m_tpc := 0,
               m_receptionStatus := if info.corrupt then .NotOk else .Ok }]
          else [])
      ∧ dlFeedbacks st1.log = dlFeedbacks st.log
      ∧ st1.m_layersNum = st.m_layersNum
      ∧ st1.m_ltePhyUlHarqFeedbackCallback = st.m_ltePhyUlHarqFeedbackCallback
      ∧ st1.m_ltePhyDlHarqFeedbackCallback = st.m_ltePhyDlHarqFeedbackCallback := by
  unfold EndRxData_ulFeedback at h
  cases hc : info.corrupt <;> cases hcb : st.m_ltePhyUlHarqFeedbackCallback <;>
    cases hr : EffectiveCodingRate[info.mcs]? <;>
    simp [PhyM.bind_eq, PhyM.pure_eq, PhyM.andThen, PhyM.ret, PhyM.get, PhyM.modify, PhyM.emit,
      PhyM.abortWith, onHarq, hc, hcb, hr] at h <;>
    subst h <;>
    simp [ulFeedbacks, dlFeedbacks, List.filterMap_append, hcb]

theorem EndRxData_dlFeedback_harq (tbId : TbId_t) (info : tbInfo_t)
    (m m1 : StdMap Nat DlInfoListElement_s) (st st1 : LteSpectrumPhy)
    (h : EndRxData_dlFeedback tbId info m st = .ok m1 st1) :
    st1.log = st.log
      ∧ st1.m_expectedTbs = st.m_expectedTbs
      ∧ m1 = dlStep st.m_layersNum tbId info m
      ∧ st1.m_layersNum = st.m_layersNum
      ∧ st1.m_ltePhyUlHarqFeedbackCallback = st.m_ltePhyUlHarqFeedbackCallback
      ∧ st1.m_ltePhyDlHarqFeedbackCallback = st.m_ltePhyDlHarqFeedbackCallback := by
  unfold EndRxData_dlFeedback at h
  unfold dlStep
  cases hf : StdMap.find natLt tbId.m_rnti m with
  | none =>
    cases hc : info.corrupt <;> cases hr : EffectiveCodingRate[info.mcs]? <;>
      by_cases hl : tbId.m_layer < st.m_layersNum <;>
      simp [PhyM.bind_eq, PhyM.pure_eq, PhyM.andThen, PhyM.ret, PhyM.get, PhyM.modify,
        PhyM.abortWith, onHarq, hf, hc, hr, hl] at h <;>
      obtain ⟨hm, h⟩ := h <;> subst h <;> subst hm <;> simp
  | some d =>
    cases hc : info.corrupt <;> cases hr : EffectiveCodingRate[info.mcs]? <;>
      by_cases hl : tbId.m_layer < d.2.m_harqStatus.length <;>
      simp [PhyM.bind_eq, PhyM.pure_eq, PhyM.andThen, PhyM.ret, PhyM.get, PhyM.modify,
        PhyM.abortWith, NS_ASSERT, onHarq, hf, hc, hr, hl] at h <;>
      obtain ⟨hm, h⟩ := h <;> subst h <;> subst hm <;> simp

end LteSpectrumPhy

end ns3

namespace ns3

namespace LteSpectrumPhy

/-- What one pass of the packet loop of `EndRxData` adds to the feedback, in terms of the
registry before the pass. -/
theorem EndRxData_packet_harq (p : Packet) (m m1 : StdMap Nat DlInfoListElement_s)
    (st st1 : LteSpectrumPhy) (h : EndRxData_packet p m st = .ok m1 st1) :
    st1.m_expectedTbs
        = (if feedbackPending st.m_expectedTbs (tbIdOf p) then
            StdMap.update TbId_t.lt (tbIdOf p) (fun i => { i with harqFeedbackSent := true })
              st.m_expectedTbs
          else st.m_expectedTbs)
      ∧ ulFeedbacks st1.log = ulFeedbacks st.log ++
          (if st.m_ltePhyUlHarqFeedbackCallback then
            ulFeedbackSpec st.m_expectedTbs
              (if feedbackPending st.m_expectedTbs (tbIdOf p) then [tbIdOf p] else [])
          else [])
      ∧ dlFeedbacks st1.log = dlFeedbacks st.log
      ∧ m1 = dlAggregate st.m_layersNum st.m_expectedTbs
          (if feedbackPending st.m_expectedTbs (tbIdOf p) then [tbIdOf p] else []) m
      ∧ st1.m_layersNum = st.m_layersNum
      ∧ st1.m_ltePhyUlHarqFeedbackCallback = st.m_ltePhyUlHarqFeedbackCallback
      ∧ st1.m_ltePhyDlHarqFeedbackCallback = st.m_ltePhyDlHarqFeedbackCallback := by
  unfold EndRxData_packet at h
  simp only [PhyM.bind_eq, PhyM.andThen_ok, PhyM.get_ok] at h
  obtain ⟨a, s1, ⟨ha, hs1⟩, h⟩ := h
  rw [ha, hs1] at h
  clear ha hs1 a s1
  have hk : ({ m_rnti := p.tag.m_rnti, m_layer := p.tag.m_layer } : TbId_t) = tbIdOf p := rfl
  rw [hk] at h
  cases hf : StdMap.find TbId_t.lt (tbIdOf p) st.m_expectedTbs with
  | none =>
    simp only [hf, PhyM.pure_eq, PhyM.ret_ok] at h
    obtain ⟨hm, h⟩ := h
    subst h hm
    simp [feedbackPending, hf, ulFeedbackSpec, dlAggregate]
  | some e =>
    simp only [hf, PhyM.bind_eq, PhyM.andThen_ok] at h
    obtain ⟨_, st2, hn, h⟩ := h
    rw [EndRxData_notify_eq] at hn
    simp only [Outcome.ok.injEq, true_and] at hn
    have hul2 : ulFeedbacks st2.log = ulFeedbacks st.log := by
      subst hn
      cases hc : e.2.corrupt <;> cases hcb : st.m_ltePhyRxDataEndOkCallback <;>
        simp [ulFeedbacks, List.filterMap_append, hc, hcb]
    have hdl2 : dlFeedbacks st2.log = dlFeedbacks st.log := by
      subst hn
      cases hc : e.2.corrupt <;> cases hcb : st.m_ltePhyRxDataEndOkCallback <;>
        simp [dlFeedbacks, List.filterMap_append, hc, hcb]
    have hreg2 : st2.m_expectedTbs = st.m_expectedTbs := by subst hn; rfl
    have hL2 : st2.m_layersNum = st.m_layersNum := by subst hn; rfl
    have hu2 : st2.m_ltePhyUlHarqFeedbackCallback = st.m_ltePhyUlHarqFeedbackCallback := by
      subst hn; rfl
    have hd2 : st2.m_ltePhyDlHarqFeedbackCallback = st.m_ltePhyDlHarqFeedbackCallback := by
      subst hn; rfl
    clear hn
    unfold EndRxData_feedback at h
    cases hs : e.2.harqFeedbackSent with
    | true =>
      simp [PhyM.pure_eq, PhyM.ret, hs] at h
      obtain ⟨hm, h⟩ := h
      subst h hm
      simp [feedbackPending, hf, hs, ulFeedbackSpec, dlAggregate, hul2, hdl2, hreg2, hL2, hu2,
        hd2]
    | false =>
      have hpend : feedbackPending st.m_expectedTbs (tbIdOf p) = true := by
        simp [feedbackPending, hf, hs]
      simp only [hs, Bool.not_false, if_true, PhyM.bind_eq, PhyM.andThen_ok] at h
      obtain ⟨_, st3, hmod, h⟩ := h
      have hst3 : st3 = { st2 with m_expectedTbs :=
          (StdMap.update TbId_t.lt (tbIdOf p) (fun i => { i with harqFeedbackSent := true })
            st2.m_expectedTbs) } := by
        simp only [PhyM.modify, Outcome.ok.injEq, true_and] at hmod
        exact hmod.symm
      clear hmod
      cases hd : e.2.downlink with
      | false =>
        simp only [hd, Bool.not_false, if_true, PhyM.bind_eq, PhyM.andThen_ok, PhyM.pure_eq,
          PhyM.ret_ok] at h
        obtain ⟨_, st4, hul, hm, hst4⟩ := h
        obtain ⟨f1, f2, f3, f4, f5, f6⟩ := EndRxData_ulFeedback_harq _ _ _ _ hul
        subst hst4 hm
        rw [hst3] at f1 f2 f3 f4 f5 f6
        simp only at f1 f2 f3 f4 f5 f6
        refine ⟨?_, ?_, ?_, ?_, ?_, ?_, ?_⟩
        · rw [f1, hreg2, if_pos hpend]
        · rw [f2, hul2, hu2, if_pos hpend]
          cases hcb : st.m_ltePhyUlHarqFeedbackCallback
          · simp
          · cases hc : e.2.corrupt <;>
              simp [ulFeedbackSpec, isDownlink, verdict, hf, hd, hc]
        · rw [f3, hdl2]
        · rw [if_pos hpend]
          simp [dlAggregate, hf, hd]
        · rw [f4, hL2]
        · rw [f5, hu2]
        · rw [f6, hd2]
      | true =>
        simp only [hd, Bool.not_true, if_false, Bool.false_eq_true] at h
        obtain ⟨f1, f2, f3, f4, f5, f6⟩ := EndRxData_dlFeedback_harq _ _ _ _ _ _ h
        rw [hst3] at f1 f2 f3 f4 f5 f6
        simp only at f1 f2 f3 f4 f5 f6
        refine ⟨?_, ?_, ?_, ?_, ?_, ?_, ?_⟩
        · rw [f2, hreg2, if_pos hpend]
        · rw [f1, hul2, if_pos hpend]
          cases hcb : st.m_ltePhyUlHarqFeedbackCallback <;>
            simp [ulFeedbackSpec, isDownlink, hf, hd]
        · rw [f1, hdl2]
        · rw [if_pos hpend, f3, hL2]
          simp [dlAggregate, hf, hd]
        · rw [f4, hL2]
        · rw [f5, hu2]
        · rw [f6, hd2]

end LteSpectrumPhy

end ns3

namespace ns3

namespace LteSpectrumPhy

theorem ulFeedbackSpec_cons (reg : StdMap TbId_t tbInfo_t) (k : TbId_t) (keys : List TbId_t) :
    ulFeedbackSpec reg (k :: keys) = ulFeedbackSpec reg [k] ++ ulFeedbackSpec reg keys := by
  unfold ulFeedbackSpec
  rw [← List.map_append, ← List.filter_append]
  rfl

theorem dlAggregate_cons (L : Nat) (reg : StdMap TbId_t tbInfo_t) (k : TbId_t)
    (keys : List TbId_t) (m : StdMap Nat DlInfoListElement_s) :
    dlAggregate L reg (k :: keys) m = dlAggregate L reg keys (dlAggregate L reg [k] m) := by
  simp only [dlAggregate]
  cases hf : StdMap.find TbId_t.lt k reg with
  | none => rfl
  | some e => cases hd : e.2.downlink <;> simp [hd]

/-- What the packet loop of `EndRxData` adds to the feedback, in terms of the registry before
the loop. -/
theorem EndRxData_packets_harq (ps : List Packet) :
    ∀ (m m1 : StdMap Nat DlInfoListElement_s) (st st1 : LteSpectrumPhy),
      EndRxData_packets ps m st = .ok m1 st1 →
      ulFeedbacks st1.log = ulFeedbacks st.log ++
          (if st.m_ltePhyUlHarqFeedbackCallback then
            ulFeedbackSpec st.m_expectedTbs (pendingKeys st.m_expectedTbs ps)
          else [])
        ∧ dlFeedbacks st1.log = dlFeedbacks st.log
        ∧ m1 = dlAggregate st.m_layersNum st.m_expectedTbs (pendingKeys st.m_expectedTbs ps) m
        ∧ st1.m_ltePhyDlHarqFeedbackCallback = st.m_ltePhyDlHarqFeedbackCallback := by
  induction ps with
  | nil =>
    intro m m1 st st1 h
    simp only [EndRxData_packets, PhyM.pure_eq, PhyM.ret_ok] at h
    obtain ⟨hm, h⟩ := h
    subst h hm
    simp [pendingKeys, distinctInOrder, ulFeedbackSpec, dlAggregate]
  | cons p ps ih =>
    intro m m1 st st1 h
    simp only [EndRxData_packets, PhyM.bind_eq, PhyM.andThen_ok] at h
    obtain ⟨m2, st2, hp, hrest⟩ := h
    obtain ⟨g1, g2, g3, g4, g5, g6, g7⟩ := EndRxData_packet_harq p m m2 st st2 hp
    obtain ⟨i1, i2, i3, i4⟩ := ih m2 m1 st2 st1 hrest
    rw [pendingKeys_cons]
    by_cases hpend : feedbackPending st.m_expectedTbs (tbIdOf p) = true
    · rw [if_pos hpend] at g1 g2 g4 ⊢
      rw [g1, ulFeedbackSpec_update] at i1
      rw [g1, dlAggregate_update, g5] at i3
      refine ⟨?_, by rw [i2, g3], ?_, by rw [i4, g7]⟩
      · rw [i1, g2, g6, List.append_assoc]
        cases hcb : st.m_ltePhyUlHarqFeedbackCallback
        · simp
        · simp only [if_true]
          conv_rhs => rw [ulFeedbackSpec_cons]
      · rw [i3, g4]
        conv_rhs => rw [dlAggregate_cons]
    · rw [if_neg hpend] at g1 g2 g4 ⊢
      rw [g1] at i1 i3
      rw [g5] at i3
      refine ⟨?_, by rw [i2, g3], ?_, by rw [i4, g7]⟩
      · rw [i1, g2, g6]
        cases hcb : st.m_ltePhyUlHarqFeedbackCallback <;> simp [ulFeedbackSpec]
      · rw [i3, g4]
        rfl

theorem dlFeedbacks_map (l : List (Nat × DlInfoListElement_s)) :
    dlFeedbacks (l.map (fun e => PhyEvent.ltePhyDlHarqFeedbackCallback e.2))
      = l.map Prod.snd := by
  induction l with
  | nil => rfl
  | cons a l ih =>
    simp only [dlFeedbacks, List.map_cons, List.filterMap_cons] at ih ⊢
    rw [ih]

theorem EndRxData_deliver_harq (st st1 : LteSpectrumPhy)
    (h : EndRxData_deliver st = .ok () st1) :
    ulFeedbacks st1.log = ulFeedbacks st.log ++
        (if st.m_ltePhyUlHarqFeedbackCallback then
          ulFeedbackSpec st.m_expectedTbs
            (pendingKeys st.m_expectedTbs st.m_rxPacketBurstList.flatten)
        else [])
      ∧ dlFeedbacks st1.log = dlFeedbacks st.log ++
          (if st.m_ltePhyDlHarqFeedbackCallback then
            (dlAggregate st.m_layersNum st.m_expectedTbs
              (pendingKeys st.m_expectedTbs st.m_rxPacketBurstList.flatten) []).map Prod.snd
          else []) := by
  unfold EndRxData_deliver at h
  simp only [PhyM.bind_eq, PhyM.andThen_ok, PhyM.get_ok] at h
  obtain ⟨a, s1, ⟨ha, hs1⟩, m1, st2, hpk, _, st3, hsend, b, s3, ⟨hb, hs3⟩, hctrl⟩ := h
  rw [ha, hs1] at hpk
  rw [hb, hs3] at hctrl
  clear ha hs1 hb hs3 a s1 b s3
  obtain ⟨i1, i2, i3, i4⟩ := EndRxData_packets_harq _ _ _ _ _ hpk
  rw [EndRxData_sendDlFeedback_eq] at hsend
  simp only [Outcome.ok.injEq, true_and] at hsend
  have hlog : ∃ extra, st1.log = st3.log ++ extra
      ∧ ulFeedbacks extra = [] ∧ dlFeedbacks extra = [] := by
    cases he : st3.m_rxControlMessageList.isEmpty <;>
      cases hcb : st3.m_ltePhyRxCtrlEndOkCallback <;>
      simp [he, hcb, PhyM.pure_eq, PhyM.ret, PhyM.emit] at hctrl <;> subst hctrl
    · exact ⟨[], by simp, rfl, rfl⟩
    · exact ⟨[.ltePhyRxCtrlEndOkCallback st3.m_rxControlMessageList], rfl, rfl, rfl⟩
    · exact ⟨[], by simp, rfl, rfl⟩
    · exact ⟨[], by simp, rfl, rfl⟩
  obtain ⟨extra, hl, hu, hd⟩ := hlog
  subst hsend
  simp only at hl
  rw [hl]
  constructor
  · rw [ulFeedbacks_append, ulFeedbacks_append, hu, List.append_nil, i1]
    have : ulFeedbacks (if st2.m_ltePhyDlHarqFeedbackCallback = true then
        List.map (fun e => PhyEvent.ltePhyDlHarqFeedbackCallback e.2) m1 else []) = [] := by
      cases st2.m_ltePhyDlHarqFeedbackCallback <;> simp [ulFeedbacks, List.filterMap_map]
    rw [this, List.append_nil]
  · rw [dlFeedbacks_append, dlFeedbacks_append, hd, List.append_nil, i2, i4, i3]
    cases hcb : st.m_ltePhyDlHarqFeedbackCallback
    · simp [dlFeedbacks]
    · simp only [if_true]
      rw [dlFeedbacks_map]

end LteSpectrumPhy

end ns3

namespace ns3

namespace LteSpectrumPhy

theorem feedbacks_of_receptionTraces (added : List PhyEvent)
    (h : ∀ ev ∈ added, PhyEvent.isReceptionTrace ev = true) :
    ulFeedbacks added = [] ∧ dlFeedbacks added = [] := by
  induction added with
  | nil => exact ⟨rfl, rfl⟩
  | cons ev rest ih =>
    obtain ⟨i1, i2⟩ := ih (fun x hx => h x (List.mem_cons_of_mem _ hx))
    have hev := h ev (List.mem_cons_self _ _)
    cases ev <;> simp [PhyEvent.isReceptionTrace] at hev <;>
      simp [ulFeedbacks, dlFeedbacks] at i1 i2 ⊢ <;> exact ⟨i1, i2⟩

theorem fresh_of_sameButVerdict (reg reg0 : StdMap TbId_t tbInfo_t)
    (h : List.Forall₂ sameButVerdict reg reg0)
    (hfresh : ∀ e ∈ reg0, e.2.harqFeedbackSent = false) :
    ∀ e ∈ reg, e.2.harqFeedbackSent = false := by
  induction h with
  | nil => simp
  | cons hab _ ih =>
    intro e he
    rcases List.mem_cons.1 he with rfl | he1
    · rw [hab.2]
      exact hfresh _ (List.mem_cons_self _ _)
    · exact ih (fun x hx => hfresh x (List.mem_cons_of_mem _ hx)) e he1

theorem pendingKeys_eq_matchedKeys (reg : StdMap TbId_t tbInfo_t) (ps : List Packet)
    (hfresh : ∀ e ∈ reg, e.2.harqFeedbackSent = false) :
    pendingKeys reg ps = matchedKeys reg ps := by
  unfold pendingKeys matchedKeys
  congr 1
  apply List.filter_congr
  intro k _
  unfold feedbackPending
  cases hf : StdMap.find TbId_t.lt k reg with
  | none => rfl
  | some e =>
    have := hfresh e (StdMap.find_mem _ _ _ hf)
    simp [this]

end LteSpectrumPhy

open LteSpectrumPhy in
/-- C9. Whenever `EndRxData` returns on a registry whose descriptors have not been fed back
yet (as `AddExpectedTb` registers them), the HARQ feedback it sends is this, where the
verdicts are those the error model loop left in the registry and the matched descriptors are
those whose (RNTI, layer) is the tag of at least one received packet, each counted once
however many packets carry its tag.  Uplink: the calls of the UL feedback callback are, in
the order of the first matching packet, exactly one per matched uplink descriptor, `NotOk` if
it is corrupted and `Ok` otherwise (none if the callback is not set).  Downlink: the calls of
the DL feedback callback carry the records of a map with strictly ascending RNTIs, hence at
most one record per RNTI; every RNTI with a matched downlink descriptor has a record and
every record belongs to such an RNTI; the record carries that RNTI and a status vector of
`m_layersNum` entries whose entry `l` is `NACK` if the downlink descriptor (RNTI, `l`) was
matched and is corrupted and `ACK` otherwise. -/
theorem C9_harq_feedback_once_per_descriptor (env : Env) (now : Time)
    (st st2 : LteSpectrumPhy)
    (hfresh : ∀ e ∈ st.m_expectedTbs, e.2.harqFeedbackSent = false)
    (h : EndRxData env now st = .ok () st2) :
    ∃ (st1 : LteSpectrumPhy) (records : StdMap Nat DlInfoListElement_s),
      EndRxData_errorModel env now st = .ok () st1
      ∧ ulFeedbacks st2.log = ulFeedbacks st.log ++
          (if st.m_ltePhyUlHarqFeedbackCallback then
            ulFeedbackSpec st1.m_expectedTbs
              (matchedKeys st1.m_expectedTbs st.m_rxPacketBurstList.flatten)
          else [])
      ∧ dlFeedbacks st2.log = dlFeedbacks st.log ++
          (if st.m_ltePhyDlHarqFeedbackCallback then records.map Prod.snd else [])
      ∧ StdMap.WF natLt records
      ∧ (∀ e ∈ records, e.2.m_rnti = e.1
          ∧ e.2.m_harqStatus
              = dlStatusSpec st1.m_expectedTbs st.m_layersNum
                  (matchedKeys st1.m_expectedTbs st.m_rxPacketBurstList.flatten) e.1
          ∧ ∃ k ∈ matchedKeys st1.m_expectedTbs st.m_rxPacketBurstList.flatten,
              isDownlink st1.m_expectedTbs k = true ∧ k.m_rnti = e.1)
      ∧ (∀ k ∈ matchedKeys st1.m_expectedTbs st.m_rxPacketBurstList.flatten,
          isDownlink st1.m_expectedTbs k = true → ∃ e ∈ records, e.1 = k.m_rnti) := by
  obtain ⟨st1, st1b, h1, h2, h3⟩ := EndRxData_ok env now st st2 h
  obtain ⟨calls, sinr, pos, reg, added, hst1, hshape, hadded, -⟩ :=
    EndRxData_errorModel_shape env now st st1 h1
  obtain ⟨hu, hd⟩ := EndRxData_deliver_harq st1 st1b h2
  obtain ⟨ha1, ha2⟩ := feedbacks_of_receptionTraces added hadded
  have hreg : st1.m_expectedTbs = reg := by rw [hst1]
  have hfresh1 : ∀ e ∈ st1.m_expectedTbs, e.2.harqFeedbackSent = false := by
    rw [hreg]
    exact fresh_of_sameButVerdict reg _ hshape hfresh
  have hkeys := pendingKeys_eq_matchedKeys st1.m_expectedTbs
    st.m_rxPacketBurstList.flatten hfresh1
  have hb : st1.m_rxPacketBurstList = st.m_rxPacketBurstList := by rw [hst1]
  have hL : st1.m_layersNum = st.m_layersNum := by rw [hst1]
  have hcu : st1.m_ltePhyUlHarqFeedbackCallback = st.m_ltePhyUlHarqFeedbackCallback := by
    rw [hst1]
  have hcd : st1.m_ltePhyDlHarqFeedbackCallback = st.m_ltePhyDlHarqFeedbackCallback := by
    rw [hst1]
  have hlu : ulFeedbacks st1.log = ulFeedbacks st.log := by
    rw [hst1]
    show ulFeedbacks (st.log ++ added) = _
    rw [ulFeedbacks_append, ha1, List.append_nil]
  have hld : dlFeedbacks st1.log = dlFeedbacks st.log := by
    rw [hst1]
    show dlFeedbacks (st.log ++ added) = _
    rw [dlFeedbacks_append, ha2, List.append_nil]
  have hlog2 : st2.log = st1b.log := by rw [h3]
  rw [hb, hkeys, hcu, hlu] at hu
  rw [hb, hkeys, hL, hcd, hld] at hd
  obtain ⟨hwf, hent, hdom⟩ := dlAggregate_spec st1.m_expectedTbs st.m_layersNum
    (matchedKeys st1.m_expectedTbs st.m_rxPacketBurstList.flatten)
  exact ⟨st1, _, h1, by rw [hlog2, hu], by rw [hlog2, hd], hwf, hent, hdom⟩

end ns3

namespace ns3

/-! ## The theorems at concrete inputs -/

set_option maxRecDepth 8000 in
open LteSpectrumPhy in
theorem exampleRxPhy_errorModel :
    EndRxData_errorModel exampleEnv 0 exampleRxPhy = .ok () exampleRxPhyDecoded := by
  simp [EndRxData_errorModel, EndRxData_tbs, EndRxData_tb, exampleRxPhy, exampleRxPhyDecoded,
    exampleEnv, PhyM.bind_eq, PhyM.pure_eq, PhyM.andThen, PhyM.ret, PhyM.get, PhyM.modify,
    PhyM.emit, PhyM.abortWith, NS_ASSERT, onInterferenceData, UpdateSinrPerceived, svScale,
    sumOver, milliSeconds]
  norm_num

set_option maxRecDepth 8000 in
open LteSpectrumPhy in
theorem exampleRxPhy_EndRxData :
    EndRxData exampleEnv 0 exampleRxPhy = .ok () exampleRxPhyClosed := by
  have h1 := exampleRxPhy_errorModel
  unfold EndRxData
  simp only [PhyM.bind_eq]
  unfold PhyM.andThen
  rw [h1]
  simp [EndRxData_deliver, EndRxData_packets, EndRxData_packet, EndRxData_notify,
    EndRxData_feedback, EndRxData_dlFeedback, EndRxData_sendDlFeedback, EndRxData_close,
    ChangeState, onHarq, exampleRxPhy, exampleRxPhyDecoded, exampleRxPhyClosed, examplePacket,
    StdMap.find, StdMap.insert, StdMap.update, TbId_t.lt, natLt,
    PhyM.bind_eq, PhyM.pure_eq, PhyM.andThen, PhyM.ret, PhyM.get, PhyM.modify,
    PhyM.emit, PhyM.abortWith, NS_ASSERT]

theorem C1_interference_excludes_own_signal_witness :
    ∃ st1 st2, LteSlInterference.deliverAll 0 [([3], 10), ([5], 10)] exampleAccumulator = .ok st1
      ∧ LteSlInterference.ConditionallyEvaluateChunk 10 st1 = .ok st2
      ∧ st1.m_allSignals = some (svSum [1] ([([3], (10 : Time)), ([5], 10)].map Prod.fst))
      ∧ st2.log = st1.log ++ (List.range [([3], (10 : Time)), ([5], 10)].length).flatMap
          (LteSlInterference.windowDispatchSpec exampleAccumulator [1] [2] (10 - 0)
            ([([3], (10 : Time)), ([5], 10)].map Prod.fst))
      ∧ ∀ i, i < [([3], (10 : Time)), ([5], 10)].length →
          svAdd (svSub (svSum [1] ([([3], (10 : Time)), ([5], 10)].map Prod.fst))
              (([([3], (10 : Time)), ([5], 10)].map Prod.fst).getD i [])) [2]
            = svAdd (svSum [1] (([([3], (10 : Time)), ([5], 10)].map Prod.fst).eraseIdx i)) [2] :=
  C1_interference_excludes_own_signal exampleAccumulator [1] [2] [([3], 10), ([5], 10)] 0 10
    rfl rfl rfl (by simp) (by decide)

open LteSpectrumPhy in
theorem C2_start_tx_iff_idle_witness :
    startedTx exampleTxPhy (StartTxDataFrame none [] 1000 exampleTxPhy) .TX_DATA 1000 .EndTxData :=
  ((C2_start_tx_iff_idle exampleTxPhy none [] 1000 false rfl rfl).1.1).2 rfl

open LteSpectrumPhy in
theorem C3_sidelink_tx_half_duplex_witness :
    startedTx exampleFullDuplexPhy (StartTxSlDataFrame none [] 1000 0 exampleFullDuplexPhy)
      .TX_DATA 1000 .EndTxData :=
  (C3_sidelink_tx_half_duplex exampleFullDuplexPhy none [] 1000 0 rfl rfl).2.1 ⟨rfl, rfl⟩

open LteSpectrumPhy in
theorem C6_add_expected_tb_replaces_witness :
    ∃ st1, AddExpectedTb 1 1 10 2 [0] 0 3 0 true exampleRegistryPhy = .ok () st1
      ∧ registered TbId_t.lt { m_rnti := 1, m_layer := 0 }
          { ndi := 1, size := 10, mcs := 2, rbBitmap := [0], harqProcessId := 3, rv := 0,
            mi := 0, downlink := true, corrupt := false, harqFeedbackSent := false, sinr := 0 }
          exampleRegistryPhy.m_expectedTbs st1.m_expectedTbs :=
  (C6_add_expected_tb_replaces exampleRegistryPhy 1 1 10 2 0 3 0 0 0 [0] true
    (by unfold StdMap.WF exampleRegistryPhy; decide) List.Pairwise.nil List.Pairwise.nil).1

open LteSpectrumPhy in
theorem C7_corrupted_iff_draw_le_tbler_witness :
    exampleRxPhyDecoded.m_expectedTbs.length = exampleRxPhy.m_expectedTbs.length
      ∧ ((exampleRxPhyDecoded.m_expectedTbs.get ⟨0, by decide⟩).2.corrupt = true ↔
          exampleEnv.random (exampleRxPhy.m_random + 0)
            ≤ tblerOf exampleEnv exampleRxPhyDecoded.m_sinrPerceived
                exampleRxPhy.m_harqPhyModule (exampleRxPhy.m_expectedTbs.get ⟨0, by decide⟩)) :=
  ⟨((C7_corrupted_iff_draw_le_tbler exampleEnv 0 exampleRxPhy exampleRxPhyDecoded
      exampleRxPhy_errorModel).1 ⟨rfl, by decide⟩).1,
   (((C7_corrupted_iff_draw_le_tbler exampleEnv 0 exampleRxPhy exampleRxPhyDecoded
      exampleRxPhy_errorModel).1 ⟨rfl, by decide⟩).2 0 (by decide) (by decide)).2⟩

open LteSpectrumPhy in
theorem C8_one_notification_per_matching_packet_witness :
    ∃ st1, EndRxData_errorModel exampleEnv 0 exampleRxPhy = .ok () st1
      ∧ packetNotifications exampleRxPhyClosed.log
          = packetNotifications exampleRxPhy.log
            ++ exampleRxPhy.m_rxPacketBurstList.flatten.flatMap
                (notificationSpec st1.m_expectedTbs exampleRxPhy.m_ltePhyRxDataEndOkCallback) :=
  C8_one_notification_per_matching_packet exampleEnv 0 exampleRxPhy exampleRxPhyClosed
    exampleRxPhy_EndRxData

open LteSpectrumPhy in
theorem C9_harq_feedback_once_per_descriptor_witness :
    ∃ (st1 : LteSpectrumPhy) (records : StdMap Nat DlInfoListElement_s),
      EndRxData_errorModel exampleEnv 0 exampleRxPhy = .ok () st1
      ∧ ulFeedbacks exampleRxPhyClosed.log = ulFeedbacks exampleRxPhy.log ++
          (if exampleRxPhy.m_ltePhyUlHarqFeedbackCallback then
            ulFeedbackSpec st1.m_expectedTbs
              (matchedKeys st1.m_expectedTbs exampleRxPhy.m_rxPacketBurstList.flatten)
          else [])
      ∧ dlFeedbacks exampleRxPhyClosed.log = dlFeedbacks exampleRxPhy.log ++
          (if exampleRxPhy.m_ltePhyDlHarqFeedbackCallback then records.map Prod.snd else [])
      ∧ StdMap.WF natLt records
      ∧ (∀ e ∈ records, e.2.m_rnti = e.1
          ∧ e.2.m_harqStatus
              = dlStatusSpec st1.m_expectedTbs exampleRxPhy.m_layersNum
                  (matchedKeys st1.m_expectedTbs exampleRxPhy.m_rxPacketBurstList.flatten) e.1
          ∧ ∃ k ∈ matchedKeys st1.m_expectedTbs exampleRxPhy.m_rxPacketBurstList.flatten,
              isDownlink st1.m_expectedTbs k = true ∧ k.m_rnti = e.1)
      ∧ (∀ k ∈ matchedKeys st1.m_expectedTbs exampleRxPhy.m_rxPacketBurstList.flatten,
          isDownlink st1.m_expectedTbs k = true → ∃ e ∈ records, e.1 = k.m_rnti) :=
  C9_harq_feedback_once_per_descriptor exampleEnv 0 exampleRxPhy exampleRxPhyClosed
    (by decide) exampleRxPhy_EndRxData

open LteSpectrumPhy in
theorem C10_end_rx_closes_window_witness :
    exampleRxPhyClosed.m_state = .IDLE ∧ exampleRxPhyClosed.m_rxPacketBurstList = []
      ∧ exampleRxPhyClosed.m_rxControlMessageList = []
      ∧ exampleRxPhyClosed.m_expectedTbs = [] :=
  (C10_end_rx_closes_window exampleEnv 0 exampleRxPhy).1 exampleRxPhyClosed
    exampleRxPhy_EndRxData

end ns3

/-! ## Noise-floor resets and signal ids -/

namespace ns3
namespace LteSlInterference

theorem ConditionallyEvaluateChunk_frame (now : Time) (st s1 : LteSlInterference)
    (h : ConditionallyEvaluateChunk now st = .ok s1) :
    s1.m_allSignals = st.m_allSignals ∧ s1.m_noise = st.m_noise
      ∧ s1.m_lastSignalId = st.m_lastSignalId
      ∧ s1.m_lastSignalIdBeforeReset = st.m_lastSignalIdBeforeReset
      ∧ s1.m_receiving = st.m_receiving ∧ s1.m_rxSignal = st.m_rxSignal := by
  unfold ConditionallyEvaluateChunk at h
  split at h
  · split at h
    · cases h; simp
    · split at h
      · cases h; simp
      · cases h
      · cases h
  · cases h; simp

theorem ConditionallyEvaluateChunk_returns (now : Time) (st : LteSlInterference)
    (h : st.m_receiving = false ∨ now ≤ st.m_lastChangeTime
      ∨ (st.m_allSignals ≠ none ∧ st.m_noise ≠ none)) :
    ∃ s1, ConditionallyEvaluateChunk now st = .ok s1 := by
  unfold ConditionallyEvaluateChunk
  split
  · rename_i hc
    simp only [Bool.and_eq_true, decide_eq_true_eq] at hc
    rcases h with h | h | h
    · rw [h] at hc; simp at hc
    · exact absurd hc.2 (not_lt.mpr h)
    · split
      · exact ⟨_, rfl⟩
      · cases ha : st.m_allSignals with
        | none => exact absurd ha h.1
        | some a =>
          cases hn : st.m_noise with
          | none => exact absurd hn h.2
          | some n => exact ⟨_, rfl⟩
  · exact ⟨_, rfl⟩


theorem SetNoisePowerSpectralDensity_ok (now : Time) (p : SpectrumValue)
    (st st1 : LteSlInterference) (h : SetNoisePowerSpectralDensity now p st = .ok st1) :
    st1.m_noise = some p ∧ st1.m_allSignals = some (svZeroLike p) ∧ st1.m_receiving = false
      ∧ st1.m_lastSignalIdBeforeReset = st1.m_lastSignalId
      ∧ st1.m_lastSignalId = st.m_lastSignalId := by
  unfold SetNoisePowerSpectralDensity at h
  cases hc : ConditionallyEvaluateChunk now st with
  | error e => rw [hc] at h; cases h
  | ok s1 =>
    rw [hc] at h
    obtain ⟨-, -, hid, -, -, -⟩ := ConditionallyEvaluateChunk_frame now st s1 hc
    simp only [bind, Except.bind, pure, Except.pure] at h
    cases h
    by_cases hr : s1.m_receiving = true <;> simp [hr, hid]

theorem wrap32_lt (n : Nat) : wrap32 n < 2 ^ 32 := by
  unfold wrap32; exact Nat.mod_lt _ (by norm_num)

theorem int32Delta_of_boundary_ahead (id k : Nat) (hk : k < 2 ^ 31) :
    int32Delta id (wrap32 (id + k)) ≤ 0 := by
  unfold int32Delta wrap32
  norm_num
  split <;> omega

theorem int32Delta_of_id_ahead (b m : Nat) :
    0 < int32Delta (wrap32 (b + m)) b ↔ 0 < m % 2 ^ 32 ∧ m % 2 ^ 32 < 2 ^ 31 := by
  unfold int32Delta wrap32
  norm_num
  split <;> omega

end LteSlInterference
end ns3
namespace ns3
namespace LteSlInterference

theorem AddSignal_ok (now : Time) (spd : SpectrumValue) (d : Time) (st st1 : LteSlInterference)
    (h : AddSignal now spd d st = .ok st1) :
    st1.m_lastSignalId = wrap32 (st.m_lastSignalId + 1)
      ∧ st1.m_lastSignalIdBeforeReset
          = (if wrap32 (st.m_lastSignalId + 1) = st.m_lastSignalIdBeforeReset then
              wrap32 (st.m_lastSignalIdBeforeReset + 0x10000000)
            else st.m_lastSignalIdBeforeReset)
      ∧ (∃ all, st.m_allSignals = some all ∧ st1.m_allSignals = some (svAdd all spd))
      ∧ st1.log.getLast? = some (.scheduleSubtract d spd st1.m_lastSignalId) := by
  unfold AddSignal DoAddSignal at h
  cases hc : ConditionallyEvaluateChunk now st with
  | error e => rw [hc] at h; cases h
  | ok s1 =>
    rw [hc] at h
    obtain ⟨hall, -, hid, hb, -, -⟩ := ConditionallyEvaluateChunk_frame now st s1 hc
    simp only [bind, Except.bind, pure, Except.pure] at h
    cases ha : s1.m_allSignals with
    | none => rw [ha] at h; cases h
    | some all =>
      rw [ha] at h
      simp only at h
      cases h
      rw [← hid, ← hb, ← hall]
      by_cases he : wrap32 (s1.m_lastSignalId + 1) = s1.m_lastSignalIdBeforeReset
      · simp [he, ha]
      · simp [he, ha]

theorem DoSubtractSignal_ok (now : Time) (spd : SpectrumValue) (id : Nat)
    (st st1 : LteSlInterference) (h : DoSubtractSignal now spd id st = .ok st1) :
    st1.m_allSignals
        = (if 0 < int32Delta id st.m_lastSignalIdBeforeReset then
            st.m_allSignals.map (fun all => svSub all spd)
          else st.m_allSignals)
      ∧ st1.m_lastSignalId = st.m_lastSignalId
      ∧ st1.m_lastSignalIdBeforeReset = st.m_lastSignalIdBeforeReset := by
  unfold DoSubtractSignal at h
  cases hc : ConditionallyEvaluateChunk now st with
  | error e => rw [hc] at h; cases h
  | ok s1 =>
    rw [hc] at h
    obtain ⟨hall, -, hid, hb, -, -⟩ := ConditionallyEvaluateChunk_frame now st s1 hc
    simp only [bind, Except.bind, pure, Except.pure] at h
    rw [← hid, ← hb, ← hall]
    by_cases hd : int32Delta id s1.m_lastSignalIdBeforeReset > 0
    · rw [if_pos hd] at h
      cases ha : s1.m_allSignals with
      | none => rw [ha] at h; cases h
      | some all =>
        rw [ha] at h
        cases h
        simp [hd]
    · rw [if_neg hd] at h
      cases h
      simp [hd]

theorem StartRx_ids (now : Time) (rxPsd : SpectrumValue) (st st1 : LteSlInterference)
    (h : StartRx now rxPsd st = .ok st1) :
    st1.m_lastSignalId = st.m_lastSignalId
      ∧ st1.m_lastSignalIdBeforeReset = st.m_lastSignalIdBeforeReset := by
  unfold StartRx at h
  split at h
  · cases h; simp
  · split at h
    · cases h; simp
    · cases h

theorem EndRx_ids (now : Time) (st st1 : LteSlInterference) (h : EndRx now st = .ok st1) :
    st1.m_lastSignalId = st.m_lastSignalId
      ∧ st1.m_lastSignalIdBeforeReset = st.m_lastSignalIdBeforeReset := by
  unfold EndRx at h
  split at h
  · cases h; simp
  · cases hc : ConditionallyEvaluateChunk now st with
    | error e => rw [hc] at h; cases h
    | ok s1 =>
      rw [hc] at h
      obtain ⟨-, -, hid, hb, -, -⟩ := ConditionallyEvaluateChunk_frame now st s1 hc
      simp only [bind, Except.bind, pure, Except.pure] at h
      cases h
      simp [hid, hb]

theorem calls_cons_ok (c : Time × SlInterferenceCall) (rest : List (Time × SlInterferenceCall))
    (st st2 : LteSlInterference) (h : calls (c :: rest) st = .ok st2) :
    ∃ s1, call c.1 c.2 st = .ok s1 ∧ calls rest s1 = .ok st2 := by
  unfold calls at h
  cases hc : call c.1 c.2 st with
  | error e => rw [hc] at h; cases h
  | ok s1 => rw [hc] at h; exact ⟨s1, rfl, h⟩

/-- Along a run that starts right after the signal `id` was added, the counter is `id` plus the
number of additions, and once the noise floor has been reset the epoch boundary lies between
`id` and the counter. -/
theorem calls_boundary_ahead (id : Nat) (cs : List (Time × SlInterferenceCall)) :
    ∀ (a : Nat) (seen : Bool) (st st2 : LteSlInterference),
      st.m_lastSignalId = wrap32 (id + a) →
      (seen = true → ∃ k, k ≤ a ∧ st.m_lastSignalIdBeforeReset = wrap32 (id + k)) →
      a + additions cs < 2 ^ 31 →
      calls cs st = .ok st2 →
      st2.m_lastSignalId = wrap32 (id + (a + additions cs))
        ∧ ((seen || resets cs) = true →
            ∃ k, k ≤ a + additions cs ∧ st2.m_lastSignalIdBeforeReset = wrap32 (id + k)) := by
  induction cs with
  | nil =>
    intro a seen st st2 hid hb _ h
    cases h
    simpa [additions, resets] using ⟨hid, hb⟩
  | cons c rest ih =>
    intro a seen st st2 hid hb hlt h
    obtain ⟨s1, h1, h2⟩ := calls_cons_ok c rest st st2 h
    obtain ⟨t, op⟩ := c
    cases op with
    | startRx rxPsd =>
      obtain ⟨e1, e2⟩ := StartRx_ids t rxPsd st s1 h1
      simpa [additions, resets] using
        ih a seen s1 st2 (e1 ▸ hid) (e2 ▸ hb) (by simpa [additions] using hlt) h2
    | endRx =>
      obtain ⟨e1, e2⟩ := EndRx_ids t st s1 h1
      simpa [additions, resets] using
        ih a seen s1 st2 (e1 ▸ hid) (e2 ▸ hb) (by simpa [additions] using hlt) h2
    | doSubtractSignal spd sid =>
      obtain ⟨-, e1, e2⟩ := DoSubtractSignal_ok t spd sid st s1 h1
      simpa [additions, resets] using
        ih a seen s1 st2 (e1 ▸ hid) (e2 ▸ hb) (by simpa [additions] using hlt) h2
    | setNoisePowerSpectralDensity p =>
      obtain ⟨-, -, -, e2, e1⟩ := SetNoisePowerSpectralDensity_ok t p st s1 h1
      have := ih a true s1 st2 (e1 ▸ hid) (fun _ => ⟨a, le_refl a, by rw [e2, e1, hid]⟩)
        (by simpa [additions] using hlt) h2
      simpa [additions, resets] using this
    | addSignal spd d =>
      obtain ⟨e1, e2, -, -⟩ := AddSignal_ok t spd d st s1 h1
      have hlt1 : a + 1 + additions rest < 2 ^ 31 := by
        simp only [additions] at hlt; omega
      have hid1 : s1.m_lastSignalId = wrap32 (id + (a + 1)) := by
        rw [e1, hid]; unfold wrap32; omega
      have hb1 : seen = true → ∃ k, k ≤ a + 1 ∧ s1.m_lastSignalIdBeforeReset = wrap32 (id + k) := by
        intro hs
        obtain ⟨k, hk, hbk⟩ := hb hs
        refine ⟨k, by omega, ?_⟩
        rw [e2, if_neg, hbk]
        rw [hid, hbk]
        unfold wrap32
        norm_num at hlt1 ⊢
        omega
      have := ih (a + 1) seen s1 st2 hid1 hb1 hlt1 h2
      have hsum : a + 1 + additions rest = a + (additions rest + 1) := by omega
      rw [hsum] at this
      simpa [additions, resets] using this

end LteSlInterference
end ns3
namespace ns3
namespace LteSlInterference

/-- Along a run without a reset that starts `a` additions after the last reset, the epoch
boundary stays where it is as long as fewer than `2 ^ 32` signals have been added. -/
theorem calls_boundary_fixed (cs : List (Time × SlInterferenceCall)) :
    ∀ (a : Nat) (st st2 : LteSlInterference),
      st.m_lastSignalId = wrap32 (st.m_lastSignalIdBeforeReset + a) →
      st.m_lastSignalIdBeforeReset < 2 ^ 32 →
      resets cs = false →
      a + additions cs < 2 ^ 32 →
      calls cs st = .ok st2 →
      st2.m_lastSignalIdBeforeReset = st.m_lastSignalIdBeforeReset
        ∧ st2.m_lastSignalId = wrap32 (st.m_lastSignalIdBeforeReset + (a + additions cs)) := by
  induction cs with
  | nil =>
    intro a st st2 hid _ _ _ h
    cases h
    simpa [additions] using hid
  | cons c rest ih =>
    intro a st st2 hid hB hres hlt h
    obtain ⟨s1, h1, h2⟩ := calls_cons_ok c rest st st2 h
    obtain ⟨t, op⟩ := c
    cases op with
    | startRx rxPsd =>
      obtain ⟨e1, e2⟩ := StartRx_ids t rxPsd st s1 h1
      have := ih a s1 st2 (by rw [e1, e2, hid]) (by rw [e2]; exact hB)
        (by simpa [resets] using hres) (by simpa [additions] using hlt) h2
      simpa [additions, e2] using this
    | endRx =>
      obtain ⟨e1, e2⟩ := EndRx_ids t st s1 h1
      have := ih a s1 st2 (by rw [e1, e2, hid]) (by rw [e2]; exact hB)
        (by simpa [resets] using hres) (by simpa [additions] using hlt) h2
      simpa [additions, e2] using this
    | doSubtractSignal spd sid =>
      obtain ⟨-, e1, e2⟩ := DoSubtractSignal_ok t spd sid st s1 h1
      have := ih a s1 st2 (by rw [e1, e2, hid]) (by rw [e2]; exact hB)
        (by simpa [resets] using hres) (by simpa [additions] using hlt) h2
      simpa [additions, e2] using this
    | setNoisePowerSpectralDensity p => simp [resets] at hres
    | addSignal spd d =>
      obtain ⟨e1, e2, -, -⟩ := AddSignal_ok t spd d st s1 h1
      have hlt1 : a + 1 + additions rest < 2 ^ 32 := by
        simp only [additions] at hlt; omega
      have hne : ¬ wrap32 (st.m_lastSignalId + 1) = st.m_lastSignalIdBeforeReset := by
        rw [hid]
        unfold wrap32
        norm_num at hlt1 hB ⊢
        omega
      rw [if_neg hne] at e2
      have hid1 : s1.m_lastSignalId = wrap32 (s1.m_lastSignalIdBeforeReset + (a + 1)) := by
        rw [e1, e2, hid]; unfold wrap32; omega
      have := ih (a + 1) s1 st2 hid1 (by rw [e2]; exact hB) (by simpa [resets] using hres)
        hlt1 h2
      have hsum : a + 1 + additions rest = a + (additions rest + 1) := by omega
      rw [hsum] at this
      simpa [additions, e2] using this

/-- A signal added as number `2 ^ 31` to `2 ^ 32 - 1` after the last reset is not subtracted
when its `DoSubtractSignal` runs, as long as the boundary has not moved. -/
theorem subtraction_lost_after_long_run (t0 d t1 : Time) (spd : SpectrumValue)
    (before after : List (Time × SlInterferenceCall)) (st st1 st2 st3 st4 : LteSlInterference)
    (hfresh : st.m_lastSignalId = st.m_lastSignalIdBeforeReset)
    (hB : st.m_lastSignalIdBeforeReset < 2 ^ 32)
    (hres1 : resets before = false) (hres2 : resets after = false)
    (hlong : 2 ^ 31 ≤ additions before + 1)
    (hshort : additions before + 1 + additions after < 2 ^ 32)
    (h1 : calls before st = .ok st1)
    (h2 : AddSignal t0 spd d st1 = .ok st2)
    (h3 : calls after st2 = .ok st3)
    (h4 : DoSubtractSignal t1 spd st2.m_lastSignalId st3 = .ok st4) :
    st4.m_allSignals = st3.m_allSignals := by
  have hrun : calls (before ++ (t0, .addSignal spd d) :: after) st = .ok st3 := by
    clear h4 hlong hshort hres1 hres2 hfresh hB
    induction before generalizing st with
    | nil =>
      cases h1
      rw [List.nil_append]
      show (do let s1 ← AddSignal t0 spd d st1; calls after s1) = _
      rw [h2]
      exact h3
    | cons c rest ih =>
      obtain ⟨s1, e1, e2⟩ := calls_cons_ok c rest st st1 h1
      rw [List.cons_append]
      show (do let s1 ← call c.1 c.2 st; calls (rest ++ (t0, SlInterferenceCall.addSignal spd d) :: after) s1) = _
      rw [e1]
      exact ih s1 e2
  have hwrap : st.m_lastSignalId = wrap32 (st.m_lastSignalIdBeforeReset + 0) := by
    rw [hfresh]; unfold wrap32; norm_num at hB ⊢; omega
  obtain ⟨b1, i1⟩ := calls_boundary_fixed before 0 st st1 hwrap hB hres1 (by omega) h1
  obtain ⟨i2, -, -, -⟩ := AddSignal_ok t0 spd d st1 st2 h2
  have hadds : ∀ (l : List (Time × SlInterferenceCall)),
      additions (l ++ (t0, .addSignal spd d) :: after) = additions l + 1 + additions after := by
    intro l
    induction l with
    | nil => simp [additions]; omega
    | cons c rest ih =>
      obtain ⟨t, op⟩ := c
      cases op <;> simp [additions, ih] <;> omega
  have hress : ∀ (l : List (Time × SlInterferenceCall)), resets l = false →
      resets (l ++ (t0, .addSignal spd d) :: after) = false := by
    intro l
    induction l with
    | nil => intro _; simpa [resets] using hres2
    | cons c rest ih =>
      obtain ⟨t, op⟩ := c
      cases op <;> simp [resets] <;> exact ih
  obtain ⟨b3, -⟩ := calls_boundary_fixed _ 0 st st3 hwrap hB (hress before hres1)
    (by rw [hadds]; omega) hrun
  obtain ⟨e, -, -⟩ := DoSubtractSignal_ok t1 spd st2.m_lastSignalId st3 st4 h4
  rw [e, if_neg]
  rw [b3, i2, i1]
  have := int32Delta_of_id_ahead st.m_lastSignalIdBeforeReset (additions before + 1)
  have hw : wrap32 (wrap32 (st.m_lastSignalIdBeforeReset + (0 + additions before)) + 1)
      = wrap32 (st.m_lastSignalIdBeforeReset + (additions before + 1)) := by
    unfold wrap32; omega
  rw [hw, this]
  norm_num at hlong hshort ⊢
  omega

end LteSlInterference

open LteSlInterference in
/-- C18: after `SetNoisePowerSpectralDensity (p)` has returned, from whatever prior state, the
noise floor is `p`, the running sum is the all-zero spectrum over the model of `p`, the
accumulator is not receiving, and the epoch boundary equals the (unchanged) signal counter;
the call returns unless it has to evaluate a chunk of an open window while the running sum or
the noise floor is still unset. -/
theorem C18_noise_reset_postcondition (now : Time) (p : SpectrumValue)
    (st : LteSlInterference) :
    (∀ st1, SetNoisePowerSpectralDensity now p st = .ok st1 →
      st1.m_noise = some p
        ∧ (∃ z, st1.m_allSignals = some z ∧ z.length = p.length ∧ ∀ x ∈ z, x = 0)
        ∧ st1.m_receiving = false
        ∧ st1.m_lastSignalIdBeforeReset = st1.m_lastSignalId
        ∧ st1.m_lastSignalId = st.m_lastSignalId)
    ∧ ((st.m_receiving = false ∨ now ≤ st.m_lastChangeTime
          ∨ (st.m_allSignals ≠ none ∧ st.m_noise ≠ none)) →
        ∃ st1, SetNoisePowerSpectralDensity now p st = .ok st1) := by
  constructor
  · intro st1 h
    obtain ⟨h1, h2, h3, h4, h5⟩ := SetNoisePowerSpectralDensity_ok now p st st1 h
    refine ⟨h1, ⟨svZeroLike p, h2, ?_, ?_⟩, h3, h4, h5⟩
    · simp [svZeroLike]
    · intro x hx
      exact List.eq_of_mem_replicate hx
  · intro hpre
    obtain ⟨s1, hs1⟩ := ConditionallyEvaluateChunk_returns now st hpre
    unfold SetNoisePowerSpectralDensity
    rw [hs1]
    exact ⟨_, rfl⟩

open LteSlInterference in
/-- C19: a signal added by `AddSignal` is scheduled for subtraction under the id the counter
then holds; if the run between that addition and the subtraction holds a call of
`SetNoisePowerSpectralDensity` and fewer than `2 ^ 31` additions (whatever else it holds),
the `DoSubtractSignal` of that signal leaves the running sum unchanged. -/
theorem C19_stale_subtraction_ignored (t0 d t1 : Time) (spd : SpectrumValue)
    (between : List (Time × SlInterferenceCall)) (st0 st1 st2 st3 : LteSlInterference)
    (hadd : AddSignal t0 spd d st0 = .ok st1)
    (hrun : calls between st1 = .ok st2)
    (hreset : resets between = true)
    (hfew : additions between < 2 ^ 31)
    (hsub : DoSubtractSignal t1 spd st1.m_lastSignalId st2 = .ok st3) :
    st1.log.getLast? = some (.scheduleSubtract d spd st1.m_lastSignalId)
      ∧ st3.m_allSignals = st2.m_allSignals := by
  obtain ⟨hid, -, -, hlog⟩ := AddSignal_ok t0 spd d st0 st1 hadd
  refine ⟨hlog, ?_⟩
  have hw : st1.m_lastSignalId = wrap32 (st1.m_lastSignalId + 0) := by
    rw [hid]; unfold wrap32; omega
  obtain ⟨-, hb⟩ := calls_boundary_ahead st1.m_lastSignalId between 0 false st1 st2 hw
    (by simp) (by omega) hrun
  obtain ⟨k, hk, hbk⟩ := hb (by simp [hreset])
  obtain ⟨e, -, -⟩ := DoSubtractSignal_ok t1 spd st1.m_lastSignalId st2 st3 hsub
  rw [e, if_neg]
  rw [hbk]
  exact not_lt.mpr (int32Delta_of_boundary_ahead _ k (by omega))

open LteSlInterference in
/-- C20, the code at a failing input: on an accumulator that has handed out `2 ^ 31 - 1` ids
since its last reset (boundary 0, running sum `[1]`), `AddSignal` of `[3]` schedules the
subtraction under id `2 ^ 31`, and that `DoSubtractSignal` leaves the running sum as it is
instead of taking `[3]` off again. -/
theorem C20_subtraction_lost_in_second_half :
    ∃ st1 st2 all,
      AddSignal 0 [3] 1 exampleLongRunAccumulator = .ok st1
        ∧ st1.log = [.scheduleSubtract 1 [3] (2 ^ 31)]
        ∧ st1.m_allSignals = some all
        ∧ DoSubtractSignal 1 [3] (2 ^ 31) st1 = .ok st2
        ∧ st2.m_allSignals = some all
        ∧ all ≠ svSub all [3] := by
  refine ⟨_, _, svAdd [1] [3], rfl, rfl, rfl, rfl, rfl, ?_⟩
  simp [svAdd, svSub]

end ns3
namespace ns3

open LteSlInterference in
theorem C18_noise_reset_postcondition_witness :
    (∀ st1, SetNoisePowerSpectralDensity 5 [7] exampleAccumulator = .ok st1 →
      st1.m_noise = some [7]
        ∧ (∃ z, st1.m_allSignals = some z ∧ z.length = [(7 : ℚ)].length ∧ ∀ x ∈ z, x = 0)
        ∧ st1.m_receiving = false
        ∧ st1.m_lastSignalIdBeforeReset = st1.m_lastSignalId
        ∧ st1.m_lastSignalId = exampleAccumulator.m_lastSignalId)
    ∧ ∃ st1, SetNoisePowerSpectralDensity 5 [7] exampleAccumulator = .ok st1 :=
  ⟨(C18_noise_reset_postcondition 5 [7] exampleAccumulator).1,
   (C18_noise_reset_postcondition 5 [7] exampleAccumulator).2 (Or.inl rfl)⟩

open LteSlInterference in
theorem C19_stale_subtraction_ignored_witness :
    ∃ st1 st2 st3,
      AddSignal 0 [3] 5 exampleAccumulator = .ok st1
        ∧ calls [(1, .addSignal [4] 5), (2, .setNoisePowerSpectralDensity [2]),
            (3, .addSignal [6] 5)] st1 = .ok st2
        ∧ DoSubtractSignal 5 [3] st1.m_lastSignalId st2 = .ok st3
        ∧ st1.log.getLast? = some (.scheduleSubtract 5 [3] st1.m_lastSignalId)
        ∧ st3.m_allSignals = st2.m_allSignals :=
  ⟨_, _, _, rfl, rfl, rfl,
    C19_stale_subtraction_ignored 0 5 5 [3]
      [(1, .addSignal [4] 5), (2, .setNoisePowerSpectralDensity [2]), (3, .addSignal [6] 5)]
      exampleAccumulator _ _ _ rfl rfl (by decide) (by decide) rfl⟩

end ns3

/-! ## Signals the device is not synchronized to -/

namespace ns3

open LteSpectrumPhy in
/-- C11: a signal whose cell identity differs from the device's is ignored.  `StartRxData` in
state IDLE or RX_DATA and `StartRxUlSrs` in state IDLE or RX_UL_SRS return with the device
exactly as it was; `StartRxDlCtrl` in state IDLE returns with the state, the recorded window
start and duration, the burst list and the control list unchanged and nothing handed to the
scheduler: its only possible effect is the PSS notification, made when the signal carries a
PSS and the callback is set. -/
theorem C11_unsynchronized_signal_ignored (now : Time) (st : LteSpectrumPhy) :
    (∀ p : LteSpectrumSignalParametersDataFrame, p.cellId ≠ st.m_cellId →
        st.m_state = .IDLE ∨ st.m_state = .RX_DATA → StartRxData now p st = .ok () st)
    ∧ (∀ p : LteSpectrumSignalParametersUlSrsFrame, p.cellId ≠ st.m_cellId →
        st.m_state = .IDLE ∨ st.m_state = .RX_UL_SRS → StartRxUlSrs now p st = .ok () st)
    ∧ (∀ p : LteSpectrumSignalParametersDlCtrlFrame, p.cellId ≠ st.m_cellId →
        st.m_state = .IDLE →
        ∃ st1 : LteSpectrumPhy, StartRxDlCtrl now p st = .ok () st1
          ∧ st1 = { st with log := st.log ++
              (if p.pss = true ∧ st.m_ltePhyRxPssCallback = true then
                [.ltePhyRxPssCallback p.cellId p.psd] else []) }
          ∧ st1.m_state = st.m_state
          ∧ st1.m_firstRxStart = st.m_firstRxStart
          ∧ st1.m_firstRxDuration = st.m_firstRxDuration
          ∧ st1.m_rxPacketBurstList = st.m_rxPacketBurstList
          ∧ st1.m_rxControlMessageList = st.m_rxControlMessageList
          ∧ scheduled st1.log = scheduled st.log) := by
  refine ⟨?_, ?_, ?_⟩
  · intro p hc hs
    rcases hs with hs | hs <;>
      simp [StartRxData, PhyM.bind_eq, PhyM.andThen, PhyM.get, hs, hc, PhyM.pure_eq, PhyM.ret]
  · intro p hc hs
    rcases hs with hs | hs <;>
      simp [StartRxUlSrs, PhyM.bind_eq, PhyM.andThen, PhyM.get, hs, hc, PhyM.pure_eq, PhyM.ret]
  · intro p hc hs
    by_cases hp : p.pss = true <;> by_cases hcb : st.m_ltePhyRxPssCallback = true <;>
      simp [StartRxDlCtrl, PhyM.bind_eq, PhyM.andThen, PhyM.get, hs, hc, hp, hcb, PhyM.pure_eq,
        PhyM.ret, PhyM.emit, scheduled] <;> (cases st; simp_all)

end ns3
namespace ns3

open LteSpectrumPhy in
theorem C11_unsynchronized_signal_ignored_witness :
    StartRxData 3 { exampleDataSignal with cellId := 5 } exampleSidelinkUe
        = .ok () exampleSidelinkUe
      ∧ StartRxUlSrs 3 { psd := [1, 0], duration := 10, cellId := 5 } exampleSidelinkUe
        = .ok () exampleSidelinkUe
      ∧ ∃ st1 : LteSpectrumPhy,
          StartRxDlCtrl 3 { psd := [1, 0], duration := 10, cellId := 5, pss := true }
              exampleSidelinkUe = .ok () st1
            ∧ st1.m_state = .IDLE ∧ st1.m_rxControlMessageList = []
            ∧ scheduled st1.log = [] :=
  ⟨(C11_unsynchronized_signal_ignored 3 exampleSidelinkUe).1
      { exampleDataSignal with cellId := 5 } (by decide) (Or.inl rfl),
   (C11_unsynchronized_signal_ignored 3 exampleSidelinkUe).2.1
      { psd := [1, 0], duration := 10, cellId := 5 } (by decide) (Or.inl rfl),
   by
    obtain ⟨st1, h, -, h1, -, -, -, h2, h3⟩ :=
      (C11_unsynchronized_signal_ignored 3 exampleSidelinkUe).2.2
        { psd := [1, 0], duration := 10, cellId := 5, pss := true } (by decide) rfl
    exact ⟨st1, h, h1, h2, h3⟩⟩

end ns3

/-! ## The sidelink synchronization filter -/

namespace ns3
namespace LteSpectrumPhy

theorem slReceiveSynchronized_entry (now : Time) (p : LteSpectrumSignalParametersSlFrame)
    (st st1 : LteSpectrumPhy) (h : slReceiveSynchronized now p st = .ok () st1) :
    st1.m_rxPacketInfo = st.m_rxPacketInfo ++ [slWindowEntry p] ∧ st1.m_state = .RX_DATA := by
  unfold slReceiveSynchronized at h
  simp only [PhyM.bind_eq, PhyM.andThen_ok] at h
  obtain ⟨_, s1, h1, _, s2, h2, _, s3, h3, _, s4, h4, _, s5, h5, _, s6, h6, h7⟩ := h
  obtain ⟨-, -, -, hd, -⟩ := slWindowOpenOrCheck_ok now p.duration false st s1 h1
  simp only [ChangeState, PhyM.modify, Outcome.ok.injEq, true_and] at h2 h6
  obtain ⟨i, h3⟩ := onInterferenceSl_ok _ _ _ h3
  have h4 : s4 = s3 := by
    by_cases hl : p.ctrlMsgList.length > 0 <;> by_cases hl1 : p.ctrlMsgList.length = 1 <;>
      simp [hl, hl1, NS_ASSERT, PhyM.pure_eq, PhyM.ret, PhyM.abortWith] at h4 <;> exact h4.symm
  have h5 : s5.m_state = s4.m_state ∧ s5.m_rxPacketInfo = s4.m_rxPacketInfo := by
    cases hh : (usedRbs p.psd).head? <;>
      simp [hh, PhyM.pure_eq, PhyM.ret, PhyM.modify] at h5 <;> subst h5 <;> simp
  have h7 : st1.m_state = s6.m_state ∧ st1.m_rxPacketInfo = s6.m_rxPacketInfo := by
    cases hh : p.packetBurst <;>
      simp [hh, PhyM.pure_eq, PhyM.ret, PhyM.emit] at h7 <;> subst h7 <;> simp
  subst h2 h3 h4 h6
  obtain ⟨h5a, h5c⟩ := h5
  obtain ⟨h7a, h7c⟩ := h7
  simp only at h5a h5c h7a h7c
  refine ⟨by rw [h7c, h5c, hd]; rfl, by rw [h7a, h5a]⟩

theorem slWindowOpenOrCheck_returns (now d : Time) (st : LteSpectrumPhy)
    (h : st.m_rxPacketInfo = [] ∨ (st.m_firstRxStart = now ∧ st.m_firstRxDuration = d)) :
    ∃ st1 : LteSpectrumPhy, slWindowOpenOrCheck now d false st = .ok () st1
      ∧ st1.m_interferenceSl = st.m_interferenceSl := by
  by_cases he : st.m_rxPacketInfo = []
  · simp [slWindowOpenOrCheck, PhyM.bind_eq, PhyM.pure_eq, PhyM.andThen, PhyM.get, PhyM.ret,
      PhyM.modify, PhyM.emit, he]
  · have ht := h.resolve_left he
    simp [slWindowOpenOrCheck, PhyM.bind_eq, PhyM.pure_eq, PhyM.andThen, PhyM.get, PhyM.ret,
      PhyM.modify, PhyM.emit, NS_ASSERT, he, ht]

theorem LteSlInterference_StartRx_returns (now : Time) (psd : SpectrumValue)
    (i : LteSlInterference) (h : i.m_receiving = false ∨ i.m_lastChangeTime = now) :
    ∃ i1, LteSlInterference.StartRx now psd i = .ok i1 := by
  unfold LteSlInterference.StartRx
  by_cases hr : i.m_receiving = false
  · simp [hr]
  · have ht := h.resolve_left hr
    simp [hr, ht]

theorem slReceiveSynchronized_returns (now : Time) (p : LteSpectrumSignalParametersSlFrame)
    (st : LteSpectrumPhy)
    (hwin : st.m_rxPacketInfo = [] ∨ (st.m_firstRxStart = now ∧ st.m_firstRxDuration = p.duration))
    (hint : st.m_interferenceSl.m_receiving = false ∨ st.m_interferenceSl.m_lastChangeTime = now)
    (hlen : p.ctrlMsgList.length ≤ 1) :
    ∃ st1, slReceiveSynchronized now p st = .ok () st1 := by
  obtain ⟨s1, h1, hi1⟩ := slWindowOpenOrCheck_returns now p.duration st hwin
  obtain ⟨i1, h3⟩ := LteSlInterference_StartRx_returns now p.psd s1.m_interferenceSl
    (by rw [hi1]; exact hint)
  have h4 : ∀ s : LteSpectrumPhy, (if p.ctrlMsgList.length > 0 then
      NS_ASSERT (decide (p.ctrlMsgList.length = 1)) "params->ctrlMsgList.size () == 1"
      else pure ()) s = .ok () s := by
    intro s
    by_cases hl : p.ctrlMsgList.length > 0
    · have : p.ctrlMsgList.length = 1 := by omega
      simp [hl, this, NS_ASSERT, PhyM.pure_eq, PhyM.ret]
    · simp [hl, PhyM.pure_eq, PhyM.ret]
  unfold slReceiveSynchronized
  simp only [PhyM.bind_eq]
  unfold PhyM.andThen
  rw [h1]
  simp only [ChangeState, PhyM.modify, onInterferenceSl, h3, h4]
  cases hh : (usedRbs p.psd).head? <;> cases hb : p.packetBurst <;>
    simp [PhyM.modify, PhyM.pure_eq, PhyM.ret, PhyM.emit]

end LteSpectrumPhy
end ns3
namespace ns3
namespace LteSpectrumPhy

theorem slReceive_noMib (now : Time) (p : LteSpectrumSignalParametersSlFrame)
    (st : LteSpectrumPhy) (hmib : ∀ m ∈ p.ctrlMsgList, m.GetMessageType ≠ .MIB_SL) :
    slReceive now p st
      = (if slSynchronized st p then
          (slReceiveSynchronized now p).andThen (fun _ => PhyM.ret p)
        else PhyM.ret p) st := by
  obtain ⟨psd, duration, packetBurst, ctrlMsgList, nodeId, groupId, slssId⟩ := p
  unfold slReceive slSynchronized
  simp only [PhyM.bind_eq, PhyM.pure_eq]
  by_cases h1 : st.m_cellId = 0 ∧ nodeId ≠ st.nodeId
  · by_cases h2 : slssId = st.m_slssId ∧ (groupId = 0 ∨ groupId ∈ st.m_l1GroupIds)
    · obtain ⟨h2a, h2b⟩ := h2
      subst h2a
      have hm := slReceiveMib_noMib now ⟨psd, duration, packetBurst, ctrlMsgList, nodeId,
        groupId, st.m_slssId⟩ ctrlMsgList [] st hmib
      rw [List.nil_append] at hm
      by_cases hl : ctrlMsgList.length > 0
      · simp [PhyM.andThen, PhyM.get, h1, hl, hm, h2b]
      · simp [PhyM.andThen, PhyM.get, h1, hl, h2b, PhyM.ret]
    · have hm := slReceiveMib_noMib now ⟨psd, duration, packetBurst, ctrlMsgList, nodeId,
        groupId, slssId⟩ ctrlMsgList [] st hmib
      rw [List.nil_append] at hm
      by_cases hl : ctrlMsgList.length > 0
      · simp [PhyM.andThen, PhyM.get, h1, hl, hm, h2]
      · simp [PhyM.andThen, PhyM.get, h1, hl, h2, PhyM.ret]
  · simp [PhyM.andThen, PhyM.get, h1, PhyM.ret]

end LteSpectrumPhy

open LteSpectrumPhy in
/-- C12: sidelink synchronization filter.  For a sidelink signal without MIB-SL delivered to
`StartRxSlData` in state IDLE or RX_DATA: a call that returns has appended the entry of the
signal to the reception window if and only if the cell id of the device is 0, the node id of
the signal differs from the device's, the SLSS ids are equal and the group id is 0 or one of
the subscribed L1 group ids; if these conditions fail the call returns with the device
unchanged; if they hold the call returns (with the entry appended and the state RX_DATA)
whenever the window is empty or agrees on start time and duration, the sidelink accumulator
accepts the start, and the signal carries at most one control message. -/
theorem C12_sidelink_sync_filter (now : Time) (p : LteSpectrumSignalParametersSlFrame)
    (st : LteSpectrumPhy) (hstate : st.m_state = .IDLE ∨ st.m_state = .RX_DATA)
    (hmib : ∀ m ∈ p.ctrlMsgList, m.GetMessageType ≠ .MIB_SL) :
    (∀ r st1, StartRxSlData now p st = .ok r st1 →
        (st1.m_rxPacketInfo = st.m_rxPacketInfo ++ [slWindowEntry p] ↔ slSynchronized st p))
    ∧ (¬ slSynchronized st p → StartRxSlData now p st = .ok p st)
    ∧ (slSynchronized st p →
        (st.m_rxPacketInfo = []
          ∨ (st.m_firstRxStart = now ∧ st.m_firstRxDuration = p.duration)) →
        (st.m_interferenceSl.m_receiving = false
          ∨ st.m_interferenceSl.m_lastChangeTime = now) →
        p.ctrlMsgList.length ≤ 1 →
        ∃ st1 : LteSpectrumPhy, StartRxSlData now p st = .ok p st1
          ∧ st1.m_rxPacketInfo = st.m_rxPacketInfo ++ [slWindowEntry p]
          ∧ st1.m_state = .RX_DATA) := by
  have hstart : StartRxSlData now p st = slReceive now p st := by
    rcases hstate with hs | hs <;>
      simp [StartRxSlData, PhyM.bind_eq, PhyM.andThen, PhyM.get, hs]
  rw [hstart, slReceive_noMib now p st hmib]
  by_cases hc : slSynchronized st p
  · simp only [hc, if_true, not_true_eq_false, iff_true, false_implies, true_and, forall_const]
    constructor
    · intro r st1 h
      rw [PhyM.andThen_ok] at h
      obtain ⟨_, s1, h1, h2⟩ := h
      simp only [PhyM.ret, Outcome.ok.injEq] at h2
      rw [← h2.2]
      exact (slReceiveSynchronized_entry now p st s1 h1).1
    · intro hwin hint hlen
      obtain ⟨s1, h1⟩ := slReceiveSynchronized_returns now p st hwin hint hlen
      obtain ⟨e1, e2⟩ := slReceiveSynchronized_entry now p st s1 h1
      refine ⟨s1, ?_, e1, e2⟩
      unfold PhyM.andThen
      rw [h1]
      rfl
  · simp only [hc, if_false, not_false_eq_true, iff_false, false_implies, true_implies,
      and_true]
    refine ⟨?_, rfl⟩
    intro r st1 h
    simp only [PhyM.ret, Outcome.ok.injEq] at h
    rw [← h.2]
    simp

open LteSpectrumPhy in
theorem C12_sidelink_sync_filter_witness :
    ∃ st1 : LteSpectrumPhy, StartRxSlData 0 exampleSlSignal exampleSidelinkUe
        = .ok exampleSlSignal st1
      ∧ st1.m_rxPacketInfo = exampleSidelinkUe.m_rxPacketInfo ++ [slWindowEntry exampleSlSignal]
      ∧ st1.m_state = .RX_DATA :=
  (C12_sidelink_sync_filter 0 exampleSlSignal exampleSidelinkUe (Or.inl rfl)
    (by decide)).2.2 (by decide) (Or.inl rfl) (Or.inl rfl) (by decide)

end ns3

/-! ## Discovery decoding -/

namespace ns3
namespace LteSpectrumPhy

theorem RxDiscovery_noErrorModel_ok (env : Env) (collided : List Int) (key : SlDiscTbId_t)
    (tb : SlDisctbInfo_t) (idx : Nat) (loc : DiscLocals) (st st1 : LteSpectrumPhy)
    (r : SlDisctbInfo_t × DiscLocals)
    (h : RxDiscovery_noErrorModel env collided key tb idx loc st = .ok r st1) :
    ∃ calls, st1.m_slHarqPhyModule = st.m_slHarqPhyModule ++ calls
      ∧ if r.1.corrupt = false
          ∧ env.IsDiscTbPrevDecoded st.m_slHarqPhyModule key.m_rnti key.m_resPsdch = false then
          ∃ info msg, st.m_rxPacketInfo[idx]? = some info ∧ info.m_rxControlMessage = some msg
            ∧ r.2.rxDiscMessageOkList = loc.rxDiscMessageOkList ++ [msg]
            ∧ calls = [.IndicateDiscTbPrevDecoded key.m_rnti key.m_resPsdch]
        else
          r.2.rxDiscMessageOkList = loc.rxDiscMessageOkList ∧ calls = [] := by
  unfold RxDiscovery_noErrorModel at h
  simp only [PhyM.bind_eq, PhyM.andThen_ok, PhyM.get_ok] at h
  obtain ⟨w, s0, ⟨h0a, h0b⟩, _, s1, h1, h2⟩ := h
  subst h0a h0b
  simp only [PhyM.modify, Outcome.ok.injEq, true_and] at h1
  subst h1
  generalize htb : (if s0.m_dropRbOnCollisionEnabled = true then
      ({ tb with corrupt := dropScan collided tb.corrupt tb.rbBitmap } : SlDisctbInfo_t)
    else { tb with corrupt := false }) = tb1 at h2
  by_cases hc : (!tb1.corrupt
      && !env.IsDiscTbPrevDecoded s0.m_slHarqPhyModule key.m_rnti key.m_resPsdch) = true
  · rw [if_pos hc] at h2
    simp only [Bool.and_eq_true, Bool.not_eq_true'] at hc
    simp only [PhyM.bind_eq, PhyM.andThen_ok] at h2
    obtain ⟨_, s2, h3, info, s3, h4, h5⟩ := h2
    simp only [onSlHarq, PhyM.modify, Outcome.ok.injEq, true_and] at h3
    subst h3
    unfold vectorAt at h4
    cases hi : s0.m_rxPacketInfo[idx]? with
    | none => rw [hi] at h4; simp [PhyM.abortWith] at h4
    | some info1 =>
      rw [hi] at h4
      simp only [PhyM.pure_eq, PhyM.ret, Outcome.ok.injEq] at h4
      obtain ⟨h4a, h4b⟩ := h4
      subst h4a h4b
      cases hm : info1.m_rxControlMessage with
      | none => rw [hm] at h5; simp [PhyM.abortWith] at h5
      | some msg =>
        rw [hm] at h5
        simp only [PhyM.pure_eq, PhyM.ret, Outcome.ok.injEq] at h5
        obtain ⟨h5a, h5b⟩ := h5
        subst h5a h5b
        refine ⟨[.IndicateDiscTbPrevDecoded key.m_rnti key.m_resPsdch], rfl, ?_⟩
        rw [if_pos hc]
        exact ⟨info1, msg, rfl, hm, rfl, rfl⟩
  · rw [if_neg hc] at h2
    simp only [Bool.and_eq_true, Bool.not_eq_true'] at hc
    simp only [PhyM.pure_eq, PhyM.ret, Outcome.ok.injEq] at h2
    obtain ⟨h2a, h2b⟩ := h2
    subst h2a h2b
    refine ⟨[], by simp, ?_⟩
    rw [if_neg hc]
    exact ⟨rfl, rfl⟩

theorem RxDiscovery_errorModel_ok (env : Env) (collided : List Int) (key : SlDiscTbId_t)
    (tb : SlDisctbInfo_t) (idx : Nat) (loc : DiscLocals) (st st1 : LteSpectrumPhy)
    (r : SlDisctbInfo_t × DiscLocals)
    (h : RxDiscovery_errorModel env collided key tb idx loc st = .ok r st1) :
    ∃ calls, st1.m_slHarqPhyModule = st.m_slHarqPhyModule ++ calls
      ∧ if r.1.corrupt = false
          ∧ env.IsDiscTbPrevDecoded st.m_slHarqPhyModule key.m_rnti key.m_resPsdch = false then
          ∃ info msg, st.m_rxPacketInfo[idx]? = some info ∧ info.m_rxControlMessage = some msg
            ∧ r.2.rxDiscMessageOkList = loc.rxDiscMessageOkList ++ [msg]
            ∧ calls = [.IndicateDiscTbPrevDecoded key.m_rnti key.m_resPsdch,
                .UpdateDiscHarqProcessStatus key.m_rnti key.m_resPsdch r.1.sinr]
        else
          r.2.rxDiscMessageOkList = loc.rxDiscMessageOkList
            ∧ calls = [.UpdateDiscHarqProcessStatus key.m_rnti key.m_resPsdch r.1.sinr] := by
  unfold RxDiscovery_errorModel at h
  simp only [PhyM.bind_eq, PhyM.andThen_ok, PhyM.get_ok] at h
  obtain ⟨w, s0, ⟨h0a, h0b⟩, _, s1, h1, sinr, s2, h2, meanSinr, s3, h3, tb3, s4, h4, _, s5, h5,
    loc2, s6, h6, _, s7, h7, h8⟩ := h
  subst h0a h0b
  simp only [PhyM.modify, Outcome.ok.injEq, true_and] at h1 h5
  have h2s : s2 = s1 := by
    unfold vectorAt at h2
    cases hv : s0.m_slSinrPerceived[idx]? with
    | none => rw [hv] at h2; simp [PhyM.abortWith] at h2
    | some x =>
      rw [hv] at h2
      simp only [PhyM.pure_eq, PhyM.ret, Outcome.ok.injEq] at h2
      exact h2.2.symm
  have h3s : s3 = s2 := by
    unfold GetMeanSinr at h3
    generalize sumOver _ _ = o at h3
    cases o with
    | some x =>
      simp only [PhyM.pure_eq, PhyM.ret, Outcome.ok.injEq] at h3
      exact h3.2.symm
    | none => simp [PhyM.abortWith] at h3
  have h4s : s4.m_slHarqPhyModule = s3.m_slHarqPhyModule := by
    split_ifs at h4 <;>
      simp only [PhyM.bind_eq, PhyM.andThen_ok, PhyM.modify, PhyM.pure_eq, PhyM.ret,
        Outcome.ok.injEq, true_and] at h4
    all_goals first
      | (rw [← h4.2])
      | (obtain ⟨_, s, hs, -, hs2⟩ := h4; rw [← hs2, ← hs])
  simp only [onSlHarq, PhyM.modify, Outcome.ok.injEq, true_and] at h7
  simp only [PhyM.pure_eq, PhyM.ret, Outcome.ok.injEq] at h8
  obtain ⟨h8a, h8b⟩ := h8
  have hmod : s5.m_slHarqPhyModule = s0.m_slHarqPhyModule := by
    rw [← h5, h4s, h3s, h2s, ← h1]
  by_cases hc : (!tb3.corrupt
      && !env.IsDiscTbPrevDecoded s0.m_slHarqPhyModule key.m_rnti key.m_resPsdch) = true
  · rw [if_pos hc] at h6
    simp only [Bool.and_eq_true, Bool.not_eq_true'] at hc
    simp only [PhyM.bind_eq, PhyM.andThen_ok] at h6
    obtain ⟨_, t1, e1, info, t2, e2, e3⟩ := h6
    simp only [onSlHarq, PhyM.modify, Outcome.ok.injEq, true_and] at e1
    unfold vectorAt at e2
    cases hi : s0.m_rxPacketInfo[idx]? with
    | none => rw [hi] at e2; simp [PhyM.abortWith] at e2
    | some info1 =>
      rw [hi] at e2
      simp only [PhyM.pure_eq, PhyM.ret, Outcome.ok.injEq] at e2
      obtain ⟨e2a, e2b⟩ := e2
      subst e2a e2b
      cases hm : info1.m_rxControlMessage with
      | none => rw [hm] at e3; simp [PhyM.abortWith] at e3
      | some msg =>
        rw [hm] at e3
        simp only [PhyM.pure_eq, PhyM.ret, Outcome.ok.injEq] at e3
        obtain ⟨e3a, e3b⟩ := e3
        subst h8a
        refine ⟨[.IndicateDiscTbPrevDecoded key.m_rnti key.m_resPsdch,
          .UpdateDiscHarqProcessStatus key.m_rnti key.m_resPsdch tb3.sinr], ?_, ?_⟩
        · rw [← h8b, ← h7, ← e3b, ← e1]
          simp [hmod]
        · rw [if_pos hc]
          refine ⟨info1, msg, rfl, hm, ?_, rfl⟩
          rw [← e3a]
          simp only [hc.1, hc.2, Bool.not_false, Bool.and_false, Bool.false_eq_true, if_false]
  · rw [if_neg hc] at h6
    simp only [PhyM.pure_eq, PhyM.ret, Outcome.ok.injEq] at h6
    obtain ⟨h6a, h6b⟩ := h6
    simp only [Bool.and_eq_true, Bool.not_eq_true'] at hc
    subst h8a
    refine ⟨[.UpdateDiscHarqProcessStatus key.m_rnti key.m_resPsdch tb3.sinr], ?_, ?_⟩
    · rw [← h8b, ← h7, ← h6b]
      simp [hmod]
    · rw [if_neg hc]
      refine ⟨?_, rfl⟩
      rw [← h6a]
      split <;> rfl

end LteSpectrumPhy
end ns3

namespace ns3

open LteSpectrumPhy in
/-- C17: idempotent discovery delivery.  In the decoding step of `RxDiscovery` for one
discovery transport block, with the discovery error model enabled or not, the message of the
block is appended to the decoded list exactly when the block ends the step not corrupted and
its HARQ record was not marked previously decoded when the step began, and then the step
marks it previously decoded (`IndicateDiscTbPrevDecoded`); otherwise, in particular when the
record was already marked previously decoded, the decoded list is unchanged and the record is
not marked. -/
theorem C17_discovery_delivery_idempotent (env : Env) (collided : List Int)
    (key : SlDiscTbId_t) (tb : SlDisctbInfo_t) (idx : Nat) (loc : DiscLocals)
    (st st1 : LteSpectrumPhy) (errorModel : Bool) (r : SlDisctbInfo_t × DiscLocals)
    (h : (if errorModel then RxDiscovery_errorModel env collided key tb idx loc
          else RxDiscovery_noErrorModel env collided key tb idx loc) st = .ok r st1) :
    ∃ calls, st1.m_slHarqPhyModule = st.m_slHarqPhyModule ++ calls
      ∧ if r.1.corrupt = false
          ∧ env.IsDiscTbPrevDecoded st.m_slHarqPhyModule key.m_rnti key.m_resPsdch = false then
          ∃ info msg, st.m_rxPacketInfo[idx]? = some info ∧ info.m_rxControlMessage = some msg
            ∧ r.2.rxDiscMessageOkList = loc.rxDiscMessageOkList ++ [msg]
            ∧ calls.head? = some (.IndicateDiscTbPrevDecoded key.m_rnti key.m_resPsdch)
        else
          r.2.rxDiscMessageOkList = loc.rxDiscMessageOkList
            ∧ SlHarqCall.IndicateDiscTbPrevDecoded key.m_rnti key.m_resPsdch ∉ calls := by
  cases errorModel with
  | true =>
    simp only [if_true] at h
    obtain ⟨calls, h1, h2⟩ := RxDiscovery_errorModel_ok env collided key tb idx loc st st1 r h
    refine ⟨calls, h1, ?_⟩
    split_ifs at h2 ⊢ with hc
    · obtain ⟨info, msg, e1, e2, e3, e4⟩ := h2
      exact ⟨info, msg, e1, e2, e3, by rw [e4]; rfl⟩
    · exact ⟨h2.1, by rw [h2.2]; simp⟩
  | false =>
    simp only [Bool.false_eq_true, if_false] at h
    obtain ⟨calls, h1, h2⟩ := RxDiscovery_noErrorModel_ok env collided key tb idx loc st st1 r h
    refine ⟨calls, h1, ?_⟩
    split_ifs at h2 ⊢ with hc
    · obtain ⟨info, msg, e1, e2, e3, e4⟩ := h2
      exact ⟨info, msg, e1, e2, e3, by rw [e4]; rfl⟩
    · exact ⟨h2.1, by rw [h2.2]; simp⟩

open LteSpectrumPhy in
theorem C17_discovery_delivery_idempotent_witness :
    ∃ r st1, RxDiscovery_noErrorModel exampleEnv [] { m_rnti := 2, m_resPsdch := 0 }
        { ndi := 1, rbBitmap := [1] } 0 {} exampleDiscoveryUe = .ok r st1
      ∧ ∃ calls, st1.m_slHarqPhyModule = exampleDiscoveryUe.m_slHarqPhyModule ++ calls
        ∧ if r.1.corrupt = false
            ∧ exampleEnv.IsDiscTbPrevDecoded exampleDiscoveryUe.m_slHarqPhyModule 2 0 = false then
            ∃ info msg, exampleDiscoveryUe.m_rxPacketInfo[0]? = some info
              ∧ info.m_rxControlMessage = some msg
              ∧ r.2.rxDiscMessageOkList = ({} : DiscLocals).rxDiscMessageOkList ++ [msg]
              ∧ calls.head? = some (.IndicateDiscTbPrevDecoded 2 0)
          else
            r.2.rxDiscMessageOkList = ({} : DiscLocals).rxDiscMessageOkList
              ∧ SlHarqCall.IndicateDiscTbPrevDecoded 2 0 ∉ calls :=
  ⟨_, _, rfl,
    C17_discovery_delivery_idempotent exampleEnv [] { m_rnti := 2, m_resPsdch := 0 }
      { ndi := 1, rbBitmap := [1] } 0 {} exampleDiscoveryUe _ false _ rfl⟩

end ns3

/-! ## Drop-on-collision on the sidelink data channel -/

namespace ns3
namespace LteSpectrumPhy

theorem EndRxSlData_tb_shape (env : Env) (now : Time) (index : StdMap SlTbId_t Nat)
    (collided : List Int) (done rest : StdMap SlTbId_t SltbInfo_t)
    (e : SlTbId_t × SltbInfo_t) (st st1 : LteSpectrumPhy) (r : SlTbId_t × SltbInfo_t)
    (hm : st.m_expectedSlTbs = done ++ e :: rest)
    (hdrop : st.m_dropRbOnCollisionEnabled = true)
    (hwin : st.m_rxPacketInfo ≠ [])
    (h : EndRxSlData_tb env now index collided done e rest st = .ok r st1) :
    ∃ pos added, st1 = { st with m_random := pos, m_expectedSlTbs := done ++ r :: rest,
                                 log := st.log ++ added }
      ∧ slDecodedFrom (fun x => (StdMap.find SlTbId_t.lt x.1 index).isSome = true
          ∧ ∃ rb ∈ x.2.rbBitmap, rb ∈ collided) r e
      ∧ deliveredPackets added = [] := by
  have hlen : st.m_rxPacketInfo.length > 0 := List.length_pos.2 hwin
  cases hf : StdMap.find SlTbId_t.lt e.1 index with
  | none =>
    simp [EndRxSlData_tb, PhyM.bind_eq, PhyM.pure_eq, PhyM.andThen, PhyM.ret, PhyM.get, hf] at h
    obtain ⟨hr, hst⟩ := h
    subst hr hst
    refine ⟨st.m_random, [], ?_, ⟨rfl, ?_⟩, rfl⟩
    · rw [← hm]; simp
    · intro hx; simp [hf] at hx
  | some ki =>
    obtain ⟨k, idx⟩ := ki
    by_cases hcol : ∃ rb ∈ e.2.rbBitmap, rb ∈ collided
    · have hany : (e.2.rbBitmap.any (fun rb => decide (rb ∈ collided))) = true := by
        simpa [List.any_eq_true] using hcol
      cases hv : st.m_slSinrPerceived[idx]? with
      | none =>
        by_cases hem : st.m_slDataErrorModelEnabled = true <;>
          simp [EndRxSlData_tb, PhyM.bind_eq, PhyM.pure_eq, PhyM.andThen, PhyM.ret, PhyM.get,
            PhyM.modify, PhyM.emit, PhyM.abortWith, vectorAt, hf, hlen, hdrop, hany, hv, hem] at h
      | some sinr =>
        cases hs : sumOver (svScale sinr st.m_slRxGain) e.2.rbBitmap with
        | none =>
          by_cases hem : st.m_slDataErrorModelEnabled = true <;>
            simp [EndRxSlData_tb, PhyM.bind_eq, PhyM.pure_eq, PhyM.andThen, PhyM.ret, PhyM.get,
              PhyM.modify, PhyM.emit, PhyM.abortWith, vectorAt, GetMeanSinr, hf, hlen, hdrop,
              hany, hv, hs, hem] at h
        | some s =>
          by_cases hem : st.m_slDataErrorModelEnabled = true <;>
            simp [EndRxSlData_tb, PhyM.bind_eq, PhyM.pure_eq, PhyM.andThen, PhyM.ret, PhyM.get,
              PhyM.modify, PhyM.emit, PhyM.abortWith, vectorAt, GetMeanSinr, hf, hlen, hdrop,
              hany, hv, hs, hem] at h
          all_goals
            obtain ⟨hr, hst⟩ := h
            subst hr hst
            exact ⟨st.m_random, [_], by simp [hdrop, hem]; rfl, ⟨rfl, fun _ => rfl⟩, by rfl⟩
    · have hany : (e.2.rbBitmap.any (fun rb => decide (rb ∈ collided))) = false := by
        rw [Bool.eq_false_iff]
        intro hc
        exact hcol (by simpa [List.any_eq_true] using hc)
      have hdec : ∀ x : SlTbId_t × SltbInfo_t, x.1 = e.1 →
          slDecodedFrom (fun x => (StdMap.find SlTbId_t.lt x.1 index).isSome = true
            ∧ ∃ rb ∈ x.2.rbBitmap, rb ∈ collided) x e :=
        fun x hx => ⟨hx, fun hd => absurd hd.2 hcol⟩
      cases hv : st.m_slSinrPerceived[idx]? with
      | none =>
        by_cases hem : st.m_slDataErrorModelEnabled = true <;>
          simp [EndRxSlData_tb, PhyM.bind_eq, PhyM.pure_eq, PhyM.andThen, PhyM.ret, PhyM.get,
            PhyM.modify, PhyM.emit, PhyM.abortWith, vectorAt, hf, hlen, hdrop, hany, hv, hem] at h
      | some sinr =>
        cases hs : sumOver (svScale sinr st.m_slRxGain) e.2.rbBitmap with
        | none =>
          by_cases hem : st.m_slDataErrorModelEnabled = true <;>
            by_cases hp : env.IsPrevDecoded st.m_slHarqPhyModule e.1.m_rnti e.1.m_l1dst = true <;>
            simp [EndRxSlData_tb, PhyM.bind_eq, PhyM.pure_eq, PhyM.andThen, PhyM.ret, PhyM.get,
              PhyM.modify, PhyM.emit, PhyM.abortWith, vectorAt, GetMeanSinr, hf, hlen, hdrop,
              hany, hv, hs, hem, hp] at h
        | some s =>
          by_cases hem : st.m_slDataErrorModelEnabled = true <;>
            by_cases hp : env.IsPrevDecoded st.m_slHarqPhyModule e.1.m_rnti e.1.m_l1dst = true <;>
            simp [EndRxSlData_tb, PhyM.bind_eq, PhyM.pure_eq, PhyM.andThen, PhyM.ret, PhyM.get,
              PhyM.modify, PhyM.emit, PhyM.abortWith, vectorAt, GetMeanSinr, hf, hlen, hdrop,
              hany, hv, hs, hem, hp] at h
          all_goals
            obtain ⟨hr, hst⟩ := h
            subst hr hst
            first
              | exact ⟨st.m_random, [_], by simp [hdrop, hem]; rfl, hdec _ rfl, by rfl⟩
              | exact ⟨st.m_random + 1, [_], by simp [hdrop, hem]; rfl, hdec _ rfl, by rfl⟩

end LteSpectrumPhy
end ns3
namespace ns3
namespace LteSpectrumPhy

theorem deliveredPackets_append (a b : List PhyEvent) :
    deliveredPackets (a ++ b) = deliveredPackets a ++ deliveredPackets b := by
  simp [deliveredPackets]

theorem EndRxSlData_tbs_shape (env : Env) (now : Time) (index : StdMap SlTbId_t Nat)
    (collided : List Int) (todo : StdMap SlTbId_t SltbInfo_t) :
    ∀ (done : StdMap SlTbId_t SltbInfo_t) (st st1 : LteSpectrumPhy),
      st.m_expectedSlTbs = done ++ todo →
      st.m_dropRbOnCollisionEnabled = true →
      st.m_rxPacketInfo ≠ [] →
      EndRxSlData_tbs env now index collided done todo st = .ok () st1 →
      ∃ pos reg added, st1 = { st with m_random := pos, m_expectedSlTbs := done ++ reg,
                                       log := st.log ++ added }
        ∧ List.Forall₂ (slDecodedFrom (fun x => (StdMap.find SlTbId_t.lt x.1 index).isSome = true
            ∧ ∃ rb ∈ x.2.rbBitmap, rb ∈ collided)) reg todo
        ∧ deliveredPackets added = [] := by
  induction todo with
  | nil =>
    intro done st st1 hm _ _ h
    simp only [EndRxSlData_tbs, PhyM.pure_eq, PhyM.ret, Outcome.ok.injEq, true_and] at h
    subst h
    refine ⟨st.m_random, [], [], ?_, List.Forall₂.nil, rfl⟩
    rw [← hm]
    simp
  | cons e rest ih =>
    intro done st st1 hm hdrop hwin h
    simp only [EndRxSlData_tbs, PhyM.bind_eq, PhyM.andThen_ok] at h
    obtain ⟨r, st2, hstep, h⟩ := h
    obtain ⟨pos, added, hst2, hr, hadd⟩ :=
      EndRxSlData_tb_shape env now index collided done rest e st st2 r hm hdrop hwin hstep
    have hm2 : st2.m_expectedSlTbs = (done ++ [r]) ++ rest := by
      rw [hst2]
      simp
    obtain ⟨pos2, reg2, added2, hst1, hreg, hadd2⟩ := ih (done ++ [r]) st2 st1 hm2
      (by rw [hst2]; exact hdrop) (by rw [hst2]; exact hwin) h
    refine ⟨pos2, r :: reg2, added ++ added2, ?_, List.Forall₂.cons hr hreg, ?_⟩
    · rw [hst1, hst2]
      simp
    · rw [deliveredPackets_append, hadd, hadd2]
      rfl

theorem EndRxSlData_packet_shape (env : Env) (p : Packet) (st st1 : LteSpectrumPhy)
    (h : EndRxSlData_packet env p st = .ok () st1) :
    st1.m_expectedSlTbs = st.m_expectedSlTbs
      ∧ ∃ added, st1.log = st.log ++ added
      ∧ ∀ q ∈ deliveredPackets added, q = p
          ∧ ∃ key info, StdMap.find SlTbId_t.lt (slTagId p) st.m_expectedSlTbs = some (key, info)
              ∧ info.corrupt = false := by
  cases hf : StdMap.find SlTbId_t.lt (slTagId p) st.m_expectedSlTbs with
  | none =>
    simp [EndRxSlData_packet, PhyM.bind_eq, PhyM.pure_eq, PhyM.andThen, PhyM.ret, PhyM.get,
      hf] at h
    subst h
    exact ⟨rfl, [], by simp, by simp [deliveredPackets]⟩
  | some ki =>
    obtain ⟨key, info⟩ := ki
    by_cases hc : info.corrupt = true <;>
      by_cases hp : env.IsPrevDecoded
        (st.m_slHarqPhyModule ++ [SlHarqCall.IncreaseTbIdx key.m_rnti key.m_l1dst])
        key.m_rnti key.m_l1dst = true <;>
      by_cases hcb : st.m_ltePhyRxDataEndOkCallback = true <;>
      simp [EndRxSlData_packet, PhyM.bind_eq, PhyM.pure_eq, PhyM.andThen, PhyM.ret, PhyM.get,
        PhyM.modify, PhyM.emit, onSlHarq, hf, hc, hp, hcb] at h
    all_goals
      subst h
      refine ⟨rfl, _, rfl, ?_⟩
      simp [deliveredPackets, PhyEvent.deliveredPacket, hc]
      try exact ⟨key, info, ⟨rfl, rfl⟩, by simpa using hc⟩

theorem EndRxSlData_packets_shape (env : Env) (ps : List Packet) :
    ∀ (st st1 : LteSpectrumPhy), EndRxSlData_packets env ps st = .ok () st1 →
      st1.m_expectedSlTbs = st.m_expectedSlTbs
        ∧ ∃ added, st1.log = st.log ++ added
        ∧ ∀ q ∈ deliveredPackets added,
            ∃ key info, StdMap.find SlTbId_t.lt (slTagId q) st.m_expectedSlTbs = some (key, info)
              ∧ info.corrupt = false := by
  induction ps with
  | nil =>
    intro st st1 h
    simp only [EndRxSlData_packets, PhyM.pure_eq, PhyM.ret, Outcome.ok.injEq, true_and] at h
    subst h
    exact ⟨rfl, [], by simp, by simp [deliveredPackets]⟩
  | cons p ps ih =>
    intro st st1 h
    simp only [EndRxSlData_packets, PhyM.bind_eq, PhyM.andThen_ok] at h
    obtain ⟨_, st2, h1, h2⟩ := h
    obtain ⟨e1, added, l1, hd1⟩ := EndRxSlData_packet_shape env p st st2 h1
    obtain ⟨e2, added2, l2, hd2⟩ := ih st2 st1 h2
    refine ⟨by rw [e2, e1], added ++ added2, ?_, ?_⟩
    · rw [l2, l1]
      simp
    · intro q hq
      rw [deliveredPackets_append] at hq
      rcases List.mem_append.1 hq with hq1 | hq1
      · obtain ⟨rfl, hk⟩ := hd1 q hq1
        exact hk
      · have := hd2 q hq1
        rw [e1] at this
        exact this

end LteSpectrumPhy
end ns3
namespace ns3
namespace LteSpectrumPhy

theorem collisionScan_mono (m : List Int) :
    ∀ (seen collided : List Int),
      (∀ rb ∈ seen, rb ∈ (collisionScan seen collided m).1)
        ∧ (∀ rb ∈ collided, rb ∈ (collisionScan seen collided m).2) := by
  induction m with
  | nil => intro seen collided; simp [collisionScan]
  | cons x rest ih =>
    intro seen collided
    by_cases hx : x ∈ seen
    · simp only [collisionScan, hx, if_true]
      obtain ⟨i1, i2⟩ := ih seen (collided ++ [x])
      exact ⟨i1, fun rb hrb => i2 rb (List.mem_append_left _ hrb)⟩
    · simp only [collisionScan, hx, if_false]
      obtain ⟨i1, i2⟩ := ih (seen ++ [x]) collided
      exact ⟨fun rb hrb => i1 rb (List.mem_append_left _ hrb), i2⟩

theorem collisionScan_seen (m : List Int) :
    ∀ (seen collided : List Int) (rb : Int), rb ∈ m → rb ∈ (collisionScan seen collided m).1 := by
  induction m with
  | nil => intro _ _ rb h; simp at h
  | cons x rest ih =>
    intro seen collided rb h
    by_cases hx : x ∈ seen
    · simp only [collisionScan, hx, if_true]
      rcases List.mem_cons.1 h with rfl | h1
      · exact (collisionScan_mono rest seen (collided ++ [rb])).1 rb hx
      · exact ih _ _ rb h1
    · simp only [collisionScan, hx, if_false]
      rcases List.mem_cons.1 h with rfl | h1
      · exact (collisionScan_mono rest (seen ++ [rb]) collided).1 rb (by simp)
      · exact ih _ _ rb h1

theorem collisionScan_hit (m : List Int) :
    ∀ (seen collided : List Int) (rb : Int), rb ∈ seen → rb ∈ m →
      rb ∈ (collisionScan seen collided m).2 := by
  induction m with
  | nil => intro _ _ rb _ h; simp at h
  | cons x rest ih =>
    intro seen collided rb hs h
    by_cases hx : x ∈ seen
    · simp only [collisionScan, hx, if_true]
      rcases List.mem_cons.1 h with rfl | h1
      · exact (collisionScan_mono rest seen (collided ++ [rb])).2 rb (by simp)
      · exact ih _ _ rb hs h1
    · simp only [collisionScan, hx, if_false]
      rcases List.mem_cons.1 h with rfl | h1
      · exact absurd hs hx
      · exact ih _ _ rb (List.mem_append_left _ hs) h1

theorem collisionFold_mono (maps : List (List Int)) :
    ∀ (sc : List Int × List Int),
      (∀ rb ∈ sc.1, rb ∈ (maps.foldl (fun sc m => collisionScan sc.1 sc.2 m) sc).1)
        ∧ (∀ rb ∈ sc.2, rb ∈ (maps.foldl (fun sc m => collisionScan sc.1 sc.2 m) sc).2) := by
  induction maps with
  | nil => intro sc; simp
  | cons m rest ih =>
    intro sc
    simp only [List.foldl_cons]
    obtain ⟨i1, i2⟩ := ih (collisionScan sc.1 sc.2 m)
    obtain ⟨j1, j2⟩ := collisionScan_mono m sc.1 sc.2
    exact ⟨fun rb h => i1 rb (j1 rb h), fun rb h => i2 rb (j2 rb h)⟩

theorem collisionFold_hit (maps : List (List Int)) :
    ∀ (sc : List Int × List Int) (rb : Int) (m : List Int), rb ∈ sc.1 → m ∈ maps → rb ∈ m →
      rb ∈ (maps.foldl (fun sc m => collisionScan sc.1 sc.2 m) sc).2 := by
  induction maps with
  | nil => intro _ _ _ _ h; simp at h
  | cons x rest ih =>
    intro sc rb m hs hm hrb
    simp only [List.foldl_cons]
    rcases List.mem_cons.1 hm with rfl | h1
    · exact (collisionFold_mono rest _).2 rb (collisionScan_hit m sc.1 sc.2 rb hs hrb)
    · exact ih _ rb m ((collisionScan_mono x sc.1 sc.2).1 rb hs) h1 hrb

theorem collisionFold_two (maps : List (List Int)) :
    ∀ (sc : List Int × List Int) (i j : Nat) (a b : List Int) (rb : Int), i < j →
      maps[i]? = some a → maps[j]? = some b → rb ∈ a → rb ∈ b →
      rb ∈ (maps.foldl (fun sc m => collisionScan sc.1 sc.2 m) sc).2 := by
  induction maps with
  | nil => intro _ i _ _ _ _ _ h; simp at h
  | cons x rest ih =>
    intro sc i j a b rb hij ha hb hra hrb
    simp only [List.foldl_cons]
    cases j with
    | zero => omega
    | succ j1 =>
      simp only [List.getElem?_cons_succ] at hb
      cases i with
      | zero =>
        simp only [List.getElem?_cons_zero, Option.some.injEq] at ha
        subst ha
        exact collisionFold_hit rest _ rb b (collisionScan_seen x sc.1 sc.2 rb hra)
          (List.mem_iff_getElem?.2 ⟨j1, hb⟩) hrb
      | succ i1 =>
        simp only [List.getElem?_cons_succ] at ha
        exact ih _ i1 j1 a b rb (by omega) ha hb hra hrb

/-- A block used by two different descriptors of the registry is a collided block. -/
theorem mem_collidedRbs_of_shared (reg : StdMap SlTbId_t SltbInfo_t)
    (e e1 : SlTbId_t × SltbInfo_t) (he : e ∈ reg) (he1 : e1 ∈ reg) (hne : e1 ≠ e) (rb : Int)
    (hrb : rb ∈ e.2.rbBitmap) (hrb1 : rb ∈ e1.2.rbBitmap) :
    rb ∈ collidedRbs (reg.map (fun x => x.2.rbBitmap)) := by
  obtain ⟨i, hi⟩ := List.mem_iff_getElem?.1 he
  obtain ⟨j, hj⟩ := List.mem_iff_getElem?.1 he1
  have hij : i ≠ j := by
    intro h
    subst h
    rw [hi] at hj
    exact hne (Option.some.inj hj).symm
  have hmi : (reg.map (fun x => x.2.rbBitmap))[i]? = some e.2.rbBitmap := by
    rw [List.getElem?_map, hi]; rfl
  have hmj : (reg.map (fun x => x.2.rbBitmap))[j]? = some e1.2.rbBitmap := by
    rw [List.getElem?_map, hj]; rfl
  unfold collidedRbs
  rcases Nat.lt_or_gt_of_ne hij with h | h
  · exact collisionFold_two _ _ i j _ _ rb h hmi hmj hrb hrb1
  · exact collisionFold_two _ _ j i _ _ rb h hmj hmi hrb1 hrb

theorem find_isSome_insert (k k1 : SlTbId_t) (v : Nat) (m : StdMap SlTbId_t Nat)
    (hwf : StdMap.WF SlTbId_t.lt m)
    (h : (StdMap.find SlTbId_t.lt k m).isSome = true ∨ k = k1) :
    (StdMap.find SlTbId_t.lt k (StdMap.insert SlTbId_t.lt k1 v m)).isSome = true := by
  have hwf1 := StdMap.WF_insert slTbId_keyOrder k1 v m hwf
  have hmem : ∀ e ∈ StdMap.insert SlTbId_t.lt k1 v m, e.1 = k →
      (StdMap.find SlTbId_t.lt k (StdMap.insert SlTbId_t.lt k1 v m)).isSome = true := by
    intro e he hk
    rw [← hk, StdMap.find_of_mem slTbId_keyOrder _ hwf1 e he]
    rfl
  cases hf : StdMap.find SlTbId_t.lt k m with
  | some e =>
    exact hmem e (StdMap.mem_insert_of_mem k1 v m e (StdMap.find_mem k m e hf))
      (StdMap.find_key slTbId_keyOrder k m e hf)
  | none =>
    rw [hf] at h
    rcases h with h | h
    · simp at h
    · subst h
      exact hmem (k, v) (StdMap.mem_insert_self k v m hf) rfl

theorem EndRxSlData_sinrIndex_ok (window : List SlRxPacketInfo_t) :
    ∀ (i : Nat) (m index : StdMap SlTbId_t Nat) (st st1 : LteSpectrumPhy),
      StdMap.WF SlTbId_t.lt m →
      EndRxSlData_sinrIndex i window m st = .ok index st1 →
      st1 = st ∧ ∀ k, ((StdMap.find SlTbId_t.lt k m).isSome = true ∨ hasMatchingBurst window k) →
        (StdMap.find SlTbId_t.lt k index).isSome = true := by
  induction window with
  | nil =>
    intro i m index st st1 _ h
    simp only [EndRxSlData_sinrIndex, PhyM.pure_eq, PhyM.ret, Outcome.ok.injEq] at h
    obtain ⟨rfl, rfl⟩ := h
    refine ⟨rfl, fun k hk => ?_⟩
    rcases hk with hk | ⟨info, hi, _⟩
    · exact hk
    · simp at hi
  | cons info rest ih =>
    intro i m index st st1 hwf h
    cases hb : info.m_rxPacketBurst with
    | none =>
      simp only [EndRxSlData_sinrIndex, hb] at h
      obtain ⟨e1, e2⟩ := ih (i + 1) m index st st1 hwf h
      refine ⟨e1, fun k hk => e2 k ?_⟩
      rcases hk with hk | ⟨x, hx, p, ps, hp, hk⟩
      · exact Or.inl hk
      · rcases List.mem_cons.1 hx with rfl | hx1
        · rw [hb] at hp; simp at hp
        · exact Or.inr ⟨x, hx1, p, ps, hp, hk⟩
    | some pb =>
      cases pb with
      | nil => simp [EndRxSlData_sinrIndex, hb, PhyM.abortWith] at h
      | cons p0 ps0 =>
        simp only [EndRxSlData_sinrIndex, hb] at h
        obtain ⟨e1, e2⟩ := ih (i + 1) _ index st st1
          (StdMap.WF_insert slTbId_keyOrder (slTagId p0) i m hwf) h
        refine ⟨e1, fun k hk => e2 k ?_⟩
        rcases hk with hk | ⟨x, hx, p, ps, hp, hk⟩
        · exact Or.inl (find_isSome_insert k _ i m hwf (Or.inl hk))
        · rcases List.mem_cons.1 hx with rfl | hx1
          · rw [hb] at hp
            simp only [Option.some.injEq, List.cons.injEq] at hp
            obtain ⟨rfl, -⟩ := hp
            exact Or.inl (find_isSome_insert k _ i m hwf (Or.inr hk.symm))
          · exact Or.inr ⟨x, hx1, p, ps, hp, hk⟩

end LteSpectrumPhy
end ns3
namespace ns3
namespace LteSpectrumPhy

/-- The part of the state the data path of `EndRxSlData` works on. -/
theorem EndRxSlData_data_prelude (env : Env) (now : Time) (st st1 : LteSpectrumPhy)
    (h : EndRxSlData_data env now st = .ok () st1) :
    ∃ (s : LteSpectrumPhy) (index : StdMap SlTbId_t Nat) (s2 : LteSpectrumPhy),
      s.m_expectedSlTbs = st.m_expectedSlTbs ∧ s.m_rxPacketInfo = st.m_rxPacketInfo
        ∧ s.m_dropRbOnCollisionEnabled = st.m_dropRbOnCollisionEnabled ∧ s.log = st.log
        ∧ (∀ k, hasMatchingBurst s.m_rxPacketInfo k →
            (StdMap.find SlTbId_t.lt k index).isSome = true)
        ∧ EndRxSlData_tbs env now index
            (if s.m_dropRbOnCollisionEnabled then
              collidedRbs (s.m_expectedSlTbs.map (fun e => e.2.rbBitmap)) else [])
            [] s.m_expectedSlTbs s = .ok () s2
        ∧ EndRxSlData_packets env (slDataPackets s2.m_rxPacketInfo) s2 = .ok () st1 := by
  unfold EndRxSlData_data at h
  simp only [PhyM.bind_eq, PhyM.andThen_ok, PhyM.get_ok] at h
  obtain ⟨_, s1, h1, w1, s1', ⟨e1a, e1b⟩, _, s2, h2, _, s3, h3, _, s4, h4, w2, s4', ⟨e2a, e2b⟩,
    _, s5, h5, index, s6, h6, _, s7, h7, w3, s7', ⟨e3a, e3b⟩, h8⟩ := h
  obtain ⟨i, h1⟩ := onInterferenceSl_ok _ _ _ h1
  have f2 : s2.m_expectedSlTbs = s1'.m_expectedSlTbs ∧ s2.m_rxPacketInfo = s1'.m_rxPacketInfo
      ∧ s2.m_dropRbOnCollisionEnabled = s1'.m_dropRbOnCollisionEnabled ∧ s2.log = s1'.log := by
    cases ho : env.slSinrFeedback w1.m_interferenceSl.log <;>
      simp only [ho, UpdateSlSinrPerceived, PhyM.modify, PhyM.pure_eq, PhyM.ret, Outcome.ok.injEq,
        true_and] at h2 <;> subst h2 <;> simp
  have f3 : s3.m_expectedSlTbs = s2.m_expectedSlTbs ∧ s3.m_rxPacketInfo = s2.m_rxPacketInfo
      ∧ s3.m_dropRbOnCollisionEnabled = s2.m_dropRbOnCollisionEnabled ∧ s3.log = s2.log := by
    cases ho : env.slSigFeedback w1.m_interferenceSl.log <;>
      simp only [ho, UpdateSlSigPerceived, PhyM.modify, PhyM.pure_eq, PhyM.ret, Outcome.ok.injEq,
        true_and] at h3 <;> subst h3 <;> simp
  have f4 : s4.m_expectedSlTbs = s3.m_expectedSlTbs ∧ s4.m_rxPacketInfo = s3.m_rxPacketInfo
      ∧ s4.m_dropRbOnCollisionEnabled = s3.m_dropRbOnCollisionEnabled ∧ s4.log = s3.log := by
    cases ho : env.slIntFeedback w1.m_interferenceSl.log <;>
      simp only [ho, UpdateSlIntPerceived, PhyM.modify, PhyM.pure_eq, PhyM.ret, Outcome.ok.injEq,
        true_and] at h4 <;> subst h4 <;> simp
  have f5 : s5 = s4' := by
    unfold NS_ASSERT at h5
    split at h5
    · simp only [PhyM.ret, Outcome.ok.injEq, true_and] at h5
      exact h5.symm
    · simp [PhyM.abortWith] at h5
  obtain ⟨f6, hidx⟩ := EndRxSlData_sinrIndex_ok w2.m_rxPacketInfo 0 [] index s5 s6
    List.Pairwise.nil h6
  subst e1a e1b e2a e2b e3a e3b f5 f6
  refine ⟨s6, index, s7', ?_, ?_, ?_, ?_, fun k hk => hidx k (Or.inr hk), h7, h8⟩
  · rw [f4.1, f3.1, f2.1, h1]
  · rw [f4.2.1, f3.2.1, f2.2.1, h1]
  · rw [f4.2.2.1, f3.2.2.1, f2.2.2.1, h1]
  · rw [f4.2.2.2, f3.2.2.2, f2.2.2.2, h1]

theorem find_of_decoded (D : SlTbId_t × SltbInfo_t → Prop)
    (reg reg0 : StdMap SlTbId_t SltbInfo_t)
    (h : List.Forall₂ (slDecodedFrom D) reg reg0) (hwf : StdMap.WF SlTbId_t.lt reg0) :
    StdMap.WF SlTbId_t.lt reg
      ∧ ∀ e ∈ reg0, D e → ∃ info, StdMap.find SlTbId_t.lt e.1 reg = some (e.1, info)
          ∧ info.corrupt = true := by
  have hkeys : reg.map Prod.fst = reg0.map Prod.fst := by
    clear hwf
    induction h with
    | nil => rfl
    | cons hab _ ih => simp [hab.1, ih]
  have hwf1 : StdMap.WF SlTbId_t.lt reg := by
    rw [StdMap.WF_iff_keys, hkeys, ← StdMap.WF_iff_keys]
    exact hwf
  refine ⟨hwf1, ?_⟩
  intro e he hD
  have hex : ∃ r ∈ reg, r.1 = e.1 ∧ r.2.corrupt = true := by
    clear hwf hwf1 hkeys
    induction h with
    | nil => simp at he
    | cons hab _ ih =>
      rcases List.mem_cons.1 he with rfl | he1
      · exact ⟨_, List.mem_cons_self _ _, hab.1, hab.2 hD⟩
      · obtain ⟨r, hr, h1, h2⟩ := ih he1
        exact ⟨r, List.mem_cons_of_mem _ hr, h1, h2⟩
  obtain ⟨r, hr, h1, h2⟩ := hex
  refine ⟨r.2, ?_, h2⟩
  rw [← h1]
  exact StdMap.find_of_mem slTbId_keyOrder reg hwf1 r hr

end LteSpectrumPhy
end ns3
namespace ns3

open LteSpectrumPhy in
/-- C13: drop-on-collision on the sidelink data channel.  With `DropRbOnCollisionEnabled`
true, when the data path of `EndRxSlData` has run, every expected sidelink descriptor that has
a matching received burst and shares a resource block with another expected descriptor is
registered as corrupted, whatever the SINR, the error-model switch, the random draws and the
HARQ record are; and none of the packets carrying its identity is reported as received (no
success trace, no success callback) by that run. -/
theorem C13_drop_on_collision (env : Env) (now : Time) (st st1 : LteSpectrumPhy)
    (hdrop : st.m_dropRbOnCollisionEnabled = true)
    (hwf : StdMap.WF SlTbId_t.lt st.m_expectedSlTbs)
    (h : EndRxSlData_data env now st = .ok () st1) :
    ∃ added, st1.log = st.log ++ added
      ∧ ∀ e ∈ st.m_expectedSlTbs, hasMatchingBurst st.m_rxPacketInfo e.1 →
          (∃ e1 ∈ st.m_expectedSlTbs, e1 ≠ e ∧ ∃ rb ∈ e.2.rbBitmap, rb ∈ e1.2.rbBitmap) →
          (∃ info, StdMap.find SlTbId_t.lt e.1 st1.m_expectedSlTbs = some (e.1, info)
              ∧ info.corrupt = true)
            ∧ ∀ p, slTagId p = e.1 → p ∉ deliveredPackets added := by
  obtain ⟨s, index, s2, f1, f2, f3, f4, hidx, htbs, hpk⟩ :=
    EndRxSlData_data_prelude env now st st1 h
  rw [f3, hdrop, if_pos rfl, f1] at htbs
  by_cases hwin : st.m_rxPacketInfo = []
  · -- an empty window matches no descriptor
    obtain ⟨_, added2, l2, -⟩ := EndRxSlData_packets_shape env _ s2 st1 hpk
    have hs2 : ∃ added1, s2.log = st.log ++ added1 := by
      clear hpk l2
      have : ∀ (todo done : StdMap SlTbId_t SltbInfo_t) (a b : LteSpectrumPhy),
          a.m_rxPacketInfo = [] →
          EndRxSlData_tbs env now index
            (collidedRbs (st.m_expectedSlTbs.map (fun e => e.2.rbBitmap))) done todo a
            = .ok () b → b = a := by
        intro todo
        induction todo with
        | nil =>
          intro done a b _ hb
          simp only [EndRxSlData_tbs, PhyM.pure_eq, PhyM.ret, Outcome.ok.injEq, true_and] at hb
          exact hb.symm
        | cons e rest ih =>
          intro done a b ha hb
          simp only [EndRxSlData_tbs, PhyM.bind_eq, PhyM.andThen_ok] at hb
          obtain ⟨r, a2, hstep, hb⟩ := hb
          have : a2 = a := by
            cases hf : StdMap.find SlTbId_t.lt e.1 index <;>
              simp [EndRxSlData_tb, PhyM.bind_eq, PhyM.pure_eq, PhyM.andThen, PhyM.ret,
                PhyM.get, hf, ha] at hstep
            · exact hstep.2.symm
            · exact hstep.2.symm
          subst this
          exact ih _ a2 b ha hb
      have hb := this _ _ s s2 (by rw [f2]; exact hwin) htbs
      exact ⟨[], by rw [hb, f4]; simp⟩
    obtain ⟨added1, l1⟩ := hs2
    refine ⟨added1 ++ added2, by rw [l2, l1]; simp, ?_⟩
    intro e _ hmatch
    obtain ⟨info, hi, _⟩ := hmatch
    rw [hwin] at hi
    simp at hi
  · obtain ⟨pos, reg, added1, hs2, hreg, hadd1⟩ :=
      EndRxSlData_tbs_shape env now index _ st.m_expectedSlTbs [] s s2
        (by rw [f1]; rfl) (by rw [f3]; exact hdrop) (by rw [f2]; exact hwin) htbs
    obtain ⟨ereg, added2, l2, hdel⟩ := EndRxSlData_packets_shape env _ s2 st1 hpk
    have hreg2 : s2.m_expectedSlTbs = reg := by rw [hs2]; simp
    obtain ⟨hwfr, hfind⟩ := find_of_decoded _ reg st.m_expectedSlTbs hreg hwf
    refine ⟨added1 ++ added2, by rw [l2, hs2, f4]; simp, ?_⟩
    intro e he hmatch hshare
    have hD : (StdMap.find SlTbId_t.lt e.1 index).isSome = true
        ∧ ∃ rb ∈ e.2.rbBitmap,
            rb ∈ collidedRbs (st.m_expectedSlTbs.map (fun e => e.2.rbBitmap)) := by
      refine ⟨hidx e.1 (by rw [f2]; exact hmatch), ?_⟩
      obtain ⟨e1, he1, hne, rb, hrb, hrb1⟩ := hshare
      exact ⟨rb, hrb, mem_collidedRbs_of_shared _ e e1 he he1 hne rb hrb hrb1⟩
    obtain ⟨info, hinfo, hcor⟩ := hfind e he hD
    refine ⟨⟨info, by rw [ereg, hreg2]; exact hinfo, hcor⟩, ?_⟩
    intro p hp hmem
    rw [deliveredPackets_append, hadd1, List.nil_append] at hmem
    obtain ⟨key, info2, hf2, hc2⟩ := hdel p hmem
    rw [hp, hreg2, hinfo] at hf2
    simp only [Option.some.injEq, Prod.mk.injEq] at hf2
    rw [← hf2.2, hcor] at hc2
    simp at hc2


end ns3
namespace ns3

set_option maxRecDepth 8000 in
open LteSpectrumPhy in
theorem exampleCollisionUe_data :
    EndRxSlData_data exampleEnv 0 exampleCollisionUe = .ok () exampleCollisionUeDecoded := by
  simp [EndRxSlData_data, EndRxSlData_tbs, EndRxSlData_tb, EndRxSlData_packets,
    EndRxSlData_packet, EndRxSlData_sinrIndex, slDataPackets, slTagId, collidedRbs,
    collisionScan, exampleCollisionUe, exampleCollisionUeDecoded, exampleEnv,
    onInterferenceSl, LteSlInterference.EndRx, onSlHarq, vectorAt, GetMeanSinr, svAt,
    StdMap.find, StdMap.insert, SlTbId_t.lt,
    PhyM.bind_eq, PhyM.pure_eq, PhyM.andThen, PhyM.ret, PhyM.get, PhyM.modify,
    PhyM.emit, PhyM.abortWith, NS_ASSERT, svScale, sumOver, milliSeconds]

set_option maxRecDepth 8000 in
open LteSpectrumPhy in
theorem C13_drop_on_collision_witness :
    ∃ added, exampleCollisionUeDecoded.log = exampleCollisionUe.log ++ added
      ∧ ∀ e ∈ exampleCollisionUe.m_expectedSlTbs,
          hasMatchingBurst exampleCollisionUe.m_rxPacketInfo e.1 →
          (∃ e1 ∈ exampleCollisionUe.m_expectedSlTbs, e1 ≠ e
            ∧ ∃ rb ∈ e.2.rbBitmap, rb ∈ e1.2.rbBitmap) →
          (∃ info, StdMap.find SlTbId_t.lt e.1 exampleCollisionUeDecoded.m_expectedSlTbs
                = some (e.1, info)
              ∧ info.corrupt = true)
            ∧ ∀ p, slTagId p = e.1 → p ∉ deliveredPackets added :=
  C13_drop_on_collision exampleEnv 0 exampleCollisionUe exampleCollisionUeDecoded rfl
    (by simp [StdMap.WF, exampleCollisionUe, SlTbId_t.lt]) exampleCollisionUe_data

end ns3

/-! ## The order of the sidelink control messages -/

namespace ns3
namespace LteSpectrumPhy

theorem multisetInsert_perm (v : SlCtrlPacketInfo_t) (l : List SlCtrlPacketInfo_t) :
    List.Perm (multisetInsert v l) (v :: l) := by
  induction l with
  | nil => exact List.Perm.refl _
  | cons e rest ih =>
    by_cases h : SlCtrlPacketInfo_t.lt v e = true
    · simp only [multisetInsert, h, if_true]
      exact List.Perm.refl _
    · simp only [multisetInsert, h, if_false]
      exact (List.Perm.cons e ih).trans (List.Perm.swap v e rest)

/-- Insertion of a message that arrived after every message of the sequence keeps the
sequence in the order of the specification. -/
theorem multisetInsert_sorted (v : SlCtrlPacketInfo_t) (l : List SlCtrlPacketInfo_t)
    (hs : List.Pairwise SlCtrlPacketInfo_t.precedes l) (hi : ∀ a ∈ l, a.index < v.index) :
    List.Pairwise SlCtrlPacketInfo_t.precedes (multisetInsert v l) := by
  induction l with
  | nil => simp [multisetInsert]
  | cons e rest ih =>
    obtain ⟨he, hrest⟩ := List.pairwise_cons.1 hs
    have hie : e.index < v.index := hi e (List.mem_cons_self _ _)
    by_cases h : v.sinr > e.sinr
    · have hlt : SlCtrlPacketInfo_t.lt v e = true := by simp [SlCtrlPacketInfo_t.lt, h]
      simp only [multisetInsert, hlt, if_true]
      refine List.pairwise_cons.2 ⟨?_, hs⟩
      intro x hx
      rcases List.mem_cons.1 hx with rfl | hx1
      · exact Or.inl h
      · rcases he x hx1 with h1 | h1
        · exact Or.inl (lt_trans h1 h)
        · exact Or.inl (by rw [← h1.1]; exact h)
    · have hlt : ¬ SlCtrlPacketInfo_t.lt v e = true := by
        simp only [SlCtrlPacketInfo_t.lt, Bool.or_eq_true, decide_eq_true_eq, not_or]
        exact ⟨h, not_lt.2 (le_of_lt hie)⟩
      simp only [multisetInsert, hlt, if_false]
      refine List.pairwise_cons.2 ⟨?_, ih hrest (fun a ha => hi a (List.mem_cons_of_mem _ ha))⟩
      intro x hx
      rcases List.mem_cons.1 ((multisetInsert_perm v rest).mem_iff.1 hx) with rfl | hx1
      · rcases lt_or_eq_of_le (not_lt.1 h) with h1 | h1
        · exact Or.inl h1
        · exact Or.inr ⟨h1.symm, hie⟩
      · exact he x hx1

theorem GetMeanSinr_ok (sinr : SpectrumValue) (map : List Int) (st st1 : LteSpectrumPhy)
    (x : ℚ) (h : GetMeanSinr sinr map st = .ok x st1) :
    st1 = st ∧ x = meanSinrOf sinr map := by
  unfold GetMeanSinr at h
  unfold meanSinrOf
  cases hs : sumOver sinr map with
  | none => rw [hs] at h; simp [PhyM.abortWith] at h
  | some s =>
    rw [hs] at h
    simp only [PhyM.pure_eq, PhyM.ret, Outcome.ok.injEq] at h
    exact ⟨h.2.symm, by rw [← h.1]; rfl⟩

theorem vectorAt_ok {α : Type} (what : String) (v : List α) (i : Nat) (st st1 : LteSpectrumPhy)
    (x : α) (h : vectorAt what v i st = .ok x st1) : st1 = st ∧ v[i]? = some x := by
  unfold vectorAt at h
  cases hv : v[i]? with
  | none => rw [hv] at h; simp [PhyM.abortWith] at h
  | some y =>
    rw [hv] at h
    simp only [PhyM.pure_eq, PhyM.ret, Outcome.ok.injEq] at h
    exact ⟨h.2.symm, by rw [h.1]⟩

theorem EndRxSlData_sortCtrl_ok (window : List SlRxPacketInfo_t) :
    ∀ (i : Nat) (sorted0 sorted : List SlCtrlPacketInfo_t) (st st1 : LteSpectrumPhy),
      EndRxSlData_sortCtrl i window sorted0 st = .ok sorted st1 →
      List.Pairwise SlCtrlPacketInfo_t.precedes sorted0 →
      (∀ a ∈ sorted0, a.index < (i : Int)) →
      st1 = st ∧ List.Pairwise SlCtrlPacketInfo_t.precedes sorted
        ∧ List.Perm sorted (sorted0 ++ ctrlMessagesOf st.m_slSinrPerceived i window) := by
  induction window with
  | nil =>
    intro i sorted0 sorted st st1 h hs _
    simp only [EndRxSlData_sortCtrl, PhyM.pure_eq, PhyM.ret, Outcome.ok.injEq] at h
    obtain ⟨rfl, rfl⟩ := h
    exact ⟨rfl, hs, by simp [ctrlMessagesOf]⟩
  | cons info rest ih =>
    intro i sorted0 sorted st st1 h hs hi
    have hi1 : ∀ a ∈ sorted0, a.index < ((i + 1 : Nat) : Int) := fun a ha => by
      have := hi a ha
      push_cast
      omega
    unfold EndRxSlData_sortCtrl at h
    simp only [PhyM.bind_eq, PhyM.andThen_ok, PhyM.get_ok] at h
    obtain ⟨w, s0, ⟨e0a, e0b⟩, h⟩ := h
    subst e0a e0b
    cases hm : info.m_rxControlMessage with
    | none =>
      rw [hm] at h
      simp only at h
      obtain ⟨e1, e2, e3⟩ := ih (i + 1) sorted0 sorted _ st1 h hs hi1
      exact ⟨e1, e2, by simpa [ctrlMessagesOf, hm] using e3⟩
    | some msg =>
      rw [hm] at h
      simp only at h
      by_cases ht : msg.GetMessageType ≠ .SL_DISC_MSG
      · rw [if_pos ht] at h
        simp only [PhyM.bind_eq, PhyM.andThen_ok] at h
        obtain ⟨sinr, s1, h1, mean, s2, h2, h3⟩ := h
        obtain ⟨rfl, hv⟩ := vectorAt_ok _ _ _ _ _ _ h1
        obtain ⟨rfl, hmean⟩ := GetMeanSinr_ok _ _ _ _ _ h2
        have hsorted := multisetInsert_sorted { sinr := mean, index := (i : Int) } sorted0 hs hi
        have hidx : ∀ a ∈ multisetInsert { sinr := mean, index := (i : Int) } sorted0,
            a.index < ((i + 1 : Nat) : Int) := by
          intro a ha
          rcases List.mem_cons.1 ((multisetInsert_perm _ _).mem_iff.1 ha) with rfl | ha1
          · push_cast; simp
          · exact hi1 a ha1
        obtain ⟨e1, e2, e3⟩ := ih (i + 1) _ sorted _ st1 h3 hsorted hidx
        refine ⟨e1, e2, e3.trans ?_⟩
        have hget : s2.m_slSinrPerceived.getD i [] = sinr := by
          rw [List.getD_eq_getElem?_getD, hv]; rfl
        have hc : ctrlMessagesOf s2.m_slSinrPerceived i (info :: rest)
            = { sinr := mean, index := (i : Int) }
                :: ctrlMessagesOf s2.m_slSinrPerceived (i + 1) rest := by
          simp only [ctrlMessagesOf, hm]
          rw [if_pos ht, hget, ← hmean]
        rw [hc]
        exact ((multisetInsert_perm _ _).append_right _).trans
          (List.perm_middle.symm)
      · rw [if_neg ht] at h
        obtain ⟨e1, e2, e3⟩ := ih (i + 1) sorted0 sorted _ st1 h hs hi1
        exact ⟨e1, e2, by simpa [ctrlMessagesOf, hm, ht] using e3⟩

end LteSpectrumPhy
end ns3
namespace ns3

set_option maxRecDepth 8000 in
open LteSpectrumPhy in
theorem exampleCtrlWindow_sorted :
    EndRxSlData_sortCtrl 0 exampleCtrlWindow.m_rxPacketInfo [] exampleCtrlWindow
      = .ok [{ sinr := 5, index := 1 }, { sinr := 2, index := 0 }, { sinr := 2, index := 2 }]
          exampleCtrlWindow := by
  simp [EndRxSlData_sortCtrl, exampleCtrlWindow, multisetInsert, SlCtrlPacketInfo_t.lt,
    vectorAt, GetMeanSinr, sumOver, svAt, LteControlMessage.GetMessageType,
    PhyM.bind_eq, PhyM.pure_eq, PhyM.andThen, PhyM.ret, PhyM.get, PhyM.abortWith]
  norm_num

end ns3

/-! ## The capture policy of the sidelink control channel -/

namespace ns3
namespace LteSpectrumPhy

theorem steady_refl (st : LteSpectrumPhy) : steady st st :=
  ⟨rfl, rfl, rfl, rfl, rfl, rfl, rfl⟩

theorem steady_trans {a b c : LteSpectrumPhy} (h1 : steady a b) (h2 : steady b c) :
    steady a c := by
  obtain ⟨a1, a2, a3, a4, a5, a6, a7⟩ := h1
  obtain ⟨b1, b2, b3, b4, b5, b6, b7⟩ := h2
  exact ⟨b1.trans a1, b2.trans a2, b3.trans a3, b4.trans a4, b5.trans a5, b6.trans a6,
    b7.trans a7⟩

theorem Steady_pure {α : Type} (a : α) : Steady (pure a : PhyM α) := by
  intro st r st1 h
  simp only [PhyM.pure_eq, PhyM.ret, Outcome.ok.injEq] at h
  rw [← h.2]
  exact steady_refl st

theorem Steady_ret {α : Type} (a : α) : Steady (PhyM.ret a) := Steady_pure a

theorem Steady_get : Steady PhyM.get := by
  intro st r st1 h
  simp only [PhyM.get, Outcome.ok.injEq] at h
  rw [← h.2]
  exact steady_refl st

theorem Steady_abortWith {α : Type} (why : Abort) : Steady (PhyM.abortWith why : PhyM α) := by
  intro st r st1 h
  simp [PhyM.abortWith] at h

theorem Steady_bind {α β : Type} {m : PhyM α} {f : α → PhyM β} (hm : Steady m)
    (hf : ∀ a, Steady (f a)) : Steady (m >>= f) := by
  intro st r st1 h
  rw [PhyM.bind_eq, PhyM.andThen_ok] at h
  obtain ⟨a, s, h1, h2⟩ := h
  exact steady_trans (hm st a s h1) (hf a s r st1 h2)

theorem Steady_ite {α : Type} {c : Prop} [Decidable c] {a b : PhyM α} (ha : Steady a)
    (hb : Steady b) : Steady (if c then a else b) := by
  split
  · exact ha
  · exact hb

theorem Steady_andThen {α β : Type} {m : PhyM α} {f : α → PhyM β} (hm : Steady m)
    (hf : ∀ a, Steady (f a)) : Steady (m.andThen f) := Steady_bind hm hf

theorem Steady_modify (f : LteSpectrumPhy → LteSpectrumPhy) (hf : ∀ s, steady s (f s)) :
    Steady (PhyM.modify f) := by
  intro st r st1 h
  simp only [PhyM.modify, Outcome.ok.injEq] at h
  rw [← h.2]
  exact hf st

theorem Steady_emit (e : PhyEvent) (he : PhyEvent.isCtrlEnd e = false) :
    Steady (PhyM.emit e) := by
  intro st r st1 h
  simp only [PhyM.emit, Outcome.ok.injEq] at h
  rw [← h.2]
  refine ⟨rfl, rfl, rfl, rfl, rfl, rfl, ?_⟩
  simp [ctrlNotifications, he]

theorem Steady_NS_ASSERT (c : Bool) (msg : String) : Steady (NS_ASSERT c msg) := by
  unfold NS_ASSERT
  split
  · exact Steady_ret ()
  · exact Steady_abortWith _

theorem Steady_NS_ABORT_MSG_IF (c : Bool) (msg : String) : Steady (NS_ABORT_MSG_IF c msg) := by
  unfold NS_ABORT_MSG_IF
  split
  · exact Steady_abortWith _
  · exact Steady_ret ()

theorem Steady_NS_FATAL_ERROR {α : Type} (msg : String) :
    Steady (NS_FATAL_ERROR msg : PhyM α) := Steady_abortWith _

theorem Steady_vectorAt {α : Type} (what : String) (v : List α) (i : Nat) :
    Steady (vectorAt what v i) := by
  unfold vectorAt
  split
  · exact Steady_pure _
  · exact Steady_abortWith _

theorem Steady_GetMeanSinr (sinr : SpectrumValue) (map : List Int) :
    Steady (GetMeanSinr sinr map) := by
  unfold GetMeanSinr
  split
  · exact Steady_pure _
  · exact Steady_abortWith _

theorem Steady_onSlHarq (c : SlHarqCall) : Steady (onSlHarq c) :=
  Steady_modify _ (fun _ => ⟨rfl, rfl, rfl, rfl, rfl, rfl, rfl⟩)

theorem Steady_setCell {α : Type} (what : String) (map : List (List α)) (row col : Nat)
    (x : α) : Steady (setCell what map row col x) := by
  unfold setCell
  refine Steady_bind (Steady_vectorAt _ _ _) (fun r => ?_)
  split
  · exact Steady_pure _
  · exact Steady_abortWith _

theorem Steady_UpdateRssiRsrpMap (env : Env) (now : Time) (sigIndex : Nat) :
    Steady (UpdateRssiRsrpMap env now sigIndex) := by
  unfold UpdateRssiRsrpMap
  repeat' first
    | exact Steady_get
    | exact Steady_pure _
    | exact Steady_abortWith _
    | exact Steady_vectorAt _ _ _
    | exact Steady_setCell _ _ _ _ _
    | exact Steady_modify _ (fun _ => ⟨rfl, rfl, rfl, rfl, rfl, rfl, rfl⟩)
    | refine Steady_bind ?_ (fun _ => ?_)
    | split

end LteSpectrumPhy
end ns3
namespace ns3
namespace LteSpectrumPhy

theorem Steady_sciTrace (env : Env) (now : Time) (msg : LteControlMessage) (v : SlCtrlVerdict)
    (error : Bool) : Steady (EndRxSlData_sciTrace env now msg v error) := by
  unfold EndRxSlData_sciTrace
  repeat' first
    | exact Steady_get
    | exact Steady_pure _
    | exact Steady_ret _
    | exact Steady_abortWith _
    | exact Steady_NS_FATAL_ERROR _
    | exact Steady_NS_ASSERT _ _
    | exact Steady_NS_ABORT_MSG_IF _ _
    | exact Steady_vectorAt _ _ _
    | exact Steady_GetMeanSinr _ _
    | exact Steady_setCell _ _ _ _ _
    | exact Steady_onSlHarq _
    | exact Steady_emit _ rfl
    | exact Steady_modify _ (fun _ => ⟨rfl, rfl, rfl, rfl, rfl, rfl, rfl⟩)
    | refine Steady_bind ?_ (fun _ => ?_)
    | refine Steady_ite ?_ ?_
    | dsimp only
    | split

theorem Steady_ctrlVerdict (env : Env) (collided : List Int) (loc : SlCtrlLocals) (i : Nat)
    (info : SlRxPacketInfo_t) (msg : LteControlMessage) :
    Steady (EndRxSlData_ctrlVerdict env collided loc i info msg) := by
  unfold EndRxSlData_ctrlVerdict
  repeat' first
    | exact Steady_get
    | exact Steady_pure _
    | exact Steady_ret _
    | exact Steady_abortWith _
    | exact Steady_NS_FATAL_ERROR _
    | exact Steady_NS_ASSERT _ _
    | exact Steady_NS_ABORT_MSG_IF _ _
    | exact Steady_vectorAt _ _ _
    | exact Steady_GetMeanSinr _ _
    | exact Steady_setCell _ _ _ _ _
    | exact Steady_onSlHarq _
    | exact Steady_emit _ rfl
    | exact Steady_modify _ (fun _ => ⟨rfl, rfl, rfl, rfl, rfl, rfl, rfl⟩)
    | refine Steady_bind ?_ (fun _ => ?_)
    | refine Steady_ite ?_ ?_
    | dsimp only
    | split

theorem Steady_ctrl (env : Env) (now : Time) (collided : List Int) (it : SlCtrlPacketInfo_t)
    (loc : SlCtrlLocals) : Steady (EndRxSlData_ctrl env now collided it loc) := by
  unfold EndRxSlData_ctrl
  repeat' first
    | exact Steady_get
    | exact Steady_pure _
    | exact Steady_ret _
    | exact Steady_abortWith _
    | exact Steady_NS_FATAL_ERROR _
    | exact Steady_NS_ASSERT _ _
    | exact Steady_NS_ABORT_MSG_IF _ _
    | exact Steady_vectorAt _ _ _
    | exact Steady_GetMeanSinr _ _
    | exact Steady_setCell _ _ _ _ _
    | exact Steady_onSlHarq _
    | exact Steady_emit _ rfl
    | exact Steady_modify _ (fun _ => ⟨rfl, rfl, rfl, rfl, rfl, rfl, rfl⟩)
    | exact Steady_ctrlVerdict _ _ _ _ _ _
    | exact Steady_sciTrace _ _ _ _ _
    | exact Steady_UpdateRssiRsrpMap _ _ _
    | refine Steady_bind ?_ (fun _ => ?_)
    | refine Steady_ite ?_ ?_
    | dsimp only
    | split

theorem Steady_ctrls (env : Env) (now : Time) (collided : List Int)
    (l : List SlCtrlPacketInfo_t) :
    ∀ loc, Steady (EndRxSlData_ctrls env now collided l loc) := by
  induction l with
  | nil => intro loc; exact Steady_pure _
  | cons it rest ih =>
    intro loc
    unfold EndRxSlData_ctrls
    exact Steady_bind (Steady_ctrl _ _ _ _ _) (fun loc1 => ih loc1)

theorem Steady_sortCtrl (window : List SlRxPacketInfo_t) :
    ∀ i sorted, Steady (EndRxSlData_sortCtrl i window sorted) := by
  induction window with
  | nil => intro i sorted; exact Steady_pure _
  | cons info rest ih =>
    intro i sorted
    unfold EndRxSlData_sortCtrl
    repeat' first
      | exact Steady_get
      | exact Steady_pure _
      | exact Steady_ret _
      | exact Steady_abortWith _
      | exact Steady_NS_FATAL_ERROR _
      | exact Steady_NS_ASSERT _ _
      | exact Steady_NS_ABORT_MSG_IF _ _
      | exact Steady_vectorAt _ _ _
      | exact Steady_GetMeanSinr _ _
      | exact Steady_setCell _ _ _ _ _
      | exact Steady_onSlHarq _
      | exact Steady_emit _ rfl
      | exact Steady_modify _ (fun _ => ⟨rfl, rfl, rfl, rfl, rfl, rfl, rfl⟩)
      | exact ih _ _
      | refine Steady_bind ?_ (fun _ => ?_)
      | refine Steady_ite ?_ ?_
      | dsimp only
      | split

theorem Steady_AddExpectedTbDisc (rnti resPsdch ndi : Nat) (map : List Int) (rv : Nat) :
    Steady (AddExpectedTbDisc rnti resPsdch ndi map rv) := by
  unfold AddExpectedTbDisc
  repeat' first
    | exact Steady_get
    | exact Steady_pure _
    | exact Steady_ret _
    | exact Steady_abortWith _
    | exact Steady_NS_FATAL_ERROR _
    | exact Steady_NS_ASSERT _ _
    | exact Steady_NS_ABORT_MSG_IF _ _
    | exact Steady_vectorAt _ _ _
    | exact Steady_GetMeanSinr _ _
    | exact Steady_setCell _ _ _ _ _
    | exact Steady_onSlHarq _
    | exact Steady_emit _ rfl
    | exact Steady_modify _ (fun _ => ⟨rfl, rfl, rfl, rfl, rfl, rfl, rfl⟩)
    | refine Steady_bind ?_ (fun _ => ?_)
    | refine Steady_ite ?_ ?_
    | dsimp only
    | split

theorem Steady_FilterRxApps (disc : SlDiscMsg) : Steady (FilterRxApps disc) := by
  unfold FilterRxApps
  repeat' first
    | exact Steady_get
    | exact Steady_pure _
    | exact Steady_ret _
    | exact Steady_abortWith _
    | exact Steady_NS_FATAL_ERROR _
    | exact Steady_NS_ASSERT _ _
    | exact Steady_NS_ABORT_MSG_IF _ _
    | exact Steady_vectorAt _ _ _
    | exact Steady_GetMeanSinr _ _
    | exact Steady_setCell _ _ _ _ _
    | exact Steady_onSlHarq _
    | exact Steady_emit _ rfl
    | exact Steady_modify _ (fun _ => ⟨rfl, rfl, rfl, rfl, rfl, rfl, rfl⟩)
    | refine Steady_bind ?_ (fun _ => ?_)
    | refine Steady_ite ?_ ?_
    | dsimp only
    | split

theorem Steady_pool (env : Env) (rbBitmap : List Int) (disc : SlDiscMsg) (pool : Nat) :
    Steady (RxDiscovery_pool env rbBitmap disc pool) := by
  unfold RxDiscovery_pool
  repeat' first
    | exact Steady_get
    | exact Steady_pure _
    | exact Steady_ret _
    | exact Steady_abortWith _
    | exact Steady_NS_FATAL_ERROR _
    | exact Steady_NS_ASSERT _ _
    | exact Steady_NS_ABORT_MSG_IF _ _
    | exact Steady_vectorAt _ _ _
    | exact Steady_GetMeanSinr _ _
    | exact Steady_setCell _ _ _ _ _
    | exact Steady_onSlHarq _
    | exact Steady_emit _ rfl
    | exact Steady_modify _ (fun _ => ⟨rfl, rfl, rfl, rfl, rfl, rfl, rfl⟩)
    | exact Steady_AddExpectedTbDisc _ _ _ _ _
    | refine Steady_bind ?_ (fun _ => ?_)
    | refine Steady_ite ?_ ?_
    | dsimp only
    | split

theorem Steady_pools (env : Env) (rbBitmap : List Int) (disc : SlDiscMsg) (pools : List Nat) :
    Steady (RxDiscovery_pools env rbBitmap disc pools) := by
  induction pools with
  | nil => exact Steady_pure _
  | cons pool rest ih =>
    unfold RxDiscovery_pools
    exact Steady_bind (Steady_pool _ _ _ _) (fun _ => ih)

theorem Steady_register (env : Env) (window : List SlRxPacketInfo_t) :
    ∀ i acc, Steady (RxDiscovery_register env i window acc) := by
  induction window with
  | nil => intro i acc; exact Steady_pure _
  | cons info rest ih =>
    intro i acc
    unfold RxDiscovery_register
    repeat' first
      | exact Steady_get
      | exact Steady_pure _
      | exact Steady_ret _
      | exact Steady_abortWith _
      | exact Steady_NS_FATAL_ERROR _
      | exact Steady_NS_ASSERT _ _
      | exact Steady_NS_ABORT_MSG_IF _ _
      | exact Steady_vectorAt _ _ _
      | exact Steady_GetMeanSinr _ _
      | exact Steady_setCell _ _ _ _ _
      | exact Steady_onSlHarq _
      | exact Steady_emit _ rfl
      | exact Steady_modify _ (fun _ => ⟨rfl, rfl, rfl, rfl, rfl, rfl, rfl⟩)
      | exact ih _ _
      | exact Steady_FilterRxApps _
      | exact Steady_pools _ _ _ _
      | refine Steady_bind ?_ (fun _ => ?_)
      | refine Steady_ite ?_ ?_
      | dsimp only
      | split

theorem Steady_discSort (index : StdMap SlDiscTbId_t Nat)
    (reg : StdMap SlDiscTbId_t SlDisctbInfo_t) :
    ∀ sorted, Steady (RxDiscovery_sort index reg sorted) := by
  induction reg with
  | nil => intro sorted; exact Steady_pure _
  | cons e rest ih =>
    intro sorted
    unfold RxDiscovery_sort
    repeat' first
      | exact Steady_get
      | exact Steady_pure _
      | exact Steady_ret _
      | exact Steady_abortWith _
      | exact Steady_NS_FATAL_ERROR _
      | exact Steady_NS_ASSERT _ _
      | exact Steady_NS_ABORT_MSG_IF _ _
      | exact Steady_vectorAt _ _ _
      | exact Steady_GetMeanSinr _ _
      | exact Steady_setCell _ _ _ _ _
      | exact Steady_onSlHarq _
      | exact Steady_emit _ rfl
      | exact Steady_modify _ (fun _ => ⟨rfl, rfl, rfl, rfl, rfl, rfl, rfl⟩)
      | exact ih _
      | refine Steady_bind ?_ (fun _ => ?_)
      | refine Steady_ite ?_ ?_
      | dsimp only
      | split

theorem Steady_discErrorModel (env : Env) (collided : List Int) (key : SlDiscTbId_t)
    (tb : SlDisctbInfo_t) (idx : Nat) (loc : DiscLocals) :
    Steady (RxDiscovery_errorModel env collided key tb idx loc) := by
  unfold RxDiscovery_errorModel
  repeat' first
    | exact Steady_get
    | exact Steady_pure _
    | exact Steady_ret _
    | exact Steady_abortWith _
    | exact Steady_NS_FATAL_ERROR _
    | exact Steady_NS_ASSERT _ _
    | exact Steady_NS_ABORT_MSG_IF _ _
    | exact Steady_vectorAt _ _ _
    | exact Steady_GetMeanSinr _ _
    | exact Steady_setCell _ _ _ _ _
    | exact Steady_onSlHarq _
    | exact Steady_emit _ rfl
    | exact Steady_modify _ (fun _ => ⟨rfl, rfl, rfl, rfl, rfl, rfl, rfl⟩)
    | refine Steady_bind ?_ (fun _ => ?_)
    | refine Steady_ite ?_ ?_
    | dsimp only
    | split

theorem Steady_discNoErrorModel (env : Env) (collided : List Int) (key : SlDiscTbId_t)
    (tb : SlDisctbInfo_t) (idx : Nat) (loc : DiscLocals) :
    Steady (RxDiscovery_noErrorModel env collided key tb idx loc) := by
  unfold RxDiscovery_noErrorModel
  repeat' first
    | exact Steady_get
    | exact Steady_pure _
    | exact Steady_ret _
    | exact Steady_abortWith _
    | exact Steady_NS_FATAL_ERROR _
    | exact Steady_NS_ASSERT _ _
    | exact Steady_NS_ABORT_MSG_IF _ _
    | exact Steady_vectorAt _ _ _
    | exact Steady_GetMeanSinr _ _
    | exact Steady_setCell _ _ _ _ _
    | exact Steady_onSlHarq _
    | exact Steady_emit _ rfl
    | exact Steady_modify _ (fun _ => ⟨rfl, rfl, rfl, rfl, rfl, rfl, rfl⟩)
    | refine Steady_bind ?_ (fun _ => ?_)
    | refine Steady_ite ?_ ?_
    | dsimp only
    | split

theorem Steady_decode (env : Env) (now : Time) (index : StdMap SlDiscTbId_t Nat)
    (collided : List Int) (it : SlCtrlPacketInfo_t) (loc : DiscLocals) :
    Steady (RxDiscovery_decode env now index collided it loc) := by
  unfold RxDiscovery_decode
  repeat' first
    | exact Steady_get
    | exact Steady_pure _
    | exact Steady_ret _
    | exact Steady_abortWith _
    | exact Steady_NS_FATAL_ERROR _
    | exact Steady_NS_ASSERT _ _
    | exact Steady_NS_ABORT_MSG_IF _ _
    | exact Steady_vectorAt _ _ _
    | exact Steady_GetMeanSinr _ _
    | exact Steady_setCell _ _ _ _ _
    | exact Steady_onSlHarq _
    | exact Steady_emit _ rfl
    | exact Steady_modify _ (fun _ => ⟨rfl, rfl, rfl, rfl, rfl, rfl, rfl⟩)
    | exact Steady_discErrorModel _ _ _ _ _ _
    | exact Steady_discNoErrorModel _ _ _ _ _ _
    | refine Steady_bind ?_ (fun _ => ?_)
    | refine Steady_ite ?_ ?_
    | dsimp only
    | split

theorem Steady_decodes (env : Env) (now : Time) (index : StdMap SlDiscTbId_t Nat)
    (collided : List Int) (l : List SlCtrlPacketInfo_t) :
    ∀ loc, Steady (RxDiscovery_decodes env now index collided l loc) := by
  induction l with
  | nil => intro loc; exact Steady_pure _
  | cons it rest ih =>
    intro loc
    unfold RxDiscovery_decodes
    exact Steady_bind (Steady_decode _ _ _ _ _ _) (fun loc1 => ih loc1)

end LteSpectrumPhy
end ns3
namespace ns3
namespace LteSpectrumPhy

theorem ctrlRbScan_conflict (decoded : List Int) (bitmap : List Int)
    (h : ∃ rb ∈ bitmap, rb ∈ decoded) :
    ctrlRbScan [] decoded bitmap = { corrupt := true, first := false, conflict := true } := by
  induction bitmap with
  | nil => simp at h
  | cons rb rest ih =>
    by_cases hrb : rb ∈ decoded
    · simp [ctrlRbScan, hrb]
    · have : ∃ rb ∈ rest, rb ∈ decoded := by
        obtain ⟨x, hx, hd⟩ := h
        rcases List.mem_cons.1 hx with rfl | hx1
        · exact absurd hd hrb
        · exact ⟨x, hx1, hd⟩
      simp [ctrlRbScan, hrb, ih this]

theorem ctrlVerdict_conflict (env : Env) (loc : SlCtrlLocals) (i : Nat)
    (info : SlRxPacketInfo_t) (msg : LteControlMessage) (st st1 : LteSpectrumPhy)
    (v : SlCtrlVerdict) (hem : st.m_slCtrlErrorModelEnabled = true)
    (hov : ∃ rb ∈ info.rbBitmap, rb ∈ loc.rbDecodedBitmap)
    (h : EndRxSlData_ctrlVerdict env [] loc i info msg st = .ok v st1) :
    v.conflict = true := by
  have hs := ctrlRbScan_conflict loc.rbDecodedBitmap info.rbBitmap hov
  simp [EndRxSlData_ctrlVerdict, PhyM.bind_eq, PhyM.andThen, PhyM.get, hem, hs, PhyM.pure_eq,
    PhyM.ret] at h
  rw [← h.1]

/-- One pass of the control message loop, with the control error model enabled and no block
dropped on collision: either the decoded list and the decoded blocks are unchanged, or the
message of the entry is appended and its blocks, none of which was decoded before, are added
to the decoded blocks. -/
theorem EndRxSlData_ctrl_capture (env : Env) (now : Time) (it : SlCtrlPacketInfo_t)
    (loc loc1 : SlCtrlLocals) (st st1 : LteSpectrumPhy)
    (hem : st.m_slCtrlErrorModelEnabled = true)
    (h : EndRxSlData_ctrl env now [] it loc st = .ok loc1 st1) :
    (loc1.rxControlMessageOkList = loc.rxControlMessageOkList
        ∧ loc1.rbDecodedBitmap = loc.rbDecodedBitmap)
      ∨ ∃ info msg, info ∈ st.m_rxPacketInfo ∧ info.m_rxControlMessage = some msg
          ∧ loc1.rxControlMessageOkList = loc.rxControlMessageOkList ++ [msg]
          ∧ loc1.rbDecodedBitmap = loc.rbDecodedBitmap ++ info.rbBitmap
          ∧ ∀ rb ∈ info.rbBitmap, rb ∉ loc.rbDecodedBitmap := by
  unfold EndRxSlData_ctrl at h
  simp only [PhyM.bind_eq, PhyM.andThen_ok, PhyM.get_ok] at h
  obtain ⟨w, s0, ⟨e0a, e0b⟩, info, s1, h1, h⟩ := h
  subst e0a e0b
  obtain ⟨rfl, hinfo⟩ := vectorAt_ok _ _ _ _ _ _ h1
  cases hm : info.m_rxControlMessage with
  | none => rw [hm] at h; simp [PhyM.abortWith] at h
  | some msg =>
    rw [hm] at h
    simp only [PhyM.bind_eq, PhyM.andThen_ok, PhyM.get_ok] at h
    obtain ⟨v, s2, hv, _, s3, h3, l1, s4, h4, _, s5, h5, w2, s6, h6, _, s7, h7, h8⟩ := h
    simp only [PhyM.pure_eq, PhyM.ret, Outcome.ok.injEq] at h8
    obtain ⟨rfl, -⟩ := h8
    by_cases hd : (!v.weakSignal && !v.conflict) = true
    · rw [if_pos hd] at h4
      simp only [PhyM.bind_eq, PhyM.andThen_ok, PhyM.pure_eq, PhyM.ret, Outcome.ok.injEq] at h4
      obtain ⟨_, t, -, rfl, -⟩ := h4
      right
      refine ⟨info, msg, List.mem_iff_getElem?.2 ⟨_, hinfo⟩, hm, rfl, rfl, ?_⟩
      intro rb hrb hdec
      have hc := ctrlVerdict_conflict env loc _ info msg s1 s2 v hem ⟨rb, hrb, hdec⟩ hv
      simp [hc] at hd
    · rw [if_neg hd] at h4
      simp only [PhyM.pure_eq, PhyM.ret, Outcome.ok.injEq] at h4
      obtain ⟨rfl, -⟩ := h4
      left
      exact ⟨rfl, rfl⟩

end LteSpectrumPhy
end ns3
namespace ns3
namespace LteSpectrumPhy

theorem Outcome.eq_ok_of_returned (o : Outcome Unit) (h : o.returned = true) :
    o = .ok () o.state := by
  cases o with
  | ok r st => rfl
  | abort why st => simp [Outcome.returned] at h

/-- The decoded list and the decoded blocks of the control message loop come from entries of
the window with pairwise disjoint resource-block sets. -/
theorem EndRxSlData_ctrls_capture (env : Env) (now : Time) (l : List SlCtrlPacketInfo_t) :
    ∀ (loc loc1 : SlCtrlLocals) (st st1 : LteSpectrumPhy) (D : List SlRxPacketInfo_t),
      st.m_slCtrlErrorModelEnabled = true →
      EndRxSlData_ctrls env now [] l loc st = .ok loc1 st1 →
      (∀ d ∈ D, d ∈ st.m_rxPacketInfo) →
      D.map (fun d => d.m_rxControlMessage) = loc.rxControlMessageOkList.map some →
      List.Pairwise (fun a b => ∀ rb ∈ a.rbBitmap, rb ∉ b.rbBitmap) D →
      (∀ d ∈ D, ∀ rb ∈ d.rbBitmap, rb ∈ loc.rbDecodedBitmap) →
      decodedDisjointly st.m_rxPacketInfo loc1.rxControlMessageOkList := by
  induction l with
  | nil =>
    intro loc loc1 st st1 D _ h hD1 hD2 hD3 _
    simp only [EndRxSlData_ctrls, PhyM.pure_eq, PhyM.ret, Outcome.ok.injEq] at h
    rw [← h.1]
    exact ⟨D, hD1, hD2, hD3⟩
  | cons it rest ih =>
    intro loc loc1 st st1 D hem h hD1 hD2 hD3 hD4
    simp only [EndRxSlData_ctrls, PhyM.bind_eq, PhyM.andThen_ok] at h
    obtain ⟨loc2, s2, hstep, hrest⟩ := h
    have hst := Steady_ctrl env now [] it loc st loc2 s2 hstep
    have hem2 : s2.m_slCtrlErrorModelEnabled = true := by rw [hst.2.1]; exact hem
    have hwin : s2.m_rxPacketInfo = st.m_rxPacketInfo := hst.1
    rcases EndRxSlData_ctrl_capture env now it loc loc2 st s2 hem hstep with
      ⟨e1, e2⟩ | ⟨info, msg, hi, hm, e1, e2, hfree⟩
    · have := ih loc2 loc1 s2 st1 D hem2 hrest (by rw [hwin]; exact hD1) (by rw [e1]; exact hD2)
        hD3 (by rw [e2]; exact hD4)
      rw [hwin] at this
      exact this
    · have := ih loc2 loc1 s2 st1 (D ++ [info]) hem2 hrest
        (by
          rw [hwin]
          intro d hd
          rcases List.mem_append.1 hd with h1 | h1
          · exact hD1 d h1
          · rw [List.mem_singleton.1 h1]; exact hi)
        (by rw [e1]; simp [hD2, hm])
        (by
          rw [List.pairwise_append]
          refine ⟨hD3, List.pairwise_singleton _ _, ?_⟩
          intro a ha b hb rb hrb hrb2
          rw [List.mem_singleton.1 hb] at hrb2
          exact hfree rb hrb2 (hD4 a ha rb hrb))
        (by
          rw [e2]
          intro d hd rb hrb
          rcases List.mem_append.1 hd with h1 | h1
          · exact List.mem_append_left _ (hD4 d h1 rb hrb)
          · rw [List.mem_singleton.1 h1] at hrb
            exact List.mem_append_right _ hrb)
      rw [hwin] at this
      exact this

/-- The control part of `EndRxSlData`, taken apart: the sorted sequence, the locals the loop
ends with, and the notifications of the report. -/
theorem EndRxSlData_control_ok (env : Env) (now : Time) (st st1 : LteSpectrumPhy)
    (h : EndRxSlData_control env now st = .ok () st1) :
    ∃ (sorted : List SlCtrlPacketInfo_t) (loc : SlCtrlLocals) (s2 : LteSpectrumPhy),
      EndRxSlData_sortCtrl 0 st.m_rxPacketInfo [] st = .ok sorted st
        ∧ EndRxSlData_ctrls env now
            (if st.m_dropRbOnCollisionEnabled then
              collidedRbsBreak
                (sorted.map (fun it => (st.m_rxPacketInfo.getD it.index.toNat {}).rbBitmap))
            else []) sorted {} st = .ok loc s2
        ∧ st1 = { s2 with log := s2.log ++
            (if loc.ctrlMessageFound then
              if !loc.error then
                if st.m_ltePhyRxCtrlEndOkCallback then
                  [.ltePhyRxCtrlEndOkCallback loc.rxControlMessageOkList]
                else []
              else
                if st.m_ltePhyRxCtrlEndErrorCallback then [.ltePhyRxCtrlEndErrorCallback]
                else []
            else []) } := by
  unfold EndRxSlData_control at h
  simp only [PhyM.bind_eq, PhyM.andThen_ok, PhyM.get_ok] at h
  obtain ⟨w, s0, ⟨e0a, e0b⟩, sorted, s1, h1, loc, s2, h2, h3⟩ := h
  subst e0a e0b
  obtain ⟨rfl, -, -⟩ := EndRxSlData_sortCtrl_ok s0.m_rxPacketInfo 0 [] sorted s0 s1 h1
    List.Pairwise.nil (by simp)
  refine ⟨sorted, loc, s2, h1, h2, ?_⟩
  by_cases hf : loc.ctrlMessageFound = true <;> by_cases he : loc.error = true <;>
    by_cases ho : s1.m_ltePhyRxCtrlEndOkCallback = true <;>
    by_cases hr : s1.m_ltePhyRxCtrlEndErrorCallback = true <;>
    simp [hf, he, ho, hr, PhyM.emit, PhyM.pure_eq, PhyM.ret] at h3 ⊢ <;>
    first | exact h3.symm | (rw [← h3])

end LteSpectrumPhy
end ns3
namespace ns3

open LteSpectrumPhy in
/-- C15 as stated fails: with the control error model disabled (and no block dropped on
collision) two SCI messages received on the same resource block are both handed to the
control-OK callback. -/
theorem C15_counterexample :
    exampleOverlapWindow.m_dropRbOnCollisionEnabled = false
      ∧ ∃ st1 msgs, EndRxSlData_control exampleEnv 0 exampleOverlapWindow = .ok () st1
          ∧ ctrlNotifications st1.log
              = ctrlNotifications exampleOverlapWindow.log ++ [.ltePhyRxCtrlEndOkCallback msgs]
          ∧ ¬ decodedDisjointly exampleOverlapWindow.m_rxPacketInfo msgs := by
  refine ⟨rfl, (EndRxSlData_control exampleEnv 0 exampleOverlapWindow).state,
    [{ uid := 42, m_type := .SCI, sciRnti := 2 }, { uid := 41, m_type := .SCI, sciRnti := 1 }],
    Outcome.eq_ok_of_returned _ (by decide!), by decide!, ?_⟩
  rintro ⟨D, hmem, hmap, hpw⟩
  have hlen : D.length = 2 := by
    have := congrArg List.length hmap
    simpa using this
  cases D with
  | nil => simp at hlen
  | cons d1 t =>
    cases t with
    | nil => simp at hlen
    | cons d2 t2 =>
      cases t2 with
      | cons d3 t3 => simp at hlen
      | nil =>
        simp only [List.map_cons, List.map_nil, List.cons.injEq, and_true] at hmap
        obtain ⟨h1, h2⟩ := hmap
        have m1 := hmem d1 (by simp)
        have m2 := hmem d2 (by simp)
        simp only [exampleOverlapWindow, List.mem_cons, List.mem_singleton, List.not_mem_nil,
          or_false] at m1 m2
        have hp := (List.pairwise_cons.1 hpw).1 d2 (by simp)
        rcases m1 with rfl | rfl <;> rcases m2 with rfl | rfl <;> simp at h1 h2 hp

open LteSpectrumPhy in
/-- C15, amended: with the sidelink control error model enabled and drop-on-collision
disabled, the messages the control part of `EndRxSlData` hands to the control-OK callback
come from entries of the window with pairwise disjoint resource-block sets: a message
sharing a block with a message decoded before it is not decoded. -/
theorem C15_capture_policy (env : Env) (now : Time) (st st1 : LteSpectrumPhy)
    (hem : st.m_slCtrlErrorModelEnabled = true)
    (hdrop : st.m_dropRbOnCollisionEnabled = false)
    (h : EndRxSlData_control env now st = .ok () st1) :
    ∃ A, ctrlNotifications st1.log = ctrlNotifications st.log ++ A
      ∧ ∀ msgs, PhyEvent.ltePhyRxCtrlEndOkCallback msgs ∈ A →
          decodedDisjointly st.m_rxPacketInfo msgs := by
  obtain ⟨sorted, loc, s2, -, h2, h3⟩ := EndRxSlData_control_ok env now st st1 h
  rw [hdrop] at h2
  simp only [Bool.false_eq_true, if_false] at h2
  have hst := Steady_ctrls env now [] sorted {} st loc s2 h2
  have hcap := EndRxSlData_ctrls_capture env now sorted {} loc st s2 [] hem h2
    (by simp) rfl List.Pairwise.nil (by simp)
  refine ⟨ctrlNotifications
    (if loc.ctrlMessageFound then
      if !loc.error then
        if st.m_ltePhyRxCtrlEndOkCallback then
          [.ltePhyRxCtrlEndOkCallback loc.rxControlMessageOkList]
        else []
      else
        if st.m_ltePhyRxCtrlEndErrorCallback then [.ltePhyRxCtrlEndErrorCallback]
        else []
    else []), ?_, ?_⟩
  · rw [h3, ← hst.2.2.2.2.2.2]
    simp [ctrlNotifications]
  · intro msgs hmsgs
    have hin := List.mem_of_mem_filter hmsgs
    split_ifs at hin <;> simp at hin
    rw [hin]
    exact hcap

open LteSpectrumPhy in
theorem C15_capture_policy_witness :
    ∃ A, ctrlNotifications
          (EndRxSlData_control exampleEnv 0
            { exampleOverlapWindow with m_slCtrlErrorModelEnabled := true }).state.log
        = ctrlNotifications
            ({ exampleOverlapWindow with m_slCtrlErrorModelEnabled := true } : LteSpectrumPhy).log
          ++ A
      ∧ ∀ msgs, PhyEvent.ltePhyRxCtrlEndOkCallback msgs ∈ A →
          decodedDisjointly
            ({ exampleOverlapWindow with m_slCtrlErrorModelEnabled := true }
              : LteSpectrumPhy).m_rxPacketInfo msgs :=
  C15_capture_policy exampleEnv 0 { exampleOverlapWindow with m_slCtrlErrorModelEnabled := true }
    _ rfl rfl (Outcome.eq_ok_of_returned _ (by decide!))

end ns3

/-! ## The reports of a sidelink window -/

namespace ns3
namespace LteSpectrumPhy

theorem Steady_onInterferenceSl (f : LteSlInterference → Except Abort LteSlInterference) :
    Steady (onInterferenceSl f) := by
  intro st r st1 h
  obtain ⟨i, hi⟩ := onInterferenceSl_ok f st st1 h
  rw [hi]
  exact ⟨rfl, rfl, rfl, rfl, rfl, rfl, rfl⟩

theorem Steady_sinrIndex (window : List SlRxPacketInfo_t) :
    ∀ i m, Steady (EndRxSlData_sinrIndex i window m) := by
  induction window with
  | nil => intro i m; exact Steady_pure _
  | cons info rest ih =>
    intro i m
    unfold EndRxSlData_sinrIndex
    repeat' first
      | exact Steady_get
      | exact Steady_pure _
      | exact Steady_ret _
      | exact Steady_abortWith _
      | exact Steady_NS_FATAL_ERROR _
      | exact Steady_NS_ASSERT _ _
      | exact Steady_NS_ABORT_MSG_IF _ _
      | exact Steady_vectorAt _ _ _
      | exact Steady_GetMeanSinr _ _
      | exact Steady_onSlHarq _
      | exact Steady_emit _ rfl
      | exact Steady_modify _ (fun _ => ⟨rfl, rfl, rfl, rfl, rfl, rfl, rfl⟩)
      | exact ih _ _
      | refine Steady_bind ?_ (fun _ => ?_)
      | refine Steady_ite ?_ ?_
      | dsimp only
      | split

theorem Steady_tb (env : Env) (now : Time) (index : StdMap SlTbId_t Nat) (collided : List Int)
    (done rest : StdMap SlTbId_t SltbInfo_t) (e : SlTbId_t × SltbInfo_t) :
    Steady (EndRxSlData_tb env now index collided done e rest) := by
  unfold EndRxSlData_tb
  repeat' first
    | exact Steady_get
    | exact Steady_pure _
    | exact Steady_ret _
    | exact Steady_abortWith _
    | exact Steady_NS_FATAL_ERROR _
    | exact Steady_NS_ASSERT _ _
    | exact Steady_NS_ABORT_MSG_IF _ _
    | exact Steady_vectorAt _ _ _
    | exact Steady_GetMeanSinr _ _
    | exact Steady_onSlHarq _
    | exact Steady_emit _ rfl
    | exact Steady_modify _ (fun _ => ⟨rfl, rfl, rfl, rfl, rfl, rfl, rfl⟩)
    | refine Steady_bind ?_ (fun _ => ?_)
    | refine Steady_ite ?_ ?_
    | dsimp only
    | split

theorem Steady_tbs (env : Env) (now : Time) (index : StdMap SlTbId_t Nat) (collided : List Int)
    (todo : StdMap SlTbId_t SltbInfo_t) :
    ∀ done, Steady (EndRxSlData_tbs env now index collided done todo) := by
  induction todo with
  | nil => intro done; exact Steady_pure _
  | cons e rest ih =>
    intro done
    unfold EndRxSlData_tbs
    exact Steady_bind (Steady_tb _ _ _ _ _ _ _) (fun _ => ih _)

theorem Steady_packet (env : Env) (p : Packet) : Steady (EndRxSlData_packet env p) := by
  unfold EndRxSlData_packet
  repeat' first
    | exact Steady_get
    | exact Steady_pure _
    | exact Steady_ret _
    | exact Steady_abortWith _
    | exact Steady_NS_FATAL_ERROR _
    | exact Steady_NS_ASSERT _ _
    | exact Steady_NS_ABORT_MSG_IF _ _
    | exact Steady_vectorAt _ _ _
    | exact Steady_GetMeanSinr _ _
    | exact Steady_onSlHarq _
    | exact Steady_emit _ rfl
    | exact Steady_modify _ (fun _ => ⟨rfl, rfl, rfl, rfl, rfl, rfl, rfl⟩)
    | refine Steady_bind ?_ (fun _ => ?_)
    | refine Steady_ite ?_ ?_
    | dsimp only
    | split

theorem Steady_packets (env : Env) (ps : List Packet) : Steady (EndRxSlData_packets env ps) := by
  induction ps with
  | nil => exact Steady_pure _
  | cons p rest ih =>
    unfold EndRxSlData_packets
    exact Steady_bind (Steady_packet _ _) (fun _ => ih)

theorem Steady_data (env : Env) (now : Time) : Steady (EndRxSlData_data env now) := by
  unfold EndRxSlData_data UpdateSlSinrPerceived UpdateSlSigPerceived UpdateSlIntPerceived
  repeat' first
    | exact Steady_get
    | exact Steady_pure _
    | exact Steady_ret _
    | exact Steady_abortWith _
    | exact Steady_NS_FATAL_ERROR _
    | exact Steady_NS_ASSERT _ _
    | exact Steady_NS_ABORT_MSG_IF _ _
    | exact Steady_vectorAt _ _ _
    | exact Steady_GetMeanSinr _ _
    | exact Steady_onSlHarq _
    | exact Steady_emit _ rfl
    | exact Steady_modify _ (fun _ => ⟨rfl, rfl, rfl, rfl, rfl, rfl, rfl⟩)
    | exact Steady_onInterferenceSl _
    | exact Steady_sinrIndex _ _ _
    | exact Steady_tbs _ _ _ _ _ _
    | exact Steady_packets _ _
    | refine Steady_bind ?_ (fun _ => ?_)
    | refine Steady_ite ?_ ?_
    | dsimp only
    | split

end LteSpectrumPhy
end ns3
namespace ns3
namespace LteSpectrumPhy

/-- One pass of the control message loop sets `ctrlMessageFound`, and either leaves the error
flag and the decoded list as they are or clears the flag and appends a message. -/
theorem EndRxSlData_ctrl_flags (env : Env) (now : Time) (collided : List Int)
    (it : SlCtrlPacketInfo_t) (loc loc1 : SlCtrlLocals) (st st1 : LteSpectrumPhy)
    (h : EndRxSlData_ctrl env now collided it loc st = .ok loc1 st1) :
    loc1.ctrlMessageFound = true
      ∧ ((loc1.error = loc.error ∧ loc1.rxControlMessageOkList = loc.rxControlMessageOkList)
        ∨ (loc1.error = false
            ∧ ∃ msg, loc1.rxControlMessageOkList = loc.rxControlMessageOkList ++ [msg])) := by
  unfold EndRxSlData_ctrl at h
  simp only [PhyM.bind_eq, PhyM.andThen_ok, PhyM.get_ok] at h
  obtain ⟨w, s0, ⟨e0a, e0b⟩, info, s1, h1, h⟩ := h
  subst e0a e0b
  cases hm : info.m_rxControlMessage with
  | none => rw [hm] at h; simp [PhyM.abortWith] at h
  | some msg =>
    rw [hm] at h
    simp only [PhyM.bind_eq, PhyM.andThen_ok, PhyM.get_ok] at h
    obtain ⟨v, s2, hv, _, s3, h3, l1, s4, h4, _, s5, h5, w2, s6, h6, _, s7, h7, h8⟩ := h
    simp only [PhyM.pure_eq, PhyM.ret, Outcome.ok.injEq] at h8
    obtain ⟨rfl, -⟩ := h8
    by_cases hd : (!v.weakSignal && !v.conflict) = true
    · rw [if_pos hd] at h4
      simp only [PhyM.bind_eq, PhyM.andThen_ok, PhyM.pure_eq, PhyM.ret, Outcome.ok.injEq] at h4
      obtain ⟨_, t, -, rfl, -⟩ := h4
      exact ⟨rfl, Or.inr ⟨rfl, msg, rfl⟩⟩
    · rw [if_neg hd] at h4
      simp only [PhyM.pure_eq, PhyM.ret, Outcome.ok.injEq] at h4
      obtain ⟨rfl, -⟩ := h4
      exact ⟨rfl, Or.inl ⟨rfl, rfl⟩⟩

theorem EndRxSlData_ctrls_flags (env : Env) (now : Time) (collided : List Int)
    (l : List SlCtrlPacketInfo_t) :
    ∀ (loc loc1 : SlCtrlLocals) (st st1 : LteSpectrumPhy),
      EndRxSlData_ctrls env now collided l loc st = .ok loc1 st1 →
      (loc.error = true ↔ loc.rxControlMessageOkList = []) →
      (loc1.ctrlMessageFound = true ↔ (l ≠ [] ∨ loc.ctrlMessageFound = true))
        ∧ (loc1.error = true ↔ loc1.rxControlMessageOkList = []) := by
  induction l with
  | nil =>
    intro loc loc1 st st1 h hinv
    simp only [EndRxSlData_ctrls, PhyM.pure_eq, PhyM.ret, Outcome.ok.injEq] at h
    rw [← h.1]
    exact ⟨by simp, hinv⟩
  | cons it rest ih =>
    intro loc loc1 st st1 h hinv
    simp only [EndRxSlData_ctrls, PhyM.bind_eq, PhyM.andThen_ok] at h
    obtain ⟨loc2, s2, hstep, hrest⟩ := h
    obtain ⟨hf, hcase⟩ := EndRxSlData_ctrl_flags env now collided it loc loc2 st s2 hstep
    have hinv2 : loc2.error = true ↔ loc2.rxControlMessageOkList = [] := by
      rcases hcase with ⟨e1, e2⟩ | ⟨e1, msg, e2⟩
      · rw [e1, e2]; exact hinv
      · rw [e1, e2]; simp
    obtain ⟨i1, i2⟩ := ih loc2 loc1 s2 st1 hrest hinv2
    refine ⟨?_, i2⟩
    rw [i1]
    simp [hf]

theorem ctrlMessagesOf_eq_nil (sinrs : List SpectrumValue) (window : List SlRxPacketInfo_t) :
    ∀ i, ctrlMessagesOf sinrs i window = [] ↔ ¬ hasCtrlMessage window := by
  induction window with
  | nil => intro i; simp [ctrlMessagesOf, hasCtrlMessage]
  | cons info rest ih =>
    intro i
    have hcons : hasCtrlMessage (info :: rest)
        ↔ (∃ msg, info.m_rxControlMessage = some msg ∧ msg.GetMessageType ≠ .SL_DISC_MSG)
          ∨ hasCtrlMessage rest := by
      unfold hasCtrlMessage
      constructor
      · rintro ⟨x, hx, msg, h1, h2⟩
        rcases List.mem_cons.1 hx with rfl | hx1
        · exact Or.inl ⟨msg, h1, h2⟩
        · exact Or.inr ⟨x, hx1, msg, h1, h2⟩
      · rintro (⟨msg, h1, h2⟩ | ⟨x, hx, msg, h1, h2⟩)
        · exact ⟨info, List.mem_cons_self _ _, msg, h1, h2⟩
        · exact ⟨x, List.mem_cons_of_mem _ hx, msg, h1, h2⟩
    rw [hcons]
    cases hm : info.m_rxControlMessage with
    | none => simp [ctrlMessagesOf, hm, ih]
    | some msg =>
      by_cases ht : msg.GetMessageType = .SL_DISC_MSG
      · simp [ctrlMessagesOf, hm, ht, ih]
      · simp [ctrlMessagesOf, hm, ht]

/-- The report of the control part of `EndRxSlData`. -/
theorem EndRxSlData_control_report (env : Env) (now : Time) (st st1 : LteSpectrumPhy)
    (h : EndRxSlData_control env now st = .ok () st1) :
    ∃ A, ctrlNotifications st1.log = ctrlNotifications st.log ++ A
      ∧ atMostOneReport (hasCtrlMessage st.m_rxPacketInfo) st.m_ltePhyRxCtrlEndOkCallback
          st.m_ltePhyRxCtrlEndErrorCallback A
      ∧ st1.m_rxPacketInfo = st.m_rxPacketInfo
      ∧ st1.m_ltePhyRxCtrlEndOkCallback = st.m_ltePhyRxCtrlEndOkCallback
      ∧ st1.m_ltePhyRxCtrlEndErrorCallback = st.m_ltePhyRxCtrlEndErrorCallback := by
  obtain ⟨sorted, loc, s2, h1, h2, h3⟩ := EndRxSlData_control_ok env now st st1 h
  obtain ⟨-, -, hperm⟩ := EndRxSlData_sortCtrl_ok st.m_rxPacketInfo 0 [] sorted st st h1
    List.Pairwise.nil (by simp)
  have hst := Steady_ctrls env now _ sorted {} st loc s2 h2
  obtain ⟨hfound, herr⟩ := EndRxSlData_ctrls_flags env now _ sorted {} loc st s2 h2 (by simp)
  have hsorted : sorted ≠ [] ↔ hasCtrlMessage st.m_rxPacketInfo := by
    rw [List.nil_append] at hperm
    have := ctrlMessagesOf_eq_nil st.m_slSinrPerceived st.m_rxPacketInfo 0
    constructor
    · intro hne
      by_contra hno
      exact hne (List.Perm.eq_nil (this.2 hno ▸ hperm))
    · intro hhas hnil
      rw [hnil] at hperm
      exact (this.1 (List.Perm.nil_eq hperm).symm) hhas
  have hfound2 : loc.ctrlMessageFound = true ↔ hasCtrlMessage st.m_rxPacketInfo := by
    rw [hfound, ← hsorted]
    simp
  obtain ⟨w1, w2, w3, w4, w5, w6, w7⟩ := hst
  subst h3
  by_cases hf : loc.ctrlMessageFound = true
  · have hhas := hfound2.1 hf
    by_cases he : loc.error = true
    · by_cases hcb : st.m_ltePhyRxCtrlEndErrorCallback = true
      · refine ⟨[.ltePhyRxCtrlEndErrorCallback], ?_, ⟨Or.inr (Or.inl rfl), ?_, ?_⟩, w1, w5, w6⟩
        · simp [ctrlNotifications, hf, he, hcb, PhyEvent.isCtrlEnd] at w7 ⊢
          exact w7
        · intro hno; exact absurd hhas hno
        · intro _ _ _; simp
      · refine ⟨[], ?_, ⟨Or.inl rfl, ?_, ?_⟩, w1, w5, w6⟩
        · simp [ctrlNotifications, hf, he, hcb] at w7 ⊢
          exact w7
        · intro _; rfl
        · intro _ _ h3; exact absurd h3 hcb
    · have hne : loc.rxControlMessageOkList ≠ [] := fun hnil => he (herr.2 hnil)
      by_cases hcb : st.m_ltePhyRxCtrlEndOkCallback = true
      · refine ⟨[.ltePhyRxCtrlEndOkCallback loc.rxControlMessageOkList], ?_,
          ⟨Or.inr (Or.inr ⟨_, hne, rfl⟩), ?_, ?_⟩, w1, w5, w6⟩
        · simp [ctrlNotifications, hf, he, hcb, PhyEvent.isCtrlEnd] at w7 ⊢
          exact w7
        · intro hno; exact absurd hhas hno
        · intro _ _ _; simp
      · refine ⟨[], ?_, ⟨Or.inl rfl, ?_, ?_⟩, w1, w5, w6⟩
        · simp [ctrlNotifications, hf, he, hcb] at w7 ⊢
          exact w7
        · intro _; rfl
        · intro _ h2 _; exact absurd h2 hcb
  · have hno : ¬ hasCtrlMessage st.m_rxPacketInfo := fun hh => hf (hfound2.2 hh)
    refine ⟨[], ?_, ⟨Or.inl rfl, fun _ => rfl, fun hh => absurd hh hno⟩, w1, w5, w6⟩
    simp [ctrlNotifications, hf] at w7 ⊢
    exact w7

end LteSpectrumPhy
end ns3
namespace ns3
namespace LteSpectrumPhy

theorem hasDiscMessage_cons (info : SlRxPacketInfo_t) (rest : List SlRxPacketInfo_t) :
    hasDiscMessage (info :: rest)
      ↔ (∃ msg, info.m_rxControlMessage = some msg ∧ msg.GetMessageType = .SL_DISC_MSG)
        ∨ hasDiscMessage rest := by
  unfold hasDiscMessage
  constructor
  · rintro ⟨x, hx, msg, h1, h2⟩
    rcases List.mem_cons.1 hx with rfl | hx1
    · exact Or.inl ⟨msg, h1, h2⟩
    · exact Or.inr ⟨x, hx1, msg, h1, h2⟩
  · rintro (⟨msg, h1, h2⟩ | ⟨x, hx, msg, h1, h2⟩)
    · exact ⟨info, List.mem_cons_self _ _, msg, h1, h2⟩
    · exact ⟨x, List.mem_cons_of_mem _ hx, msg, h1, h2⟩

/-- The first loop of `RxDiscovery` reports a discovery message exactly when the window holds
one. -/
theorem RxDiscovery_register_found (env : Env) (window : List SlRxPacketInfo_t) :
    ∀ (i : Nat) (acc r : Bool × StdMap SlDiscTbId_t Nat) (st st1 : LteSpectrumPhy),
      RxDiscovery_register env i window acc st = .ok r st1 →
      (r.1 = true ↔ (acc.1 = true ∨ hasDiscMessage window)) := by
  induction window with
  | nil =>
    intro i acc r st st1 h
    simp only [RxDiscovery_register, PhyM.pure_eq, PhyM.ret, Outcome.ok.injEq] at h
    rw [← h.1]
    simp [hasDiscMessage]
  | cons info rest ih =>
    intro i acc r st st1 h
    rw [hasDiscMessage_cons]
    unfold RxDiscovery_register at h
    cases hm : info.m_rxControlMessage with
    | none =>
      rw [hm] at h
      simp only at h
      rw [ih _ _ _ _ _ h]
      simp
    | some msg =>
      rw [hm] at h
      simp only at h
      by_cases ht : msg.GetMessageType = .SL_DISC_MSG
      · rw [if_pos ht] at h
        simp only [PhyM.bind_eq, PhyM.andThen_ok] at h
        obtain ⟨_, s1, -, exist, s2, -, h⟩ := h
        have hright : (acc.1 = true ∨
            (∃ m, some msg = some m ∧ m.GetMessageType = .SL_DISC_MSG) ∨ hasDiscMessage rest) :=
          Or.inr (Or.inl ⟨msg, rfl, ht⟩)
        cases exist with
        | true =>
          simp only [if_true, PhyM.bind_eq, PhyM.andThen_ok, PhyM.get_ok] at h
          obtain ⟨_, _, -, _, s4, -, h⟩ := h
          have := (ih _ _ _ _ _ h).2 (Or.inl rfl)
          exact ⟨fun _ => hright, fun _ => this⟩
        | false =>
          simp only [Bool.false_eq_true, if_false] at h
          have := (ih _ _ _ _ _ h).2 (Or.inl rfl)
          exact ⟨fun _ => hright, fun _ => this⟩
      · rw [if_neg ht] at h
        rw [ih _ _ _ _ _ h]
        simp [ht]

/-- The report of `RxDiscovery`. -/
theorem RxDiscovery_report (env : Env) (now : Time) (st st1 : LteSpectrumPhy)
    (h : RxDiscovery env now st = .ok () st1) :
    ∃ B, ctrlNotifications st1.log = ctrlNotifications st.log ++ B
      ∧ atMostOneReport (hasDiscMessage st.m_rxPacketInfo) st.m_ltePhyRxCtrlEndOkCallback
          st.m_ltePhyRxCtrlEndErrorCallback B := by
  unfold RxDiscovery at h
  simp only [PhyM.bind_eq, PhyM.andThen_ok, PhyM.get_ok] at h
  obtain ⟨w, s0, ⟨e0a, e0b⟩, r, s1, h1, h⟩ := h
  subst e0a e0b
  obtain ⟨found, index⟩ := r
  simp only [PhyM.bind_eq, PhyM.andThen_ok, PhyM.get_ok] at h
  obtain ⟨w1, s1', ⟨e1a, e1b⟩, sorted, s2, h2, loc, s3, h3, h4⟩ := h
  subst e1a e1b
  have hfound := RxDiscovery_register_found env s0.m_rxPacketInfo 0 (false, []) _ s0 s1' h1
  simp only [Bool.false_eq_true, false_or] at hfound
  have st1a := Steady_register env s0.m_rxPacketInfo 0 (false, []) s0 _ s1' h1
  have st2 := Steady_discSort index s1'.m_expectedDiscTbs .leaf s1' sorted s2 h2
  have st3 := Steady_decodes env now index _ sorted {} s2 loc s3 h3
  obtain ⟨-, -, -, -, w5, w6, w7⟩ := steady_trans st1a (steady_trans st2 st3)
  have hok5 : s1'.m_ltePhyRxCtrlEndOkCallback = s0.m_ltePhyRxCtrlEndOkCallback := st1a.2.2.2.2.1
  have hok6 : s1'.m_ltePhyRxCtrlEndErrorCallback = s0.m_ltePhyRxCtrlEndErrorCallback :=
    st1a.2.2.2.2.2.1
  rw [hok5, hok6] at h4
  by_cases hf : found = true
  · have hhas := hfound.1 hf
    rw [if_pos hf] at h4
    by_cases hl : loc.rxDiscMessageOkList.length > 0
    · rw [if_pos hl] at h4
      have hne : loc.rxDiscMessageOkList ≠ [] := List.length_pos.1 hl
      by_cases hcb : s0.m_ltePhyRxCtrlEndOkCallback = true
      · rw [if_pos hcb] at h4
        simp only [PhyM.emit, Outcome.ok.injEq, true_and] at h4
        subst h4
        refine ⟨[.ltePhyRxCtrlEndOkCallback loc.rxDiscMessageOkList], ?_,
          Or.inr (Or.inr ⟨_, hne, rfl⟩), fun hno => absurd hhas hno, fun _ _ _ => by simp⟩
        simp [ctrlNotifications, PhyEvent.isCtrlEnd] at w7 ⊢
        exact w7
      · rw [if_neg hcb] at h4
        simp [NS_FATAL_ERROR, PhyM.abortWith] at h4
    · rw [if_neg hl] at h4
      by_cases hcb : s0.m_ltePhyRxCtrlEndErrorCallback = true
      · rw [if_pos hcb] at h4
        simp only [PhyM.emit, Outcome.ok.injEq, true_and] at h4
        subst h4
        refine ⟨[.ltePhyRxCtrlEndErrorCallback], ?_,
          Or.inr (Or.inl rfl), fun hno => absurd hhas hno, fun _ _ _ => by simp⟩
        simp [ctrlNotifications, PhyEvent.isCtrlEnd] at w7 ⊢
        exact w7
      · rw [if_neg hcb] at h4
        simp only [PhyM.pure_eq, PhyM.ret, Outcome.ok.injEq, true_and] at h4
        subst h4
        refine ⟨[], by simpa using w7, Or.inl rfl, fun _ => rfl,
          fun _ _ h3 => absurd h3 hcb⟩
  · have hno : ¬ hasDiscMessage s0.m_rxPacketInfo := fun hh => hf (hfound.2 hh)
    rw [if_neg hf] at h4
    simp only [PhyM.pure_eq, PhyM.ret, Outcome.ok.injEq, true_and] at h4
    subst h4
    exact ⟨[], by simpa using w7, Or.inl rfl, fun _ => rfl, fun hh => absurd hh hno⟩

end LteSpectrumPhy
end ns3
namespace ns3

open LteSpectrumPhy in
/-- C16 as stated fails: a window that holds an SCI message and a discovery message, both
decoded, ends with two decoded-list notifications, one from the control part of
`EndRxSlData` and one from `RxDiscovery`. -/
theorem C16_counterexample :
    ∃ st1, EndRxSlData exampleEnvDiscovery 0 exampleMixedWindow = .ok () st1
      ∧ ctrlNotifications st1.log
          = ctrlNotifications exampleMixedWindow.log
            ++ [.ltePhyRxCtrlEndOkCallback [{ uid := 41, m_type := .SCI, sciRnti := 1 }],
                .ltePhyRxCtrlEndOkCallback [exampleDiscMessage]] :=
  ⟨(EndRxSlData exampleEnvDiscovery 0 exampleMixedWindow).state,
    Outcome.eq_ok_of_returned _ (by decide!), by decide!⟩

end ns3

/-! ## The noise floor set twice, and the window of a single signal -/

namespace ns3
namespace LteSlInterference

/-- A second `SetNoisePowerSpectralDensity` with the same spectrum, at any time, returns the
state the first one left. -/
theorem SetNoisePowerSpectralDensity_again (now now2 : Time) (p : SpectrumValue)
    (st s1 : LteSlInterference) (h : SetNoisePowerSpectralDensity now p st = .ok s1) :
    SetNoisePowerSpectralDensity now2 p s1 = .ok s1 := by
  obtain ⟨h1, h2, h3, h4, -⟩ := SetNoisePowerSpectralDensity_ok now p st s1 h
  cases s1
  simp only at h1 h2 h3 h4
  subst h1 h2 h3 h4
  simp [SetNoisePowerSpectralDensity, ConditionallyEvaluateChunk, bind, Except.bind, pure,
    Except.pure]

/-- The running sum `0 + S`, less the signal `S`, plus the noise `N` is `N`. -/
theorem svAdd_svSub_zero (S N : SpectrumValue) (h : S.length = N.length) :
    svAdd (svSub (svAdd (svZeroLike N) S) S) N = N := by
  unfold svAdd svSub svZeroLike
  induction N generalizing S with
  | nil => simp
  | cons n ns ih =>
    cases S with
    | nil => simp at h
    | cons s ss =>
      simp only [List.length_cons, List.replicate_succ, List.zipWith_cons_cons, List.cons.injEq]
      refine ⟨by ring, ih ss ?_⟩
      simpa using h

theorem getD_svDiv (S N : SpectrumValue) (h : S.length = N.length) (i : Nat) :
    (svDiv S N).getD i 0 = S.getD i 0 / N.getD i 0 := by
  unfold svDiv
  induction N generalizing S i with
  | nil =>
    cases S with
    | nil => simp
    | cons s ss => simp at h
  | cons n ns ih =>
    cases S with
    | nil => simp at h
    | cons s ss =>
      cases i with
      | zero => simp
      | succ j =>
        simp only [List.zipWith_cons_cons, List.getD_cons_succ]
        exact ih ss (by simpa using h) j

end LteSlInterference

open LteSlInterference in
/-- C21. `SetNoisePowerSpectralDensity` is idempotent on the accumulator: for every state,
every spectrum `p` and every two call times, the call made twice in a row ends exactly as the
call made once (the same state in every field, or the same failure when the first call stops
on an unset pointer); hence every run of calls made afterwards, with the SINR values it
dispatches, is the same; and whenever the first call returns, the second returns the very
state the first one left. -/
theorem C21_set_noise_idempotent (now now2 : Time) (p : SpectrumValue)
    (st : LteSlInterference) (cs : List (Time × SlInterferenceCall)) :
    (SetNoisePowerSpectralDensity now p st >>= SetNoisePowerSpectralDensity now2 p)
        = SetNoisePowerSpectralDensity now p st
      ∧ (SetNoisePowerSpectralDensity now p st >>= SetNoisePowerSpectralDensity now2 p
            >>= calls cs)
          = (SetNoisePowerSpectralDensity now p st >>= calls cs)
      ∧ ((st.m_receiving = false ∨ now ≤ st.m_lastChangeTime
            ∨ (st.m_allSignals ≠ none ∧ st.m_noise ≠ none)) →
          ∃ s1, SetNoisePowerSpectralDensity now p st = .ok s1
            ∧ SetNoisePowerSpectralDensity now2 p s1 = .ok s1
            ∧ s1.m_noise = some p ∧ s1.m_allSignals = some (svZeroLike p)
            ∧ s1.m_receiving = false
            ∧ s1.m_lastSignalIdBeforeReset = s1.m_lastSignalId) := by
  have key : (SetNoisePowerSpectralDensity now p st >>= SetNoisePowerSpectralDensity now2 p)
      = SetNoisePowerSpectralDensity now p st := by
    cases h : SetNoisePowerSpectralDensity now p st with
    | error e => rfl
    | ok s1 =>
      show SetNoisePowerSpectralDensity now2 p s1 = _
      exact SetNoisePowerSpectralDensity_again now now2 p st s1 h
  refine ⟨key, by rw [key], ?_⟩
  intro hpre
  obtain ⟨s0, hs0⟩ := ConditionallyEvaluateChunk_returns now st hpre
  have hret : ∃ s1, SetNoisePowerSpectralDensity now p st = .ok s1 := by
    unfold SetNoisePowerSpectralDensity
    rw [hs0]
    exact ⟨_, rfl⟩
  obtain ⟨s1, h1⟩ := hret
  obtain ⟨g1, g2, g3, g4, -⟩ := SetNoisePowerSpectralDensity_ok now p st s1 h1
  exact ⟨s1, h1, SetNoisePowerSpectralDensity_again now now2 p st s1 h1, g1, g2, g3, g4⟩

open LteSlInterference in
theorem C21_set_noise_idempotent_witness :
    ∃ s1, SetNoisePowerSpectralDensity 5 [3] exampleAccumulator = .ok s1
      ∧ SetNoisePowerSpectralDensity 9 [3] s1 = .ok s1
      ∧ s1.m_noise = some [3] ∧ s1.m_allSignals = some (svZeroLike [3])
      ∧ s1.m_receiving = false
      ∧ s1.m_lastSignalIdBeforeReset = s1.m_lastSignalId :=
  (C21_set_noise_idempotent 5 9 [3] exampleAccumulator []).2.2 (Or.inl rfl)

open LteSlInterference in
/-- C22. Single-signal window: the noise floor is `N`, non-zero on every resource block, the
running sum holds nothing, and one signal `S` over the same blocks is added and received at
`t0`.  Whether the window is evaluated by `EndRx` at a later time `t1` or by the scheduled
`DoSubtractSignal` that runs just before it, the one chunk dispatched for the signal (index
0, duration `t1 - t0`) carries the interference `N` itself, the SINR `S / N` and the SNR
`S / N`, block by block, and the received power `S`; `EndRx` then ends the window. -/
theorem C22_single_signal_sinr (st0 : LteSlInterference) (N S : SpectrumValue)
    (duration t0 t1 : Time) (signalId : Nat)
    (hidle : st0.m_receiving = false) (hA : st0.m_allSignals = some (svZeroLike N))
    (hN : st0.m_noise = some N) (hlen : S.length = N.length) (hnz : ∀ x ∈ N, x ≠ 0)
    (ht : t0 < t1) :
    ∃ st1 st2 st3, deliver t0 (S, duration) st0 = .ok st1
      ∧ EndRx t1 st1 = .ok st2
      ∧ st2.log = st1.log
          ++ (st0.m_sinrChunkProcessorList.map
                (fun p => SlInterferenceEvent.evaluateChunk .sinr p 0 (svDiv S N) (t1 - t0))
              ++ st0.m_snrChunkProcessorList.map
                (fun p => SlInterferenceEvent.evaluateChunk .snr p 0 (svDiv S N) (t1 - t0))
              ++ st0.m_interfChunkProcessorList.map
                (fun p => SlInterferenceEvent.evaluateChunk .interf p 0 N (t1 - t0))
              ++ st0.m_rsPowerChunkProcessorList.map
                (fun p => SlInterferenceEvent.evaluateChunk .rsPower p 0 S (t1 - t0)))
          ++ finishEvents st0
      ∧ st2.m_receiving = false
      ∧ DoSubtractSignal t1 S signalId st1 = .ok st3
      ∧ st3.log = st1.log
          ++ (st0.m_sinrChunkProcessorList.map
                (fun p => SlInterferenceEvent.evaluateChunk .sinr p 0 (svDiv S N) (t1 - t0))
              ++ st0.m_snrChunkProcessorList.map
                (fun p => SlInterferenceEvent.evaluateChunk .snr p 0 (svDiv S N) (t1 - t0))
              ++ st0.m_interfChunkProcessorList.map
                (fun p => SlInterferenceEvent.evaluateChunk .interf p 0 N (t1 - t0))
              ++ st0.m_rsPowerChunkProcessorList.map
                (fun p => SlInterferenceEvent.evaluateChunk .rsPower p 0 S (t1 - t0)))
      ∧ EndRx t1 st3 = .ok { st3 with m_receiving := false, log := st3.log ++ finishEvents st0 }
      ∧ (svDiv S N).length = N.length
      ∧ ∀ i, i < N.length →
          (svDiv S N).getD i 0 = S.getD i 0 / N.getD i 0 ∧ N.getD i 0 ≠ 0 := by
  obtain ⟨st1, h1, hr, htime, hA1, hrx, hn1, hp1, hp2, hp3, hp4⟩ :=
    deliver_ok t0 (S, duration) st0 (svZeroLike N) hA (by simp [hidle])
  rw [hidle] at hrx
  simp only [Bool.false_eq_true, if_false, List.nil_append] at hrx
  have hN1 : st1.m_noise = some N := hn1.trans hN
  have hI := svAdd_svSub_zero S N hlen
  obtain ⟨sC, hchunk, hlogC, hrC, htC, hfinC, hAC⟩ : ∃ sC, ConditionallyEvaluateChunk t1 st1 = .ok sC
      ∧ sC.log = st1.log
          ++ (st0.m_sinrChunkProcessorList.map
                (fun p => SlInterferenceEvent.evaluateChunk .sinr p 0 (svDiv S N) (t1 - t0))
              ++ st0.m_snrChunkProcessorList.map
                (fun p => SlInterferenceEvent.evaluateChunk .snr p 0 (svDiv S N) (t1 - t0))
              ++ st0.m_interfChunkProcessorList.map
                (fun p => SlInterferenceEvent.evaluateChunk .interf p 0 N (t1 - t0))
              ++ st0.m_rsPowerChunkProcessorList.map
                (fun p => SlInterferenceEvent.evaluateChunk .rsPower p 0 S (t1 - t0)))
      ∧ sC.m_receiving = true ∧ sC.m_lastChangeTime = t1
      ∧ finishEvents sC = finishEvents st0
      ∧ sC.m_allSignals = some (svAdd (svZeroLike N) S) := by
    refine ⟨{ st1 with
        log := st1.log ++ evaluateFrom st1 (svAdd (svZeroLike N) S) N (t1 - t0) 0 [S]
        m_lastChangeTime := t1 }, ?_, ?_, hr, rfl, ?_, hA1⟩
    · simp [ConditionallyEvaluateChunk, hr, hrx, hA1, hN1, htime, ht]
    · simp [evaluateFrom, chunkEvents, hI, hp1, hp2, hp3, hp4]
    · simp [finishEvents, hp1, hp2, hp3, hp4]
  have hsub : ∃ st3, DoSubtractSignal t1 S signalId st1 = .ok st3 ∧ st3.log = sC.log
      ∧ st3.m_receiving = true ∧ st3.m_lastChangeTime = t1
      ∧ finishEvents st3 = finishEvents st0 := by
    simp only [DoSubtractSignal, hchunk, bind, Except.bind, pure, Except.pure, hAC]
    split
    · exact ⟨_, rfl, rfl, hrC, htC, hfinC⟩
    · exact ⟨_, rfl, rfl, hrC, htC, hfinC⟩
  obtain ⟨st3, hs3, hlog3, hr3, ht3, hfin3⟩ := hsub
  refine ⟨st1, { sC with m_receiving := false, log := sC.log ++ finishEvents sC }, st3, h1, ?_,
    ?_, rfl, hs3, ?_, ?_, ?_, ?_⟩
  · simp only [EndRx, hr, ne_eq, not_true_eq_false, if_false, hchunk, bind, Except.bind, pure,
      Except.pure]
  · simp only [hlogC, hfinC]
  · rw [hlog3, hlogC]
  · simp [EndRx, hr3, ConditionallyEvaluateChunk, ht3, bind, Except.bind, pure, Except.pure,
      hfin3]
  · simp [svDiv, hlen]
  · intro i hi
    refine ⟨getD_svDiv S N hlen i, ?_⟩
    rw [List.getD_eq_getElem _ _ hi]
    exact hnz _ (List.getElem_mem _)

open LteSlInterference in
theorem C22_single_signal_sinr_witness :
    ∃ st1 st2 st3, deliver 0 ([6], 10) exampleNoiseOnlyAccumulator = .ok st1
      ∧ EndRx 10 st1 = .ok st2
      ∧ st2.log = st1.log
          ++ ([7].map (fun p => SlInterferenceEvent.evaluateChunk .sinr p 0 (svDiv [6] [2]) (10 - 0))
              ++ [9].map (fun p => SlInterferenceEvent.evaluateChunk .snr p 0 (svDiv [6] [2]) (10 - 0))
              ++ [8].map (fun p => SlInterferenceEvent.evaluateChunk .interf p 0 [2] (10 - 0))
              ++ [6].map (fun p => SlInterferenceEvent.evaluateChunk .rsPower p 0 [6] (10 - 0)))
          ++ finishEvents exampleNoiseOnlyAccumulator
      ∧ st2.m_receiving = false
      ∧ DoSubtractSignal 10 [6] 1 st1 = .ok st3
      ∧ st3.log = st1.log
          ++ ([7].map (fun p => SlInterferenceEvent.evaluateChunk .sinr p 0 (svDiv [6] [2]) (10 - 0))
              ++ [9].map (fun p => SlInterferenceEvent.evaluateChunk .snr p 0 (svDiv [6] [2]) (10 - 0))
              ++ [8].map (fun p => SlInterferenceEvent.evaluateChunk .interf p 0 [2] (10 - 0))
              ++ [6].map (fun p => SlInterferenceEvent.evaluateChunk .rsPower p 0 [6] (10 - 0)))
      ∧ EndRx 10 st3
          = .ok { st3 with m_receiving := false,
                           log := st3.log ++ finishEvents exampleNoiseOnlyAccumulator }
      ∧ (svDiv [6] [2]).length = [(2 : ℚ)].length
      ∧ ∀ i, i < [(2 : ℚ)].length →
          (svDiv [6] [2]).getD i 0 = ([6] : SpectrumValue).getD i 0 / ([2] : SpectrumValue).getD i 0
            ∧ ([2] : SpectrumValue).getD i 0 ≠ 0 :=
  C22_single_signal_sinr exampleNoiseOnlyAccumulator [2] [6] 10 0 10 1 rfl rfl rfl rfl
    (by simp) (by decide)

end ns3

/-! ## Sidelink reception while transmitting, and the order of control messages -/

namespace ns3

open LteSpectrumPhy in
/-- C27 as stated fails: with full duplex disabled, `StartRxSlData` called in state TX_DATA
is no fatal error; the call returns and leaves the device as it was. -/
theorem C27_counterexample :
    exampleTxDataPhy.m_ctrlFullDuplexEnabled = false
      ∧ exampleTxDataPhy.m_state = .TX_DATA
      ∧ StartRxSlData 0 exampleSlSignal exampleTxDataPhy = .ok exampleSlSignal exampleTxDataPhy
      ∧ (StartRxSlData 0 exampleSlSignal exampleTxDataPhy).isFatal = false := by
  exact ⟨rfl, rfl, rfl, rfl⟩

open LteSpectrumPhy in
/-- C27, amended: with `CtrlFullDuplexEnabled` false, `StartRxSlData` called while the device
is in state TX_DL_CTRL or TX_UL_SRS ends the run with the fatal error "cannot RX while TX",
the device untouched; called in state TX_DATA it returns at once, the signal ignored and the
device untouched. -/
theorem C27_sidelink_rx_while_tx (now : Time) (p : LteSpectrumSignalParametersSlFrame)
    (st : LteSpectrumPhy) (hfd : st.m_ctrlFullDuplexEnabled = false) :
    (st.m_state = .TX_DL_CTRL ∨ st.m_state = .TX_UL_SRS →
        StartRxSlData now p st = .abort (.fatalError "cannot RX while TX") st
          ∧ (StartRxSlData now p st).isFatal = true)
      ∧ (st.m_state = .TX_DATA → StartRxSlData now p st = .ok p st) := by
  constructor
  · intro hs
    rcases hs with hs | hs <;>
      simp [StartRxSlData, PhyM.bind_eq, PhyM.andThen, PhyM.get, hs, NS_FATAL_ERROR,
        PhyM.abortWith, Outcome.isFatal]
  · intro hs
    simp [StartRxSlData, PhyM.bind_eq, PhyM.andThen, PhyM.get, hs, hfd, PhyM.pure_eq, PhyM.ret]

open LteSpectrumPhy in
theorem C27_sidelink_rx_while_tx_witness :
    (StartRxSlData 0 exampleSlSignal { exampleTxDataPhy with m_state := .TX_UL_SRS }
        = .abort (.fatalError "cannot RX while TX")
            { exampleTxDataPhy with m_state := .TX_UL_SRS }
      ∧ (StartRxSlData 0 exampleSlSignal
          { exampleTxDataPhy with m_state := .TX_UL_SRS }).isFatal = true)
      ∧ StartRxSlData 0 exampleSlSignal exampleTxDataPhy
          = .ok exampleSlSignal exampleTxDataPhy :=
  ⟨(C27_sidelink_rx_while_tx 0 exampleSlSignal { exampleTxDataPhy with m_state := .TX_UL_SRS }
      rfl).1 (Or.inr rfl),
   (C27_sidelink_rx_while_tx 0 exampleSlSignal exampleTxDataPhy rfl).2 rfl⟩

namespace LteSpectrumPhy

/-- Wherever the first index is not the smaller one, `operator<` is the order "descending
SINR, ascending index among equal SINR". -/
theorem lt_iff_precedes_of_index_ge (a b : ns3.SlCtrlPacketInfo_t) (hidx : b.index ≤ a.index) :
    ns3.SlCtrlPacketInfo_t.lt a b = true ↔ SlCtrlPacketInfo_t.precedes a b := by
  simp only [ns3.SlCtrlPacketInfo_t.lt, SlCtrlPacketInfo_t.precedes, Bool.or_eq_true,
    decide_eq_true_eq]
  constructor
  · rintro (h | h)
    · exact Or.inl h
    · omega
  · rintro (h | ⟨-, h⟩)
    · exact Or.inl h
    · omega

end LteSpectrumPhy

open LteSpectrumPhy in
/-- C30: `operator<` of `SlCtrlPacketInfo_t` holds exactly when the first SINR is greater or
the first index is smaller.  At the pair (SINR 1, index 0), (SINR 2, index 1) it holds in
both directions, although the first element has the smaller SINR: it is neither asymmetric
nor the order "descending SINR, ascending index among equal SINR". -/
theorem C30_operator_lt_not_strict_weak :
    SlCtrlPacketInfo_t.lt { sinr := 1, index := 0 } { sinr := 2, index := 1 } = true
      ∧ SlCtrlPacketInfo_t.lt { sinr := 2, index := 1 } { sinr := 1, index := 0 } = true
      ∧ ¬ SlCtrlPacketInfo_t.precedes { sinr := 1, index := 0 } { sinr := 2, index := 1 }
      ∧ (∀ a b : ns3.SlCtrlPacketInfo_t,
          SlCtrlPacketInfo_t.lt a b = true ↔ (a.sinr > b.sinr ∨ a.index < b.index)) := by
  refine ⟨by simp [SlCtrlPacketInfo_t.lt], by simp [SlCtrlPacketInfo_t.lt],
    by simp [SlCtrlPacketInfo_t.precedes], ?_⟩
  intro a b
  simp [SlCtrlPacketInfo_t.lt]

end ns3

/-! ## A block-error rate of zero -/

namespace ns3
namespace LteSpectrumPhy

theorem decodedFrom_keys (env : Env) (sinr : SpectrumValue) (harq : List HarqCall)
    (l : StdMap TbId_t tbInfo_t) :
    ∀ pos, (decodedFrom env sinr harq pos l).map Prod.fst = l.map Prod.fst := by
  induction l with
  | nil => intro pos; rfl
  | cons e rest ih => intro pos; simp [decodedFrom, decoded, ih]

/-- After the error model loop, with the error model enabled and a burst received, the
descriptor found under the identity of the descriptor at position `k` is that descriptor as
decoded with draw number `k`. -/
theorem EndRxData_errorModel_find (env : Env) (now : Time) (st st1 : LteSpectrumPhy)
    (k : Nat) (e : TbId_t × tbInfo_t)
    (hwf : StdMap.WF TbId_t.lt st.m_expectedTbs)
    (hk : st.m_expectedTbs[k]? = some e)
    (hgate : st.m_dataErrorModelEnabled = true ∧ st.m_rxPacketBurstList.length > 0)
    (h : EndRxData_errorModel env now st = .ok () st1) :
    StdMap.find TbId_t.lt e.1 st1.m_expectedTbs
      = some (decoded env st1.m_sinrPerceived st.m_harqPhyModule
          (env.random (st.m_random + k)) e) := by
  obtain ⟨st3, hloop, h1, h2, h3, h4, h5, _⟩ := EndRxData_errorModel_ok env now st st1 h
  have hgate3 : st3.m_dataErrorModelEnabled = true ∧ st3.m_rxPacketBurstList.length > 0 := by
    rw [h4, h5]; exact hgate
  obtain ⟨k1, -, k3, -⟩ :=
    EndRxData_tbs_on env now st.m_expectedTbs [] st3 st1 hgate3 (by simp [h1]) hloop
  simp only [List.nil_append] at k1
  obtain ⟨hlt, hget⟩ := List.getElem?_eq_some_iff.1 hk
  have hel := getElem_decodedFrom env st3.m_sinrPerceived st3.m_harqPhyModule
    st.m_expectedTbs st3.m_random k hlt (by rw [length_decodedFrom]; exact hlt)
  rw [hget] at hel
  have hmem : decoded env st3.m_sinrPerceived st3.m_harqPhyModule
      (env.random (st3.m_random + k)) e ∈ st1.m_expectedTbs := by
    rw [k1, ← hel]
    exact List.getElem_mem _
  have hwf1 : StdMap.WF TbId_t.lt st1.m_expectedTbs := by
    rw [StdMap.WF_iff_keys, k1, decodedFrom_keys, ← StdMap.WF_iff_keys]
    exact hwf
  have := StdMap.find_of_mem tbId_keyOrder st1.m_expectedTbs hwf1 _ hmem
  rw [k3, ← h3, ← h2]
  exact this

end LteSpectrumPhy

open LteSpectrumPhy in
/-- C23 as stated fails: with an error model that returns block-error rate 0 and the draw 0,
a value of the interval `[0, 1)`, the descriptor is corrupted: the packet gets the error
notification and the downlink feedback is NACK. -/
theorem C23_counterexample :
    tblerOf exampleEnvZeroDraw [] [] ({ m_rnti := 1, m_layer := 0 }, { downlink := true }) = 0
      ∧ (0 ≤ exampleEnvZeroDraw.random 0 ∧ exampleEnvZeroDraw.random 0 < 1)
      ∧ ∃ st2, EndRxData exampleEnvZeroDraw 0 exampleRxPhy = .ok () st2
          ∧ packetNotifications st2.log = [.phyRxEndErrorTrace examplePacket]
          ∧ dlFeedbacks st2.log
              = [{ m_rnti := 1, m_harqProcessId := 0, m_harqStatus := [.NACK] }] := by
  refine ⟨by simp [tblerOf, exampleEnvZeroDraw, exampleEnvClean],
    by simp [exampleEnvZeroDraw], (EndRxData exampleEnvZeroDraw 0 exampleRxPhy).state,
    Outcome.eq_ok_of_returned _ (by decide!), by decide!, by decide!⟩

open LteSpectrumPhy in
/-- C23, amended: when `EndRxData` returns with the data error model enabled and a burst
received, a descriptor for which the error model returns block-error rate 0 and whose draw is
greater than 0 is left with corrupted = false.  Every received packet carrying its (RNTI,
layer) tag gets the success notification (and the data-OK callback when that is set); the
uplink feedback record the function sends for it is `Ok` and its entry in the downlink
feedback record is `ACK`.  (A draw equal to 0 marks the descriptor corrupted.) -/
theorem C23_zero_bler_positive_draw (env : Env) (now : Time) (st st1 st2 : LteSpectrumPhy)
    (k : Nat) (e : TbId_t × tbInfo_t)
    (hwf : StdMap.WF TbId_t.lt st.m_expectedTbs)
    (hk : st.m_expectedTbs[k]? = some e)
    (hgate : st.m_dataErrorModelEnabled = true ∧ st.m_rxPacketBurstList.length > 0)
    (h1 : EndRxData_errorModel env now st = .ok () st1)
    (h : EndRxData env now st = .ok () st2)
    (hbler : tblerOf env st1.m_sinrPerceived st.m_harqPhyModule e = 0)
    (hdraw : 0 < env.random (st.m_random + k)) :
    verdict st1.m_expectedTbs e.1 = some false
      ∧ packetNotifications st2.log
          = packetNotifications st.log
            ++ st.m_rxPacketBurstList.flatten.flatMap
                (notificationSpec st1.m_expectedTbs st.m_ltePhyRxDataEndOkCallback)
      ∧ (∀ p : Packet, tbIdOf p = e.1 →
          notificationSpec st1.m_expectedTbs st.m_ltePhyRxDataEndOkCallback p
            = if st.m_ltePhyRxDataEndOkCallback then
                [.phyRxEndOkTrace p, .ltePhyRxDataEndOkCallback p]
              else [.phyRxEndOkTrace p])
      ∧ ulFeedbacks st2.log = ulFeedbacks st.log ++
          (if st.m_ltePhyUlHarqFeedbackCallback then
            ulFeedbackSpec st1.m_expectedTbs
              (pendingKeys st1.m_expectedTbs st.m_rxPacketBurstList.flatten)
          else [])
      ∧ (∀ r ∈ ulFeedbackSpec st1.m_expectedTbs
            ((pendingKeys st1.m_expectedTbs st.m_rxPacketBurstList.flatten).filter
              (fun key => decide (key = e.1))),
          r = { m_rnti := e.1.m_rnti, m_tpc := 0, m_receptionStatus := .Ok })
      ∧ dlFeedbacks st2.log = dlFeedbacks st.log ++
          (if st.m_ltePhyDlHarqFeedbackCallback then
            (dlAggregate st.m_layersNum st1.m_expectedTbs
              (pendingKeys st1.m_expectedTbs st.m_rxPacketBurstList.flatten) []).map Prod.snd
          else [])
      ∧ (∀ r ∈ dlAggregate st.m_layersNum st1.m_expectedTbs
            (pendingKeys st1.m_expectedTbs st.m_rxPacketBurstList.flatten) [],
          r.2.m_harqStatus = dlStatusSpec st1.m_expectedTbs st.m_layersNum
            (pendingKeys st1.m_expectedTbs st.m_rxPacketBurstList.flatten) r.1)
      ∧ (∀ keys, dlStatusAt st1.m_expectedTbs keys e.1.m_rnti e.1.m_layer = .ACK) := by
  have hfind := EndRxData_errorModel_find env now st st1 k e hwf hk hgate h1
  have hv : verdict st1.m_expectedTbs e.1 = some false := by
    simp only [verdict, hfind, Option.map_some', decoded, hbler, Option.some.injEq,
      decide_eq_false_iff_not, not_le]
    exact hdraw
  obtain ⟨st1', st1b, h1', h2, h3⟩ := EndRxData_ok env now st st2 h
  have hst : st1' = st1 := by
    rw [h1] at h1'
    simp only [Outcome.ok.injEq, true_and] at h1'
    exact h1'.symm
  subst hst
  obtain ⟨calls, sinr, pos, reg, added, hst1, hshape, hadded, -⟩ :=
    EndRxData_errorModel_shape env now st st1' h1
  have hd := EndRxData_deliver_notifications st1' st1b h2
  obtain ⟨hu, hdl⟩ := EndRxData_deliver_harq st1' st1b h2
  obtain ⟨ha1, ha2⟩ := feedbacks_of_receptionTraces added hadded
  have hlog : packetNotifications st1'.log = packetNotifications st.log := by
    rw [hst1]
    simp only [packetNotifications, List.filter_append]
    have : added.filter PhyEvent.isPacketNotification = [] := by
      rw [List.filter_eq_nil_iff]
      intro ev hev
      have := hadded ev hev
      cases ev <;> simp_all [PhyEvent.isReceptionTrace, PhyEvent.isPacketNotification]
    rw [this]
    simp
  have hb : st1'.m_rxPacketBurstList = st.m_rxPacketBurstList := by rw [hst1]
  have hcb : st1'.m_ltePhyRxDataEndOkCallback = st.m_ltePhyRxDataEndOkCallback := by rw [hst1]
  have hL : st1'.m_layersNum = st.m_layersNum := by rw [hst1]
  have hcu : st1'.m_ltePhyUlHarqFeedbackCallback = st.m_ltePhyUlHarqFeedbackCallback := by
    rw [hst1]
  have hcd : st1'.m_ltePhyDlHarqFeedbackCallback = st.m_ltePhyDlHarqFeedbackCallback := by
    rw [hst1]
  have hlu : ulFeedbacks st1'.log = ulFeedbacks st.log := by
    rw [hst1]
    show ulFeedbacks (st.log ++ added) = _
    rw [ulFeedbacks_append, ha1, List.append_nil]
  have hld : dlFeedbacks st1'.log = dlFeedbacks st.log := by
    rw [hst1]
    show dlFeedbacks (st.log ++ added) = _
    rw [dlFeedbacks_append, ha2, List.append_nil]
  have hlog2 : st2.log = st1b.log := by rw [h3]
  rw [hb, hcu, hlu] at hu
  rw [hb, hL, hcd, hld] at hdl
  rw [hb, hcb, hlog] at hd
  refine ⟨hv, by rw [hlog2, hd], ?_, by rw [hlog2, hu], ?_, by rw [hlog2, hdl], ?_, ?_⟩
  · intro p hp
    simp only [notificationSpec, hp, hv]
  · intro r hr
    simp only [ulFeedbackSpec, List.mem_map, List.mem_filter, decide_eq_true_eq] at hr
    obtain ⟨key, ⟨⟨-, hkey⟩, -⟩, rfl⟩ := hr
    subst hkey
    simp [hv]
  · intro r hr
    exact ((dlAggregate_spec st1'.m_expectedTbs st.m_layersNum _).2.1 r hr).2.1
  · intro keys
    simp [dlStatusAt, hv]

open LteSpectrumPhy in
theorem C23_zero_bler_positive_draw_witness :
    verdict (EndRxData_errorModel exampleEnvClean 0 exampleRxPhy).state.m_expectedTbs
        { m_rnti := 1, m_layer := 0 } = some false
      ∧ notificationSpec (EndRxData_errorModel exampleEnvClean 0 exampleRxPhy).state.m_expectedTbs
          exampleRxPhy.m_ltePhyRxDataEndOkCallback examplePacket
        = (if exampleRxPhy.m_ltePhyRxDataEndOkCallback then
            [.phyRxEndOkTrace examplePacket, .ltePhyRxDataEndOkCallback examplePacket]
          else [.phyRxEndOkTrace examplePacket])
      ∧ dlStatusAt (EndRxData_errorModel exampleEnvClean 0 exampleRxPhy).state.m_expectedTbs
          [{ m_rnti := 1, m_layer := 0 }] 1 0 = .ACK :=
  have w := C23_zero_bler_positive_draw exampleEnvClean 0 exampleRxPhy
    (EndRxData_errorModel exampleEnvClean 0 exampleRxPhy).state
    (EndRxData exampleEnvClean 0 exampleRxPhy).state 0
    ({ m_rnti := 1, m_layer := 0 }, { downlink := true })
    (List.pairwise_singleton _ _) rfl ⟨rfl, by decide⟩
    (Outcome.eq_ok_of_returned _ (by decide!)) (Outcome.eq_ok_of_returned _ (by decide!))
    (by simp [tblerOf, exampleEnvClean]) (by simp [exampleEnvClean, exampleEnv])
  ⟨w.1, w.2.2.1 examplePacket rfl, w.2.2.2.2.2.2.2 [{ m_rnti := 1, m_layer := 0 }]⟩

end ns3

/-! ## The HARQ table at the end of a data window -/

namespace ns3
namespace LteSpectrumPhy

theorem EndRxData_feedback_table (tbId : TbId_t) (info : tbInfo_t)
    (m m1 : StdMap Nat DlInfoListElement_s) (st st1 : LteSpectrumPhy)
    (h : EndRxData_feedback tbId info m st = .ok m1 st1) :
    st1.m_harqPhyModule
        = st.m_harqPhyModule ++ (if info.harqFeedbackSent then [] else [harqTouch tbId info])
      ∧ (info.harqFeedbackSent = false → info.corrupt = true →
          info.mcs < EffectiveCodingRate.length) := by
  unfold EndRxData_feedback at h
  cases hs : info.harqFeedbackSent with
  | true =>
    simp [PhyM.pure_eq, PhyM.ret, hs] at h
    obtain ⟨_, h⟩ := h
    subst h
    simp
  | false =>
    simp only [hs, Bool.not_false, if_true, PhyM.bind_eq, PhyM.andThen_ok] at h
    obtain ⟨_, st2, hmod, h⟩ := h
    have hst2 : st2.m_harqPhyModule = st.m_harqPhyModule
        ∧ st2.m_layersNum = st.m_layersNum := by
      simp only [PhyM.modify, Outcome.ok.injEq, true_and] at hmod
      subst hmod
      exact ⟨rfl, rfl⟩
    have hrange : ∀ rate, EffectiveCodingRate[info.mcs]? = some rate →
        info.mcs < EffectiveCodingRate.length ∧ EffectiveCodingRate.getD info.mcs 0 = rate := by
      intro rate hr
      obtain ⟨hlt, hget⟩ := List.getElem?_eq_some_iff.1 hr
      exact ⟨hlt, by rw [List.getD_eq_getElem _ _ hlt, hget]⟩
    cases hd : info.downlink with
    | false =>
      simp only [hd, Bool.not_false, if_true, PhyM.bind_eq, PhyM.andThen_ok, PhyM.pure_eq,
        PhyM.ret_ok] at h
      obtain ⟨_, st3, hul, _, hst3⟩ := h
      subst hst3
      unfold EndRxData_ulFeedback at hul
      cases hc : info.corrupt <;> cases hcb : st2.m_ltePhyUlHarqFeedbackCallback <;>
        cases hr : EffectiveCodingRate[info.mcs]? <;>
        simp [PhyM.bind_eq, PhyM.pure_eq, PhyM.andThen, PhyM.ret, PhyM.get, PhyM.modify,
          PhyM.emit, PhyM.abortWith, onHarq, hc, hcb, hr] at hul <;>
        subst hul <;>
        simp [harqTouch, hc, hd, hst2.1] <;>
        exact ⟨by simp [hr], (hrange _ hr).1⟩
    | true =>
      simp only [hd, Bool.not_true, if_false, Bool.false_eq_true] at h
      unfold EndRxData_dlFeedback at h
      cases hf : StdMap.find natLt tbId.m_rnti m with
      | none =>
        cases hc : info.corrupt <;> cases hr : EffectiveCodingRate[info.mcs]? <;>
          by_cases hl : tbId.m_layer < st2.m_layersNum <;>
          simp [PhyM.bind_eq, PhyM.pure_eq, PhyM.andThen, PhyM.ret, PhyM.get, PhyM.modify,
            PhyM.abortWith, onHarq, hf, hc, hr, hl] at h <;>
          obtain ⟨_, h⟩ := h <;> subst h <;>
          simp [harqTouch, hc, hd, hst2.1] <;>
          exact ⟨by simp [hr], (hrange _ hr).1⟩
      | some d =>
        cases hc : info.corrupt <;> cases hr : EffectiveCodingRate[info.mcs]? <;>
          by_cases hl : tbId.m_layer < d.2.m_harqStatus.length <;>
          simp [PhyM.bind_eq, PhyM.pure_eq, PhyM.andThen, PhyM.ret, PhyM.get, PhyM.modify,
            PhyM.abortWith, NS_ASSERT, onHarq, hf, hc, hr, hl] at h <;>
          obtain ⟨_, h⟩ := h <;> subst h <;>
          simp [harqTouch, hc, hd, hst2.1] <;>
          exact ⟨by simp [hr], (hrange _ hr).1⟩

theorem harqTouches_update (reg : StdMap TbId_t tbInfo_t) (k : TbId_t) (keys : List TbId_t) :
    harqTouches
        (StdMap.update TbId_t.lt k (fun i => { i with harqFeedbackSent := true }) reg) keys
      = harqTouches reg keys := by
  unfold harqTouches
  congr 1
  funext k1
  rw [@StdMap.find_update TbId_t tbInfo_t TbId_t.lt k k1
    (fun i => { i with harqFeedbackSent := true }) reg HarqCall (fun i => harqTouch k1 i)
    (fun _ => rfl)]

theorem harqTouches_cons (reg : StdMap TbId_t tbInfo_t) (k : TbId_t) (keys : List TbId_t) :
    harqTouches reg (k :: keys) = harqTouches reg [k] ++ harqTouches reg keys := by
  simp [harqTouches]

/-- What one pass of the packet loop of `EndRxData` does to the HARQ table. -/
theorem EndRxData_packet_table (p : Packet) (m m1 : StdMap Nat DlInfoListElement_s)
    (st st1 : LteSpectrumPhy) (h : EndRxData_packet p m st = .ok m1 st1) :
    st1.m_harqPhyModule = st.m_harqPhyModule ++ harqTouches st.m_expectedTbs
        (if feedbackPending st.m_expectedTbs (tbIdOf p) then [tbIdOf p] else [])
      ∧ (feedbackPending st.m_expectedTbs (tbIdOf p) = true →
          ∀ e, StdMap.find TbId_t.lt (tbIdOf p) st.m_expectedTbs = some e →
            e.2.corrupt = true → e.2.mcs < EffectiveCodingRate.length) := by
  unfold EndRxData_packet at h
  simp only [PhyM.bind_eq, PhyM.andThen_ok, PhyM.get_ok] at h
  obtain ⟨a, s1, ⟨ha, hs1⟩, h⟩ := h
  rw [ha, hs1] at h
  clear ha hs1 a s1
  have hk : ({ m_rnti := p.tag.m_rnti, m_layer := p.tag.m_layer } : TbId_t) = tbIdOf p := rfl
  rw [hk] at h
  cases hf : StdMap.find TbId_t.lt (tbIdOf p) st.m_expectedTbs with
  | none =>
    simp only [hf, PhyM.pure_eq, PhyM.ret_ok] at h
    obtain ⟨-, h⟩ := h
    subst h
    simp [feedbackPending, hf, harqTouches]
  | some e =>
    simp only [hf, PhyM.bind_eq, PhyM.andThen_ok] at h
    obtain ⟨_, st2, hn, h⟩ := h
    rw [EndRxData_notify_eq] at hn
    simp only [Outcome.ok.injEq, true_and] at hn
    have h2 : st2.m_harqPhyModule = st.m_harqPhyModule := by subst hn; rfl
    obtain ⟨t1, t2⟩ := EndRxData_feedback_table _ _ _ _ _ _ h
    rw [h2] at t1
    cases hs : e.2.harqFeedbackSent with
    | true =>
      rw [hs] at t1
      simp [feedbackPending, hf, hs, harqTouches, t1]
    | false =>
      rw [hs] at t1
      refine ⟨?_, ?_⟩
      · simp [feedbackPending, hf, hs, harqTouches, t1]
      · intro _ e1 he1 hc
        simp only [Option.some.injEq] at he1
        subst he1
        exact t2 hs hc

/-- What the packet loop of `EndRxData` does to the HARQ table, in terms of the registry
before the loop. -/
theorem EndRxData_packets_table (ps : List Packet) :
    ∀ (m m1 : StdMap Nat DlInfoListElement_s) (st st1 : LteSpectrumPhy),
      EndRxData_packets ps m st = .ok m1 st1 →
      st1.m_harqPhyModule
          = st.m_harqPhyModule
            ++ harqTouches st.m_expectedTbs (pendingKeys st.m_expectedTbs ps)
        ∧ ∀ k ∈ pendingKeys st.m_expectedTbs ps,
            ∀ e, StdMap.find TbId_t.lt k st.m_expectedTbs = some e →
              e.2.corrupt = true → e.2.mcs < EffectiveCodingRate.length := by
  induction ps with
  | nil =>
    intro m m1 st st1 h
    simp only [EndRxData_packets, PhyM.pure_eq, PhyM.ret_ok] at h
    obtain ⟨-, h⟩ := h
    subst h
    simp [pendingKeys, distinctInOrder, harqTouches]
  | cons p ps ih =>
    intro m m1 st st1 h
    simp only [EndRxData_packets, PhyM.bind_eq, PhyM.andThen_ok] at h
    obtain ⟨m2, st2, hp, hrest⟩ := h
    obtain ⟨g1, -⟩ := EndRxData_packet_harq p m m2 st st2 hp
    obtain ⟨t1, t2⟩ := EndRxData_packet_table p m m2 st st2 hp
    obtain ⟨i1, i2⟩ := ih m2 m1 st2 st1 hrest
    rw [pendingKeys_cons]
    by_cases hpend : feedbackPending st.m_expectedTbs (tbIdOf p) = true
    · rw [if_pos hpend] at g1 t1 ⊢
      rw [g1, harqTouches_update] at i1
      rw [g1] at i2
      refine ⟨?_, ?_⟩
      · rw [i1, t1, List.append_assoc]
        conv_rhs => rw [harqTouches_cons]
      · intro k hkm e he hc
        rcases List.mem_cons.1 hkm with rfl | hk1
        · exact t2 hpend e he hc
        · have hfu := StdMap.find_update_eq tbId_keyOrder (tbIdOf p) k
            (fun i => { i with harqFeedbackSent := true }) st.m_expectedTbs
          rw [he] at hfu
          simp only [Option.map_some'] at hfu
          by_cases hek : e.1 = tbIdOf p
          · rw [if_pos hek] at hfu
            exact i2 k hk1 (e.1, { e.2 with harqFeedbackSent := true }) hfu hc
          · rw [if_neg hek] at hfu
            exact i2 k hk1 _ hfu hc
    · rw [if_neg hpend] at g1 t1 ⊢
      rw [g1] at i1 i2
      exact ⟨by rw [i1, t1]; simp [harqTouches], i2⟩

theorem EndRxData_deliver_table (st st1 : LteSpectrumPhy)
    (h : EndRxData_deliver st = .ok () st1) :
    st1.m_harqPhyModule
        = st.m_harqPhyModule
          ++ harqTouches st.m_expectedTbs
              (pendingKeys st.m_expectedTbs st.m_rxPacketBurstList.flatten)
      ∧ ∀ k ∈ pendingKeys st.m_expectedTbs st.m_rxPacketBurstList.flatten,
          ∀ e, StdMap.find TbId_t.lt k st.m_expectedTbs = some e →
            e.2.corrupt = true → e.2.mcs < EffectiveCodingRate.length := by
  unfold EndRxData_deliver at h
  simp only [PhyM.bind_eq, PhyM.andThen_ok, PhyM.get_ok] at h
  obtain ⟨a, s1, ⟨ha, hs1⟩, m1, st2, hpk, _, st3, hsend, b, s3, ⟨hb, hs3⟩, hctrl⟩ := h
  rw [ha, hs1] at hpk
  rw [hb, hs3] at hctrl
  clear ha hs1 hb hs3 a s1 b s3
  obtain ⟨i1, i2⟩ := EndRxData_packets_table _ _ _ _ _ hpk
  rw [EndRxData_sendDlFeedback_eq] at hsend
  simp only [Outcome.ok.injEq, true_and] at hsend
  have h3 : st3.m_harqPhyModule = st2.m_harqPhyModule := by rw [← hsend]
  have h4 : st1.m_harqPhyModule = st3.m_harqPhyModule := by
    cases he : st3.m_rxControlMessageList.isEmpty <;>
      cases hcb : st3.m_ltePhyRxCtrlEndOkCallback <;>
      simp [he, hcb, PhyM.pure_eq, PhyM.ret, PhyM.emit] at hctrl <;> subst hctrl <;> rfl
  exact ⟨by rw [h4, h3, i1], i2⟩

theorem nodup_distinctInOrder {α : Type} [DecidableEq α] :
    ∀ l : List α, (distinctInOrder l).Nodup := by
  intro l
  induction l with
  | nil => simp [distinctInOrder]
  | cons a l ih =>
    simp only [distinctInOrder, List.nodup_cons, List.mem_filter, decide_eq_true_eq, ne_eq,
      not_true_eq_false, and_false, not_false_eq_true, true_and]
    exact ih.filter _

theorem feedbackPending_of_mem_pendingKeys (reg : StdMap TbId_t tbInfo_t) (ps : List Packet)
    (k : TbId_t) (h : k ∈ pendingKeys reg ps) : feedbackPending reg k = true := by
  unfold pendingKeys at h
  rw [mem_distinctInOrder] at h
  exact (List.mem_filter.1 h).2

end LteSpectrumPhy

open LteSpectrumPhy in
/-- C24. Whenever `EndRxData` returns, the calls it made on the HARQ table are these, in order:
one call for each descriptor it fed back (the descriptors with feedback pending that are
matched by a received packet, each taken once, with the verdicts the error model loop left),
and no other.  For a corrupted descriptor the call is the accumulate operation
(`UpdateDlHarqProcessStatus` for a downlink descriptor, `UpdateUlHarqProcessStatus` for an
uplink one) with its mutual information, its size and its size over
`EffectiveCodingRate[mcs]`, the MCS being within the table; for a descriptor that is not
corrupted the call is the reset of its process (`ResetDlHarqProcessStatus`,
`ResetUlHarqProcessStatus`). -/
theorem C24_harq_table_touched_once (env : Env) (now : Time) (st st2 : LteSpectrumPhy)
    (h : EndRxData env now st = .ok () st2) :
    ∃ st1, EndRxData_errorModel env now st = .ok () st1
      ∧ st2.m_harqPhyModule
          = st.m_harqPhyModule
            ++ harqTouches st1.m_expectedTbs
                (pendingKeys st1.m_expectedTbs st.m_rxPacketBurstList.flatten)
      ∧ (pendingKeys st1.m_expectedTbs st.m_rxPacketBurstList.flatten).Nodup
      ∧ ∀ k ∈ pendingKeys st1.m_expectedTbs st.m_rxPacketBurstList.flatten,
          ∃ e, StdMap.find TbId_t.lt k st1.m_expectedTbs = some e
            ∧ harqTouches st1.m_expectedTbs [k] = [harqTouch k e.2]
            ∧ (e.2.corrupt = true →
                (harqTouch k e.2).isAccumulate = true ∧ (harqTouch k e.2).isReset = false
                  ∧ e.2.mcs < EffectiveCodingRate.length
                  ∧ harqTouch k e.2
                      = (if e.2.downlink then
                          .UpdateDlHarqProcessStatus e.2.harqProcessId k.m_layer e.2.mi e.2.size
                            ((e.2.size : ℚ) / EffectiveCodingRate.getD e.2.mcs 0)
                        else
                          .UpdateUlHarqProcessStatus k.m_rnti e.2.mi e.2.size
                            ((e.2.size : ℚ) / EffectiveCodingRate.getD e.2.mcs 0)))
            ∧ (e.2.corrupt = false →
                (harqTouch k e.2).isReset = true ∧ (harqTouch k e.2).isAccumulate = false
                  ∧ harqTouch k e.2
                      = (if e.2.downlink then .ResetDlHarqProcessStatus e.2.harqProcessId
                        else .ResetUlHarqProcessStatus k.m_rnti e.2.harqProcessId)) := by
  obtain ⟨st1, st1b, h1, h2, h3⟩ := EndRxData_ok env now st st2 h
  obtain ⟨calls, sinr, pos, reg, added, hst1, -, -, -⟩ :=
    EndRxData_errorModel_shape env now st st1 h1
  obtain ⟨d1, d2⟩ := EndRxData_deliver_table st1 st1b h2
  have hb : st1.m_rxPacketBurstList = st.m_rxPacketBurstList := by rw [hst1]
  have hh : st1.m_harqPhyModule = st.m_harqPhyModule := by rw [hst1]
  have h2h : st2.m_harqPhyModule = st1b.m_harqPhyModule := by rw [h3]
  rw [hb, hh] at d1
  rw [hb] at d2
  refine ⟨st1, h1, by rw [h2h, d1], nodup_distinctInOrder _, ?_⟩
  intro k hk
  have hp := feedbackPending_of_mem_pendingKeys _ _ _ hk
  cases hf : StdMap.find TbId_t.lt k st1.m_expectedTbs with
  | none => simp [feedbackPending, hf] at hp
  | some e =>
    refine ⟨e, rfl, by simp [harqTouches, hf], ?_, ?_⟩
    · intro hc
      refine ⟨?_, ?_, d2 k hk e hf hc, by simp [harqTouch, hc]⟩ <;>
        cases hd : e.2.downlink <;>
        simp [harqTouch, hc, hd, HarqCall.isAccumulate, HarqCall.isReset]
    · intro hc
      refine ⟨?_, ?_, by simp [harqTouch, hc]⟩ <;>
        cases hd : e.2.downlink <;>
        simp [harqTouch, hc, hd, HarqCall.isAccumulate, HarqCall.isReset]

open LteSpectrumPhy in
theorem C24_harq_table_touched_once_witness :
    ∃ st1, EndRxData_errorModel exampleEnvLossy 0 exampleRxPhy = .ok () st1
      ∧ (EndRxData exampleEnvLossy 0 exampleRxPhy).state.m_harqPhyModule
          = exampleRxPhy.m_harqPhyModule
            ++ harqTouches st1.m_expectedTbs
                (pendingKeys st1.m_expectedTbs exampleRxPhy.m_rxPacketBurstList.flatten)
      ∧ (pendingKeys st1.m_expectedTbs exampleRxPhy.m_rxPacketBurstList.flatten).Nodup :=
  have w := C24_harq_table_touched_once exampleEnvLossy 0 exampleRxPhy
    (EndRxData exampleEnvLossy 0 exampleRxPhy).state (Outcome.eq_ok_of_returned _ (by decide!))
  w.imp (fun _ hw => ⟨hw.1, hw.2.1, hw.2.2.1⟩)

end ns3

/-! ## Decoded payloads and missing success callbacks -/

namespace ns3
namespace LteSpectrumPhy

/-- The report of `RxDiscovery` when a discovery message was found and decoded and the
control-OK callback is null: the run ends on `NS_ABORT_MSG`. -/
theorem RxDiscovery_unwired (env : Env) (now : Time) (st s1 s2 s3 : LteSpectrumPhy)
    (index : StdMap SlDiscTbId_t Nat) (sorted : List SlCtrlPacketInfo_t) (loc : DiscLocals)
    (h1 : RxDiscovery_register env 0 st.m_rxPacketInfo (false, []) st = .ok (true, index) s1)
    (h2 : RxDiscovery_sort index s1.m_expectedDiscTbs .leaf s1 = .ok sorted s2)
    (h3 : RxDiscovery_decodes env now index
        (if s1.m_dropRbOnCollisionEnabled then
          collidedRbs (s1.m_expectedDiscTbs.map (fun e => e.2.rbBitmap))
        else []) sorted {} s2 = .ok loc s3)
    (hok : loc.rxDiscMessageOkList ≠ [])
    (hcb : st.m_ltePhyRxCtrlEndOkCallback = false) :
    RxDiscovery env now st
      = .abort (.fatalError
          "There are correctly received Disc messages but LtePhyRxCtrlEndOkCallback is NULL")
          s3 := by
  have hcb1 : s1.m_ltePhyRxCtrlEndOkCallback = false := by
    rw [(Steady_register env st.m_rxPacketInfo 0 (false, []) st _ s1 h1).2.2.2.2.1]
    exact hcb
  have hl : loc.rxDiscMessageOkList.length > 0 := List.length_pos.2 hok
  unfold RxDiscovery
  simp only [PhyM.bind_eq]
  unfold PhyM.andThen
  simp only [PhyM.get, h1, h2, h3, hl, hcb1, if_true, NS_FATAL_ERROR, PhyM.abortWith,
    Bool.false_eq_true, if_false]

/-- The control part of `EndRxSlData` when a message was decoded and the control-OK callback
is null: the report is skipped and the function returns. -/
theorem EndRxSlData_control_unwired (env : Env) (now : Time) (st s1 s2 : LteSpectrumPhy)
    (sorted : List SlCtrlPacketInfo_t) (loc : SlCtrlLocals)
    (h1 : EndRxSlData_sortCtrl 0 st.m_rxPacketInfo [] st = .ok sorted s1)
    (h2 : EndRxSlData_ctrls env now
        (if st.m_dropRbOnCollisionEnabled then
          collidedRbsBreak
            (sorted.map (fun it => (st.m_rxPacketInfo.getD it.index.toNat {}).rbBitmap))
        else []) sorted {} s1 = .ok loc s2)
    (hok : loc.rxControlMessageOkList ≠ [])
    (hcb : st.m_ltePhyRxCtrlEndOkCallback = false) :
    EndRxSlData_control env now st = .ok () s2 := by
  obtain ⟨hfound, herr⟩ := EndRxSlData_ctrls_flags env now _ sorted {} loc s1 s2 h2 (by simp)
  have he : loc.error = false := by
    cases hx : loc.error with
    | false => rfl
    | true => exact absurd (herr.1 hx) hok
  have hne : sorted ≠ [] := by
    intro hnil
    subst hnil
    simp only [EndRxSlData_ctrls, PhyM.pure_eq, PhyM.ret, Outcome.ok.injEq] at h2
    exact hok (by rw [← h2.1])
  have hf : loc.ctrlMessageFound = true := hfound.2 (Or.inl hne)
  unfold EndRxSlData_control
  simp only [PhyM.bind_eq]
  unfold PhyM.andThen
  simp only [PhyM.get, h1, h2, hf, he, hcb, if_true, Bool.not_false, Bool.false_eq_true,
    if_false, PhyM.pure_eq, PhyM.ret]

/-- The body of the data packet loop of `EndRxSlData` for a decoded packet when the data-OK
callback is null: the success trace fires, the callback is skipped, the function returns. -/
theorem EndRxSlData_packet_unwired (env : Env) (p : Packet) (st : LteSpectrumPhy)
    (key : SlTbId_t) (info : SltbInfo_t)
    (hf : StdMap.find SlTbId_t.lt (slTagId p) st.m_expectedSlTbs = some (key, info))
    (hc : info.corrupt = false)
    (hprev : env.IsPrevDecoded (st.m_slHarqPhyModule ++ [.IncreaseTbIdx key.m_rnti key.m_l1dst])
        key.m_rnti key.m_l1dst = false)
    (hcb : st.m_ltePhyRxDataEndOkCallback = false) :
    EndRxSlData_packet env p st
      = .ok () { st with
          m_slHarqPhyModule := st.m_slHarqPhyModule
            ++ [.IncreaseTbIdx key.m_rnti key.m_l1dst, .IndicatePrevDecoded key.m_rnti key.m_l1dst,
                .UpdateSlHarqProcessStatus (slTagId p).m_rnti (slTagId p).m_l1dst info.sinr]
          log := st.log ++ [.phyRxEndOkTrace p] } := by
  simp [EndRxSlData_packet, PhyM.bind_eq, PhyM.andThen, PhyM.get, PhyM.modify, PhyM.emit,
    PhyM.pure_eq, PhyM.ret, onSlHarq, hf, hc, hprev, hcb]

theorem Outcome.eq_ok_of_result {α : Type} (o : Outcome α) (r : α)
    (h : o.result? = some r) : o = .ok r o.state := by
  cases o with
  | ok a st =>
    simp only [Outcome.result?, Option.some.injEq] at h
    subst h
    rfl
  | abort why st => simp [Outcome.result?] at h

end LteSpectrumPhy

open LteSpectrumPhy in
/-- C26 as stated fails: `EndRxData` on a window whose packet is decoded, with no data-OK
callback registered, returns; the success trace of the packet fires and the run goes on. -/
theorem C26_counterexample :
    exampleUnwiredRxPhy.m_ltePhyRxDataEndOkCallback = false
      ∧ ∃ st2, EndRxData exampleEnv 0 exampleUnwiredRxPhy = .ok () st2
          ∧ packetNotifications st2.log = [.phyRxEndOkTrace examplePacket] :=
  ⟨rfl, (EndRxData exampleEnv 0 exampleUnwiredRxPhy).state,
    Outcome.eq_ok_of_returned _ (by decide!), by decide!⟩

open LteSpectrumPhy in
/-- C26, amended: of the four places that hand decoded payloads or messages to a success
callback, only `RxDiscovery` ends the run when the callback is null: if a discovery message
was found and the decoded list is not empty, it stops on the fatal error "There are correctly
received Disc messages but LtePhyRxCtrlEndOkCallback is NULL".  In `EndRxData` and in the data
loop of `EndRxSlData` a decoded packet with a null data-OK callback gets its success trace and
the step returns; in the control part of `EndRxSlData` a non-empty decoded list with a null
control-OK callback is dropped and the part returns. -/
theorem C26_unwired_success_callback (env : Env) (now : Time) (st : LteSpectrumPhy) :
    (∀ (p : Packet) (info : tbInfo_t), info.corrupt = false →
        st.m_ltePhyRxDataEndOkCallback = false →
        EndRxData_notify p info st = .ok () { st with log := st.log ++ [.phyRxEndOkTrace p] })
      ∧ (∀ (p : Packet) (key : SlTbId_t) (info : SltbInfo_t),
          StdMap.find SlTbId_t.lt (slTagId p) st.m_expectedSlTbs = some (key, info) →
          info.corrupt = false →
          env.IsPrevDecoded (st.m_slHarqPhyModule ++ [.IncreaseTbIdx key.m_rnti key.m_l1dst])
            key.m_rnti key.m_l1dst = false →
          st.m_ltePhyRxDataEndOkCallback = false →
          EndRxSlData_packet env p st
            = .ok () { st with
                m_slHarqPhyModule := st.m_slHarqPhyModule
                  ++ [.IncreaseTbIdx key.m_rnti key.m_l1dst,
                      .IndicatePrevDecoded key.m_rnti key.m_l1dst,
                      .UpdateSlHarqProcessStatus (slTagId p).m_rnti (slTagId p).m_l1dst
                        info.sinr]
                log := st.log ++ [.phyRxEndOkTrace p] })
      ∧ (∀ (s1 s2 : LteSpectrumPhy) (sorted : List SlCtrlPacketInfo_t) (loc : SlCtrlLocals),
          EndRxSlData_sortCtrl 0 st.m_rxPacketInfo [] st = .ok sorted s1 →
          EndRxSlData_ctrls env now
            (if st.m_dropRbOnCollisionEnabled then
              collidedRbsBreak
                (sorted.map (fun it => (st.m_rxPacketInfo.getD it.index.toNat {}).rbBitmap))
            else []) sorted {} s1 = .ok loc s2 →
          loc.rxControlMessageOkList ≠ [] →
          st.m_ltePhyRxCtrlEndOkCallback = false →
          EndRxSlData_control env now st = .ok () s2)
      ∧ (∀ (s1 s2 s3 : LteSpectrumPhy) (index : StdMap SlDiscTbId_t Nat)
            (sorted : List SlCtrlPacketInfo_t) (loc : DiscLocals),
          RxDiscovery_register env 0 st.m_rxPacketInfo (false, []) st = .ok (true, index) s1 →
          RxDiscovery_sort index s1.m_expectedDiscTbs .leaf s1 = .ok sorted s2 →
          RxDiscovery_decodes env now index
            (if s1.m_dropRbOnCollisionEnabled then
              collidedRbs (s1.m_expectedDiscTbs.map (fun e => e.2.rbBitmap))
            else []) sorted {} s2 = .ok loc s3 →
          loc.rxDiscMessageOkList ≠ [] →
          st.m_ltePhyRxCtrlEndOkCallback = false →
          RxDiscovery env now st
              = .abort (.fatalError
                  "There are correctly received Disc messages but LtePhyRxCtrlEndOkCallback is NULL")
                  s3
            ∧ (RxDiscovery env now st).isFatal = true) := by
  refine ⟨?_, ?_, ?_, ?_⟩
  · intro p info hc hcb
    rw [EndRxData_notify_eq]
    simp [hc, hcb]
  · intro p key info hf hc hprev hcb
    exact EndRxSlData_packet_unwired env p st key info hf hc hprev hcb
  · intro s1 s2 sorted loc h1 h2 hok hcb
    exact EndRxSlData_control_unwired env now st s1 s2 sorted loc h1 h2 hok hcb
  · intro s1 s2 s3 index sorted loc h1 h2 h3 hok hcb
    have := RxDiscovery_unwired env now st s1 s2 s3 index sorted loc h1 h2 h3 hok hcb
    exact ⟨this, by rw [this]; rfl⟩

open LteSpectrumPhy in
theorem C26_unwired_success_callback_witness :
    EndRxData_notify examplePacket {} exampleUnwiredRxPhy
        = .ok () { exampleUnwiredRxPhy with
            log := exampleUnwiredRxPhy.log ++ [.phyRxEndOkTrace examplePacket] }
      ∧ (EndRxSlData_packet exampleEnv exampleSlPacket exampleUnwiredSlUe).returned = true
      ∧ (EndRxSlData_control exampleEnv 0 exampleUnwiredWindow).returned = true
      ∧ (RxDiscovery exampleEnvDiscovery 0 exampleUnwiredWindow).isFatal = true :=
  ⟨(C26_unwired_success_callback exampleEnv 0 exampleUnwiredRxPhy).1 examplePacket {} rfl rfl,
   by
    rw [(C26_unwired_success_callback exampleEnv 0 exampleUnwiredSlUe).2.1 exampleSlPacket
      { m_rnti := 1, m_l1dst := 2 } { size := 5 } (by decide) rfl rfl rfl]
    rfl,
   by
    rw [(C26_unwired_success_callback exampleEnv 0 exampleUnwiredWindow).2.2.1 _ _
      [{ sinr := 2, index := 0 }]
      { rxControlMessageOkList := [{ uid := 41, m_type := .SCI, sciRnti := 1 }],
        error := false, ctrlMessageFound := true, rbDecodedBitmap := [0] }
      (Outcome.eq_ok_of_result _ _ (by decide!)) (Outcome.eq_ok_of_result _ _ (by decide!))
      (by decide) rfl]
    rfl,
   ((C26_unwired_success_callback exampleEnvDiscovery 0 exampleUnwiredWindow).2.2.2 _ _ _
      [({ m_rnti := 2, m_resPsdch := 0 }, 1)] [{ sinr := 5, index := 1 }]
      { rxDiscMessageOkList := [exampleDiscMessage], rbDecodedBitmap := [1], harqInfoList := [] }
      (Outcome.eq_ok_of_result _ _ (by decide!)) (Outcome.eq_ok_of_result _ _ (by decide!))
      (Outcome.eq_ok_of_result _ _ (by decide!)) (by decide) rfl).2⟩

end ns3

/-! ## Collisions and capture on the sidelink control channel -/

namespace ns3

open LteSpectrumPhy in
/-- C28: with `DropRbOnCollisionEnabled` true, two SCI messages received on the same resource
block 0 are both placed in the decoded list handed to the control-OK callback, with the
control error model disabled and with it enabled.  The pre-scan does mark block 0 as collided
and the loop marks both messages corrupted, but the decision to decode looks only at the
weak-signal and conflict flags. -/
theorem C28_collided_control_decoded :
    exampleDropWindow.m_dropRbOnCollisionEnabled = true
      ∧ exampleDropWindow.m_rxPacketInfo.map (fun info => info.rbBitmap) = [[0], [0]]
      ∧ collidedRbsBreak [[0], [0]] = [0]
      ∧ (∃ st1, EndRxSlData_control exampleEnv 0 exampleDropWindow = .ok () st1
          ∧ ctrlNotifications st1.log
              = [.ltePhyRxCtrlEndOkCallback
                  [{ uid := 42, m_type := .SCI, sciRnti := 2 },
                   { uid := 41, m_type := .SCI, sciRnti := 1 }]])
      ∧ (∃ st1, EndRxSlData_control exampleEnv 0 exampleDropWindowErrorModel = .ok () st1
          ∧ ctrlNotifications st1.log
              = [.ltePhyRxCtrlEndOkCallback
                  [{ uid := 42, m_type := .SCI, sciRnti := 2 },
                   { uid := 41, m_type := .SCI, sciRnti := 1 }]]) :=
  ⟨rfl, rfl, by decide,
    ⟨(EndRxSlData_control exampleEnv 0 exampleDropWindow).state,
      Outcome.eq_ok_of_returned _ (by decide!), by decide!⟩,
    ⟨(EndRxSlData_control exampleEnv 0 exampleDropWindowErrorModel).state,
      Outcome.eq_ok_of_returned _ (by decide!), by decide!⟩⟩

open LteSpectrumPhy in
/-- C29 as stated fails: drop-on-collision disabled, control error model enabled, two SCI
messages on resource block 0, the first with mean SINR 5 and the second with mean SINR 2.
When the first draw of the stream lies below the block-error rate, the stronger message fails
its weak-signal test and the weaker message, whose draws lie above the rate, is the one
handed to the control-OK callback. -/
theorem C29_counterexample :
    exampleCaptureWindow.m_dropRbOnCollisionEnabled = false
      ∧ exampleCaptureWindow.m_slCtrlErrorModelEnabled = true
      ∧ exampleCaptureWindow.m_rxPacketInfo.map (fun info => info.rbBitmap) = [[0], [0]]
      ∧ meanSinrOf [5] [0] > meanSinrOf [2] [0]
      ∧ ∃ st1, EndRxSlData_control exampleEnvFirstDrawLow 0 exampleCaptureWindow = .ok () st1
          ∧ ctrlNotifications st1.log
              = [.ltePhyRxCtrlEndOkCallback [{ uid := 42, m_type := .SCI, sciRnti := 2 }]] :=
  ⟨rfl, rfl, rfl, by simp [meanSinrOf, sumOver, svAt]; norm_num,
    (EndRxSlData_control exampleEnvFirstDrawLow 0 exampleCaptureWindow).state,
    Outcome.eq_ok_of_returned _ (by decide!), by decide!⟩

open LteSpectrumPhy in
/-- C29, amended: with drop-on-collision disabled and the control error model enabled, when
the window holds two control messages received on one identical resource block, the two are
never decoded together, whichever is the stronger: a decoded list handed to the control-OK
callback holds exactly one of the two messages.  So the weaker message is decoded only in a
run in which the stronger one is not, and once the stronger is decoded the weaker is not. -/
theorem C29_capture_between_two (env : Env) (now : Time) (st st1 : LteSpectrumPhy)
    (e0 e1 : SlRxPacketInfo_t) (m0 m1 : LteControlMessage) (rb : Int)
    (hwin : st.m_rxPacketInfo = [e0, e1])
    (hm0 : e0.m_rxControlMessage = some m0) (hm1 : e1.m_rxControlMessage = some m1)
    (hrb0 : e0.rbBitmap = [rb]) (hrb1 : e1.rbBitmap = [rb])
    (hem : st.m_slCtrlErrorModelEnabled = true)
    (hdrop : st.m_dropRbOnCollisionEnabled = false)
    (h : EndRxSlData_control env now st = .ok () st1) :
    ∃ A, ctrlNotifications st1.log = ctrlNotifications st.log ++ A
      ∧ ∀ msgs, PhyEvent.ltePhyRxCtrlEndOkCallback msgs ∈ A → msgs = [m0] ∨ msgs = [m1] := by
  obtain ⟨sorted, loc, s2, -, h2, h3⟩ := EndRxSlData_control_ok env now st st1 h
  rw [hdrop] at h2
  simp only [Bool.false_eq_true, if_false] at h2
  have hst := Steady_ctrls env now [] sorted {} st loc s2 h2
  obtain ⟨-, herr⟩ := EndRxSlData_ctrls_flags env now [] sorted {} loc st s2 h2 (by simp)
  obtain ⟨D, hD1, hD2, hD3⟩ := EndRxSlData_ctrls_capture env now sorted {} loc st s2 [] hem h2
    (by simp) rfl List.Pairwise.nil (by simp)
  refine ⟨ctrlNotifications
    (if loc.ctrlMessageFound then
      if !loc.error then
        if st.m_ltePhyRxCtrlEndOkCallback then
          [.ltePhyRxCtrlEndOkCallback loc.rxControlMessageOkList]
        else []
      else
        if st.m_ltePhyRxCtrlEndErrorCallback then [.ltePhyRxCtrlEndErrorCallback]
        else []
    else []), ?_, ?_⟩
  · rw [h3, ← hst.2.2.2.2.2.2]
    simp [ctrlNotifications]
  · intro msgs hmsgs
    have hin := List.mem_of_mem_filter hmsgs
    have hne : loc.error = false ∧ msgs = loc.rxControlMessageOkList := by
      split_ifs at hin with c1 c2 c3 c4 <;> simp at hin
      exact ⟨by simpa using c2, hin⟩
    obtain ⟨he, rfl⟩ := hne
    have hnonempty : loc.rxControlMessageOkList ≠ [] := by
      intro hnil
      rw [herr.2 hnil] at he
      cases he
    have hmemD : ∀ d ∈ D, d.rbBitmap = [rb]
        ∧ (d.m_rxControlMessage = some m0 ∨ d.m_rxControlMessage = some m1) := by
      intro d hd
      have := hD1 d hd
      rw [hwin] at this
      simp only [List.mem_cons, List.mem_singleton, List.not_mem_nil, or_false] at this
      rcases this with rfl | rfl
      · exact ⟨hrb0, Or.inl hm0⟩
      · exact ⟨hrb1, Or.inr hm1⟩
    cases D with
    | nil => simp at hD2; exact absurd hD2 hnonempty
    | cons d t =>
      cases t with
      | cons d2 t2 =>
        have hp := (List.pairwise_cons.1 hD3).1 d2 (by simp)
        have b1 := (hmemD d (by simp)).1
        have b2 := (hmemD d2 (by simp)).1
        rw [b1, b2] at hp
        simp at hp
      | nil =>
        simp only [List.map_cons, List.map_nil] at hD2
        cases hl : loc.rxControlMessageOkList with
        | nil => exact absurd hl hnonempty
        | cons x xs =>
          rw [hl] at hD2
          cases xs with
          | cons y ys => simp at hD2
          | nil =>
            simp only [List.map_cons, List.map_nil, List.cons.injEq, and_true] at hD2
            rcases (hmemD d (by simp)).2 with hd | hd
            · rw [hd] at hD2
              left
              simp only [Option.some.injEq] at hD2
              rw [hD2]
            · rw [hd] at hD2
              right
              simp only [Option.some.injEq] at hD2
              rw [hD2]

open LteSpectrumPhy in
theorem C29_capture_between_two_witness :
    ∃ A, ctrlNotifications (EndRxSlData_control exampleEnv 0 exampleCaptureWindow).state.log
          = ctrlNotifications exampleCaptureWindow.log ++ A
      ∧ ∀ msgs, PhyEvent.ltePhyRxCtrlEndOkCallback msgs ∈ A →
          msgs = [{ uid := 41, m_type := .SCI, sciRnti := 1 }]
            ∨ msgs = [{ uid := 42, m_type := .SCI, sciRnti := 2 }] :=
  C29_capture_between_two exampleEnv 0 exampleCaptureWindow _
    { rbBitmap := [0], m_rxControlMessage := some { uid := 41, m_type := .SCI, sciRnti := 1 } }
    { rbBitmap := [0], m_rxControlMessage := some { uid := 42, m_type := .SCI, sciRnti := 2 } }
    { uid := 41, m_type := .SCI, sciRnti := 1 } { uid := 42, m_type := .SCI, sciRnti := 2 } 0
    rfl rfl rfl rfl rfl rfl rfl (Outcome.eq_ok_of_returned _ (by decide!))

end ns3

/-! ## Where the sidelink HARQ records are reset -/

namespace ns3
namespace LteSpectrumPhy

variable {P : SlHarqCall → Prop}

theorem ResetsOnly_of_same {α : Type} (m : PhyM α)
    (h : ∀ st, (m st).state.m_slHarqPhyModule = st.m_slHarqPhyModule) : ResetsOnly P m :=
  ⟨fun st => ⟨[], by simp [slHarqResets, h st], by simp⟩⟩

theorem ResetsOnly_mono {Q : SlHarqCall → Prop} {α : Type} {m : PhyM α}
    (h : ∀ c, P c → Q c) (hm : ResetsOnly P m) : ResetsOnly Q m := by
  constructor
  intro st
  obtain ⟨added, h1, h2⟩ := hm.resets st
  exact ⟨added, h1, fun c hc => h c (h2 c hc)⟩

theorem ResetsOnly_pure {α : Type} (a : α) : ResetsOnly P (pure a : PhyM α) :=
  ResetsOnly_of_same _ (fun _ => rfl)

theorem ResetsOnly_ret {α : Type} (a : α) : ResetsOnly P (PhyM.ret a) :=
  ResetsOnly_of_same _ (fun _ => rfl)

theorem ResetsOnly_get : ResetsOnly P PhyM.get :=
  ResetsOnly_of_same _ (fun _ => rfl)

theorem ResetsOnly_abortWith {α : Type} (why : Abort) :
    ResetsOnly P (PhyM.abortWith why : PhyM α) :=
  ResetsOnly_of_same _ (fun _ => rfl)

theorem ResetsOnly_bind {α β : Type} {m : PhyM α} {f : α → PhyM β} (hm : ResetsOnly P m)
    (hf : ∀ a, ResetsOnly P (f a)) : ResetsOnly P (m >>= f) := by
  constructor
  intro st
  obtain ⟨a1, h1, p1⟩ := hm.resets st
  rw [PhyM.bind_eq]
  unfold PhyM.andThen
  cases hr : m st with
  | ok a s =>
    rw [hr] at h1
    simp only [Outcome.state] at h1
    obtain ⟨a2, h2, p2⟩ := (hf a).resets s
    refine ⟨a1 ++ a2, ?_, ?_⟩
    · simp only
      rw [h2, h1, List.append_assoc]
    · intro c hc
      rcases List.mem_append.1 hc with h | h
      · exact p1 c h
      · exact p2 c h
  | abort why s =>
    rw [hr] at h1
    exact ⟨a1, h1, p1⟩

theorem ResetsOnly_ite {α : Type} {c : Prop} [Decidable c] {a b : PhyM α}
    (ha : ResetsOnly P a) (hb : ResetsOnly P b) : ResetsOnly P (if c then a else b) := by
  split
  · exact ha
  · exact hb

theorem ResetsOnly_modify (f : LteSpectrumPhy → LteSpectrumPhy)
    (hf : ∀ s, (f s).m_slHarqPhyModule = s.m_slHarqPhyModule) :
    ResetsOnly P (PhyM.modify f) :=
  ResetsOnly_of_same _ (fun st => hf st)

theorem ResetsOnly_emit (e : PhyEvent) : ResetsOnly P (PhyM.emit e) :=
  ResetsOnly_of_same _ (fun _ => rfl)

theorem ResetsOnly_NS_ASSERT (c : Bool) (msg : String) : ResetsOnly P (NS_ASSERT c msg) := by
  unfold NS_ASSERT
  split
  · exact ResetsOnly_ret ()
  · exact ResetsOnly_abortWith _

theorem ResetsOnly_NS_ABORT_MSG_IF (c : Bool) (msg : String) :
    ResetsOnly P (NS_ABORT_MSG_IF c msg) := by
  unfold NS_ABORT_MSG_IF
  split
  · exact ResetsOnly_abortWith _
  · exact ResetsOnly_ret ()

theorem ResetsOnly_NS_FATAL_ERROR {α : Type} (msg : String) :
    ResetsOnly P (NS_FATAL_ERROR msg : PhyM α) := ResetsOnly_abortWith _

theorem ResetsOnly_vectorAt {α : Type} (what : String) (v : List α) (i : Nat) :
    ResetsOnly P (vectorAt what v i) := by
  unfold vectorAt
  split
  · exact ResetsOnly_pure _
  · exact ResetsOnly_abortWith _

theorem ResetsOnly_GetMeanSinr (sinr : SpectrumValue) (map : List Int) :
    ResetsOnly P (GetMeanSinr sinr map) := by
  unfold GetMeanSinr
  split
  · exact ResetsOnly_pure _
  · exact ResetsOnly_abortWith _

/-- A call on the sidelink HARQ module that is no reset. -/
theorem ResetsOnly_onSlHarq (c : SlHarqCall) (hc : c.isReset = false) :
    ResetsOnly P (onSlHarq c) := by
  constructor
  intro st
  refine ⟨[], ?_, by simp⟩
  simp [onSlHarq, PhyM.modify, Outcome.state, slHarqResets, List.filter_append, hc]

/-- A reset on the sidelink HARQ module that satisfies `P`. -/
theorem ResetsOnly_onSlHarq_reset (c : SlHarqCall) (hc : P c) :
    ResetsOnly P (onSlHarq c) := by
  constructor
  intro st
  refine ⟨[c].filter SlHarqCall.isReset, ?_, ?_⟩
  · simp [onSlHarq, PhyM.modify, Outcome.state, slHarqResets, List.filter_append]
  · intro x hx
    rw [List.mem_singleton.1 (List.mem_of_mem_filter hx)]
    exact hc

theorem ResetsOnly_onInterferenceSl (f : LteSlInterference → Except Abort LteSlInterference) :
    ResetsOnly P (onInterferenceSl f) := by
  apply ResetsOnly_of_same
  intro st
  unfold onInterferenceSl
  cases hf : f st.m_interferenceSl <;>
    simp [PhyM.bind_eq, PhyM.andThen, PhyM.get, PhyM.modify, PhyM.abortWith, hf, Outcome.state]

theorem ResetsOnly_setCell {α : Type} (what : String) (map : List (List α)) (row col : Nat)
    (x : α) : ResetsOnly P (setCell what map row col x) := by
  unfold setCell
  refine ResetsOnly_bind (ResetsOnly_vectorAt _ _ _) (fun r => ?_)
  split
  · exact ResetsOnly_pure _
  · exact ResetsOnly_abortWith _

end LteSpectrumPhy
end ns3

namespace ns3
namespace LteSpectrumPhy

variable {P : SlHarqCall → Prop}

theorem ResetsOnly_UpdateRssiRsrpMap (env : Env) (now : Time) (sigIndex : Nat) :
    ResetsOnly P (UpdateRssiRsrpMap env now sigIndex) := by
  unfold UpdateRssiRsrpMap
  repeat' first
    | exact ResetsOnly_get
    | exact ResetsOnly_pure _
    | exact ResetsOnly_ret _
    | exact ResetsOnly_abortWith _
    | exact ResetsOnly_NS_FATAL_ERROR _
    | exact ResetsOnly_NS_ASSERT _ _
    | exact ResetsOnly_NS_ABORT_MSG_IF _ _
    | exact ResetsOnly_vectorAt _ _ _
    | exact ResetsOnly_GetMeanSinr _ _
    | exact ResetsOnly_setCell _ _ _ _ _
    | exact ResetsOnly_onSlHarq _ rfl
    | exact ResetsOnly_emit _
    | exact ResetsOnly_modify _ (fun _ => rfl)
    | refine ResetsOnly_bind ?_ (fun _ => ?_)
    | refine ResetsOnly_ite ?_ ?_
    | dsimp only
    | split

theorem ResetsOnly_sciTrace (env : Env) (now : Time) (msg : LteControlMessage) (v : SlCtrlVerdict)
    (error : Bool) :
    ResetsOnly P (EndRxSlData_sciTrace env now msg v error) := by
  unfold EndRxSlData_sciTrace
  repeat' first
    | exact ResetsOnly_get
    | exact ResetsOnly_pure _
    | exact ResetsOnly_ret _
    | exact ResetsOnly_abortWith _
    | exact ResetsOnly_NS_FATAL_ERROR _
    | exact ResetsOnly_NS_ASSERT _ _
    | exact ResetsOnly_NS_ABORT_MSG_IF _ _
    | exact ResetsOnly_vectorAt _ _ _
    | exact ResetsOnly_GetMeanSinr _ _
    | exact ResetsOnly_setCell _ _ _ _ _
    | exact ResetsOnly_onSlHarq _ rfl
    | exact ResetsOnly_emit _
    | exact ResetsOnly_modify _ (fun _ => rfl)
    | refine ResetsOnly_bind ?_ (fun _ => ?_)
    | refine ResetsOnly_ite ?_ ?_
    | dsimp only
    | split

theorem ResetsOnly_ctrlVerdict (env : Env) (collided : List Int) (loc : SlCtrlLocals) (i : Nat)
    (info : SlRxPacketInfo_t) (msg : LteControlMessage) :
    ResetsOnly P (EndRxSlData_ctrlVerdict env collided loc i info msg) := by
  unfold EndRxSlData_ctrlVerdict
  repeat' first
    | exact ResetsOnly_get
    | exact ResetsOnly_pure _
    | exact ResetsOnly_ret _
    | exact ResetsOnly_abortWith _
    | exact ResetsOnly_NS_FATAL_ERROR _
    | exact ResetsOnly_NS_ASSERT _ _
    | exact ResetsOnly_NS_ABORT_MSG_IF _ _
    | exact ResetsOnly_vectorAt _ _ _
    | exact ResetsOnly_GetMeanSinr _ _
    | exact ResetsOnly_setCell _ _ _ _ _
    | exact ResetsOnly_onSlHarq _ rfl
    | exact ResetsOnly_emit _
    | exact ResetsOnly_modify _ (fun _ => rfl)
    | refine ResetsOnly_bind ?_ (fun _ => ?_)
    | refine ResetsOnly_ite ?_ ?_
    | dsimp only
    | split

theorem ResetsOnly_ctrl (env : Env) (now : Time) (collided : List Int)
    (it : SlCtrlPacketInfo_t) (loc : SlCtrlLocals) :
    ResetsOnly P (EndRxSlData_ctrl env now collided it loc) := by
  unfold EndRxSlData_ctrl
  repeat' first
    | exact ResetsOnly_get
    | exact ResetsOnly_pure _
    | exact ResetsOnly_ret _
    | exact ResetsOnly_abortWith _
    | exact ResetsOnly_NS_FATAL_ERROR _
    | exact ResetsOnly_NS_ASSERT _ _
    | exact ResetsOnly_NS_ABORT_MSG_IF _ _
    | exact ResetsOnly_vectorAt _ _ _
    | exact ResetsOnly_GetMeanSinr _ _
    | exact ResetsOnly_setCell _ _ _ _ _
    | exact ResetsOnly_onSlHarq _ rfl
    | exact ResetsOnly_emit _
    | exact ResetsOnly_modify _ (fun _ => rfl)
    | exact ResetsOnly_ctrlVerdict _ _ _ _ _ _
    | exact ResetsOnly_sciTrace _ _ _ _ _
    | exact ResetsOnly_UpdateRssiRsrpMap _ _ _
    | refine ResetsOnly_bind ?_ (fun _ => ?_)
    | refine ResetsOnly_ite ?_ ?_
    | dsimp only
    | split

theorem ResetsOnly_ctrls (env : Env) (now : Time) (collided : List Int)
    (l : List SlCtrlPacketInfo_t) :
    ∀ loc, ResetsOnly P (EndRxSlData_ctrls env now collided l loc) := by
  induction l with
  | nil => intro loc; exact ResetsOnly_pure _
  | cons it rest ih =>
    intro loc
    unfold EndRxSlData_ctrls
    exact ResetsOnly_bind (ResetsOnly_ctrl _ _ _ _ _) (fun loc1 => ih loc1)

theorem ResetsOnly_sortCtrl (window : List SlRxPacketInfo_t) :
    ∀ i sorted, ResetsOnly P (EndRxSlData_sortCtrl i window sorted) := by
  induction window with
  | nil => intro i sorted; exact ResetsOnly_pure _
  | cons info rest ih =>
    intro i sorted
    unfold EndRxSlData_sortCtrl
    repeat' first
      | exact ResetsOnly_get
      | exact ResetsOnly_pure _
      | exact ResetsOnly_ret _
      | exact ResetsOnly_abortWith _
      | exact ResetsOnly_NS_FATAL_ERROR _
      | exact ResetsOnly_NS_ASSERT _ _
      | exact ResetsOnly_NS_ABORT_MSG_IF _ _
      | exact ResetsOnly_vectorAt _ _ _
      | exact ResetsOnly_GetMeanSinr _ _
      | exact ResetsOnly_setCell _ _ _ _ _
      | exact ResetsOnly_onSlHarq _ rfl
      | exact ResetsOnly_emit _
      | exact ResetsOnly_modify _ (fun _ => rfl)
      | exact ih _ _
      | refine ResetsOnly_bind ?_ (fun _ => ?_)
      | refine ResetsOnly_ite ?_ ?_
      | dsimp only
      | split

theorem ResetsOnly_control (env : Env) (now : Time) :
    ResetsOnly P (EndRxSlData_control env now) := by
  unfold EndRxSlData_control
  repeat' first
    | exact ResetsOnly_get
    | exact ResetsOnly_pure _
    | exact ResetsOnly_ret _
    | exact ResetsOnly_abortWith _
    | exact ResetsOnly_NS_FATAL_ERROR _
    | exact ResetsOnly_NS_ASSERT _ _
    | exact ResetsOnly_NS_ABORT_MSG_IF _ _
    | exact ResetsOnly_vectorAt _ _ _
    | exact ResetsOnly_GetMeanSinr _ _
    | exact ResetsOnly_setCell _ _ _ _ _
    | exact ResetsOnly_onSlHarq _ rfl
    | exact ResetsOnly_emit _
    | exact ResetsOnly_modify _ (fun _ => rfl)
    | exact ResetsOnly_sortCtrl _ _ _
    | exact ResetsOnly_ctrls _ _ _ _ _
    | refine ResetsOnly_bind ?_ (fun _ => ?_)
    | refine ResetsOnly_ite ?_ ?_
    | dsimp only
    | split

theorem ResetsOnly_sinrIndex (window : List SlRxPacketInfo_t) :
    ∀ i m, ResetsOnly P (EndRxSlData_sinrIndex i window m) := by
  induction window with
  | nil => intro i m; exact ResetsOnly_pure _
  | cons info rest ih =>
    intro i m
    unfold EndRxSlData_sinrIndex
    repeat' first
      | exact ResetsOnly_get
      | exact ResetsOnly_pure _
      | exact ResetsOnly_ret _
      | exact ResetsOnly_abortWith _
      | exact ResetsOnly_NS_FATAL_ERROR _
      | exact ResetsOnly_NS_ASSERT _ _
      | exact ResetsOnly_NS_ABORT_MSG_IF _ _
      | exact ResetsOnly_vectorAt _ _ _
      | exact ResetsOnly_GetMeanSinr _ _
      | exact ResetsOnly_setCell _ _ _ _ _
      | exact ResetsOnly_onSlHarq _ rfl
      | exact ResetsOnly_emit _
      | exact ResetsOnly_modify _ (fun _ => rfl)
      | exact ih _ _
      | refine ResetsOnly_bind ?_ (fun _ => ?_)
      | refine ResetsOnly_ite ?_ ?_
      | dsimp only
      | split

theorem ResetsOnly_tb (env : Env) (now : Time) (index : StdMap SlTbId_t Nat)
    (collided : List Int) (done rest : StdMap SlTbId_t SltbInfo_t) (e : SlTbId_t × SltbInfo_t) :
    ResetsOnly P (EndRxSlData_tb env now index collided done e rest) := by
  unfold EndRxSlData_tb
  repeat' first
    | exact ResetsOnly_get
    | exact ResetsOnly_pure _
    | exact ResetsOnly_ret _
    | exact ResetsOnly_abortWith _
    | exact ResetsOnly_NS_FATAL_ERROR _
    | exact ResetsOnly_NS_ASSERT _ _
    | exact ResetsOnly_NS_ABORT_MSG_IF _ _
    | exact ResetsOnly_vectorAt _ _ _
    | exact ResetsOnly_GetMeanSinr _ _
    | exact ResetsOnly_setCell _ _ _ _ _
    | exact ResetsOnly_onSlHarq _ rfl
    | exact ResetsOnly_emit _
    | exact ResetsOnly_modify _ (fun _ => rfl)
    | refine ResetsOnly_bind ?_ (fun _ => ?_)
    | refine ResetsOnly_ite ?_ ?_
    | dsimp only
    | split

theorem ResetsOnly_tbs (env : Env) (now : Time) (index : StdMap SlTbId_t Nat)
    (collided : List Int) (todo : StdMap SlTbId_t SltbInfo_t) :
    ∀ done, ResetsOnly P (EndRxSlData_tbs env now index collided done todo) := by
  induction todo with
  | nil => intro done; exact ResetsOnly_pure _
  | cons e rest ih =>
    intro done
    unfold EndRxSlData_tbs
    exact ResetsOnly_bind (ResetsOnly_tb _ _ _ _ _ _ _) (fun _ => ih _)

theorem ResetsOnly_packet (env : Env) (p : Packet) :
    ResetsOnly P (EndRxSlData_packet env p) := by
  unfold EndRxSlData_packet
  repeat' first
    | exact ResetsOnly_get
    | exact ResetsOnly_pure _
    | exact ResetsOnly_ret _
    | exact ResetsOnly_abortWith _
    | exact ResetsOnly_NS_FATAL_ERROR _
    | exact ResetsOnly_NS_ASSERT _ _
    | exact ResetsOnly_NS_ABORT_MSG_IF _ _
    | exact ResetsOnly_vectorAt _ _ _
    | exact ResetsOnly_GetMeanSinr _ _
    | exact ResetsOnly_setCell _ _ _ _ _
    | exact ResetsOnly_onSlHarq _ rfl
    | exact ResetsOnly_emit _
    | exact ResetsOnly_modify _ (fun _ => rfl)
    | refine ResetsOnly_bind ?_ (fun _ => ?_)
    | refine ResetsOnly_ite ?_ ?_
    | dsimp only
    | split

theorem ResetsOnly_packets (env : Env) (ps : List Packet) :
    ResetsOnly P (EndRxSlData_packets env ps) := by
  induction ps with
  | nil => exact ResetsOnly_pure _
  | cons p rest ih =>
    unfold EndRxSlData_packets
    exact ResetsOnly_bind (ResetsOnly_packet _ _) (fun _ => ih)

theorem ResetsOnly_data (env : Env) (now : Time) :
    ResetsOnly P (EndRxSlData_data env now) := by
  unfold EndRxSlData_data UpdateSlSinrPerceived UpdateSlSigPerceived UpdateSlIntPerceived
  repeat' first
    | exact ResetsOnly_get
    | exact ResetsOnly_pure _
    | exact ResetsOnly_ret _
    | exact ResetsOnly_abortWith _
    | exact ResetsOnly_NS_FATAL_ERROR _
    | exact ResetsOnly_NS_ASSERT _ _
    | exact ResetsOnly_NS_ABORT_MSG_IF _ _
    | exact ResetsOnly_vectorAt _ _ _
    | exact ResetsOnly_GetMeanSinr _ _
    | exact ResetsOnly_setCell _ _ _ _ _
    | exact ResetsOnly_onSlHarq _ rfl
    | exact ResetsOnly_emit _
    | exact ResetsOnly_modify _ (fun _ => rfl)
    | exact ResetsOnly_onInterferenceSl _
    | exact ResetsOnly_sinrIndex _ _ _
    | exact ResetsOnly_tbs _ _ _ _ _ _
    | exact ResetsOnly_packets _ _
    | refine ResetsOnly_bind ?_ (fun _ => ?_)
    | refine ResetsOnly_ite ?_ ?_
    | dsimp only
    | split

theorem ResetsOnly_FilterRxApps (disc : SlDiscMsg) :
    ResetsOnly P (FilterRxApps disc) := by
  unfold FilterRxApps
  repeat' first
    | exact ResetsOnly_get
    | exact ResetsOnly_pure _
    | exact ResetsOnly_ret _
    | exact ResetsOnly_abortWith _
    | exact ResetsOnly_NS_FATAL_ERROR _
    | exact ResetsOnly_NS_ASSERT _ _
    | exact ResetsOnly_NS_ABORT_MSG_IF _ _
    | exact ResetsOnly_vectorAt _ _ _
    | exact ResetsOnly_GetMeanSinr _ _
    | exact ResetsOnly_setCell _ _ _ _ _
    | exact ResetsOnly_onSlHarq _ rfl
    | exact ResetsOnly_emit _
    | exact ResetsOnly_modify _ (fun _ => rfl)
    | refine ResetsOnly_bind ?_ (fun _ => ?_)
    | refine ResetsOnly_ite ?_ ?_
    | dsimp only
    | split

theorem ResetsOnly_discSort (index : StdMap SlDiscTbId_t Nat)
    (reg : StdMap SlDiscTbId_t SlDisctbInfo_t) :
    ∀ sorted, ResetsOnly P (RxDiscovery_sort index reg sorted) := by
  induction reg with
  | nil => intro sorted; exact ResetsOnly_pure _
  | cons e rest ih =>
    intro sorted
    unfold RxDiscovery_sort
    repeat' first
      | exact ResetsOnly_get
      | exact ResetsOnly_pure _
      | exact ResetsOnly_ret _
      | exact ResetsOnly_abortWith _
      | exact ResetsOnly_NS_FATAL_ERROR _
      | exact ResetsOnly_NS_ASSERT _ _
      | exact ResetsOnly_NS_ABORT_MSG_IF _ _
      | exact ResetsOnly_vectorAt _ _ _
      | exact ResetsOnly_GetMeanSinr _ _
      | exact ResetsOnly_setCell _ _ _ _ _
      | exact ResetsOnly_onSlHarq _ rfl
      | exact ResetsOnly_emit _
      | exact ResetsOnly_modify _ (fun _ => rfl)
      | exact ih _
      | refine ResetsOnly_bind ?_ (fun _ => ?_)
      | refine ResetsOnly_ite ?_ ?_
      | dsimp only
      | split

theorem ResetsOnly_discErrorModel (env : Env) (collided : List Int) (key : SlDiscTbId_t)
    (tb : SlDisctbInfo_t) (idx : Nat) (loc : DiscLocals) :
    ResetsOnly P (RxDiscovery_errorModel env collided key tb idx loc) := by
  unfold RxDiscovery_errorModel
  repeat' first
    | exact ResetsOnly_get
    | exact ResetsOnly_pure _
    | exact ResetsOnly_ret _
    | exact ResetsOnly_abortWith _
    | exact ResetsOnly_NS_FATAL_ERROR _
    | exact ResetsOnly_NS_ASSERT _ _
    | exact ResetsOnly_NS_ABORT_MSG_IF _ _
    | exact ResetsOnly_vectorAt _ _ _
    | exact ResetsOnly_GetMeanSinr _ _
    | exact ResetsOnly_setCell _ _ _ _ _
    | exact ResetsOnly_onSlHarq _ rfl
    | exact ResetsOnly_emit _
    | exact ResetsOnly_modify _ (fun _ => rfl)
    | refine ResetsOnly_bind ?_ (fun _ => ?_)
    | refine ResetsOnly_ite ?_ ?_
    | dsimp only
    | split

theorem ResetsOnly_discNoErrorModel (env : Env) (collided : List Int) (key : SlDiscTbId_t)
    (tb : SlDisctbInfo_t) (idx : Nat) (loc : DiscLocals) :
    ResetsOnly P (RxDiscovery_noErrorModel env collided key tb idx loc) := by
  unfold RxDiscovery_noErrorModel
  repeat' first
    | exact ResetsOnly_get
    | exact ResetsOnly_pure _
    | exact ResetsOnly_ret _
    | exact ResetsOnly_abortWith _
    | exact ResetsOnly_NS_FATAL_ERROR _
    | exact ResetsOnly_NS_ASSERT _ _
    | exact ResetsOnly_NS_ABORT_MSG_IF _ _
    | exact ResetsOnly_vectorAt _ _ _
    | exact ResetsOnly_GetMeanSinr _ _
    | exact ResetsOnly_setCell _ _ _ _ _
    | exact ResetsOnly_onSlHarq _ rfl
    | exact ResetsOnly_emit _
    | exact ResetsOnly_modify _ (fun _ => rfl)
    | refine ResetsOnly_bind ?_ (fun _ => ?_)
    | refine ResetsOnly_ite ?_ ?_
    | dsimp only
    | split

theorem ResetsOnly_decode (env : Env) (now : Time) (index : StdMap SlDiscTbId_t Nat)
    (collided : List Int) (it : SlCtrlPacketInfo_t) (loc : DiscLocals) :
    ResetsOnly P (RxDiscovery_decode env now index collided it loc) := by
  unfold RxDiscovery_decode
  repeat' first
    | exact ResetsOnly_get
    | exact ResetsOnly_pure _
    | exact ResetsOnly_ret _
    | exact ResetsOnly_abortWith _
    | exact ResetsOnly_NS_FATAL_ERROR _
    | exact ResetsOnly_NS_ASSERT _ _
    | exact ResetsOnly_NS_ABORT_MSG_IF _ _
    | exact ResetsOnly_vectorAt _ _ _
    | exact ResetsOnly_GetMeanSinr _ _
    | exact ResetsOnly_setCell _ _ _ _ _
    | exact ResetsOnly_onSlHarq _ rfl
    | exact ResetsOnly_emit _
    | exact ResetsOnly_modify _ (fun _ => rfl)
    | exact ResetsOnly_discErrorModel _ _ _ _ _ _
    | exact ResetsOnly_discNoErrorModel _ _ _ _ _ _
    | refine ResetsOnly_bind ?_ (fun _ => ?_)
    | refine ResetsOnly_ite ?_ ?_
    | dsimp only
    | split

theorem ResetsOnly_decodes (env : Env) (now : Time) (index : StdMap SlDiscTbId_t Nat)
    (collided : List Int) (l : List SlCtrlPacketInfo_t) :
    ∀ loc, ResetsOnly P (RxDiscovery_decodes env now index collided l loc) := by
  induction l with
  | nil => intro loc; exact ResetsOnly_pure _
  | cons it rest ih =>
    intro loc
    unfold RxDiscovery_decodes
    exact ResetsOnly_bind (ResetsOnly_decode _ _ _ _ _ _) (fun loc1 => ih loc1)

end LteSpectrumPhy
end ns3

namespace ns3
namespace LteSpectrumPhy

theorem isDiscResetOf_tail (info : SlRxPacketInfo_t) (rest : List SlRxPacketInfo_t)
    (c : SlHarqCall) (h : isDiscResetOf rest c) : isDiscResetOf (info :: rest) c := by
  obtain ⟨i, hi, rest1⟩ := h
  exact ⟨i, List.mem_cons_of_mem _ hi, rest1⟩

/-- The discovery overload of `AddExpectedTb` resets no other record than the discovery
record of the identity it registers. -/
theorem ResetsOnly_AddExpectedTbDisc (rnti resPsdch ndi : Nat) (map : List Int) (rv : Nat) :
    ResetsOnly (fun c => c = .ResetDiscHarqProcessStatus rnti resPsdch
        ∨ c = .ResetDiscTbPrevDecoded rnti resPsdch)
      (AddExpectedTbDisc rnti resPsdch ndi map rv) := by
  unfold AddExpectedTbDisc
  repeat' first
    | exact ResetsOnly_get
    | exact ResetsOnly_pure _
    | exact ResetsOnly_onSlHarq_reset _ (Or.inl rfl)
    | exact ResetsOnly_onSlHarq_reset _ (Or.inr rfl)
    | exact ResetsOnly_modify _ (fun _ => rfl)
    | refine ResetsOnly_bind ?_ (fun _ => ?_)
    | refine ResetsOnly_ite ?_ ?_
    | dsimp only
    | split

theorem ResetsOnly_pool (env : Env) (rbBitmap : List Int) (disc : SlDiscMsg) (pool : Nat) :
    ResetsOnly (fun c => c = .ResetDiscHarqProcessStatus disc.m_rnti disc.m_resPsdch
        ∨ c = .ResetDiscTbPrevDecoded disc.m_rnti disc.m_resPsdch)
      (RxDiscovery_pool env rbBitmap disc pool) := by
  unfold RxDiscovery_pool
  repeat' first
    | exact ResetsOnly_get
    | exact ResetsOnly_pure _
    | exact ResetsOnly_abortWith _
    | exact ResetsOnly_NS_ABORT_MSG_IF _ _
    | exact ResetsOnly_modify _ (fun _ => rfl)
    | exact ResetsOnly_AddExpectedTbDisc _ _ _ _ _
    | refine ResetsOnly_bind ?_ (fun _ => ?_)
    | refine ResetsOnly_ite ?_ ?_
    | dsimp only
    | split

theorem ResetsOnly_pools (env : Env) (rbBitmap : List Int) (disc : SlDiscMsg)
    (pools : List Nat) :
    ResetsOnly (fun c => c = .ResetDiscHarqProcessStatus disc.m_rnti disc.m_resPsdch
        ∨ c = .ResetDiscTbPrevDecoded disc.m_rnti disc.m_resPsdch)
      (RxDiscovery_pools env rbBitmap disc pools) := by
  induction pools with
  | nil => exact ResetsOnly_pure _
  | cons pool rest ih =>
    unfold RxDiscovery_pools
    exact ResetsOnly_bind (ResetsOnly_pool _ _ _ _) (fun _ => ih)

/-- The registration loop of `RxDiscovery` resets no other record than the discovery records
of the identities of discovery messages of the window. -/
theorem ResetsOnly_register (env : Env) (window : List SlRxPacketInfo_t) :
    ∀ i acc, ResetsOnly (isDiscResetOf window) (RxDiscovery_register env i window acc) := by
  induction window with
  | nil => intro i acc; exact ResetsOnly_pure _
  | cons info rest ih =>
    intro i acc
    unfold RxDiscovery_register
    split
    · rename_i msg hmsg
      split
      · rename_i htype
        refine ResetsOnly_bind (ResetsOnly_NS_ABORT_MSG_IF _ _) (fun _ => ?_)
        dsimp only
        refine ResetsOnly_bind (ResetsOnly_FilterRxApps _) (fun exist => ?_)
        split
        · refine ResetsOnly_bind ResetsOnly_get (fun st => ?_)
          refine ResetsOnly_bind (ResetsOnly_mono ?_ (ResetsOnly_pools _ _ _ _)) (fun _ => ?_)
          · intro c hc
            exact ⟨info, List.mem_cons_self _ _, msg, hmsg, htype, hc⟩
          · exact ResetsOnly_mono (isDiscResetOf_tail info rest) (ih _ _)
        · exact ResetsOnly_mono (isDiscResetOf_tail info rest) (ih _ _)
      · exact ResetsOnly_mono (isDiscResetOf_tail info rest) (ih _ _)
    · exact ResetsOnly_mono (isDiscResetOf_tail info rest) (ih _ _)

/-- The resets made by a run of `RxDiscovery`, returning or not: resets of the discovery
records of identities of discovery messages of the window, made by the registrations. -/
theorem RxDiscovery_resets (env : Env) (now : Time) (st : LteSpectrumPhy) :
    ∃ added, slHarqResets (RxDiscovery env now st).state = slHarqResets st ++ added
      ∧ ∀ c ∈ added, isDiscResetOf st.m_rxPacketInfo c := by
  unfold RxDiscovery
  rw [PhyM.bind_eq]
  unfold PhyM.andThen
  simp only [PhyM.get]
  generalize st.m_rxPacketInfo = w
  refine @ResetsOnly.resets (isDiscResetOf w) _ _ ?_ st
  repeat' first
    | exact ResetsOnly_get
    | exact ResetsOnly_pure _
    | exact ResetsOnly_NS_FATAL_ERROR _
    | exact ResetsOnly_emit _
    | exact ResetsOnly_register _ _ _ _
    | exact ResetsOnly_discSort _ _ _
    | exact ResetsOnly_decodes _ _ _ _ _ _
    | refine ResetsOnly_bind ?_ (fun _ => ?_)
    | refine ResetsOnly_ite ?_ ?_
    | dsimp only
    | split

/-- The resets made by a run of `EndRxSlData`, returning or not. -/
theorem EndRxSlData_resets (env : Env) (now : Time) (st : LteSpectrumPhy) :
    ∃ added, slHarqResets (EndRxSlData env now st).state = slHarqResets st ++ added
      ∧ ∀ c ∈ added, isDiscResetOf st.m_rxPacketInfo c := by
  obtain ⟨a1, d1, d2⟩ := (@ResetsOnly_data (fun _ => False) env now).resets st
  have ha1 : a1 = [] := List.eq_nil_iff_forall_not_mem.2 (fun c hc => d2 c hc)
  subst ha1
  unfold EndRxSlData
  simp only [PhyM.bind_eq]
  unfold PhyM.andThen
  cases h1 : EndRxSlData_data env now st with
  | abort why s =>
    rw [h1] at d1
    exact ⟨[], d1, by simp⟩
  | ok r s1 =>
    rw [h1] at d1
    simp only [Outcome.state, List.append_nil] at d1
    have hw1 : s1.m_rxPacketInfo = st.m_rxPacketInfo := (Steady_data env now st r s1 h1).1
    obtain ⟨a2, c1, c2⟩ := (@ResetsOnly_control (fun _ => False) env now).resets s1
    have ha2 : a2 = [] := List.eq_nil_iff_forall_not_mem.2 (fun c hc => c2 c hc)
    subst ha2
    simp only
    cases h2 : EndRxSlData_control env now s1 with
    | abort why s =>
      rw [h2] at c1
      simp only [Outcome.state, List.append_nil] at c1
      exact ⟨[], by simp only [Outcome.state, List.append_nil]; rw [c1, d1], by simp⟩
    | ok r2 s2 =>
      rw [h2] at c1
      simp only [Outcome.state, List.append_nil] at c1
      have hw2 : s2.m_rxPacketInfo = s1.m_rxPacketInfo :=
        (EndRxSlData_control_report env now s1 s2 h2).choose_spec.2.2.1
      obtain ⟨a3, e1, e2⟩ := RxDiscovery_resets env now s2
      rw [hw2, hw1] at e2
      simp only
      cases h3 : RxDiscovery env now s2 with
      | abort why s =>
        rw [h3] at e1
        simp only [Outcome.state] at e1
        exact ⟨a3, by simp only [Outcome.state]; rw [e1, c1, d1], e2⟩
      | ok r3 s3 =>
        rw [h3] at e1
        simp only [Outcome.state] at e1
        simp only [EndRxSlData_close_eq, Outcome.state]
        refine ⟨a3, ?_, e2⟩
        rw [← d1, ← c1, ← e1]
        rfl

theorem AddExpectedTbSl_resets (st : LteSpectrumPhy) (rnti l1dst ndi size mcs : Nat)
    (map : List Int) (rv : Nat) :
    ∃ st1, AddExpectedTbSl rnti l1dst ndi size mcs map rv st = .ok () st1
      ∧ st1.m_slHarqPhyModule = st.m_slHarqPhyModule ++
          (if ndi ≠ 0 then
            [.ResetSlHarqProcessStatus rnti l1dst, .ResetPrevDecoded rnti l1dst,
             .ResetTbIdx rnti l1dst]
          else []) := by
  unfold AddExpectedTbSl
  cases h : StdMap.find SlTbId_t.lt { m_rnti := rnti, m_l1dst := l1dst } st.m_expectedSlTbs <;>
    by_cases hn : ndi = 0 <;>
    simp [PhyM.bind_eq, PhyM.pure_eq, PhyM.andThen, PhyM.ret, PhyM.get, PhyM.modify, onSlHarq,
      h, hn]

theorem AddExpectedTbDisc_resets (st : LteSpectrumPhy) (rnti resPsdch ndi : Nat)
    (map : List Int) (rv : Nat) :
    ∃ st1, AddExpectedTbDisc rnti resPsdch ndi map rv st = .ok () st1
      ∧ st1.m_slHarqPhyModule = st.m_slHarqPhyModule ++
          (if ndi ≠ 0 then
            [.ResetDiscHarqProcessStatus rnti resPsdch, .ResetDiscTbPrevDecoded rnti resPsdch]
          else []) := by
  unfold AddExpectedTbDisc
  cases h : StdMap.find SlDiscTbId_t.lt { m_rnti := rnti, m_resPsdch := resPsdch }
      st.m_expectedDiscTbs <;>
    by_cases hn : ndi = 0 <;>
    simp [PhyM.bind_eq, PhyM.pure_eq, PhyM.andThen, PhyM.ret, PhyM.get, PhyM.modify, onSlHarq,
      h, hn]

end LteSpectrumPhy

open LteSpectrumPhy in
/-- C25 as stated fails: `RxDiscovery`, and with it `EndRxSlData`, resets the discovery HARQ
record of a received discovery message: for the discovery message of RNTI 2 on resource 0
held by the window, the run makes the calls `ResetDiscHarqProcessStatus (2, 0)` and
`ResetDiscTbPrevDecoded (2, 0)`, through the registration it performs for the message. -/
theorem C25_counterexample :
    (RxDiscovery exampleEnvDiscovery 0 exampleMixedWindow).returned = true
      ∧ slHarqResets (RxDiscovery exampleEnvDiscovery 0 exampleMixedWindow).state
          = slHarqResets exampleMixedWindow
            ++ [.ResetDiscHarqProcessStatus 2 0, .ResetDiscTbPrevDecoded 2 0]
      ∧ (EndRxSlData exampleEnvDiscovery 0 exampleMixedWindow).returned = true
      ∧ slHarqResets (EndRxSlData exampleEnvDiscovery 0 exampleMixedWindow).state
          = slHarqResets exampleMixedWindow
            ++ [.ResetDiscHarqProcessStatus 2 0, .ResetDiscTbPrevDecoded 2 0] :=
  ⟨by decide!, by decide!, by decide!, by decide!⟩

open LteSpectrumPhy in
/-- C25, amended: the records of the sidelink HARQ module are reset only by a registration
with the new-data indicator set.  The sidelink-communication overload of `AddExpectedTb`
resets the record of the identity it registers (history, previously-decoded flag, block
index) if and only if `ndi` is non-zero, the discovery overload likewise (history,
previously-decoded flag), and with `ndi = 0` they make no call on the module.  In every run of
`EndRxSlData`, returning or not, the data part and the control part make no reset, and so do
the sorting and the decoding loop of `RxDiscovery`; the only resets `RxDiscovery` and
`EndRxSlData` make are resets of the discovery record of the identity of a discovery message
of the window, made by the discovery registration `RxDiscovery` performs for that message. -/
theorem C25_sidelink_harq_reset_sources (env : Env) (now : Time) (st : LteSpectrumPhy) :
    (∀ (rnti l1dst ndi size mcs : Nat) (map : List Int) (rv : Nat),
        ∃ st1, AddExpectedTbSl rnti l1dst ndi size mcs map rv st = .ok () st1
          ∧ st1.m_slHarqPhyModule = st.m_slHarqPhyModule ++
              (if ndi ≠ 0 then
                [.ResetSlHarqProcessStatus rnti l1dst, .ResetPrevDecoded rnti l1dst,
                 .ResetTbIdx rnti l1dst]
              else []))
      ∧ (∀ (rnti resPsdch ndi : Nat) (map : List Int) (rv : Nat),
          ∃ st1, AddExpectedTbDisc rnti resPsdch ndi map rv st = .ok () st1
            ∧ st1.m_slHarqPhyModule = st.m_slHarqPhyModule ++
                (if ndi ≠ 0 then
                  [.ResetDiscHarqProcessStatus rnti resPsdch,
                   .ResetDiscTbPrevDecoded rnti resPsdch]
                else []))
      ∧ slHarqResets (EndRxSlData_data env now st).state = slHarqResets st
      ∧ slHarqResets (EndRxSlData_control env now st).state = slHarqResets st
      ∧ (∀ (index : StdMap SlDiscTbId_t Nat) (sorted : RbTree),
          slHarqResets (RxDiscovery_sort index st.m_expectedDiscTbs sorted st).state
            = slHarqResets st)
      ∧ (∀ (index : StdMap SlDiscTbId_t Nat) (collided : List Int)
            (sorted : List SlCtrlPacketInfo_t) (loc : DiscLocals),
          slHarqResets (RxDiscovery_decodes env now index collided sorted loc st).state
            = slHarqResets st)
      ∧ (∃ added, slHarqResets (RxDiscovery env now st).state = slHarqResets st ++ added
          ∧ ∀ c ∈ added, isDiscResetOf st.m_rxPacketInfo c)
      ∧ (∃ added, slHarqResets (EndRxSlData env now st).state = slHarqResets st ++ added
          ∧ ∀ c ∈ added, isDiscResetOf st.m_rxPacketInfo c) := by
  have none_added : ∀ {α : Type} (m : PhyM α), ResetsOnly (fun _ => False) m →
      slHarqResets (m st).state = slHarqResets st := by
    intro α m hm
    obtain ⟨a, h1, h2⟩ := hm.resets st
    have ha : a = [] := List.eq_nil_iff_forall_not_mem.2 (fun c hc => h2 c hc)
    rw [h1, ha, List.append_nil]
  exact ⟨fun rnti l1dst ndi size mcs map rv => AddExpectedTbSl_resets st rnti l1dst ndi size mcs map rv,
    fun rnti resPsdch ndi map rv => AddExpectedTbDisc_resets st rnti resPsdch ndi map rv,
    none_added _ (ResetsOnly_data env now), none_added _ (ResetsOnly_control env now),
    fun index sorted => none_added _ (ResetsOnly_discSort index _ sorted),
    fun index collided sorted loc => none_added _ (ResetsOnly_decodes env now index collided sorted loc),
    RxDiscovery_resets env now st, EndRxSlData_resets env now st⟩

open LteSpectrumPhy in
theorem C25_sidelink_harq_reset_sources_witness :
    (∃ st1, AddExpectedTbSl 1 2 1 5 0 [0] 0 exampleUnwiredSlUe = .ok () st1
        ∧ st1.m_slHarqPhyModule = exampleUnwiredSlUe.m_slHarqPhyModule ++
            (if 1 ≠ 0 then
              [.ResetSlHarqProcessStatus 1 2, .ResetPrevDecoded 1 2, .ResetTbIdx 1 2]
            else []))
      ∧ slHarqResets (EndRxSlData_data exampleEnvDiscovery 0 exampleMixedWindow).state
          = slHarqResets exampleMixedWindow
      ∧ ∃ added, slHarqResets (EndRxSlData exampleEnvDiscovery 0 exampleMixedWindow).state
            = slHarqResets exampleMixedWindow ++ added
          ∧ ∀ c ∈ added, isDiscResetOf exampleMixedWindow.m_rxPacketInfo c :=
  ⟨(C25_sidelink_harq_reset_sources exampleEnv 0 exampleUnwiredSlUe).1 1 2 1 5 0 [0] 0,
   (C25_sidelink_harq_reset_sources exampleEnvDiscovery 0 exampleMixedWindow).2.2.1,
   (C25_sidelink_harq_reset_sources exampleEnvDiscovery 0 exampleMixedWindow).2.2.2.2.2.2.2⟩

end ns3

/-! ## The branch of `GetLoss` -/

namespace ns3

open OutdoorToOutdoorPropagationLossModel in
/-- C40. In `GetLoss`, for every pair of nodes at distance at least 3 m, every stored random
value and every fresh draw, the line-of-sight branch is taken: the probability is overwritten
with `r + 1` just before the test `r <= plos`.  The call logs the free-space loss and one
line-of-sight line, no non-line-of-sight line, and returns the maximum of 0, the free-space
loss and the line-of-sight loss (computed with the first shadowing sample). -/
theorem C40_los_branch_always_taken (env : LossEnv) (a b : Nat)
    (self : OutdoorToOutdoorPropagationLossModel) (hdist : 3 ≤ env.GetDistanceFrom a b) :
    (GetLoss env a b self).1
        = max 0 (max (freeSpaceLoss env (env.GetDistanceFrom a b))
            (losLoss env self.m_frequency (env.GetDistanceFrom a b)
              (env.lognormal 3 self.samples)))
      ∧ (GetLoss env a b self).2.log
          = self.log ++
            [.freeSpace (freeSpaceLoss env (env.GetDistanceFrom a b)),
             .los (env.GetDistanceFrom a b) (env.lognormal 3 self.samples)
               (losLoss env self.m_frequency (env.GetDistanceFrom a b)
                 (env.lognormal 3 self.samples))]
      ∧ (∀ d s p, LossEvent.nlos d s p ∉ (GetLoss env a b self).2.log ↔
          LossEvent.nlos d s p ∉ self.log) := by
  have hr : ∀ r : ℚ, r ≤ r + 1 := fun r => by linarith
  have key : (GetLoss env a b self).1
        = max 0 (max (freeSpaceLoss env (env.GetDistanceFrom a b))
            (losLoss env self.m_frequency (env.GetDistanceFrom a b)
              (env.lognormal 3 self.samples)))
      ∧ (GetLoss env a b self).2.log
          = self.log ++
            [.freeSpace (freeSpaceLoss env (env.GetDistanceFrom a b)),
             .los (env.GetDistanceFrom a b) (env.lognormal 3 self.samples)
               (losLoss env self.m_frequency (env.GetDistanceFrom a b)
                 (env.lognormal 3 self.samples))] := by
    have hlog2 : ∀ s, (randomOf env a b s).2.log = s.log := by
      intro s
      unfold randomOf
      cases findRandom (a, b) s.m_randomMap <;> cases findRandom (b, a) s.m_randomMap <;> rfl
    unfold GetLoss
    by_cases hd : env.GetDistanceFrom a b
        ≤ 4 * (3 / 2 - 1) * (3 / 2 - 7 / 10) * self.m_frequency * (1 / (3 * 10 ^ 8))
    · simp only [GetShadowing, ge_iff_le, hdist, hr, if_true, hd, losLoss, freeSpaceLoss, hlog2]
      simp
    · simp only [GetShadowing, ge_iff_le, hdist, hr, if_true, hd, if_false, losLoss,
        freeSpaceLoss, hlog2]
      simp
  refine ⟨key.1, key.2, ?_⟩
  intro d s p
  rw [key.2]
  simp

open OutdoorToOutdoorPropagationLossModel in
theorem C40_los_branch_always_taken_witness :
    (3 : ℚ) ≤ exampleLossEnv.GetDistanceFrom 1 2
      ∧ (GetLoss exampleLossEnv 1 2 {}).1
        = max 0 (max (freeSpaceLoss exampleLossEnv (exampleLossEnv.GetDistanceFrom 1 2))
            (losLoss exampleLossEnv
              ({} : OutdoorToOutdoorPropagationLossModel).m_frequency
              (exampleLossEnv.GetDistanceFrom 1 2)
              (exampleLossEnv.lognormal 3 ({} : OutdoorToOutdoorPropagationLossModel).samples))) :=
  ⟨by norm_num [exampleLossEnv],
   (C40_los_branch_always_taken exampleLossEnv 1 2 {} (by norm_num [exampleLossEnv])).1⟩

end ns3

/-! ## The sensing maps -/

namespace ns3

theorem Outcome.eq_abort_of_why {α : Type} (o : Outcome α) (why : Abort)
    (h : o.why? = some why) : o = .abort why o.state := by
  cases o with
  | ok a st => simp [Outcome.why?] at h
  | abort w st =>
    simp only [Outcome.why?, Option.some.injEq] at h
    subst h
    rfl

open LteSpectrumPhy in
/-- C38: the sub-channel index can lie outside the maps.  `SetRbPerSubChannel (6)` allocates
`50 / 6 = 8` rows of 1000 columns; a signal whose first used block is 48 gives the
sub-channel index `48 / 6 = 8`, and `UpdateRssiRsrpMap` writes to row 8 of `m_rssiMap`, which
does not exist.  For every sub-channel size `r` and first block `s`, the index `s / r` is
below the `50 / r` rows exactly when `s < (50 / r) * r`. -/
theorem C38_sub_channel_index_out_of_range :
    (SetRbPerSubChannel 6 {}).returned = true
      ∧ (SetRbPerSubChannel 6 {}).state.m_RbPerSubChannel = 6
      ∧ (SetRbPerSubChannel 6 {}).state.m_rssiMap = List.replicate 8 (List.replicate 1000 0)
      ∧ (SetRbPerSubChannel 6 {}).state.m_rsrpMap = List.replicate 8 (List.replicate 1000 0)
      ∧ (SetRbPerSubChannel 6 {}).state.m_decodingMap
          = List.replicate 8 (List.replicate 1000 false)
      ∧ (usedRbs (List.replicate 48 0 ++ [1, 1])).head? = some 48
      ∧ exampleSensingUe.m_slRxRbStartIdx < 50
      ∧ ¬ (exampleSensingUe.m_slRxRbStartIdx / exampleSensingUe.m_RbPerSubChannel
            < exampleSensingUe.m_rssiMap.length)
      ∧ (∃ st1, UpdateRssiRsrpMap exampleEnv 0 0 exampleSensingUe
          = .abort (.outOfRange "m_rssiMap[subChannel][subFrame]") st1)
      ∧ (∀ r s : Nat, s / r < 50 / r ↔ s < 50 / r * r) := by
  refine ⟨by decide!, by decide!, by decide!, by decide!, by decide!, by decide!, by decide!,
    by decide!, ⟨_, Outcome.eq_abort_of_why _ _ (by decide!)⟩, ?_⟩
  intro r s
  rcases Nat.eq_zero_or_pos r with h | h
  · subst h; simp
  · exact Nat.div_lt_iff_lt_mul h

end ns3

namespace ns3

open LteSpectrumPhy in
/-- C39: `MoveSensingWindow` clears the wrong entries of the decoding map.  On maps that hold
a measurement in every subframe, `MoveSensingWindow (1, 1)` clears subframe 1 of the RSSI and
RSRP maps, but in the decoding map it clears subframe `1 & 1000 = 0` and leaves subframe 1
set; `MoveSensingWindow (999, 2)` reaches the counter 1000 and writes to column
`1000 & 1000 = 1000` of the decoding map, outside the 1000 columns. -/
theorem C39_decoding_map_wrong_subframe :
    (MoveSensingWindow 1 1 exampleSensedUe).returned = true
      ∧ (MoveSensingWindow 1 1 exampleSensedUe).state.m_rssiMap
          = [1 :: 0 :: List.replicate 998 1]
      ∧ (MoveSensingWindow 1 1 exampleSensedUe).state.m_rsrpMap
          = [1 :: 0 :: List.replicate 998 1]
      ∧ (MoveSensingWindow 1 1 exampleSensedUe).state.m_decodingMap
          = [false :: true :: List.replicate 998 true]
      ∧ (1 % 1000 = 1 ∧ 1 &&& 1000 = 0 ∧ 1000 % 1000 = 0 ∧ 1000 &&& 1000 = 1000)
      ∧ (∃ st1, MoveSensingWindow 999 2 exampleSensedUe
          = .abort (.outOfRange "m_decodingMap[idx_sc][idx_sf&1000]") st1) := by
  refine ⟨by decide!, by decide!, by decide!, by decide!, by decide,
    ⟨_, Outcome.eq_abort_of_why _ _ (by decide!)⟩⟩

end ns3

namespace ns3

open LteSpectrumPhy in
/-- C32: a MIB-SL message that fails its error-model evaluation is decoded all the same.  The
window holds one MIB-SL message, the control error model is enabled, and the draw `1/8` is
not above the PSBCH block-error rate `1/4`: the pass marks the message corrupted, yet it
appends it to the decoded list and claims its resource block, and the control part hands the
message to the control-OK callback. -/
theorem C32_corrupted_mib_sl_decoded :
    exampleMibWindow.m_slCtrlErrorModelEnabled = true
      ∧ exampleMibWindow.m_rxPacketInfo
          = [{ rbBitmap := [0], m_rxControlMessage := some exampleMibMessage }]
      ∧ exampleMibMessage.GetMessageType = .MIB_SL
      ∧ (∀ x, exampleEnvFirstDrawLow.random exampleMibWindow.m_random
          ≤ (exampleEnvFirstDrawLow.GetPsbchBler x).tbler)
      ∧ (EndRxSlData_ctrlVerdict exampleEnvFirstDrawLow [] {} 0
            { rbBitmap := [0], m_rxControlMessage := some exampleMibMessage }
            exampleMibMessage exampleMibWindow).result?
          = some { corrupt := true, weakSignal := false, conflict := false, first := true }
      ∧ (EndRxSlData_ctrl exampleEnvFirstDrawLow 0 [] { sinr := 2, index := 0 } {}
            exampleMibWindow).result?
          = some { rxControlMessageOkList := [exampleMibMessage], error := false,
                   ctrlMessageFound := true, rbDecodedBitmap := [0] }
      ∧ (EndRxSlData_control exampleEnvFirstDrawLow 0 exampleMibWindow).returned = true
      ∧ ctrlNotifications (EndRxSlData_control exampleEnvFirstDrawLow 0 exampleMibWindow).state.log
          = [.ltePhyRxCtrlEndOkCallback [exampleMibMessage]] := by
  refine ⟨rfl, rfl, rfl, ?_, by decide!, by decide!, by decide!, by decide!⟩
  intro x
  norm_num [exampleEnvFirstDrawLow, exampleEnv, exampleMibWindow, exampleOverlapWindow]

end ns3

namespace ns3

open LteSpectrumPhy in
/-- C31: `RxDiscovery` can process the discovery transport blocks in ascending order of mean
SINR.  The window holds the message of RNTI 2 at index 0 with mean SINR 1 and the message of
RNTI 1 at index 1 with mean SINR 2.  The descriptors are inserted into the sorted set in the
order of their identities, RNTI 1 first; the element (SINR 1, index 0) inserted next compares
less than the stored (SINR 2, index 1) because its index is smaller, and goes to the front.
Both blocks are processed once, the weaker one first, and the decoded list is in that
order. -/
theorem C31_discovery_weaker_processed_first :
    (RxDiscovery_register exampleEnvResources 0 exampleTwoDiscWindow.m_rxPacketInfo (false, [])
          exampleTwoDiscWindow).result?
        = some (true, [({ m_rnti := 1, m_resPsdch := 1 }, 1), ({ m_rnti := 2, m_resPsdch := 0 }, 0)])
      ∧ (RxDiscovery_register exampleEnvResources 0 exampleTwoDiscWindow.m_rxPacketInfo
            (false, []) exampleTwoDiscWindow).state.m_expectedDiscTbs
          = [({ m_rnti := 1, m_resPsdch := 1 }, { ndi := 1, resPsdch := 1, rbBitmap := [1] }),
             ({ m_rnti := 2, m_resPsdch := 0 }, { ndi := 1, resPsdch := 0, rbBitmap := [0] })]
      ∧ (RxDiscovery_sort
            [({ m_rnti := 1, m_resPsdch := 1 }, 1), ({ m_rnti := 2, m_resPsdch := 0 }, 0)]
            [({ m_rnti := 1, m_resPsdch := 1 }, { ndi := 1, resPsdch := 1, rbBitmap := [1] }),
             ({ m_rnti := 2, m_resPsdch := 0 }, { ndi := 1, resPsdch := 0, rbBitmap := [0] })]
            .leaf exampleTwoDiscWindow).result?
          = some [{ sinr := 1, index := 0 }, { sinr := 2, index := 1 }]
      ∧ SlCtrlPacketInfo_t.lt { sinr := 1, index := 0 } { sinr := 2, index := 1 } = true
      ∧ (RxDiscovery exampleEnvResources 0 exampleTwoDiscWindow).returned = true
      ∧ slReceptions (RxDiscovery exampleEnvResources 0 exampleTwoDiscWindow).state.log
          = [(2, 1), (1, 2)]
      ∧ ctrlNotifications (RxDiscovery exampleEnvResources 0 exampleTwoDiscWindow).state.log
          = [.ltePhyRxCtrlEndOkCallback [exampleDiscMessage, exampleStrongDiscMessage]] := by
  refine ⟨by decide!, by decide!, by decide!, by decide!, by decide!, by decide!, by decide!⟩

end ns3

namespace ns3

namespace LteSpectrumPhy

/-- The registration `RxDiscovery` makes for a discovery message whose source already has a
transmission counter, on a resource that the pool schedules `n >= 2` times: with the counter
at `c < n`, the message is registered with the new-data indicator set exactly when `c = 0`
and with redundancy version `c`, and the counter becomes `c + 1`, or 0 when `c + 1 = n`. -/
theorem RxDiscovery_pool_counted (env : Env) (rbBitmap : List Int) (disc : SlDiscMsg)
    (pool : Nat) (st : LteSpectrumPhy) (k c : Nat)
    (hn : 2 ≤ (env.GetPsdchTransmissions pool disc.m_resPsdch).length)
    (hfind : StdMap.find natLt disc.m_rnti st.m_slDiscTxCount = some (k, c))
    (hc : c < (env.GetPsdchTransmissions pool disc.m_resPsdch).length)
    (hc256 : c < 256) :
    RxDiscovery_pool env rbBitmap disc pool st
      = AddExpectedTbDisc disc.m_rnti disc.m_resPsdch (if c = 0 then 1 else 0)
          ((psdchMatch rbBitmap (env.GetPsdchTransmissions pool disc.m_resPsdch)).getD []) c
          { st with m_slDiscTxCount :=
              (StdMap.update natLt disc.m_rnti
                (fun _ => if c + 1 = (env.GetPsdchTransmissions pool disc.m_resPsdch).length
                  then 0 else c + 1)
                st.m_slDiscTxCount) } := by
  have hne : (env.GetPsdchTransmissions pool disc.m_resPsdch).isEmpty = false := by
    cases h : env.GetPsdchTransmissions pool disc.m_resPsdch with
    | nil => rw [h] at hn; simp at hn
    | cons a l => rfl
  have h1 : (c + 1) % 65536 = c + 1 := Nat.mod_eq_of_lt (by omega)
  have h2 : (c + 1 - 1) % 256 = c := by
    rw [Nat.add_sub_cancel]; exact Nat.mod_eq_of_lt hc256
  have h3 : ¬ (c > (env.GetPsdchTransmissions pool disc.m_resPsdch).length) := by omega
  have h4 : (c + 1 = 1) = (c = 0) := by simp
  unfold RxDiscovery_pool
  simp only [hne, Bool.not_false, if_true, PhyM.bind_eq]
  have hgt : (env.GetPsdchTransmissions pool disc.m_resPsdch).length > 1 := by omega
  simp only [hgt, if_true]
  unfold PhyM.andThen
  simp only [PhyM.get, hfind, PhyM.modify, PhyM.pure_eq, PhyM.ret, NS_ABORT_MSG_IF, h1, h2,
    Nat.succ_ne_zero, decide_False, Bool.false_eq_true, if_false, h3, h4]

end LteSpectrumPhy

end ns3

/-! ## What a member function leaves untouched -/

namespace ns3
namespace LteSpectrumPhy

variable {β : Type} {f : LteSpectrumPhy → β}

theorem Keeps_pure {α : Type} (a : α) : Keeps f (pure a : PhyM α) := ⟨fun _ => rfl⟩

theorem Keeps_ret {α : Type} (a : α) : Keeps f (PhyM.ret a) := ⟨fun _ => rfl⟩

theorem Keeps_get : Keeps f PhyM.get := ⟨fun _ => rfl⟩

theorem Keeps_abortWith {α : Type} (why : Abort) : Keeps f (PhyM.abortWith why : PhyM α) :=
  ⟨fun _ => rfl⟩

theorem Keeps_bind {α γ : Type} {m : PhyM α} {g : α → PhyM γ} (hm : Keeps f m)
    (hg : ∀ a, Keeps f (g a)) : Keeps f (m >>= g) := by
  constructor
  intro st
  have h1 := hm.keeps st
  rw [PhyM.bind_eq]
  unfold PhyM.andThen
  cases hr : m st with
  | ok a s =>
    rw [hr] at h1
    simp only [Outcome.state] at h1
    simp only
    rw [(hg a).keeps s, h1]
  | abort why s =>
    rw [hr] at h1
    exact h1

theorem Keeps_ite {α : Type} {c : Prop} [Decidable c] {a b : PhyM α}
    (ha : Keeps f a) (hb : Keeps f b) : Keeps f (if c then a else b) := by
  split
  · exact ha
  · exact hb

theorem Keeps_modify (g : LteSpectrumPhy → LteSpectrumPhy) (hg : ∀ s, f (g s) = f s) :
    Keeps f (PhyM.modify g) := ⟨fun st => hg st⟩

theorem Keeps_emit (e : PhyEvent) (hf : ∀ s l, f { s with log := l } = f s) :
    Keeps f (PhyM.emit e) := ⟨fun st => hf st _⟩

theorem Keeps_NS_ASSERT (c : Bool) (msg : String) : Keeps f (NS_ASSERT c msg) := by
  unfold NS_ASSERT
  split
  · exact Keeps_ret ()
  · exact Keeps_abortWith _

theorem Keeps_NS_ABORT_MSG_IF (c : Bool) (msg : String) : Keeps f (NS_ABORT_MSG_IF c msg) := by
  unfold NS_ABORT_MSG_IF
  split
  · exact Keeps_abortWith _
  · exact Keeps_ret ()

theorem Keeps_NS_FATAL_ERROR {α : Type} (msg : String) :
    Keeps f (NS_FATAL_ERROR msg : PhyM α) := Keeps_abortWith _

theorem Keeps_vectorAt {α : Type} (what : String) (v : List α) (i : Nat) :
    Keeps f (vectorAt what v i) := by
  unfold vectorAt
  split
  · exact Keeps_pure _
  · exact Keeps_abortWith _

theorem Keeps_GetMeanSinr (sinr : SpectrumValue) (map : List Int) :
    Keeps f (GetMeanSinr sinr map) := by
  unfold GetMeanSinr
  split
  · exact Keeps_pure _
  · exact Keeps_abortWith _

theorem Keeps_setCell {α : Type} (what : String) (map : List (List α)) (row col : Nat)
    (x : α) : Keeps f (setCell what map row col x) := by
  unfold setCell
  refine Keeps_bind (Keeps_vectorAt _ _ _) (fun r => ?_)
  split
  · exact Keeps_pure _
  · exact Keeps_abortWith _

theorem Keeps_onHarq (c : HarqCall)
    (hf : ∀ s l, f { s with m_harqPhyModule := l } = f s) : Keeps f (onHarq c) :=
  ⟨fun st => hf st _⟩

theorem Keeps_onSlHarq (c : SlHarqCall)
    (hf : ∀ s l, f { s with m_slHarqPhyModule := l } = f s) : Keeps f (onSlHarq c) :=
  ⟨fun st => hf st _⟩

end LteSpectrumPhy
end ns3

/-! ## The draws of `EndRxData` -/

namespace ns3
namespace LteSpectrumPhy

theorem Keeps_random_ulFeedback (tbId : TbId_t) (info : tbInfo_t) :
    Keeps (fun s => s.m_random) (EndRxData_ulFeedback tbId info) := by
  unfold EndRxData_ulFeedback
  repeat' first
    | exact Keeps_get
    | exact Keeps_pure _
    | exact Keeps_ret _
    | exact Keeps_abortWith _
    | exact Keeps_NS_ASSERT _ _
    | exact Keeps_onHarq _ (fun _ _ => rfl)
    | exact Keeps_emit _ (fun _ _ => rfl)
    | exact Keeps_modify _ (fun _ => rfl)
    | refine Keeps_bind ?_ (fun _ => ?_)
    | refine Keeps_ite ?_ ?_
    | dsimp only
    | split

theorem Keeps_random_dlFeedback (tbId : TbId_t) (info : tbInfo_t)
    (m : StdMap Nat DlInfoListElement_s) :
    Keeps (fun s => s.m_random) (EndRxData_dlFeedback tbId info m) := by
  unfold EndRxData_dlFeedback
  repeat' first
    | exact Keeps_get
    | exact Keeps_pure _
    | exact Keeps_ret _
    | exact Keeps_abortWith _
    | exact Keeps_NS_ASSERT _ _
    | exact Keeps_onHarq _ (fun _ _ => rfl)
    | exact Keeps_emit _ (fun _ _ => rfl)
    | exact Keeps_modify _ (fun _ => rfl)
    | refine Keeps_bind ?_ (fun _ => ?_)
    | refine Keeps_ite ?_ ?_
    | dsimp only
    | split

theorem Keeps_random_packet (p : Packet) (m : StdMap Nat DlInfoListElement_s) :
    Keeps (fun s => s.m_random) (EndRxData_packet p m) := by
  unfold EndRxData_packet EndRxData_notify EndRxData_feedback
  repeat' first
    | exact Keeps_get
    | exact Keeps_pure _
    | exact Keeps_ret _
    | exact Keeps_abortWith _
    | exact Keeps_NS_ASSERT _ _
    | exact Keeps_random_ulFeedback _ _
    | exact Keeps_random_dlFeedback _ _ _
    | exact Keeps_emit _ (fun _ _ => rfl)
    | exact Keeps_modify _ (fun _ => rfl)
    | refine Keeps_bind ?_ (fun _ => ?_)
    | refine Keeps_ite ?_ ?_
    | dsimp only
    | split

theorem Keeps_random_packets (ps : List Packet) :
    ∀ m, Keeps (fun s => s.m_random) (EndRxData_packets ps m) := by
  induction ps with
  | nil => intro m; exact Keeps_pure _
  | cons p ps ih =>
    intro m
    unfold EndRxData_packets
    exact Keeps_bind (Keeps_random_packet p m) (fun m1 => ih m1)

theorem Keeps_random_sendDlFeedback (l : List (Nat × DlInfoListElement_s)) :
    Keeps (fun s => s.m_random) (EndRxData_sendDlFeedback l) := by
  induction l with
  | nil => exact Keeps_pure _
  | cons e rest ih =>
    unfold EndRxData_sendDlFeedback
    repeat' first
      | exact Keeps_get
      | exact Keeps_pure _
      | exact ih
      | exact Keeps_emit _ (fun _ _ => rfl)
      | refine Keeps_bind ?_ (fun _ => ?_)
      | refine Keeps_ite ?_ ?_
      | dsimp only
      | split

theorem Keeps_random_deliver : Keeps (fun s => s.m_random) EndRxData_deliver := by
  unfold EndRxData_deliver
  repeat' first
    | exact Keeps_get
    | exact Keeps_pure _
    | exact Keeps_random_packets _ _
    | exact Keeps_random_sendDlFeedback _
    | exact Keeps_emit _ (fun _ _ => rfl)
    | refine Keeps_bind ?_ (fun _ => ?_)
    | refine Keeps_ite ?_ ?_
    | dsimp only
    | split

end LteSpectrumPhy

open LteSpectrumPhy in
/-- C34 as stated fails: two descriptors are expected, for RNTI 1 and RNTI 2, and the one
burst received carries a packet of RNTI 1 only.  One descriptor has a matching payload, yet
`EndRxData` consumes two values of the random stream: the descriptor of RNTI 2 draws too. -/
theorem C34_counterexample :
    matchedDescriptors exampleUnmatchedRxPhy = 1
      ∧ (EndRxData exampleEnv 0 exampleUnmatchedRxPhy).returned = true
      ∧ (EndRxData exampleEnv 0 exampleUnmatchedRxPhy).state.m_random
          = exampleUnmatchedRxPhy.m_random + 2 := by
  refine ⟨by decide!, by decide!, by decide!⟩

open LteSpectrumPhy in
/-- C34, amended: whenever `EndRxData` returns, the number of values it has consumed from the
random stream is the number of expected descriptors if the data error model is enabled and
at least one burst was received in the window, and zero otherwise.  A registered descriptor
draws whether or not a payload matching it was received. -/
theorem C34_one_draw_per_expected_descriptor (env : Env) (now : Time)
    (st st2 : LteSpectrumPhy) (h : EndRxData env now st = .ok () st2) :
    st2.m_random = st.m_random
      + (if st.m_dataErrorModelEnabled = true ∧ st.m_rxPacketBurstList.length > 0 then
          st.m_expectedTbs.length
        else 0) := by
  obtain ⟨st1, st1b, h1, h2, h3⟩ := EndRxData_ok env now st st2 h
  obtain ⟨st3, k1, k2, k3, k4, k5, k6, k7⟩ := EndRxData_errorModel_ok env now st st1 h1
  have hd : st1b.m_random = st1.m_random := by
    have := Keeps_random_deliver.keeps st1
    rw [h2] at this
    exact this
  have h2' : st2.m_random = st1b.m_random := by rw [h3]
  rw [h2', hd]
  by_cases hg : st.m_dataErrorModelEnabled = true ∧ st.m_rxPacketBurstList.length > 0
  · rw [if_pos hg]
    have hg3 : st3.m_dataErrorModelEnabled = true ∧ st3.m_rxPacketBurstList.length > 0 := by
      rw [k5, k6]; exact hg
    obtain ⟨-, e2, -, -⟩ := EndRxData_tbs_on env now st.m_expectedTbs [] st3 st1 hg3
      (by simp [k2]) k1
    rw [e2, k3]
  · rw [if_neg hg]
    have hg3 : ¬ (st3.m_dataErrorModelEnabled = true ∧ st3.m_rxPacketBurstList.length > 0) := by
      rw [k5, k6]; exact hg
    have := EndRxData_tbs_off env now st.m_expectedTbs [] st3 hg3
    rw [this] at k1
    simp only [Outcome.ok.injEq, true_and] at k1
    rw [← k1, k3]
    rfl

open LteSpectrumPhy in
theorem C34_one_draw_per_expected_descriptor_witness :
    (EndRxData exampleEnv 0 exampleUnmatchedRxPhy).state.m_random
      = exampleUnmatchedRxPhy.m_random
        + (if exampleUnmatchedRxPhy.m_dataErrorModelEnabled = true
              ∧ exampleUnmatchedRxPhy.m_rxPacketBurstList.length > 0 then
            exampleUnmatchedRxPhy.m_expectedTbs.length
          else 0) :=
  C34_one_draw_per_expected_descriptor exampleEnv 0 exampleUnmatchedRxPhy _
    (Outcome.eq_ok_of_returned _ (by decide!))

end ns3

/-! ## The HARQ bookkeeping of `RxDiscovery` -/

namespace ns3
namespace LteSpectrumPhy

/-- The calls one returning pass of the decoding loop of `RxDiscovery` makes on the sidelink
HARQ module: with the discovery error model enabled they hold exactly one bookkeeping update,
for the RNTI and the resource of the message processed; with it disabled they hold none. -/
theorem RxDiscovery_decode_updates (env : Env) (now : Time)
    (index : StdMap SlDiscTbId_t Nat) (collided : List Int) (it : SlCtrlPacketInfo_t)
    (loc loc1 : DiscLocals) (st st1 : LteSpectrumPhy)
    (h : RxDiscovery_decode env now index collided it loc st = .ok loc1 st1) :
    ∃ info msg calls, st.m_rxPacketInfo[it.index.toNat]? = some info
      ∧ info.m_rxControlMessage = some msg
      ∧ st1.m_slHarqPhyModule = st.m_slHarqPhyModule ++ calls
      ∧ if st.m_slDiscoveryErrorModelEnabled = true then
          ∃ sinr, discHarqUpdates calls
            = [.UpdateDiscHarqProcessStatus msg.disc.m_rnti msg.disc.m_resPsdch sinr]
        else discHarqUpdates calls = [] := by
  unfold RxDiscovery_decode at h
  simp only [PhyM.bind_eq, PhyM.andThen_ok, PhyM.get_ok] at h
  obtain ⟨w, w2, ⟨h0a, h0b⟩, info, s0, h1, h2⟩ := h
  subst h0a h0b
  obtain ⟨hs1, hinfo⟩ := vectorAt_ok _ _ _ _ _ _ h1
  subst hs1
  cases hm : info.m_rxControlMessage with
  | none => rw [hm] at h2; simp [PhyM.abortWith] at h2
  | some msg =>
    rw [hm] at h2
    simp only at h2
    by_cases ht : msg.GetMessageType ≠ .SL_DISC_MSG
    · rw [if_pos ht] at h2; simp [PhyM.abortWith] at h2
    · rw [if_neg ht] at h2
      cases hf : StdMap.find SlDiscTbId_t.lt
          { m_rnti := msg.disc.m_rnti, m_resPsdch := msg.disc.m_resPsdch }
          s0.m_expectedDiscTbs with
      | none => rw [hf] at h2; simp [PhyM.abortWith] at h2
      | some e =>
        obtain ⟨key, tb⟩ := e
        have hkey : key = { m_rnti := msg.disc.m_rnti, m_resPsdch := msg.disc.m_resPsdch } :=
          StdMap.find_key slDiscTbId_keyOrder _ _ _ hf
        rw [hf] at h2
        simp only at h2
        cases hi : StdMap.find SlDiscTbId_t.lt key index with
        | none => rw [hi] at h2; simp [NS_FATAL_ERROR, PhyM.abortWith] at h2
        | some ei =>
          obtain ⟨k2, idx⟩ := ei
          rw [hi] at h2
          have tail : ∀ (m : PhyM (SlDisctbInfo_t × DiscLocals)),
              (m >>= fun y =>
                  vectorAt "m_slSinrPerceived[(*itSinrDisc).second]" s0.m_slSinrPerceived idx
                    >>= fun sinr =>
                  GetMeanSinr (svScale sinr s0.m_slRxGain) y.1.rbBitmap >>= fun sinrPerRb =>
                  PhyM.emit (.slPhyReception
                    { m_timestamp := milliSeconds now, m_cellId := s0.m_cellId, m_imsi := 0,
                      m_rnti := key.m_rnti, m_txMode := s0.m_transmissionMode, m_layer := 0,
                      m_mcs := 0, m_size := 232, m_rv := y.2.harqInfoList.length,
                      m_ndi := y.1.ndi, m_correctness := if y.1.corrupt then 0 else 1,
                      m_sinrPerRb := sinrPerRb }) >>= fun _ => pure y.2) s0 = .ok loc1 st1 →
              ∃ r s2, m s0 = .ok r s2 ∧ st1.m_slHarqPhyModule = s2.m_slHarqPhyModule := by
            intro m hrun
            simp only [PhyM.bind_eq, PhyM.andThen_ok] at hrun
            obtain ⟨r, s2, h3, sinr, s3, h4, mean, s4, h5, _, s5, h6, h7⟩ := hrun
            obtain ⟨hs3, -⟩ := vectorAt_ok _ _ _ _ _ _ h4
            obtain ⟨hs4, -⟩ := GetMeanSinr_ok _ _ _ _ _ h5
            simp only [PhyM.emit, Outcome.ok.injEq, true_and] at h6
            simp only [PhyM.pure_eq, PhyM.ret_ok] at h7
            obtain ⟨-, hs5⟩ := h7
            exact ⟨r, s2, h3, by rw [hs5, ← h6, hs4, hs3]⟩
          by_cases hem : s0.m_slDiscoveryErrorModelEnabled = true
          · simp only [hem, if_true] at h2
            obtain ⟨r, s2, h3, hmod⟩ := tail _ h2
            obtain ⟨calls, c1, c2⟩ :=
              RxDiscovery_errorModel_ok env collided key tb idx loc s0 s2 r h3
            refine ⟨info, msg, calls, hinfo, hm, hmod.trans c1, ?_⟩
            rw [if_pos hem]
            refine ⟨r.1.sinr, ?_⟩
            rw [hkey] at c2
            split_ifs at c2 with hc
            · obtain ⟨_, _, _, _, _, e4⟩ := c2
              rw [e4]; rfl
            · rw [c2.2]; rfl
          · simp only [hem, if_false] at h2
            obtain ⟨r, s2, h3, hmod⟩ := tail _ h2
            obtain ⟨calls, c1, c2⟩ :=
              RxDiscovery_noErrorModel_ok env collided key tb idx loc s0 s2 r h3
            refine ⟨info, msg, calls, hinfo, hm, hmod.trans c1, ?_⟩
            rw [if_neg hem]
            split_ifs at c2 with hc
            · obtain ⟨_, _, _, _, _, e4⟩ := c2
              rw [e4]; rfl
            · rw [c2.2]; rfl

end LteSpectrumPhy
end ns3

namespace ns3

open LteSpectrumPhy in
/-- C33 as stated fails: with the discovery error model disabled, `RxDiscovery` processes the
discovery message of the window (it is decoded and its reception is traced) and makes no
`UpdateDiscHarqProcessStatus` call at all. -/
theorem C33_counterexample :
    exampleNoDiscErrorModelWindow.m_slDiscoveryErrorModelEnabled = false
      ∧ (RxDiscovery exampleEnvDiscovery 0 exampleNoDiscErrorModelWindow).returned = true
      ∧ slReceptions (RxDiscovery exampleEnvDiscovery 0 exampleNoDiscErrorModelWindow).state.log
          = [(2, 5)]
      ∧ ctrlNotifications
            (RxDiscovery exampleEnvDiscovery 0 exampleNoDiscErrorModelWindow).state.log
          = [.ltePhyRxCtrlEndOkCallback [exampleDiscMessage]]
      ∧ discHarqUpdates
            (RxDiscovery exampleEnvDiscovery 0 exampleNoDiscErrorModelWindow).state.m_slHarqPhyModule
          = [] := by
  refine ⟨rfl, by decide!, by decide!, by decide!, by decide!⟩

open LteSpectrumPhy in
/-- C33, amended: whenever the decoding loop of `RxDiscovery` returns, with the discovery
error model enabled the bookkeeping updates it made on the sidelink HARQ module are exactly
one `UpdateDiscHarqProcessStatus` per message processed, in processing order, each for the
RNTI and the resource of its message, whether the message was decoded, found corrupted, or
was an already-decoded retransmission that is not delivered again; with the discovery error
model disabled the loop makes no bookkeeping update. -/
theorem C33_discovery_harq_update_once (env : Env) (now : Time)
    (index : StdMap SlDiscTbId_t Nat) (collided : List Int) (sorted : List SlCtrlPacketInfo_t)
    (loc loc1 : DiscLocals) (st st1 : LteSpectrumPhy)
    (h : RxDiscovery_decodes env now index collided sorted loc st = .ok loc1 st1) :
    ∃ calls, st1.m_slHarqPhyModule = st.m_slHarqPhyModule ++ calls
      ∧ if st.m_slDiscoveryErrorModelEnabled = true then
          List.Forall₂
            (fun it c => ∃ info msg sinr, st.m_rxPacketInfo[it.index.toNat]? = some info
              ∧ info.m_rxControlMessage = some msg
              ∧ c = SlHarqCall.UpdateDiscHarqProcessStatus msg.disc.m_rnti msg.disc.m_resPsdch
                      sinr)
            sorted (discHarqUpdates calls)
        else discHarqUpdates calls = [] := by
  induction sorted generalizing loc st with
  | nil =>
    simp only [RxDiscovery_decodes, PhyM.pure_eq, PhyM.ret_ok] at h
    obtain ⟨-, hst⟩ := h
    subst hst
    refine ⟨[], by simp, ?_⟩
    split <;> simp [discHarqUpdates]
  | cons it rest ih =>
    simp only [RxDiscovery_decodes, PhyM.bind_eq, PhyM.andThen_ok] at h
    obtain ⟨loc2, st2, hstep, hrest⟩ := h
    obtain ⟨info, msg, calls1, a1, a2, a3, a4⟩ :=
      RxDiscovery_decode_updates env now index collided it loc loc2 st st2 hstep
    obtain ⟨w1, -, w3, -⟩ := Steady_decode env now index collided it loc st loc2 st2 hstep
    obtain ⟨calls2, b1, b2⟩ := ih loc2 st2 hrest
    refine ⟨calls1 ++ calls2, by rw [b1, a3, List.append_assoc], ?_⟩
    rw [w3, w1] at b2
    by_cases hem : st.m_slDiscoveryErrorModelEnabled = true
    · rw [if_pos hem] at a4 b2 ⊢
      obtain ⟨sinr, a4⟩ := a4
      simp only [discHarqUpdates, List.filter_append] at a4 b2 ⊢
      rw [a4]
      exact List.Forall₂.cons ⟨info, msg, sinr, a1, a2, rfl⟩ b2
    · rw [if_neg hem] at a4 b2 ⊢
      simp only [discHarqUpdates, List.filter_append] at a4 b2 ⊢
      rw [a4, b2]
      rfl

open LteSpectrumPhy in
theorem C33_discovery_harq_update_once_witness :
    ∃ calls,
      (RxDiscovery_decodes exampleEnv 0 [({ m_rnti := 2, m_resPsdch := 0 }, 0)] []
          [{ sinr := 3, index := 0 }] {} exampleDiscoveryUe).state.m_slHarqPhyModule
        = exampleDiscoveryUe.m_slHarqPhyModule ++ calls
      ∧ if exampleDiscoveryUe.m_slDiscoveryErrorModelEnabled = true then
          List.Forall₂
            (fun (it : SlCtrlPacketInfo_t) (c : SlHarqCall) =>
              ∃ (info : SlRxPacketInfo_t) (msg : LteControlMessage) (sinr : ℚ),
              exampleDiscoveryUe.m_rxPacketInfo[it.index.toNat]? = some info
              ∧ info.m_rxControlMessage = some msg
              ∧ c = SlHarqCall.UpdateDiscHarqProcessStatus msg.disc.m_rnti msg.disc.m_resPsdch
                      sinr)
            [({ sinr := 3, index := 0 } : SlCtrlPacketInfo_t)] (discHarqUpdates calls)
        else discHarqUpdates calls = [] :=
  C33_discovery_harq_update_once exampleEnv 0 [({ m_rnti := 2, m_resPsdch := 0 }, 0)] []
    [{ sinr := 3, index := 0 }] {}
    { rxDiscMessageOkList := [exampleDiscMessage], rbDecodedBitmap := [1], harqInfoList := [] }
    exampleDiscoveryUe _ (Outcome.eq_ok_of_result _ _ (by decide!))

end ns3

/-! ## The sidelink window and the window of the accumulator -/

namespace ns3
namespace LteSlInterference

theorem StartRx_window (now : Time) (rxPsd : SpectrumValue) (st st1 : LteSlInterference)
    (h : StartRx now rxPsd st = .ok st1) :
    st1.m_receiving = true
      ∧ st1.m_rxSignal = (if st.m_receiving then st.m_rxSignal else []) ++ [rxPsd] := by
  unfold StartRx at h
  split at h
  · rename_i hr
    cases h
    simp [hr]
  · rename_i hr
    split at h
    · cases h
      simp at hr
      simp [hr]
    · cases h

theorem AddSignal_window (now : Time) (spd : SpectrumValue) (d : Time)
    (st st1 : LteSlInterference) (h : AddSignal now spd d st = .ok st1) :
    st1.m_receiving = st.m_receiving ∧ st1.m_rxSignal = st.m_rxSignal := by
  unfold AddSignal DoAddSignal at h
  cases hc : ConditionallyEvaluateChunk now st with
  | error e => rw [hc] at h; cases h
  | ok s1 =>
    rw [hc] at h
    obtain ⟨-, -, -, -, hr, hs⟩ := ConditionallyEvaluateChunk_frame now st s1 hc
    cases hall : s1.m_allSignals with
    | none => simp [hall, bind, Except.bind] at h
    | some all =>
      simp only [hall, bind, Except.bind, pure, Except.pure] at h
      split at h <;> cases h <;> exact ⟨hr, hs⟩

end LteSlInterference

namespace LteSpectrumPhy

theorem onInterferenceSl_run (f : LteSlInterference → Except Abort LteSlInterference)
    (st st1 : LteSpectrumPhy) (h : onInterferenceSl f st = .ok () st1) :
    ∃ i, f st.m_interferenceSl = .ok i ∧ st1 = { st with m_interferenceSl := i } := by
  unfold onInterferenceSl at h
  cases hf : f st.m_interferenceSl with
  | ok i =>
    rw [hf] at h
    simp only [Outcome.ok.injEq, true_and] at h
    exact ⟨i, rfl, h.symm⟩
  | error e =>
    rw [hf] at h
    simp at h

theorem Keeps_accumulator_slWindowOpenOrCheck (now d : Time) (c : Bool) :
    Keeps (fun s => s.m_interferenceSl) (slWindowOpenOrCheck now d c) := by
  unfold slWindowOpenOrCheck
  repeat' first
    | exact Keeps_get
    | exact Keeps_pure _
    | exact Keeps_ret _
    | exact Keeps_abortWith _
    | exact Keeps_NS_ASSERT _ _
    | exact Keeps_emit _ (fun _ _ => rfl)
    | exact Keeps_modify _ (fun _ => rfl)
    | refine Keeps_bind ?_ (fun _ => ?_)
    | refine Keeps_ite ?_ ?_
    | dsimp only
    | split

/-- What one reception of a sidelink signal does to the two windows: the entry appended to
the reception window was received on the used blocks of the signal registered in the
accumulator. -/
theorem slAligned_step (st s1 : LteSpectrumPhy) (now : Time) (psd : SpectrumValue)
    (entry : SlRxPacketInfo_t) (i : LteSlInterference)
    (hal : slAligned st)
    (hi : LteSlInterference.StartRx now psd st.m_interferenceSl = .ok i)
    (hacc : s1.m_interferenceSl = i)
    (hwin : s1.m_rxPacketInfo = st.m_rxPacketInfo ++ [entry])
    (hrb : entry.rbBitmap = usedRbs psd) : slAligned s1 := by
  obtain ⟨h1, h2⟩ := LteSlInterference.StartRx_window now psd _ _ hi
  unfold slAligned slWindowSignals at hal ⊢
  rw [hacc, hwin, h1, if_pos rfl, h2, List.map_append, List.map_append, hal]
  simp [hrb]

theorem slReceiveSynchronized_aligned (now : Time) (p : LteSpectrumSignalParametersSlFrame)
    (st st1 : LteSpectrumPhy) (h : slReceiveSynchronized now p st = .ok () st1)
    (hal : slAligned st) : slAligned st1 := by
  obtain ⟨hwin, -⟩ := slReceiveSynchronized_entry now p st st1 h
  unfold slReceiveSynchronized at h
  simp only [PhyM.bind_eq, PhyM.andThen_ok] at h
  obtain ⟨_, s1, h1, _, s2, h2, _, s3, h3, _, s4, h4, _, s5, h5, _, s6, h6, h7⟩ := h
  have k1 : s1.m_interferenceSl = st.m_interferenceSl := by
    have := (Keeps_accumulator_slWindowOpenOrCheck now p.duration false).keeps st
    rw [h1] at this
    exact this
  simp only [ChangeState, PhyM.modify, Outcome.ok.injEq, true_and] at h2 h6
  obtain ⟨i, hi, h3⟩ := onInterferenceSl_run _ _ _ h3
  have h4 : s4 = s3 := by
    by_cases hl : p.ctrlMsgList.length > 0 <;> by_cases hl1 : p.ctrlMsgList.length = 1 <;>
      simp [hl, hl1, NS_ASSERT, PhyM.pure_eq, PhyM.ret, PhyM.abortWith] at h4 <;> exact h4.symm
  have h5 : s5.m_interferenceSl = s4.m_interferenceSl := by
    cases hh : (usedRbs p.psd).head? <;>
      simp [hh, PhyM.pure_eq, PhyM.ret, PhyM.modify] at h5 <;> subst h5 <;> simp
  have h7 : st1.m_interferenceSl = s6.m_interferenceSl := by
    cases hh : p.packetBurst <;>
      simp [hh, PhyM.pure_eq, PhyM.ret, PhyM.emit] at h7 <;> subst h7 <;> simp
  have hacc : st1.m_interferenceSl = i := by
    rw [h7, ← h6, h5, h4, h3]
  have hi2 : LteSlInterference.StartRx now p.psd st.m_interferenceSl = .ok i := by
    rw [← h2, k1] at hi
    exact hi
  exact slAligned_step st st1 now p.psd (slWindowEntry p) i hal hi2 hacc hwin rfl

theorem slReceiveMib_aligned (now : Time) (p : LteSpectrumSignalParametersSlFrame) :
    ∀ (rest seen : List LteControlMessage) (st st1 : LteSpectrumPhy)
      (l : List LteControlMessage),
      slReceiveMib now p seen rest st = .ok l st1 → slAligned st → slAligned st1 := by
  intro rest
  induction rest with
  | nil =>
    intro seen st st1 l h hal
    simp [slReceiveMib, PhyM.pure_eq, PhyM.ret] at h
    rw [← h.2]
    exact hal
  | cons m rest ih =>
    intro seen st st1 l h hal
    by_cases hm : m.GetMessageType = .MIB_SL
    · rw [slReceiveMib, if_pos hm] at h
      simp only [PhyM.bind_eq, PhyM.andThen_ok] at h
      obtain ⟨s0, s0b, h0, _, s1, h1, _, s2, h2, _, s3, h3, _, s4, h4, _, s5, h5, h6⟩ := h
      rw [PhyM.get_ok] at h0
      obtain ⟨h0a, h0b⟩ := h0
      subst h0a h0b
      have h1 : s1.m_interferenceSl = s0b.m_interferenceSl
          ∧ s1.m_rxPacketInfo = s0b.m_rxPacketInfo := by
        cases hc : s0b.m_ltePhyRxSlssCallback <;>
          simp [hc, PhyM.pure_eq, PhyM.ret, PhyM.emit] at h1 <;> subst h1 <;> simp
      obtain ⟨-, -, -, hd, -⟩ := slWindowOpenOrCheck_ok now p.duration true s1 s2 h2
      have k2 : s2.m_interferenceSl = s1.m_interferenceSl := by
        have := (Keeps_accumulator_slWindowOpenOrCheck now p.duration true).keeps s1
        rw [h2] at this
        exact this
      simp only [ChangeState, PhyM.modify, Outcome.ok.injEq, true_and] at h3 h5
      obtain ⟨i, hi, h4i⟩ := onInterferenceSl_run _ _ _ h4
      simp only [PhyM.pure_eq, PhyM.ret, Outcome.ok.injEq] at h6
      obtain ⟨h1a, h1c⟩ := h1
      obtain ⟨-, h6⟩ := h6
      have hi2 : LteSlInterference.StartRx now p.psd s0b.m_interferenceSl = .ok i := by
        rw [← h3, k2, h1a] at hi
        exact hi
      have hacc : st1.m_interferenceSl = i := by
        rw [← h6, ← h5, h4i]
      have hwin : st1.m_rxPacketInfo = s0b.m_rxPacketInfo
          ++ [{ m_rxPacketBurst := p.packetBurst, m_rxControlMessage := some m,
                rbBitmap := usedRbs p.psd }] := by
        rw [← h6, ← h5, h4i, ← h3]
        show s2.m_rxPacketInfo ++ [_] = s0b.m_rxPacketInfo ++ [_]
        rw [hd, h1c]
      exact slAligned_step s0b st1 now p.psd _ i hal hi2 hacc hwin rfl
    · rw [slReceiveMib, if_neg hm] at h
      exact ih _ _ _ _ h hal

theorem slReceive_aligned (now : Time) (p r : LteSpectrumSignalParametersSlFrame)
    (st st1 : LteSpectrumPhy) (h : slReceive now p st = .ok r st1) (hal : slAligned st) :
    slAligned st1 := by
  unfold slReceive at h
  simp only [PhyM.bind_eq] at h
  rw [PhyM.andThen_ok] at h
  obtain ⟨s0, s0b, h0, h⟩ := h
  rw [PhyM.get_ok] at h0
  obtain ⟨h0a, h0b⟩ := h0
  rw [h0a, h0b] at h
  clear h0a h0b s0 s0b
  by_cases c1 : st.m_cellId = 0 ∧ p.nodeId ≠ st.nodeId
  · rw [if_pos c1, PhyM.andThen_ok] at h
    obtain ⟨l, s1, hmib, h⟩ := h
    have hs1 : slAligned s1 := by
      by_cases hl : p.ctrlMsgList.length > 0
      · rw [if_pos hl] at hmib
        exact slReceiveMib_aligned now p _ _ _ _ _ hmib hal
      · rw [if_neg hl] at hmib
        simp only [PhyM.pure_eq, PhyM.ret, Outcome.ok.injEq] at hmib
        rw [← hmib.2]
        exact hal
    by_cases c2 : p.slssId = st.m_slssId ∧ (p.groupId = 0 ∨ p.groupId ∈ st.m_l1GroupIds)
    · rw [if_pos c2, PhyM.andThen_ok] at h
      obtain ⟨_, s2, hsync, h⟩ := h
      simp only [PhyM.pure_eq, PhyM.ret, Outcome.ok.injEq] at h
      obtain ⟨-, h⟩ := h
      subst h
      exact slReceiveSynchronized_aligned now _ _ _ hsync hs1
    · rw [if_neg c2] at h
      simp only [PhyM.pure_eq, PhyM.ret, Outcome.ok.injEq] at h
      obtain ⟨-, h⟩ := h
      subst h
      exact hs1
  · rw [if_neg c1] at h
    simp only [PhyM.pure_eq, PhyM.ret, Outcome.ok.injEq] at h
    rw [← h.2]
    exact hal

theorem StartRxSlData_aligned (now : Time) (p r : LteSpectrumSignalParametersSlFrame)
    (st st1 : LteSpectrumPhy) (h : StartRxSlData now p st = .ok r st1) (hal : slAligned st) :
    slAligned st1 := by
  unfold StartRxSlData at h
  simp only [PhyM.bind_eq] at h
  rw [PhyM.andThen_ok] at h
  obtain ⟨s0, s0b, h0, h⟩ := h
  rw [PhyM.get_ok] at h0
  obtain ⟨h0a, h0b⟩ := h0
  rw [h0a, h0b] at h
  clear h0a h0b s0 s0b
  cases hs : st.m_state <;> rw [hs] at h <;> simp only at h
  all_goals first
    | exact slReceive_aligned now p r st st1 h hal
    | (simp [NS_FATAL_ERROR, PhyM.abortWith] at h; done)
    | skip
  · by_cases hfd : st.m_ctrlFullDuplexEnabled = true
    · simp only [hfd, Bool.not_true, Bool.false_eq_true, if_false] at h
      exact slReceive_aligned now p r st st1 h hal
    · simp only [hfd, Bool.not_false, if_true, Bool.not_eq_true] at h
      simp only [PhyM.pure_eq, PhyM.ret, Outcome.ok.injEq] at h
      rw [← h.2]
      exact hal

theorem StartRx_slFrame_aligned (now : Time) (p : LteSpectrumSignalParametersSlFrame)
    (st st1 : LteSpectrumPhy) (h : StartRx now (.slFrame p) st = .ok () st1)
    (hal : slAligned st) : slAligned st1 := by
  unfold StartRx at h
  simp only [PhyM.bind_eq, PhyM.andThen_ok, PhyM.get_ok] at h
  obtain ⟨_, s1, h1, _, s2, h2, _, s3, h3, w, s4, ⟨hw, hs4⟩, h5⟩ := h
  obtain ⟨i, hi, h1⟩ := onInterferenceSl_run _ _ _ h1
  obtain ⟨hr, hsig⟩ := LteSlInterference.AddSignal_window _ _ _ _ _ hi
  simp only [onInterferenceData, PhyM.modify, PhyM.emit, Outcome.ok.injEq, true_and] at h2 h3
  have hal3 : slAligned s3 := by
    unfold slAligned slWindowSignals at hal ⊢
    rw [← h3, ← h2, h1]
    simp only [hr, hsig]
    exact hal
  rw [hw, hs4] at h5
  by_cases c1 : s3.m_ctrlFullDuplexEnabled = true ∧ p.ctrlMsgList.length > 0
  · rw [if_pos c1] at h5
    simp only [PhyM.andThen_ok, PhyM.pure_eq, PhyM.ret_ok] at h5
    obtain ⟨r, s5, h5, -, h6⟩ := h5
    subst h6
    exact StartRxSlData_aligned now p r s3 _ h5 hal3
  · rw [if_neg c1] at h5
    cases hh : s3.m_halfDuplexPhy with
    | none =>
      rw [hh] at h5
      simp only [PhyM.pure_eq, PhyM.ret_ok] at h5
      rw [h5.2]
      exact hal3
    | some hd =>
      obtain ⟨hdState, hdCheck⟩ := hd
      rw [hh] at h5
      simp only at h5
      by_cases c2 : hdState = .IDLE ∨ hdCheck = false
      · rw [if_pos c2] at h5
        simp only [PhyM.bind_eq, PhyM.andThen_ok, PhyM.pure_eq, PhyM.ret_ok] at h5
        obtain ⟨r, s5, h5, -, h6⟩ := h5
        subst h6
        exact StartRxSlData_aligned now p r s3 _ h5 hal3
      · rw [if_neg c2] at h5
        simp only [PhyM.pure_eq, PhyM.ret_ok] at h5
        rw [h5.2]
        exact hal3

theorem StartRxAll_aligned (ps : List (Time × LteSpectrumSignalParametersSlFrame)) :
    ∀ (st st1 : LteSpectrumPhy), StartRxAll ps st = .ok () st1 → slAligned st →
      slAligned st1 := by
  induction ps with
  | nil =>
    intro st st1 h hal
    simp only [StartRxAll, PhyM.pure_eq, PhyM.ret_ok] at h
    rw [h.2]
    exact hal
  | cons tp rest ih =>
    intro st st1 h hal
    simp only [StartRxAll, PhyM.bind_eq, PhyM.andThen_ok] at h
    obtain ⟨_, s1, h1, h2⟩ := h
    exact ih s1 st1 h2 (StartRx_slFrame_aligned tp.1 tp.2 st s1 h1 hal)

end LteSpectrumPhy
end ns3

namespace ns3

open LteSpectrumPhy in
/-- C36. Index alignment between the sidelink reception window and the window of the
accumulator.  Start from a state in which the two are aligned, in particular from the start
of a window (reception window empty, accumulator not receiving), and deliver any sequence of
sidelink signals through `StartRx`, with nothing else in between.  Whenever the deliveries
return, `m_rxPacketInfo` has as many entries as the accumulator has signals registered in its
window, and entry `i` was received on the used resource blocks of signal `i`, the signal whose
SINR, power and interference the accumulator dispatches under index `i`.  A signal that is
entered twice, as MIB-SL and as synchronized transmission, is registered twice on both
sides. -/
theorem C36_window_aligned_with_accumulator
    (ps : List (Time × LteSpectrumSignalParametersSlFrame)) (st st1 : LteSpectrumPhy)
    (hstart : (st.m_rxPacketInfo = [] ∧ st.m_interferenceSl.m_receiving = false)
      ∨ slAligned st)
    (h : StartRxAll ps st = .ok () st1) :
    st1.m_rxPacketInfo.length = (slWindowSignals st1).length
      ∧ (∀ (i : Nat) (info : SlRxPacketInfo_t), st1.m_rxPacketInfo[i]? = some info →
          ∃ sig, (slWindowSignals st1)[i]? = some sig ∧ info.rbBitmap = usedRbs sig)
      ∧ (st1.m_rxPacketInfo ≠ [] →
          st1.m_interferenceSl.m_receiving = true
            ∧ st1.m_rxPacketInfo.length = st1.m_interferenceSl.m_rxSignal.length) := by
  have hal : slAligned st := by
    rcases hstart with ⟨h1, h2⟩ | h1
    · unfold slAligned slWindowSignals
      rw [h1, h2]
      rfl
    · exact h1
  have hal1 : slAligned st1 := StartRxAll_aligned ps st st1 h hal
  have hlen : st1.m_rxPacketInfo.length = (slWindowSignals st1).length := by
    have := congrArg List.length hal1
    simpa using this
  refine ⟨hlen, ?_, ?_⟩
  · intro i info hi
    have hmap : (st1.m_rxPacketInfo.map (fun (e : SlRxPacketInfo_t) => e.rbBitmap))[i]?
        = some info.rbBitmap := by
      rw [List.getElem?_map, hi]
      rfl
    unfold slAligned at hal1
    rw [hal1, List.getElem?_map] at hmap
    cases hs : (slWindowSignals st1)[i]? with
    | none => rw [hs] at hmap; simp at hmap
    | some sig =>
      rw [hs] at hmap
      simp only [Option.map_some', Option.some.injEq] at hmap
      exact ⟨sig, rfl, hmap.symm⟩
  · intro hne
    unfold slWindowSignals at hlen
    cases hr : st1.m_interferenceSl.m_receiving with
    | true =>
      rw [hr] at hlen
      exact ⟨rfl, hlen⟩
    | false =>
      rw [hr] at hlen
      simp only [Bool.false_eq_true, if_false, List.length_nil] at hlen
      exact absurd (List.length_eq_zero.1 hlen) hne

open LteSpectrumPhy in
theorem C36_window_aligned_with_accumulator_witness :
    (StartRxAll [(5, exampleMibSignal)] exampleSidelinkUe).state.m_rxPacketInfo
        = [{ rbBitmap := [1], m_rxControlMessage := some exampleMibMessage },
           { rbBitmap := [1] }]
      ∧ (StartRxAll [(5, exampleMibSignal)] exampleSidelinkUe).state.m_interferenceSl.m_rxSignal
          = [[0, 1], [0, 1]]
      ∧ (StartRxAll [(5, exampleMibSignal)] exampleSidelinkUe).state.m_rxPacketInfo.length
          = (slWindowSignals
              (StartRxAll [(5, exampleMibSignal)] exampleSidelinkUe).state).length :=
  ⟨by decide!, by decide!,
   (C36_window_aligned_with_accumulator [(5, exampleMibSignal)] exampleSidelinkUe _
      (Or.inl ⟨rfl, rfl⟩) (Outcome.eq_ok_of_returned _ (by decide!))).1⟩

end ns3

/-! ## The sidelink data packets handed to the upper layer -/

namespace ns3

theorem slMarkedDecoded_append (calls : List SlHarqCall) (c : SlHarqCall) (rnti l1dst : Nat) :
    slMarkedDecoded (calls ++ [c]) rnti l1dst
      = if c = .IndicatePrevDecoded rnti l1dst then true
        else if c = .ResetPrevDecoded rnti l1dst then false
        else slMarkedDecoded calls rnti l1dst := by
  simp [slMarkedDecoded, List.foldl_append]

namespace LteSpectrumPhy

/-- The body of the data packet loop of `EndRxSlData`, for a packet whose identity is
registered: it always returns; the packet is handed up exactly when its descriptor is not
corrupted and the record is not marked previously decoded, and then the record is marked. -/
theorem EndRxSlData_packet_step (env : Env) (p : Packet) (st : LteSpectrumPhy)
    (key : SlTbId_t) (info : SltbInfo_t)
    (hf : StdMap.find SlTbId_t.lt (slTagId p) st.m_expectedSlTbs = some (key, info)) :
    EndRxSlData_packet env p st
      = .ok () { st with
          m_slHarqPhyModule := st.m_slHarqPhyModule
            ++ (SlHarqCall.IncreaseTbIdx key.m_rnti key.m_l1dst
              :: (if info.corrupt = false
                    ∧ env.IsPrevDecoded
                        (st.m_slHarqPhyModule ++ [.IncreaseTbIdx key.m_rnti key.m_l1dst])
                        key.m_rnti key.m_l1dst = false
                  then [SlHarqCall.IndicatePrevDecoded key.m_rnti key.m_l1dst] else [])
              ++ [.UpdateSlHarqProcessStatus (slTagId p).m_rnti (slTagId p).m_l1dst info.sinr])
          log := st.log
            ++ (if info.corrupt = false
                  ∧ env.IsPrevDecoded
                      (st.m_slHarqPhyModule ++ [.IncreaseTbIdx key.m_rnti key.m_l1dst])
                      key.m_rnti key.m_l1dst = false
                then PhyEvent.phyRxEndOkTrace p
                  :: (if st.m_ltePhyRxDataEndOkCallback then [.ltePhyRxDataEndOkCallback p]
                      else [])
                else [.phyRxEndErrorTrace p]) } := by
  by_cases hc : info.corrupt = true <;>
    by_cases hp : env.IsPrevDecoded
      (st.m_slHarqPhyModule ++ [SlHarqCall.IncreaseTbIdx key.m_rnti key.m_l1dst])
      key.m_rnti key.m_l1dst = true <;>
    by_cases hcb : st.m_ltePhyRxDataEndOkCallback = true <;>
    simp [EndRxSlData_packet, PhyM.bind_eq, PhyM.pure_eq, PhyM.andThen, PhyM.ret, PhyM.get,
      PhyM.modify, PhyM.emit, onSlHarq, hf, hc, hp, hcb]

theorem EndRxSlData_packet_skip (env : Env) (p : Packet) (st : LteSpectrumPhy)
    (hf : StdMap.find SlTbId_t.lt (slTagId p) st.m_expectedSlTbs = none) :
    EndRxSlData_packet env p st = .ok () st := by
  simp [EndRxSlData_packet, PhyM.bind_eq, PhyM.pure_eq, PhyM.andThen, PhyM.ret, PhyM.get, hf]

theorem slMarkedDecoded_concat (a b : List SlHarqCall) (rnti l1dst : Nat) :
    slMarkedDecoded (a ++ b) rnti l1dst
      = b.foldl
          (fun flag c =>
            if c = .IndicatePrevDecoded rnti l1dst then true
            else if c = .ResetPrevDecoded rnti l1dst then false
            else flag)
          (slMarkedDecoded a rnti l1dst) := by
  simp [slMarkedDecoded, List.foldl_append]

/-- One pass of the data packet loop, seen from the identity `k`: under a sticky flag, the
pass traces a success for a packet of identity `k` only if the record of `k` was not marked,
and then it leaves the record marked; a marked record stays marked. -/
theorem EndRxSlData_packet_once (env : Env)
    (hsticky : ∀ calls rnti l1dst, slMarkedDecoded calls rnti l1dst = true →
      env.IsPrevDecoded calls rnti l1dst = true)
    (k : SlTbId_t) (p : Packet) (st : LteSpectrumPhy) :
    ∃ st1 added, EndRxSlData_packet env p st = .ok () st1
      ∧ st1.log = st.log ++ added
      ∧ st1.m_expectedSlTbs = st.m_expectedSlTbs
      ∧ st1.m_ltePhyRxDataEndOkCallback = st.m_ltePhyRxDataEndOkCallback
      ∧ (ofIdentity k (added.filterMap PhyEvent.okTraced)).length ≤ 1
      ∧ (slMarkedDecoded st.m_slHarqPhyModule k.m_rnti k.m_l1dst = true →
          ofIdentity k (added.filterMap PhyEvent.okTraced) = [])
      ∧ (slMarkedDecoded st.m_slHarqPhyModule k.m_rnti k.m_l1dst = true
            ∨ ofIdentity k (added.filterMap PhyEvent.okTraced) ≠ [] →
          slMarkedDecoded st1.m_slHarqPhyModule k.m_rnti k.m_l1dst = true)
      ∧ added.filterMap PhyEvent.notified
          = (if (StdMap.find SlTbId_t.lt (slTagId p) st.m_expectedSlTbs).isSome then [p]
            else [])
      ∧ added.filterMap PhyEvent.handedUp
          = (if st.m_ltePhyRxDataEndOkCallback then added.filterMap PhyEvent.okTraced
            else [])
      ∧ (∀ q ∈ added.filterMap PhyEvent.okTraced, q = p
          ∧ ∃ key info, StdMap.find SlTbId_t.lt (slTagId p) st.m_expectedSlTbs
              = some (key, info) ∧ info.corrupt = false) := by
  cases hf : StdMap.find SlTbId_t.lt (slTagId p) st.m_expectedSlTbs with
  | none =>
    refine ⟨st, [], EndRxSlData_packet_skip env p st hf, by simp, rfl, rfl, ?_⟩
    simp [ofIdentity]
  | some ki =>
    obtain ⟨key, info⟩ := ki
    have hkey : key = slTagId p := StdMap.find_key slTbId_keyOrder _ _ _ hf
    refine ⟨_, _, EndRxSlData_packet_step env p st key info hf, rfl, rfl, rfl, ?_⟩
    subst hkey
    by_cases hd : info.corrupt = false
        ∧ env.IsPrevDecoded
            (st.m_slHarqPhyModule
              ++ [.IncreaseTbIdx (slTagId p).m_rnti (slTagId p).m_l1dst])
            (slTagId p).m_rnti (slTagId p).m_l1dst = false
    · simp only [hd, and_self, if_true]
      by_cases hk : slTagId p = k
      · subst hk
        have hnot : slMarkedDecoded st.m_slHarqPhyModule (slTagId p).m_rnti (slTagId p).m_l1dst
            = false := by
          cases hm : slMarkedDecoded st.m_slHarqPhyModule (slTagId p).m_rnti
              (slTagId p).m_l1dst with
          | false => rfl
          | true =>
            have h1 : slMarkedDecoded
                (st.m_slHarqPhyModule
                  ++ [.IncreaseTbIdx (slTagId p).m_rnti (slTagId p).m_l1dst])
                (slTagId p).m_rnti (slTagId p).m_l1dst = true := by
              rw [slMarkedDecoded_append]
              simp [hm]
            have h2 := hsticky _ _ _ h1
            rw [hd.2] at h2
            exact absurd h2 (by simp)
        cases hcb : st.m_ltePhyRxDataEndOkCallback <;>
          simp [ofIdentity, PhyEvent.okTraced, PhyEvent.notified, PhyEvent.handedUp, hnot,
            slMarkedDecoded_concat, hd.1] <;>
          exact ⟨_, _, ⟨rfl, rfl⟩, hd.1⟩
      · have hk2 : ¬ ((slTagId p).m_rnti = k.m_rnti ∧ (slTagId p).m_l1dst = k.m_l1dst) := by
          intro h
          apply hk
          cases hq : slTagId p
          cases k
          simp_all
        cases hcb : st.m_ltePhyRxDataEndOkCallback <;>
          simp [ofIdentity, PhyEvent.okTraced, PhyEvent.notified, PhyEvent.handedUp, hk, hk2,
            slMarkedDecoded_concat, hd.1] <;>
          exact ⟨_, _, ⟨rfl, rfl⟩, hd.1⟩
    · simp only [hd, if_false]
      simp [ofIdentity, PhyEvent.okTraced, PhyEvent.notified, PhyEvent.handedUp,
        slMarkedDecoded_concat]

/-- The data packet loop of `EndRxSlData`, seen from the identity `k`, under a sticky flag. -/
theorem EndRxSlData_packets_once (env : Env)
    (hsticky : ∀ calls rnti l1dst, slMarkedDecoded calls rnti l1dst = true →
      env.IsPrevDecoded calls rnti l1dst = true)
    (k : SlTbId_t) (ps : List Packet) :
    ∀ st : LteSpectrumPhy, ∃ st1 added, EndRxSlData_packets env ps st = .ok () st1
      ∧ st1.log = st.log ++ added
      ∧ st1.m_expectedSlTbs = st.m_expectedSlTbs
      ∧ st1.m_ltePhyRxDataEndOkCallback = st.m_ltePhyRxDataEndOkCallback
      ∧ (ofIdentity k (added.filterMap PhyEvent.okTraced)).length ≤ 1
      ∧ (slMarkedDecoded st.m_slHarqPhyModule k.m_rnti k.m_l1dst = true →
          ofIdentity k (added.filterMap PhyEvent.okTraced) = [])
      ∧ (slMarkedDecoded st.m_slHarqPhyModule k.m_rnti k.m_l1dst = true
            ∨ ofIdentity k (added.filterMap PhyEvent.okTraced) ≠ [] →
          slMarkedDecoded st1.m_slHarqPhyModule k.m_rnti k.m_l1dst = true)
      ∧ added.filterMap PhyEvent.notified
          = ps.filter
              (fun q => (StdMap.find SlTbId_t.lt (slTagId q) st.m_expectedSlTbs).isSome)
      ∧ added.filterMap PhyEvent.handedUp
          = (if st.m_ltePhyRxDataEndOkCallback then added.filterMap PhyEvent.okTraced
            else [])
      ∧ (∀ q ∈ added.filterMap PhyEvent.okTraced, q ∈ ps
          ∧ ∃ key info, StdMap.find SlTbId_t.lt (slTagId q) st.m_expectedSlTbs
              = some (key, info) ∧ info.corrupt = false) := by
  induction ps with
  | nil =>
    intro st
    refine ⟨st, [], rfl, by simp, rfl, rfl, ?_⟩
    simp [ofIdentity]
  | cons p rest ih =>
    intro st
    obtain ⟨s1, a1, r1, l1, e1, c1, n1, m1, k1, f1, u1, o1⟩ :=
      EndRxSlData_packet_once env hsticky k p st
    obtain ⟨s2, a2, r2, l2, e2, c2, n2, m2, k2, f2, u2, o2⟩ := ih s1
    refine ⟨s2, a1 ++ a2, ?_, by rw [l2, l1, List.append_assoc], e2.trans e1, c2.trans c1,
      ?_, ?_, ?_, ?_, ?_, ?_⟩
    · simp only [EndRxSlData_packets, PhyM.bind_eq]
      unfold PhyM.andThen
      rw [r1]
      exact r2
    · simp only [List.filterMap_append, ofIdentity, List.filter_append, List.length_append]
      by_cases hne : ofIdentity k (a1.filterMap PhyEvent.okTraced) = []
      · unfold ofIdentity at hne
        rw [hne]
        simpa [ofIdentity] using n2
      · have hm := k1 (Or.inr hne)
        have := m2 hm
        unfold ofIdentity at this
        rw [this]
        simpa [ofIdentity] using n1
    · intro hm
      simp only [List.filterMap_append, ofIdentity, List.filter_append]
      have h1 := m1 hm
      have h2 := m2 (k1 (Or.inl hm))
      unfold ofIdentity at h1 h2
      rw [h1, h2]
      rfl
    · intro h
      by_cases hm1 : slMarkedDecoded s1.m_slHarqPhyModule k.m_rnti k.m_l1dst = true
      · exact k2 (Or.inl hm1)
      · have hne1 : ofIdentity k (a1.filterMap PhyEvent.okTraced) = [] := by
          by_contra hc
          exact hm1 (k1 (Or.inr hc))
        have hst : ¬ slMarkedDecoded st.m_slHarqPhyModule k.m_rnti k.m_l1dst = true :=
          fun hc => hm1 (k1 (Or.inl hc))
        rcases h with h | h
        · exact absurd h hst
        · apply k2
          right
          intro hc
          apply h
          simp only [List.filterMap_append, ofIdentity, List.filter_append]
          unfold ofIdentity at hne1 hc
          rw [hne1, hc]
          rfl
    · rw [List.filterMap_append, f1, f2, e1]
      by_cases hs : (StdMap.find SlTbId_t.lt (slTagId p) st.m_expectedSlTbs).isSome = true
      · simp [List.filter_cons, hs]
      · simp [List.filter_cons, hs]
    · rw [List.filterMap_append, List.filterMap_append, u1, u2, c1]
      cases st.m_ltePhyRxDataEndOkCallback <;> simp
    · intro q hq
      rw [List.filterMap_append] at hq
      rcases List.mem_append.1 hq with h | h
      · obtain ⟨hqp, hrest⟩ := o1 q h
        subst hqp
        exact ⟨List.mem_cons_self _ _, hrest⟩
      · obtain ⟨hqp, hrest⟩ := o2 q h
        rw [e1] at hrest
        exact ⟨List.mem_cons_of_mem _ hqp, hrest⟩

end LteSpectrumPhy
end ns3

namespace ns3

open LteSpectrumPhy in
/-- C37. At-most-once delivery of sidelink data.  In the data packet loop of `EndRxSlData` a
packet with a registered identity gets the success trace, and the data-OK callback when that
is set, exactly if its descriptor is not corrupted and `IsPrevDecoded` answers false for its
(RNTI, group) identity; the same step then makes the call `IndicatePrevDecoded` for the
identity; otherwise the packet gets the error trace.  Hence, for a HARQ module whose
previously-decoded flag stays set from `IndicatePrevDecoded` until `ResetPrevDecoded`: the
loop always returns; for every identity `k` at most one packet of `k` is traced as success
and at most one is handed to the upper layer, also when the bursts hold several packets of
`k`; none is when the record of `k` was marked already when the loop began; a record that
was marked or whose packet was delivered is marked when the loop ends; and every packet with
a registered identity gets exactly one notification, success or error, in arrival order. -/
theorem C37_sidelink_data_at_most_once (env : Env) (k : SlTbId_t) (ps : List Packet)
    (st : LteSpectrumPhy)
    (hsticky : ∀ calls rnti l1dst, slMarkedDecoded calls rnti l1dst = true →
      env.IsPrevDecoded calls rnti l1dst = true) :
    (∀ (p : Packet) (key : SlTbId_t) (info : SltbInfo_t),
        StdMap.find SlTbId_t.lt (slTagId p) st.m_expectedSlTbs = some (key, info) →
        EndRxSlData_packet env p st
          = .ok () { st with
              m_slHarqPhyModule := st.m_slHarqPhyModule
                ++ (SlHarqCall.IncreaseTbIdx key.m_rnti key.m_l1dst
                  :: (if info.corrupt = false
                        ∧ env.IsPrevDecoded
                            (st.m_slHarqPhyModule ++ [.IncreaseTbIdx key.m_rnti key.m_l1dst])
                            key.m_rnti key.m_l1dst = false
                      then [SlHarqCall.IndicatePrevDecoded key.m_rnti key.m_l1dst] else [])
                  ++ [.UpdateSlHarqProcessStatus (slTagId p).m_rnti (slTagId p).m_l1dst
                        info.sinr])
              log := st.log
                ++ (if info.corrupt = false
                      ∧ env.IsPrevDecoded
                          (st.m_slHarqPhyModule ++ [.IncreaseTbIdx key.m_rnti key.m_l1dst])
                          key.m_rnti key.m_l1dst = false
                    then PhyEvent.phyRxEndOkTrace p
                      :: (if st.m_ltePhyRxDataEndOkCallback then
                            [.ltePhyRxDataEndOkCallback p]
                          else [])
                    else [.phyRxEndErrorTrace p]) })
      ∧ ∃ st1 added, EndRxSlData_packets env ps st = .ok () st1
          ∧ st1.log = st.log ++ added
          ∧ (ofIdentity k (added.filterMap PhyEvent.okTraced)).length ≤ 1
          ∧ (ofIdentity k (added.filterMap PhyEvent.handedUp)).length ≤ 1
          ∧ (slMarkedDecoded st.m_slHarqPhyModule k.m_rnti k.m_l1dst = true →
              ofIdentity k (added.filterMap PhyEvent.okTraced) = []
                ∧ ofIdentity k (added.filterMap PhyEvent.handedUp) = [])
          ∧ (slMarkedDecoded st.m_slHarqPhyModule k.m_rnti k.m_l1dst = true
                ∨ ofIdentity k (added.filterMap PhyEvent.okTraced) ≠ [] →
              slMarkedDecoded st1.m_slHarqPhyModule k.m_rnti k.m_l1dst = true)
          ∧ added.filterMap PhyEvent.notified
              = ps.filter
                  (fun q => (StdMap.find SlTbId_t.lt (slTagId q) st.m_expectedSlTbs).isSome)
          ∧ (∀ q ∈ added.filterMap PhyEvent.okTraced, q ∈ ps
              ∧ ∃ key info, StdMap.find SlTbId_t.lt (slTagId q) st.m_expectedSlTbs
                  = some (key, info) ∧ info.corrupt = false) := by
  refine ⟨fun p key info hf => EndRxSlData_packet_step env p st key info hf, ?_⟩
  obtain ⟨st1, added, r, l, -, -, n, m, kk, f, u, o⟩ :=
    EndRxSlData_packets_once env hsticky k ps st
  have hup : (ofIdentity k (added.filterMap PhyEvent.handedUp)).length
      ≤ (ofIdentity k (added.filterMap PhyEvent.okTraced)).length := by
    rw [u]
    cases st.m_ltePhyRxDataEndOkCallback <;> simp [ofIdentity]
  refine ⟨st1, added, r, l, n, le_trans hup n, ?_, kk, f, o⟩
  intro hm
  have h1 := m hm
  refine ⟨h1, ?_⟩
  rw [h1] at hup
  exact List.length_eq_zero.1 (Nat.le_zero.1 hup)

open LteSpectrumPhy in
theorem C37_sidelink_data_at_most_once_witness :
    (EndRxSlData_packets exampleEnvStickyHarq [exampleSlPacket, exampleSlPacketAgain]
          exampleSlDataUe).state.log
        = [.phyRxEndOkTrace exampleSlPacket, .ltePhyRxDataEndOkCallback exampleSlPacket,
           .phyRxEndErrorTrace exampleSlPacketAgain]
      ∧ ∃ st1 added,
          EndRxSlData_packets exampleEnvStickyHarq [exampleSlPacket, exampleSlPacketAgain]
            exampleSlDataUe = .ok () st1
          ∧ st1.log = exampleSlDataUe.log ++ added
          ∧ (ofIdentity { m_rnti := 1, m_l1dst := 2 }
              (added.filterMap PhyEvent.okTraced)).length ≤ 1
          ∧ (ofIdentity { m_rnti := 1, m_l1dst := 2 }
              (added.filterMap PhyEvent.handedUp)).length ≤ 1 :=
  ⟨by decide!,
   (C37_sidelink_data_at_most_once exampleEnvStickyHarq { m_rnti := 1, m_l1dst := 2 }
      [exampleSlPacket, exampleSlPacketAgain] exampleSlDataUe (fun _ _ _ h => h)).2.imp
     (fun _ h1 => h1.imp (fun _ h2 => ⟨h2.1, h2.2.1, h2.2.2.1, h2.2.2.2.1⟩))⟩

end ns3
/-! ## The processing order of the control messages -/

namespace ns3
namespace LteSpectrumPhy

/-- The control message loop is the pass `EndRxSlData_ctrl` made for each element of the
sequence in turn, from the first to the last. -/
theorem EndRxSlData_ctrls_foldlM (env : Env) (now : Time) (collided : List Int)
    (l : List SlCtrlPacketInfo_t) :
    ∀ loc : SlCtrlLocals,
      EndRxSlData_ctrls env now collided l loc
        = l.foldlM (fun loc1 it => EndRxSlData_ctrl env now collided it loc1) loc := by
  induction l with
  | nil => intro loc; rfl
  | cons it rest ih =>
    intro loc
    rw [List.foldlM_cons]
    unfold EndRxSlData_ctrls
    funext st
    simp only [PhyM.bind_eq]
    unfold PhyM.andThen
    cases EndRxSlData_ctrl env now collided it loc st with
    | ok loc1 s1 => simp only; rw [ih loc1]
    | abort why s1 => rfl

/-- The verdict of a pass with the control error model disabled: neither a weak signal nor a
conflict. -/
theorem ctrlVerdict_noErrorModel (env : Env) (collided : List Int) (loc : SlCtrlLocals) (i : Nat)
    (info : SlRxPacketInfo_t) (msg : LteControlMessage) (st st1 : LteSpectrumPhy)
    (v : SlCtrlVerdict) (hem : st.m_slCtrlErrorModelEnabled = false)
    (h : EndRxSlData_ctrlVerdict env collided loc i info msg st = .ok v st1) :
    v.weakSignal = false ∧ v.conflict = false := by
  unfold EndRxSlData_ctrlVerdict at h
  simp only [PhyM.bind_eq, PhyM.andThen_ok, PhyM.get_ok] at h
  obtain ⟨w, s0, ⟨e0a, e0b⟩, h⟩ := h
  subst e0a e0b
  rw [hem] at h
  simp only [Bool.false_eq_true, if_false] at h
  by_cases hd : s0.m_dropRbOnCollisionEnabled = true
  · rw [if_pos hd] at h
    simp only [PhyM.pure_eq, PhyM.ret, Outcome.ok.injEq] at h
    rw [← h.1]
    exact ⟨rfl, rfl⟩
  · rw [if_neg hd] at h
    simp only [PhyM.pure_eq, PhyM.ret, Outcome.ok.injEq] at h
    rw [← h.1]
    exact ⟨rfl, rfl⟩

/-- One pass of the control message loop handles the message its element points to: the
decoded list is left as it is or that message is appended, and it is appended whenever the
control error model is disabled. -/
theorem EndRxSlData_ctrl_decoded (env : Env) (now : Time) (collided : List Int)
    (it : SlCtrlPacketInfo_t) (loc loc1 : SlCtrlLocals) (st st1 : LteSpectrumPhy)
    (h : EndRxSlData_ctrl env now collided it loc st = .ok loc1 st1) :
    ∃ msg, ctrlMessageAt st.m_rxPacketInfo it = some msg
      ∧ (loc1.rxControlMessageOkList = loc.rxControlMessageOkList
          ∨ loc1.rxControlMessageOkList = loc.rxControlMessageOkList ++ [msg])
      ∧ (st.m_slCtrlErrorModelEnabled = false →
          loc1.rxControlMessageOkList = loc.rxControlMessageOkList ++ [msg]) := by
  unfold EndRxSlData_ctrl at h
  simp only [PhyM.bind_eq, PhyM.andThen_ok, PhyM.get_ok] at h
  obtain ⟨w, s0, ⟨e0a, e0b⟩, info, s1, h1, h⟩ := h
  subst e0a e0b
  obtain ⟨rfl, hinfo⟩ := vectorAt_ok _ _ _ _ _ _ h1
  cases hm : info.m_rxControlMessage with
  | none => rw [hm] at h; simp [PhyM.abortWith] at h
  | some msg =>
    rw [hm] at h
    simp only [PhyM.bind_eq, PhyM.andThen_ok, PhyM.get_ok] at h
    obtain ⟨v, s2, hv, _, s3, h3, l1, s4, h4, _, s5, h5, w2, s6, h6, _, s7, h7, h8⟩ := h
    simp only [PhyM.pure_eq, PhyM.ret, Outcome.ok.injEq] at h8
    obtain ⟨rfl, -⟩ := h8
    have hat : ctrlMessageAt s1.m_rxPacketInfo it = some msg := by
      unfold ctrlMessageAt
      rw [hinfo]
      exact hm
    refine ⟨msg, hat, ?_⟩
    by_cases hd : (!v.weakSignal && !v.conflict) = true
    · rw [if_pos hd] at h4
      simp only [PhyM.bind_eq, PhyM.andThen_ok, PhyM.pure_eq, PhyM.ret, Outcome.ok.injEq] at h4
      obtain ⟨_, t, -, rfl, -⟩ := h4
      exact ⟨Or.inr rfl, fun _ => rfl⟩
    · rw [if_neg hd] at h4
      simp only [PhyM.pure_eq, PhyM.ret, Outcome.ok.injEq] at h4
      obtain ⟨rfl, -⟩ := h4
      refine ⟨Or.inl rfl, fun hem => ?_⟩
      obtain ⟨e1, e2⟩ := ctrlVerdict_noErrorModel env collided loc _ info msg s1 s2 v hem hv
      simp [e1, e2] at hd

/-- The decoded list of the control message loop follows the order of the sequence: the
messages appended are those of a subsequence of the elements, in the order of the sequence,
and of all elements when the control error model is disabled. -/
theorem EndRxSlData_ctrls_decoded (env : Env) (now : Time) (collided : List Int)
    (l : List SlCtrlPacketInfo_t) :
    ∀ (loc loc1 : SlCtrlLocals) (st st1 : LteSpectrumPhy),
      EndRxSlData_ctrls env now collided l loc st = .ok loc1 st1 →
      ∃ D : List SlCtrlPacketInfo_t, List.Sublist D l
        ∧ loc1.rxControlMessageOkList.map some
            = loc.rxControlMessageOkList.map some ++ D.map (ctrlMessageAt st.m_rxPacketInfo)
        ∧ (st.m_slCtrlErrorModelEnabled = false → D = l) := by
  induction l with
  | nil =>
    intro loc loc1 st st1 h
    simp only [EndRxSlData_ctrls, PhyM.pure_eq, PhyM.ret, Outcome.ok.injEq] at h
    rw [← h.1]
    exact ⟨[], List.Sublist.refl _, by simp, fun _ => rfl⟩
  | cons it rest ih =>
    intro loc loc1 st st1 h
    simp only [EndRxSlData_ctrls, PhyM.bind_eq, PhyM.andThen_ok] at h
    obtain ⟨loc2, s2, hstep, hrest⟩ := h
    have hst := Steady_ctrl env now collided it loc st loc2 s2 hstep
    obtain ⟨msg, hat, hcase, hoff⟩ := EndRxSlData_ctrl_decoded env now collided it loc loc2 st s2 hstep
    obtain ⟨D, hsub, hlist, hall⟩ := ih loc2 loc1 s2 st1 hrest
    rw [hst.1] at hlist
    rw [hst.2.1] at hall
    by_cases hdec : loc2.rxControlMessageOkList = loc.rxControlMessageOkList ++ [msg]
    · refine ⟨it :: D, hsub.cons₂ it, ?_, fun hem => by rw [hall hem]⟩
      rw [hlist, hdec]
      simp [hat]
    · have hsame : loc2.rxControlMessageOkList = loc.rxControlMessageOkList := by
        rcases hcase with h1 | h1
        · exact h1
        · exact absurd h1 hdec
      refine ⟨D, hsub.cons it, ?_, fun hem => absurd (hoff hem) hdec⟩
      rw [hlist, hsame]

end LteSpectrumPhy
end ns3

namespace ns3

open LteSpectrumPhy in
/-- C14: the order in which `EndRxSlData` processes the sidelink control messages.  Whatever
the number of messages and their SINR values, the sequence the sorting loop builds holds
exactly the control messages of the window other than discovery messages, each with its mean
SINR over its resource blocks and its arrival index, in order of descending mean SINR and,
among equal mean SINR, ascending arrival index; the sorting leaves the device unchanged.  The
control part of `EndRxSlData` is the decoding loop run over that sequence followed by the
report through the callbacks, and the decoding loop is the pass `EndRxSlData_ctrl` made for
each element of the sequence in turn, from the first to the last.  The order shows in the
decoded list the loop ends with: its messages are those of a subsequence of the sorted
elements, in the order of the sequence, and of all of them when the control error model is
disabled. -/
theorem C14_ctrl_messages_by_descending_sinr (st st1 : LteSpectrumPhy)
    (sorted : List SlCtrlPacketInfo_t)
    (h : EndRxSlData_sortCtrl 0 st.m_rxPacketInfo [] st = .ok sorted st1) :
    st1 = st
      ∧ List.Pairwise SlCtrlPacketInfo_t.precedes sorted
      ∧ List.Perm sorted (ctrlMessagesOf st.m_slSinrPerceived 0 st.m_rxPacketInfo)
      ∧ (∀ (env : Env) (now : Time), EndRxSlData_control env now st
          = ((EndRxSlData_ctrls env now
                (if st.m_dropRbOnCollisionEnabled then
                  collidedRbsBreak
                    (sorted.map (fun it => (st.m_rxPacketInfo.getD it.index.toNat {}).rbBitmap))
                else []) sorted {}).andThen
              (fun loc =>
                if loc.ctrlMessageFound then
                  if !loc.error then
                    if st.m_ltePhyRxCtrlEndOkCallback then
                      PhyM.emit (.ltePhyRxCtrlEndOkCallback loc.rxControlMessageOkList)
                    else PhyM.ret ()
                  else
                    if st.m_ltePhyRxCtrlEndErrorCallback then
                      PhyM.emit .ltePhyRxCtrlEndErrorCallback
                    else PhyM.ret ()
                else PhyM.ret ())) st)
      ∧ (∀ (env : Env) (now : Time) (collided : List Int) (loc : SlCtrlLocals),
          EndRxSlData_ctrls env now collided sorted loc
            = sorted.foldlM (fun loc1 it => EndRxSlData_ctrl env now collided it loc1) loc)
      ∧ (∀ (env : Env) (now : Time) (collided : List Int) (loc : SlCtrlLocals)
            (s2 : LteSpectrumPhy),
          EndRxSlData_ctrls env now collided sorted {} st = .ok loc s2 →
          ∃ D : List SlCtrlPacketInfo_t, List.Sublist D sorted
            ∧ loc.rxControlMessageOkList.map some = D.map (ctrlMessageAt st.m_rxPacketInfo)
            ∧ (st.m_slCtrlErrorModelEnabled = false → D = sorted)) := by
  obtain ⟨e1, e2, e3⟩ := EndRxSlData_sortCtrl_ok st.m_rxPacketInfo 0 [] sorted st st1 h
    List.Pairwise.nil (by simp)
  subst e1
  refine ⟨rfl, e2, by simpa using e3, ?_, ?_, ?_⟩
  · intro env now
    unfold EndRxSlData_control
    simp only [PhyM.bind_eq]
    unfold PhyM.andThen
    simp only [PhyM.get, h]
    rfl
  · intro env now collided loc
    exact EndRxSlData_ctrls_foldlM env now collided sorted loc
  · intro env now collided loc s2 hrun
    obtain ⟨D, hsub, hlist, hall⟩ :=
      EndRxSlData_ctrls_decoded env now collided sorted {} loc st1 s2 hrun
    exact ⟨D, hsub, by simpa using hlist, hall⟩

open LteSpectrumPhy in
theorem C14_ctrl_messages_by_descending_sinr_witness :
    List.Pairwise SlCtrlPacketInfo_t.precedes
        [{ sinr := 5, index := 1 }, { sinr := 2, index := 0 }, { sinr := 2, index := 2 }]
      ∧ List.Perm
          [{ sinr := 5, index := 1 }, { sinr := 2, index := 0 }, { sinr := 2, index := 2 }]
          (ctrlMessagesOf exampleCtrlOrderWindow.m_slSinrPerceived 0
            exampleCtrlOrderWindow.m_rxPacketInfo)
      ∧ ∃ D : List SlCtrlPacketInfo_t,
          List.Sublist D
              [{ sinr := 5, index := 1 }, { sinr := 2, index := 0 }, { sinr := 2, index := 2 }]
            ∧ [some { uid := 42, m_type := .SCI, sciRnti := 2 },
               some { uid := 41, m_type := .SCI, sciRnti := 1 },
               some { uid := 43, m_type := .SCI, sciRnti := 3 }]
              = D.map (ctrlMessageAt exampleCtrlOrderWindow.m_rxPacketInfo)
            ∧ (exampleCtrlOrderWindow.m_slCtrlErrorModelEnabled = false →
                D = [{ sinr := 5, index := 1 }, { sinr := 2, index := 0 },
                     { sinr := 2, index := 2 }]) :=
  ⟨(C14_ctrl_messages_by_descending_sinr exampleCtrlOrderWindow _ _
      (Outcome.eq_ok_of_result _ _ (by decide!))).2.1,
   (C14_ctrl_messages_by_descending_sinr exampleCtrlOrderWindow _ _
      (Outcome.eq_ok_of_result _ _ (by decide!))).2.2.1,
   (C14_ctrl_messages_by_descending_sinr exampleCtrlOrderWindow _ _
      (Outcome.eq_ok_of_result _ _ (by decide!))).2.2.2.2.2 exampleEnv 0 []
      { rxControlMessageOkList :=
          [{ uid := 42, m_type := .SCI, sciRnti := 2 },
           { uid := 41, m_type := .SCI, sciRnti := 1 },
           { uid := 43, m_type := .SCI, sciRnti := 3 }],
        error := false, ctrlMessageFound := true, rbDecodedBitmap := [0, 0, 0] }
      _ (Outcome.eq_ok_of_result _ _ (by decide!))⟩

end ns3

/-! ## The reports of a sidelink window and the decoded messages -/

namespace ns3
namespace LteSpectrumPhy

/-- The report of the control part of `EndRxSlData`, tied to the messages its loop decoded. -/
theorem EndRxSlData_control_decoded (env : Env) (now : Time) (st st1 : LteSpectrumPhy)
    (h : EndRxSlData_control env now st = .ok () st1) :
    ∃ (A : List PhyEvent) (decoded : List LteControlMessage) (s2 : LteSpectrumPhy),
      EndRxSlData_controlDecoded env now st = .ok decoded s2
      ∧ ctrlNotifications st1.log = ctrlNotifications st.log ++ A
      ∧ reportsDecoded (hasCtrlMessage st.m_rxPacketInfo) st.m_ltePhyRxCtrlEndOkCallback
          st.m_ltePhyRxCtrlEndErrorCallback decoded A
      ∧ (∀ msg ∈ decoded, ∃ info ∈ st.m_rxPacketInfo, info.m_rxControlMessage = some msg) := by
  obtain ⟨sorted, loc, s2, h1, h2, h3⟩ := EndRxSlData_control_ok env now st st1 h
  obtain ⟨-, -, hperm⟩ := EndRxSlData_sortCtrl_ok st.m_rxPacketInfo 0 [] sorted st st h1
    List.Pairwise.nil (by simp)
  have hst := Steady_ctrls env now _ sorted {} st loc s2 h2
  obtain ⟨hfound, herr⟩ := EndRxSlData_ctrls_flags env now _ sorted {} loc st s2 h2 (by simp)
  have hsorted : sorted ≠ [] ↔ hasCtrlMessage st.m_rxPacketInfo := by
    rw [List.nil_append] at hperm
    have := ctrlMessagesOf_eq_nil st.m_slSinrPerceived st.m_rxPacketInfo 0
    constructor
    · intro hne
      by_contra hno
      exact hne (List.Perm.eq_nil (this.2 hno ▸ hperm))
    · intro hhas hnil
      rw [hnil] at hperm
      exact (this.1 (List.Perm.nil_eq hperm).symm) hhas
  have hfound2 : loc.ctrlMessageFound = true ↔ hasCtrlMessage st.m_rxPacketInfo := by
    rw [hfound, ← hsorted]
    simp
  have hdec : EndRxSlData_controlDecoded env now st = .ok loc.rxControlMessageOkList s2 := by
    unfold EndRxSlData_controlDecoded
    simp only [PhyM.bind_eq]
    unfold PhyM.andThen
    simp only [PhyM.get, h1, h2]
    rfl
  obtain ⟨D, -, hlist, -⟩ := EndRxSlData_ctrls_decoded env now _ sorted {} loc st s2 h2
  have hmem : ∀ msg ∈ loc.rxControlMessageOkList,
      ∃ info ∈ st.m_rxPacketInfo, info.m_rxControlMessage = some msg := by
    intro msg hmsg
    have h5 : some msg ∈ loc.rxControlMessageOkList.map some := List.mem_map_of_mem _ hmsg
    rw [hlist] at h5
    simp only [List.map_nil, List.nil_append, List.mem_map] at h5
    obtain ⟨it, -, hit⟩ := h5
    unfold ctrlMessageAt at hit
    cases hw : st.m_rxPacketInfo[it.index.toNat]? with
    | none => rw [hw] at hit; simp at hit
    | some info =>
      rw [hw] at hit
      exact ⟨info, List.mem_iff_getElem?.2 ⟨_, hw⟩, hit⟩
  obtain ⟨w1, w2, w3, w4, w5, w6, w7⟩ := hst
  refine ⟨(if loc.ctrlMessageFound then
      if !loc.error then
        if st.m_ltePhyRxCtrlEndOkCallback then
          [.ltePhyRxCtrlEndOkCallback loc.rxControlMessageOkList]
        else []
      else
        if st.m_ltePhyRxCtrlEndErrorCallback then [.ltePhyRxCtrlEndErrorCallback]
        else []
    else []), loc.rxControlMessageOkList, s2, hdec, ?_, ⟨?_, ?_, ?_⟩, hmem⟩
  · subst h3
    simp only [ctrlNotifications, List.filter_append] at w7 ⊢
    rw [w7]
    congr 1
    by_cases hf : loc.ctrlMessageFound = true <;> by_cases he : loc.error = true <;>
      by_cases ho : st.m_ltePhyRxCtrlEndOkCallback = true <;>
      by_cases hr : st.m_ltePhyRxCtrlEndErrorCallback = true <;>
      simp [hf, he, ho, hr, PhyEvent.isCtrlEnd]
  · intro hno
    have hf : ¬ loc.ctrlMessageFound = true := fun hh => hno (hfound2.1 hh)
    simp [hf]
  · intro hhas hne
    have he : ¬ loc.error = true := fun hh => hne (herr.1 hh)
    have hf : loc.ctrlMessageFound = true := hfound2.2 hhas
    simp [hf, he]
  · intro hhas hnil
    have hf : loc.ctrlMessageFound = true := hfound2.2 hhas
    have he : loc.error = true := herr.2 hnil
    simp [hf, he]

end LteSpectrumPhy
end ns3

namespace ns3
namespace LteSpectrumPhy

/-- One returning pass of the decoding loop of `RxDiscovery` leaves the decoded list as it
is or appends the message of an entry of the window. -/
theorem RxDiscovery_decode_decoded (env : Env) (now : Time)
    (index : StdMap SlDiscTbId_t Nat) (collided : List Int) (it : SlCtrlPacketInfo_t)
    (loc loc1 : DiscLocals) (st st1 : LteSpectrumPhy)
    (h : RxDiscovery_decode env now index collided it loc st = .ok loc1 st1) :
    loc1.rxDiscMessageOkList = loc.rxDiscMessageOkList
      ∨ ∃ info ∈ st.m_rxPacketInfo, ∃ msg, info.m_rxControlMessage = some msg
          ∧ loc1.rxDiscMessageOkList = loc.rxDiscMessageOkList ++ [msg] := by
  unfold RxDiscovery_decode at h
  simp only [PhyM.bind_eq, PhyM.andThen_ok, PhyM.get_ok] at h
  obtain ⟨w, w2, ⟨h0a, h0b⟩, info, s0, h1, h2⟩ := h
  subst h0a h0b
  obtain ⟨hs1, hinfo⟩ := vectorAt_ok _ _ _ _ _ _ h1
  subst hs1
  cases hm : info.m_rxControlMessage with
  | none => rw [hm] at h2; simp [PhyM.abortWith] at h2
  | some msg =>
    rw [hm] at h2
    simp only at h2
    by_cases ht : msg.GetMessageType ≠ .SL_DISC_MSG
    · rw [if_pos ht] at h2; simp [PhyM.abortWith] at h2
    · rw [if_neg ht] at h2
      cases hf : StdMap.find SlDiscTbId_t.lt
          { m_rnti := msg.disc.m_rnti, m_resPsdch := msg.disc.m_resPsdch }
          s0.m_expectedDiscTbs with
      | none => rw [hf] at h2; simp [PhyM.abortWith] at h2
      | some e =>
        obtain ⟨key, tb⟩ := e
        rw [hf] at h2
        simp only at h2
        cases hi : StdMap.find SlDiscTbId_t.lt key index with
        | none => rw [hi] at h2; simp [NS_FATAL_ERROR, PhyM.abortWith] at h2
        | some ei =>
          obtain ⟨k2, idx⟩ := ei
          rw [hi] at h2
          have tail : ∀ (m : PhyM (SlDisctbInfo_t × DiscLocals)),
              (m >>= fun y =>
                  vectorAt "m_slSinrPerceived[(*itSinrDisc).second]" s0.m_slSinrPerceived idx
                    >>= fun sinr =>
                  GetMeanSinr (svScale sinr s0.m_slRxGain) y.1.rbBitmap >>= fun sinrPerRb =>
                  PhyM.emit (.slPhyReception
                    { m_timestamp := milliSeconds now, m_cellId := s0.m_cellId, m_imsi := 0,
                      m_rnti := key.m_rnti, m_txMode := s0.m_transmissionMode, m_layer := 0,
                      m_mcs := 0, m_size := 232, m_rv := y.2.harqInfoList.length,
                      m_ndi := y.1.ndi, m_correctness := if y.1.corrupt then 0 else 1,
                      m_sinrPerRb := sinrPerRb }) >>= fun _ => pure y.2) s0 = .ok loc1 st1 →
              ∃ r s2, m s0 = .ok r s2 ∧ loc1 = r.2 := by
            intro m hrun
            simp only [PhyM.bind_eq, PhyM.andThen_ok] at hrun
            obtain ⟨r, s2, h3, sinr, s3, h4, mean, s4, h5, _, s5, h6, h7⟩ := hrun
            simp only [PhyM.pure_eq, PhyM.ret_ok] at h7
            exact ⟨r, s2, h3, h7.1⟩
          have close : ∀ (r : SlDisctbInfo_t × DiscLocals),
              (r.2.rxDiscMessageOkList = loc.rxDiscMessageOkList
                ∨ ∃ info1 msg1, s0.m_rxPacketInfo[idx]? = some info1
                    ∧ info1.m_rxControlMessage = some msg1
                    ∧ r.2.rxDiscMessageOkList = loc.rxDiscMessageOkList ++ [msg1]) →
              loc1 = r.2 →
              loc1.rxDiscMessageOkList = loc.rxDiscMessageOkList
                ∨ ∃ info ∈ s0.m_rxPacketInfo, ∃ msg, info.m_rxControlMessage = some msg
                    ∧ loc1.rxDiscMessageOkList = loc.rxDiscMessageOkList ++ [msg] := by
            intro r hr hl
            rw [hl]
            rcases hr with h5 | ⟨info1, msg1, h5, h6, h7⟩
            · exact Or.inl h5
            · exact Or.inr ⟨info1, List.mem_iff_getElem?.2 ⟨_, h5⟩, msg1, h6, h7⟩
          by_cases hem : s0.m_slDiscoveryErrorModelEnabled = true
          · simp only [hem, if_true] at h2
            obtain ⟨r, s2, h3, hl⟩ := tail _ h2
            obtain ⟨calls, -, c2⟩ :=
              RxDiscovery_errorModel_ok env collided key tb idx loc s0 s2 r h3
            refine close r ?_ hl
            split_ifs at c2 with hc
            · obtain ⟨info1, msg1, e1, e2, e3, -⟩ := c2
              exact Or.inr ⟨info1, msg1, e1, e2, e3⟩
            · exact Or.inl c2.1
          · simp only [hem, if_false] at h2
            obtain ⟨r, s2, h3, hl⟩ := tail _ h2
            obtain ⟨calls, -, c2⟩ :=
              RxDiscovery_noErrorModel_ok env collided key tb idx loc s0 s2 r h3
            refine close r ?_ hl
            split_ifs at c2 with hc
            · obtain ⟨info1, msg1, e1, e2, e3, -⟩ := c2
              exact Or.inr ⟨info1, msg1, e1, e2, e3⟩
            · exact Or.inl c2.1

/-- Every message the decoding loop of `RxDiscovery` adds to the decoded list is the message
of an entry of the window. -/
theorem RxDiscovery_decodes_decoded (env : Env) (now : Time)
    (index : StdMap SlDiscTbId_t Nat) (collided : List Int) (l : List SlCtrlPacketInfo_t) :
    ∀ (loc loc1 : DiscLocals) (st st1 : LteSpectrumPhy),
      RxDiscovery_decodes env now index collided l loc st = .ok loc1 st1 →
      ∀ msg ∈ loc1.rxDiscMessageOkList,
        msg ∈ loc.rxDiscMessageOkList
          ∨ ∃ info ∈ st.m_rxPacketInfo, info.m_rxControlMessage = some msg := by
  induction l with
  | nil =>
    intro loc loc1 st st1 h msg hmsg
    simp only [RxDiscovery_decodes, PhyM.pure_eq, PhyM.ret, Outcome.ok.injEq] at h
    rw [← h.1] at hmsg
    exact Or.inl hmsg
  | cons it rest ih =>
    intro loc loc1 st st1 h msg hmsg
    simp only [RxDiscovery_decodes, PhyM.bind_eq, PhyM.andThen_ok] at h
    obtain ⟨loc2, s2, hstep, hrest⟩ := h
    have hst := Steady_decode env now index collided it loc st loc2 s2 hstep
    rcases ih loc2 loc1 s2 st1 hrest msg hmsg with h1 | ⟨info, hi, hm⟩
    · rcases RxDiscovery_decode_decoded env now index collided it loc loc2 st s2 hstep with
        e1 | ⟨info, hi, msg1, hm, e1⟩
      · rw [e1] at h1
        exact Or.inl h1
      · rw [e1] at h1
        rcases List.mem_append.1 h1 with h2 | h2
        · exact Or.inl h2
        · rw [List.mem_singleton.1 h2]
          exact Or.inr ⟨info, hi, hm⟩
    · rw [hst.1] at hi
      exact Or.inr ⟨info, hi, hm⟩

/-- The report of `RxDiscovery`, tied to the messages its loop decoded. -/
theorem RxDiscovery_report_decoded (env : Env) (now : Time) (st st1 : LteSpectrumPhy)
    (h : RxDiscovery env now st = .ok () st1) :
    ∃ (B : List PhyEvent) (decoded : List LteControlMessage) (s3 : LteSpectrumPhy),
      RxDiscovery_decoded env now st = .ok decoded s3
      ∧ ctrlNotifications st1.log = ctrlNotifications st.log ++ B
      ∧ reportsDecoded (hasDiscMessage st.m_rxPacketInfo) st.m_ltePhyRxCtrlEndOkCallback
          st.m_ltePhyRxCtrlEndErrorCallback decoded B
      ∧ (∀ msg ∈ decoded, ∃ info ∈ st.m_rxPacketInfo, info.m_rxControlMessage = some msg) := by
  unfold RxDiscovery at h
  simp only [PhyM.bind_eq, PhyM.andThen_ok, PhyM.get_ok] at h
  obtain ⟨w, s0, ⟨e0a, e0b⟩, r, s1, h1, h⟩ := h
  subst e0a e0b
  obtain ⟨found, index⟩ := r
  simp only [PhyM.bind_eq, PhyM.andThen_ok, PhyM.get_ok] at h
  obtain ⟨w1, s1', ⟨e1a, e1b⟩, sorted, s2, h2, loc, s3, h3, h4⟩ := h
  subst e1a e1b
  have hfound := RxDiscovery_register_found env s0.m_rxPacketInfo 0 (false, []) _ s0 s1' h1
  simp only [Bool.false_eq_true, false_or] at hfound
  have st1a := Steady_register env s0.m_rxPacketInfo 0 (false, []) s0 _ s1' h1
  have st2 := Steady_discSort index s1'.m_expectedDiscTbs .leaf s1' sorted s2 h2
  have st3 := Steady_decodes env now index _ sorted {} s2 loc s3 h3
  obtain ⟨w1, -, -, -, w5, w6, w7⟩ := steady_trans st1a (steady_trans st2 st3)
  have hwin2 : s2.m_rxPacketInfo = s0.m_rxPacketInfo := (steady_trans st1a st2).1
  have hok5 : s1'.m_ltePhyRxCtrlEndOkCallback = s0.m_ltePhyRxCtrlEndOkCallback := st1a.2.2.2.2.1
  have hok6 : s1'.m_ltePhyRxCtrlEndErrorCallback = s0.m_ltePhyRxCtrlEndErrorCallback :=
    st1a.2.2.2.2.2.1
  rw [hok5, hok6] at h4
  have hdec : RxDiscovery_decoded env now s0 = .ok loc.rxDiscMessageOkList s3 := by
    unfold RxDiscovery_decoded
    simp only [PhyM.bind_eq]
    unfold PhyM.andThen
    simp only [PhyM.get, h1, h2, h3]
    rfl
  have hmem : ∀ msg ∈ loc.rxDiscMessageOkList,
      ∃ info ∈ s0.m_rxPacketInfo, info.m_rxControlMessage = some msg := by
    intro msg hmsg
    rcases RxDiscovery_decodes_decoded env now index _ sorted {} loc s2 s3 h3 msg hmsg with
      h5 | ⟨info, hi, hm⟩
    · simp at h5
    · rw [hwin2] at hi
      exact ⟨info, hi, hm⟩
  by_cases hf : found = true
  · have hhas := hfound.1 hf
    rw [if_pos hf] at h4
    by_cases hl : loc.rxDiscMessageOkList.length > 0
    · rw [if_pos hl] at h4
      have hne : loc.rxDiscMessageOkList ≠ [] := List.length_pos.1 hl
      by_cases hcb : s0.m_ltePhyRxCtrlEndOkCallback = true
      · rw [if_pos hcb] at h4
        simp only [PhyM.emit, Outcome.ok.injEq, true_and] at h4
        subst h4
        refine ⟨[.ltePhyRxCtrlEndOkCallback loc.rxDiscMessageOkList], _, s3, hdec, ?_,
          ⟨fun hno => absurd hhas hno, fun _ _ => by simp [hcb], fun _ hnil => absurd hnil hne⟩,
          hmem⟩
        simp [ctrlNotifications, PhyEvent.isCtrlEnd] at w7 ⊢
        exact w7
      · rw [if_neg hcb] at h4
        simp [NS_FATAL_ERROR, PhyM.abortWith] at h4
    · rw [if_neg hl] at h4
      have hnil : loc.rxDiscMessageOkList = [] := by
        cases hx : loc.rxDiscMessageOkList with
        | nil => rfl
        | cons a b => rw [hx] at hl; simp at hl
      by_cases hcb : s0.m_ltePhyRxCtrlEndErrorCallback = true
      · rw [if_pos hcb] at h4
        simp only [PhyM.emit, Outcome.ok.injEq, true_and] at h4
        subst h4
        refine ⟨[.ltePhyRxCtrlEndErrorCallback], _, s3, hdec, ?_,
          ⟨fun hno => absurd hhas hno, fun _ hne => absurd hnil hne, fun _ _ => by simp [hcb]⟩,
          hmem⟩
        simp [ctrlNotifications, PhyEvent.isCtrlEnd] at w7 ⊢
        exact w7
      · rw [if_neg hcb] at h4
        simp only [PhyM.pure_eq, PhyM.ret, Outcome.ok.injEq, true_and] at h4
        subst h4
        exact ⟨[], _, s3, hdec, by simpa using w7,
          ⟨fun hno => absurd hhas hno, fun _ hne => absurd hnil hne, fun _ _ => by simp [hcb]⟩,
          hmem⟩
  · have hno : ¬ hasDiscMessage s0.m_rxPacketInfo := fun hh => hf (hfound.2 hh)
    rw [if_neg hf] at h4
    simp only [PhyM.pure_eq, PhyM.ret, Outcome.ok.injEq, true_and] at h4
    subst h4
    exact ⟨[], _, s3, hdec, by simpa using w7,
      ⟨fun _ => rfl, fun hh => absurd hh hno, fun hh => absurd hh hno⟩, hmem⟩

end LteSpectrumPhy
end ns3

namespace ns3
namespace LteSpectrumPhy

/-- A report tied to the decoded messages is a report of at most one notification. -/
theorem atMostOneReport_of_reportsDecoded (hasMessage : Prop) (okCallback errorCallback : Bool)
    (decoded : List LteControlMessage) (A : List PhyEvent)
    (h : reportsDecoded hasMessage okCallback errorCallback decoded A) :
    atMostOneReport hasMessage okCallback errorCallback A := by
  obtain ⟨h1, h2, h3⟩ := h
  by_cases hm : hasMessage
  · by_cases hd : decoded = []
    · have hA := h3 hm hd
      refine ⟨?_, fun hno => absurd hm hno, ?_⟩
      · cases errorCallback with
        | true => exact Or.inr (Or.inl (by simpa using hA))
        | false => exact Or.inl (by simpa using hA)
      · intro _ _ he
        rw [hA, he]
        simp
    · have hA := h2 hm hd
      refine ⟨?_, fun hno => absurd hm hno, ?_⟩
      · cases okCallback with
        | true => exact Or.inr (Or.inr ⟨decoded, hd, by simpa using hA⟩)
        | false => exact Or.inl (by simpa using hA)
      · intro _ ho _
        rw [hA, ho]
        simp
  · exact ⟨Or.inl (h1 hm), fun _ => h1 hm, fun hh => absurd hh hm⟩

end LteSpectrumPhy

open LteSpectrumPhy in
/-- C16, amended: in every sidelink reception window handled by `EndRxSlData`, the control
part fires at most one notification for the control messages other than discovery messages
and `RxDiscovery` at most one for the discovery messages, in this order.  The notification of
a part is tied to the messages its decoding loop decoded, which are messages of the window:
a part fires nothing when the window holds no message of its kind; when the window holds
one, the part fires the decoded-list notification with exactly the messages its loop decoded
if there are any (and the control-OK callback is set), and the failure notification if none
was decoded (and the control-error callback is set). -/
theorem C16_one_notification_per_part (env : Env) (now : Time) (st st1 : LteSpectrumPhy)
    (h : EndRxSlData env now st = .ok () st1) :
    ∃ (A B : List PhyEvent) (s1 s2 sA sB : LteSpectrumPhy)
        (decodedCtrl decodedDisc : List LteControlMessage),
      ctrlNotifications st1.log = ctrlNotifications st.log ++ A ++ B
      ∧ atMostOneReport (hasCtrlMessage st.m_rxPacketInfo) st.m_ltePhyRxCtrlEndOkCallback
          st.m_ltePhyRxCtrlEndErrorCallback A
      ∧ atMostOneReport (hasDiscMessage st.m_rxPacketInfo) st.m_ltePhyRxCtrlEndOkCallback
          st.m_ltePhyRxCtrlEndErrorCallback B
      ∧ EndRxSlData_data env now st = .ok () s1
      ∧ EndRxSlData_controlDecoded env now s1 = .ok decodedCtrl sA
      ∧ EndRxSlData_control env now s1 = .ok () s2
      ∧ RxDiscovery_decoded env now s2 = .ok decodedDisc sB
      ∧ reportsDecoded (hasCtrlMessage st.m_rxPacketInfo) st.m_ltePhyRxCtrlEndOkCallback
          st.m_ltePhyRxCtrlEndErrorCallback decodedCtrl A
      ∧ reportsDecoded (hasDiscMessage st.m_rxPacketInfo) st.m_ltePhyRxCtrlEndOkCallback
          st.m_ltePhyRxCtrlEndErrorCallback decodedDisc B
      ∧ (∀ msg ∈ decodedCtrl, ∃ info ∈ st.m_rxPacketInfo, info.m_rxControlMessage = some msg)
      ∧ (∀ msg ∈ decodedDisc, ∃ info ∈ st.m_rxPacketInfo, info.m_rxControlMessage = some msg) := by
  unfold EndRxSlData at h
  simp only [PhyM.bind_eq, PhyM.andThen_ok] at h
  obtain ⟨_, s1, h1, _, s2, h2, _, s3, h3, h4⟩ := h
  rw [EndRxSlData_close_eq] at h4
  simp only [Outcome.ok.injEq, true_and] at h4
  obtain ⟨d1, -, -, -, d5, d6, d7⟩ := Steady_data env now st () s1 h1
  obtain ⟨-, -, -, c1, c5, c6⟩ := EndRxSlData_control_report env now s1 s2 h2
  obtain ⟨A, decodedCtrl, sA, hdA, hA, rA, mA⟩ := EndRxSlData_control_decoded env now s1 s2 h2
  obtain ⟨B, decodedDisc, sB, hdB, hB, rB, mB⟩ := RxDiscovery_report_decoded env now s2 s3 h3
  rw [d1, d5, d6] at rA
  rw [d1] at mA
  rw [c1, c5, c6, d1, d5, d6] at rB
  rw [c1, d1] at mB
  refine ⟨A, B, s1, s2, sA, sB, decodedCtrl, decodedDisc, ?_,
    atMostOneReport_of_reportsDecoded _ _ _ _ _ rA,
    atMostOneReport_of_reportsDecoded _ _ _ _ _ rB, h1, hdA, h2, hdB, rA, rB, mA, mB⟩
  rw [← h4]
  simp only
  rw [hB, hA, d7]

open LteSpectrumPhy in
theorem C16_one_notification_per_part_witness :
    ∃ (A B : List PhyEvent) (s1 s2 sA sB : LteSpectrumPhy)
        (decodedCtrl decodedDisc : List LteControlMessage),
      ctrlNotifications (EndRxSlData exampleEnvDiscovery 0 exampleMixedWindow).state.log
          = ctrlNotifications exampleMixedWindow.log ++ A ++ B
        ∧ atMostOneReport (hasCtrlMessage exampleMixedWindow.m_rxPacketInfo)
            exampleMixedWindow.m_ltePhyRxCtrlEndOkCallback
            exampleMixedWindow.m_ltePhyRxCtrlEndErrorCallback A
        ∧ atMostOneReport (hasDiscMessage exampleMixedWindow.m_rxPacketInfo)
            exampleMixedWindow.m_ltePhyRxCtrlEndOkCallback
            exampleMixedWindow.m_ltePhyRxCtrlEndErrorCallback B
        ∧ EndRxSlData_data exampleEnvDiscovery 0 exampleMixedWindow = .ok () s1
        ∧ EndRxSlData_controlDecoded exampleEnvDiscovery 0 s1 = .ok decodedCtrl sA
        ∧ EndRxSlData_control exampleEnvDiscovery 0 s1 = .ok () s2
        ∧ RxDiscovery_decoded exampleEnvDiscovery 0 s2 = .ok decodedDisc sB
        ∧ reportsDecoded (hasCtrlMessage exampleMixedWindow.m_rxPacketInfo)
            exampleMixedWindow.m_ltePhyRxCtrlEndOkCallback
            exampleMixedWindow.m_ltePhyRxCtrlEndErrorCallback decodedCtrl A
        ∧ reportsDecoded (hasDiscMessage exampleMixedWindow.m_rxPacketInfo)
            exampleMixedWindow.m_ltePhyRxCtrlEndOkCallback
            exampleMixedWindow.m_ltePhyRxCtrlEndErrorCallback decodedDisc B
        ∧ (∀ msg ∈ decodedCtrl,
            ∃ info ∈ exampleMixedWindow.m_rxPacketInfo, info.m_rxControlMessage = some msg)
        ∧ (∀ msg ∈ decodedDisc,
            ∃ info ∈ exampleMixedWindow.m_rxPacketInfo, info.m_rxControlMessage = some msg) :=
  C16_one_notification_per_part exampleEnvDiscovery 0 exampleMixedWindow _
    (Outcome.eq_ok_of_returned _ (by decide!))

end ns3

/-! ## The discovery retransmission counter -/

namespace ns3
namespace LteSpectrumPhy

theorem StdMap.length_insert_le {K V : Type} (lt : K → K → Bool) (k : K) (v : V)
    (m : StdMap K V) : (StdMap.insert lt k v m).length ≤ m.length + 1 := by
  induction m with
  | nil => simp [StdMap.insert]
  | cons e rest ih =>
    by_cases h1 : lt e.1 k = true
    · simp only [StdMap.insert, h1, if_true, List.length_cons]
      omega
    · by_cases h2 : lt k e.1 = true
      · simp [StdMap.insert, h1, h2]
      · simp [StdMap.insert, h1, h2]

/-- After the insertion of a counter for a source that had none, the source is found with
that counter. -/
theorem find_insert_absent (k v : Nat) (m : StdMap Nat Nat)
    (h : StdMap.find natLt k m = none) :
    StdMap.find natLt k (StdMap.insert natLt k v m) = some (k, v) := by
  have hkk : natLt k k = false := by simp [natLt]
  induction m with
  | nil => simp [StdMap.insert, StdMap.find, hkk]
  | cons e rest ih =>
    by_cases h1 : natLt e.1 k = true
    · simp only [StdMap.find, h1, if_true] at h
      simp only [StdMap.insert, h1, if_true, StdMap.find]
      exact ih h
    · by_cases h2 : natLt k e.1 = true
      · simp only [StdMap.insert, h1, h2, if_true, if_false, StdMap.find, hkk,
          Bool.false_eq_true]
      · simp [StdMap.find, h1, h2] at h

/-- The value read through the end iterator of a map of fewer than 131072 counters is below
2. -/
theorem endSecond_lt_two (m : StdMap Nat Nat) (h : m.length < 131072) : endSecond m < 2 := by
  unfold endSecond
  have h1 : m.length / 65536 < 2 := by omega
  exact lt_of_le_of_lt (Nat.mod_le _ _) h1

/-- The registration call leaves the transmission counters as they are, and returns. -/
theorem AddExpectedTbDisc_counter (st : LteSpectrumPhy) (rnti resPsdch ndi : Nat)
    (map : List Int) (rv : Nat) :
    ∃ st1, AddExpectedTbDisc rnti resPsdch ndi map rv st = .ok () st1
      ∧ st1.m_slDiscTxCount = st.m_slDiscTxCount := by
  unfold AddExpectedTbDisc
  cases h : StdMap.find SlDiscTbId_t.lt { m_rnti := rnti, m_resPsdch := resPsdch }
      st.m_expectedDiscTbs <;>
    by_cases hn : ndi = 0 <;>
    simp [PhyM.bind_eq, PhyM.pure_eq, PhyM.andThen, PhyM.ret, PhyM.get, PhyM.modify, onSlHarq,
      h, hn]

/-- The registration `RxDiscovery` makes for the first discovery message ever received from a
source, on a resource that the pool schedules `n >= 2` times and on the blocks of one of the
scheduled transmissions: the counter of the source is created with 1 and the message is
registered with the new-data indicator set and redundancy version 0. -/
theorem RxDiscovery_pool_first (env : Env) (rbBitmap : List Int) (disc : SlDiscMsg)
    (pool : Nat) (st : LteSpectrumPhy) (rbMap : List Int)
    (hn : 2 ≤ (env.GetPsdchTransmissions pool disc.m_resPsdch).length)
    (hmatch : psdchMatch rbBitmap (env.GetPsdchTransmissions pool disc.m_resPsdch) = some rbMap)
    (hfind : StdMap.find natLt disc.m_rnti st.m_slDiscTxCount = none)
    (hsize : st.m_slDiscTxCount.length < 65536) :
    RxDiscovery_pool env rbBitmap disc pool st
      = AddExpectedTbDisc disc.m_rnti disc.m_resPsdch 1 rbMap 0
          { st with m_slDiscTxCount := StdMap.insert natLt disc.m_rnti 1 st.m_slDiscTxCount } := by
  have hne : (env.GetPsdchTransmissions pool disc.m_resPsdch).isEmpty = false := by
    cases h : env.GetPsdchTransmissions pool disc.m_resPsdch with
    | nil => rw [h] at hn; simp at hn
    | cons a l => rfl
  have hgt : (env.GetPsdchTransmissions pool disc.m_resPsdch).length > 1 := by omega
  have hend : ¬ endSecond (StdMap.insert natLt disc.m_rnti 1 st.m_slDiscTxCount)
      = (env.GetPsdchTransmissions pool disc.m_resPsdch).length := by
    have h1 := StdMap.length_insert_le natLt disc.m_rnti 1 st.m_slDiscTxCount
    have h2 := endSecond_lt_two (StdMap.insert natLt disc.m_rnti 1 st.m_slDiscTxCount)
      (by omega)
    omega
  have h3 : ¬ (0 > (env.GetPsdchTransmissions pool disc.m_resPsdch).length) := by omega
  unfold RxDiscovery_pool
  simp only [hne, Bool.not_false, if_true, PhyM.bind_eq]
  simp only [hgt, if_true]
  unfold PhyM.andThen
  simp only [PhyM.get, hfind, PhyM.modify, PhyM.pure_eq, PhyM.ret, NS_ABORT_MSG_IF, hmatch,
    Option.isSome_some, if_true, hend, if_false, Option.getD_some, Nat.sub_self, Nat.zero_mod,
    h3, decide_False, Bool.false_eq_true, one_ne_zero]

/-- The `k`-th pass of a period: with the counter of the source at `k - 1` (a source without
a counter counts as 0) the message is registered with the new-data indicator set exactly when
`k = 1` and with redundancy version `k - 1`, and the counter becomes `k`, or 0 when `k = n`. -/
theorem RxDiscovery_pool_kth (env : Env) (rbBitmap : List Int) (disc : SlDiscMsg)
    (pool : Nat) (st : LteSpectrumPhy) (rbMap : List Int) (n k : Nat)
    (hn : (env.GetPsdchTransmissions pool disc.m_resPsdch).length = n)
    (h2 : 2 ≤ n) (h256 : n ≤ 256)
    (hmatch : psdchMatch rbBitmap (env.GetPsdchTransmissions pool disc.m_resPsdch) = some rbMap)
    (hsize : StdMap.find natLt disc.m_rnti st.m_slDiscTxCount = none →
      st.m_slDiscTxCount.length < 65536)
    (hcount : discTxCount st disc.m_rnti = k - 1) (hk1 : 1 ≤ k) (hkn : k ≤ n) :
    ∃ st' stk : LteSpectrumPhy,
      RxDiscovery_pool env rbBitmap disc pool st
          = AddExpectedTbDisc disc.m_rnti disc.m_resPsdch (if k = 1 then 1 else 0) rbMap
              (k - 1) st'
        ∧ st' = { st with m_slDiscTxCount := st'.m_slDiscTxCount }
        ∧ RxDiscovery_pool env rbBitmap disc pool st = .ok () stk
        ∧ discTxCount stk disc.m_rnti = (if k = n then 0 else k)
        ∧ (StdMap.find natLt disc.m_rnti stk.m_slDiscTxCount).isSome = true := by
  cases hfind : StdMap.find natLt disc.m_rnti st.m_slDiscTxCount with
  | none =>
    have hk : k = 1 := by
      unfold discTxCount at hcount
      rw [hfind] at hcount
      simp only at hcount
      omega
    subst hk
    have hstep := RxDiscovery_pool_first env rbBitmap disc pool st rbMap (by omega) hmatch hfind
      (hsize hfind)
    obtain ⟨stk, hk1, hk2⟩ := AddExpectedTbDisc_counter
      { st with m_slDiscTxCount := StdMap.insert natLt disc.m_rnti 1 st.m_slDiscTxCount }
      disc.m_rnti disc.m_resPsdch 1 rbMap 0
    have hf := find_insert_absent disc.m_rnti 1 st.m_slDiscTxCount hfind
    refine ⟨_, stk, by simpa using hstep, rfl, by rw [hstep]; exact hk1, ?_, ?_⟩
    · unfold discTxCount
      rw [hk2]
      simp only [hf]
      rw [if_neg (by omega)]
    · rw [hk2]
      simp only [hf, Option.isSome_some]
  | some e =>
    obtain ⟨key, c⟩ := e
    have hc : c = k - 1 := by
      unfold discTxCount at hcount
      rw [hfind] at hcount
      exact hcount
    have hkey : key = disc.m_rnti := StdMap.find_key natLt_keyOrder _ _ _ hfind
    have hstep := RxDiscovery_pool_counted env rbBitmap disc pool st key c (by omega) hfind
      (by omega) (by omega)
    rw [hmatch] at hstep
    simp only [Option.getD_some] at hstep
    obtain ⟨stk, hk1', hk2⟩ := AddExpectedTbDisc_counter
      { st with m_slDiscTxCount :=
          (StdMap.update natLt disc.m_rnti
            (fun _ => if c + 1 = (env.GetPsdchTransmissions pool disc.m_resPsdch).length
              then 0 else c + 1)
            st.m_slDiscTxCount) }
      disc.m_rnti disc.m_resPsdch (if c = 0 then 1 else 0) rbMap c
    have hf := StdMap.find_update_eq natLt_keyOrder disc.m_rnti disc.m_rnti
      (fun _ => if c + 1 = (env.GetPsdchTransmissions pool disc.m_resPsdch).length
        then 0 else c + 1) st.m_slDiscTxCount
    rw [hfind] at hf
    simp only [Option.map_some', hkey, if_true] at hf
    have hndi : (if c = 0 then 1 else 0 : Nat) = (if k = 1 then 1 else 0) := by
      by_cases h0 : c = 0
      · rw [if_pos h0, if_pos (by omega)]
      · rw [if_neg h0, if_neg (by omega)]
    rw [hndi] at hstep hk1'
    rw [hc] at hstep hk1'
    refine ⟨_, stk, hstep, rfl, by rw [hstep]; exact hk1', ?_, ?_⟩
    · unfold discTxCount
      rw [hk2]
      simp only [hf]
      rw [hn]
      by_cases hkn2 : k = n
      · rw [if_pos hkn2, if_pos (by omega)]
      · rw [if_neg hkn2, if_neg (by omega)]
        omega
    · rw [hk2]
      simp only [hf, Option.isSome_some]

end LteSpectrumPhy
end ns3

namespace ns3
namespace LteSpectrumPhy

/-- The passes of a period before the last: after `j < n` receptions in a row from the start
of a period the counter of the source is at `j`. -/
theorem RxDiscovery_poolRepeat_count (env : Env) (rbBitmap : List Int) (disc : SlDiscMsg)
    (pool : Nat) (st : LteSpectrumPhy) (rbMap : List Int) (n : Nat)
    (hn : (env.GetPsdchTransmissions pool disc.m_resPsdch).length = n)
    (h2 : 2 ≤ n) (h256 : n ≤ 256)
    (hmatch : psdchMatch rbBitmap (env.GetPsdchTransmissions pool disc.m_resPsdch) = some rbMap)
    (hsize : StdMap.find natLt disc.m_rnti st.m_slDiscTxCount = none →
      st.m_slDiscTxCount.length < 65536)
    (hstart : discTxCount st disc.m_rnti = 0) :
    ∀ j, j < n →
      ∃ sj, RxDiscovery_poolRepeat env rbBitmap disc pool j st = .ok () sj
        ∧ discTxCount sj disc.m_rnti = j
        ∧ (StdMap.find natLt disc.m_rnti sj.m_slDiscTxCount = none →
            sj.m_slDiscTxCount.length < 65536) := by
  intro j
  induction j with
  | zero => intro _; exact ⟨st, rfl, hstart, hsize⟩
  | succ j ih =>
    intro hj
    obtain ⟨sj, hrun, hcount, hsz⟩ := ih (by omega)
    obtain ⟨_, stk, -, -, hpass, hafter, hsome⟩ :=
      RxDiscovery_pool_kth env rbBitmap disc pool sj rbMap n (j + 1) hn h2 h256 hmatch hsz
        (by rw [hcount]; rfl) (by omega) (by omega)
    refine ⟨stk, ?_, ?_, ?_⟩
    · unfold RxDiscovery_poolRepeat
      simp only [PhyM.bind_eq]
      unfold PhyM.andThen
      simp only [hrun]
      exact hpass
    · rw [hafter, if_neg (by omega)]
    · intro hnone
      rw [hnone] at hsome
      simp at hsome

end LteSpectrumPhy

open LteSpectrumPhy in
/-- C35: the discovery retransmission counter.  On a discovery resource that the pool
schedules `n >= 2` times per period (`n <= 256`, the redundancy version being 8 bits wide),
for a source whose messages arrive on the blocks of a scheduled transmission and whose
counter is at the start of a period (no counter yet, or counter 0): the registration passes
of the first `k - 1` receptions return, and the pass of the `k`-th reception (`1 <= k <= n`)
is the call `AddExpectedTb` with the new-data indicator set exactly when `k = 1` and with
redundancy version `k - 1`, made on the device with nothing but the counters changed; after
it the counter of the source is `k`, and 0 again when `k = n`, which is the start of the next
period.  The same holds for the pass made from any state whose counter is at `k - 1`. -/
theorem C35_discovery_retransmission_counter (env : Env) (rbBitmap : List Int)
    (disc : SlDiscMsg) (pool : Nat) (st : LteSpectrumPhy) (rbMap : List Int) (n k : Nat)
    (hn : (env.GetPsdchTransmissions pool disc.m_resPsdch).length = n)
    (h2 : 2 ≤ n) (h256 : n ≤ 256)
    (hmatch : psdchMatch rbBitmap (env.GetPsdchTransmissions pool disc.m_resPsdch) = some rbMap)
    (hsize : StdMap.find natLt disc.m_rnti st.m_slDiscTxCount = none →
      st.m_slDiscTxCount.length < 65536)
    (hstart : discTxCount st disc.m_rnti = 0)
    (hk1 : 1 ≤ k) (hkn : k ≤ n) :
    (∃ sk sk' stk : LteSpectrumPhy,
      RxDiscovery_poolRepeat env rbBitmap disc pool (k - 1) st = .ok () sk
        ∧ RxDiscovery_pool env rbBitmap disc pool sk
            = AddExpectedTbDisc disc.m_rnti disc.m_resPsdch (if k = 1 then 1 else 0) rbMap
                (k - 1) sk'
        ∧ sk' = { sk with m_slDiscTxCount := sk'.m_slDiscTxCount }
        ∧ RxDiscovery_poolRepeat env rbBitmap disc pool k st = .ok () stk
        ∧ discTxCount stk disc.m_rnti = (if k = n then 0 else k)
        ∧ (StdMap.find natLt disc.m_rnti stk.m_slDiscTxCount).isSome = true)
      ∧ (∀ s : LteSpectrumPhy,
          discTxCount s disc.m_rnti = k - 1 →
          (StdMap.find natLt disc.m_rnti s.m_slDiscTxCount = none →
            s.m_slDiscTxCount.length < 65536) →
          ∃ s' s1 : LteSpectrumPhy,
            RxDiscovery_pool env rbBitmap disc pool s
                = AddExpectedTbDisc disc.m_rnti disc.m_resPsdch (if k = 1 then 1 else 0) rbMap
                    (k - 1) s'
              ∧ s' = { s with m_slDiscTxCount := s'.m_slDiscTxCount }
              ∧ RxDiscovery_pool env rbBitmap disc pool s = .ok () s1
              ∧ discTxCount s1 disc.m_rnti = (if k = n then 0 else k)
              ∧ (StdMap.find natLt disc.m_rnti s1.m_slDiscTxCount).isSome = true) := by
  refine ⟨?_, fun s hcount hsz =>
    RxDiscovery_pool_kth env rbBitmap disc pool s rbMap n k hn h2 h256 hmatch hsz hcount hk1 hkn⟩
  obtain ⟨sk, hrun, hcount, hsz⟩ :=
    RxDiscovery_poolRepeat_count env rbBitmap disc pool st rbMap n hn h2 h256 hmatch hsize hstart
      (k - 1) (by omega)
  obtain ⟨sk', stk, hcall, hframe, hpass, hafter, hsome⟩ :=
    RxDiscovery_pool_kth env rbBitmap disc pool sk rbMap n k hn h2 h256 hmatch hsz hcount hk1 hkn
  refine ⟨sk, sk', stk, hrun, hcall, hframe, ?_, hafter, hsome⟩
  obtain ⟨j, rfl⟩ : ∃ j, k = j + 1 := ⟨k - 1, by omega⟩
  simp only [Nat.add_sub_cancel] at hrun
  unfold RxDiscovery_poolRepeat
  simp only [PhyM.bind_eq]
  unfold PhyM.andThen
  simp only [hrun]
  exact hpass

open LteSpectrumPhy in
theorem C35_discovery_retransmission_counter_witness :
    (∃ sk sk' stk : LteSpectrumPhy,
      RxDiscovery_poolRepeat exampleEnvRetx [1] exampleDiscMessage.disc 0 (2 - 1)
          exampleMixedWindow = .ok () sk
        ∧ RxDiscovery_pool exampleEnvRetx [1] exampleDiscMessage.disc 0 sk
            = AddExpectedTbDisc exampleDiscMessage.disc.m_rnti exampleDiscMessage.disc.m_resPsdch
                (if 2 = 1 then 1 else 0) [1] (2 - 1) sk'
        ∧ sk' = { sk with m_slDiscTxCount := sk'.m_slDiscTxCount }
        ∧ RxDiscovery_poolRepeat exampleEnvRetx [1] exampleDiscMessage.disc 0 2
            exampleMixedWindow = .ok () stk
        ∧ discTxCount stk exampleDiscMessage.disc.m_rnti = (if 2 = 2 then 0 else 2)
        ∧ (StdMap.find natLt exampleDiscMessage.disc.m_rnti stk.m_slDiscTxCount).isSome = true)
      ∧ (RxDiscovery_poolRepeat exampleEnvRetx [1] exampleDiscMessage.disc 0 1
            exampleMixedWindow).state.m_expectedDiscTbs
          = [({ m_rnti := 2, m_resPsdch := 0 },
              { ndi := 1, resPsdch := 0, rbBitmap := [1], rv := 0 })]
      ∧ (RxDiscovery_poolRepeat exampleEnvRetx [1] exampleDiscMessage.disc 0 2
            exampleMixedWindow).state.m_expectedDiscTbs
          = [({ m_rnti := 2, m_resPsdch := 0 },
              { ndi := 0, resPsdch := 0, rbBitmap := [1], rv := 1 })]
      ∧ (RxDiscovery_poolRepeat exampleEnvRetx [1] exampleDiscMessage.disc 0 3
            exampleMixedWindow).state.m_expectedDiscTbs
          = [({ m_rnti := 2, m_resPsdch := 0 },
              { ndi := 1, resPsdch := 0, rbBitmap := [1], rv := 0 })]
      ∧ (RxDiscovery exampleEnvRetx 0 exampleMixedWindow).returned = true
      ∧ (RxDiscovery exampleEnvRetx 0 exampleMixedWindow).state.m_expectedDiscTbs
          = [({ m_rnti := 2, m_resPsdch := 0 },
              { ndi := 1, resPsdch := 0, rbBitmap := [1], rv := 0 })]
      ∧ (RxDiscovery exampleEnvRetx 0 exampleMixedWindow).state.m_slDiscTxCount = [(2, 1)]
      ∧ (RxDiscovery exampleEnvRetx 0
            { exampleMixedWindow with m_slDiscTxCount := [(2, 1)] }).state.m_expectedDiscTbs
          = [({ m_rnti := 2, m_resPsdch := 0 },
              { ndi := 0, resPsdch := 0, rbBitmap := [1], rv := 1 })]
      ∧ (RxDiscovery exampleEnvRetx 0
            { exampleMixedWindow with m_slDiscTxCount := [(2, 1)] }).state.m_slDiscTxCount
          = [(2, 0)] :=
  ⟨(C35_discovery_retransmission_counter exampleEnvRetx [1] exampleDiscMessage.disc 0
      exampleMixedWindow [1] 2 2 (by decide) (by decide) (by decide) (by decide)
      (fun _ => by decide) (by decide) (by decide) (by decide)).1,
   by decide!, by decide!, by decide!, by decide!, by decide!, by decide!, by decide!,
   by decide!⟩

end ns3
